import Mathlib

/-! # Buffer manager (buffer_mgr.c) over the page-file layer (storage_mgr.c)

A shallow embedding of the buffer pool of `src/buffer_mgr.c` and of the block
layer of `src/storage_mgr.c` it calls.

Modelling conventions.

* The counters (`time`, `fixCount`, `readIO`, `writeIO`) and the page numbers
  are mathematical integers (`Int`): the development covers the executions in
  which none of them overflows.
* The file offset `pageIndex * PAGE_SIZE` that `readBlock` and `writeBlock`
  hand to `lseek` is an `int` product.  It is computed as a build with 32-bit
  two's-complement `int` computes it (`seekOffset`): from page 524288 on it
  wraps, to a negative offset, which `lseek` rejects, or to the offset of
  another block (page 1048576 is transferred at block 0).
* The frame array `frames` of `numFrames` entries is a list; `numFrames` is its
  length.  A frame's `data` buffer is the list of its bytes.
* A page handle's `data` pointer aliases the buffer of one frame; it is kept as
  the index of that frame (`none` for a pointer that was never set).
* The open descriptor kept in `SM_FileHandle.mgmtInfo` is the file behind it:
  the sequence of its blocks (the file holds whole pages), a script with the
  outcome of every coming system call on the descriptor (the call transfers the
  whole block, or it fails after some of its bytes; an exhausted script means
  success), and the journal of the transfers carried out in full so far.  A
  failed append leaves the file as it was.
* `malloc` succeeds, and pointer arguments are non-null except `mgmtData`.
-/

namespace BufferMgr

/-- Modelled from the spec: `PAGE_SIZE` is declared in a header that is not part
of the sources; the page size is 4096 bytes. -/
def PAGE_SIZE : Nat := 4096

/-- Modelled from the spec: `NO_PAGE`, the "no page" sentinel of an empty frame,
is declared in buffer_mgr.h, which is not part of the sources; it is the
negative page number -1. -/
def NO_PAGE : Int := -1

/-- Return codes used by the two modules (declared in dberror.h). -/
inductive RC where
  | RC_OK
  | RC_FILE_NOT_FOUND
  | RC_FILE_HANDLE_NOT_INIT
  | RC_WRITE_FAILED
  | RC_READ_NON_EXISTING_PAGE
  | RC_IM_KEY_NOT_FOUND
  | RC_IM_NO_MORE_ENTRIES
  deriving DecidableEq, Repr

/-- Replacement strategy tags (declared in buffer_mgr.h).  `pinPage` names
`RS_FIFO`, `RS_LRU` and `RS_LRU_K`; the other tags take its `default` branch. -/
inductive ReplacementStrategy where
  | RS_FIFO
  | RS_LRU
  | RS_CLOCK
  | RS_LFU
  | RS_LRU_K
  deriving DecidableEq, Repr

/-- The bytes of one page buffer. -/
abbrev PageData := List Nat

/-- A page of `PAGE_SIZE` zero bytes (`memset(.., 0, PAGE_SIZE)`). -/
def zeroPage : PageData := List.replicate PAGE_SIZE 0

/-- One completed transfer on the file descriptor. -/
inductive Transfer where
  | read (block : Nat)
  | write (block : Nat)
  | append
  deriving DecidableEq, Repr

/-- The outcome of one system call on the descriptor: the whole block is
transferred, or the call fails (a failed seek, an error, a short count) after
`transferred` bytes, counted modulo the page size. -/
inductive Outcome where
  | ok
  | fail (transferred : Nat)
  deriving DecidableEq, Repr

/-- The number of bytes a failing call has transferred, fewer than a page. -/
def Outcome.bytes : Outcome → Nat
  | Outcome.ok => 0
  | Outcome.fail transferred => transferred % PAGE_SIZE

/-- The destination of a transfer that stopped after `n` bytes. -/
def partialCopy (n : Nat) (src dst : PageData) : PageData :=
  src.take n ++ dst.drop n

/-- The file behind an open descriptor. -/
structure OSFile where
  blocks : List PageData
  script : List Outcome
  journal : List Transfer
  deriving DecidableEq, Repr

/-- The storage manager's file handle. -/
structure SM_FileHandle where
  fileName : String
  totalNumPages : Int
  curPagePos : Int
  mgmtInfo : OSFile
  deriving DecidableEq, Repr

/-- A frame of the buffer pool. -/
structure BM_Frame where
  pageNum : Int
  data : PageData
  fixCount : Int
  dirty : Bool
  loadTime : Int
  lastUsed : Int
  deriving DecidableEq, Repr

/-- The management data of a pool. -/
structure BM_MgmtData where
  frames : List BM_Frame
  readIO : Int
  writeIO : Int
  time : Int
  fileHandle : SM_FileHandle
  deriving DecidableEq, Repr

/-- The buffer pool handed to clients; `mgmtData = none` is the NULL pointer. -/
structure BM_BufferPool where
  pageFile : String
  numPages : Int
  strategy : ReplacementStrategy
  mgmtData : Option BM_MgmtData
  deriving DecidableEq, Repr

/-- A page handle: the page number and the frame whose buffer `data` points to. -/
structure BM_PageHandle where
  pageNum : Int
  data : Option Nat
  deriving DecidableEq, Repr

/-! ## storage_mgr.c -/

/-- The outcome of the next system call on the descriptor, and the file with
that outcome consumed. -/
def OSFile.next (f : OSFile) : Outcome × OSFile :=
  match f.script with
  | [] => (Outcome.ok, f)
  | b :: rest => (b, { f with script := rest })

/-- Store a block at a block index: inside the file it replaces the block, at or
past the end it extends the file (the gap reads as zeros). -/
def storeBlock (blocks : List PageData) (i : Nat) (buffer : PageData) : List PageData :=
  if i < blocks.length then blocks.set i buffer
  else blocks ++ List.replicate (i - blocks.length) zeroPage ++ [buffer]

/-- Embedding of `createPageFile`: a new file of one zero page (`none` when the
file cannot be created or the write is short). -/
def createPageFile (ok : Bool) : RC × Option OSFile :=
  if ok then (RC.RC_OK, some { blocks := [zeroPage], script := [], journal := [] })
  else (RC.RC_WRITE_FAILED, none)

/-- Embedding of `openPageFile`: `file` is the file found under the name, if any. -/
def openPageFile (filePath : String) (file : Option OSFile) : RC × Option SM_FileHandle :=
  match file with
  | none => (RC.RC_FILE_NOT_FOUND, none)
  | some f =>
    (RC.RC_OK, some { fileName := filePath, totalNumPages := (f.blocks.length : Int),
                      curPagePos := 0, mgmtInfo := f })

/-- Embedding of `closePageFile` on a handle whose descriptor is open. -/
def closePageFile (_fileHandle : SM_FileHandle) : RC := RC.RC_OK

/-- The value a 32-bit two's-complement `int` holds for an expression whose
mathematical value is `x`. -/
def wrapInt (x : Int) : Int :=
  (x + 2147483648) % 4294967296 - 2147483648

/-- The offset `pageIndex * PAGE_SIZE` that `readBlock` and `writeBlock` hand to
`lseek`: the product is computed in `int`, so it wraps from page 524288 on. -/
def seekOffset (pageIndex : Int) : Int :=
  wrapInt (pageIndex * (PAGE_SIZE : Int))

/-- The block of the file at which a transfer for page `pageIndex` takes place,
once `lseek` has accepted the offset. -/
def blockOf (pageIndex : Int) : Nat :=
  (seekOffset pageIndex / (PAGE_SIZE : Int)).toNat

/-- Embedding of `readBlock`: the code, the handle and the buffer afterwards.
`lseek` rejects a negative offset; a read that fails may have overwritten the
first bytes of the buffer. -/
def readBlock (pageIndex : Int) (fileHandle : SM_FileHandle) (buffer : PageData) :
    RC × SM_FileHandle × PageData :=
  if pageIndex < 0 ∨ pageIndex ≥ fileHandle.totalNumPages then
    (RC.RC_READ_NON_EXISTING_PAGE, fileHandle, buffer)
  else if seekOffset pageIndex < 0 then
    (RC.RC_READ_NON_EXISTING_PAGE, fileHandle, buffer)
  else
    let n := fileHandle.mgmtInfo.next
    match n.2.blocks[blockOf pageIndex]? with
    | some b =>
      if n.1 = Outcome.ok then
        (RC.RC_OK,
          { fileHandle with
              mgmtInfo := { n.2 with journal := n.2.journal ++ [Transfer.read (blockOf pageIndex)] } },
          b)
      else
        (RC.RC_READ_NON_EXISTING_PAGE, { fileHandle with mgmtInfo := n.2 },
          partialCopy n.1.bytes b buffer)
    | none => (RC.RC_READ_NON_EXISTING_PAGE, { fileHandle with mgmtInfo := n.2 }, buffer)

/-- Embedding of `writeBlock`: the code and the handle afterwards.  `lseek`
rejects a negative offset; a write that fails may have overwritten the first
bytes of the block. -/
def writeBlock (pageIndex : Int) (fileHandle : SM_FileHandle) (buffer : PageData) :
    RC × SM_FileHandle :=
  if pageIndex < 0 ∨ pageIndex ≥ fileHandle.totalNumPages then
    (RC.RC_WRITE_FAILED, fileHandle)
  else if seekOffset pageIndex < 0 then
    (RC.RC_WRITE_FAILED, fileHandle)
  else
    let n := fileHandle.mgmtInfo.next
    if n.1 = Outcome.ok then
      (RC.RC_OK,
        { fileHandle with
            mgmtInfo := { n.2 with blocks := storeBlock n.2.blocks (blockOf pageIndex) buffer,
                                   journal := n.2.journal ++ [Transfer.write (blockOf pageIndex)] } })
    else
      match n.2.blocks[blockOf pageIndex]? with
      | some b =>
        (RC.RC_WRITE_FAILED,
          { fileHandle with
              mgmtInfo := { n.2 with blocks := n.2.blocks.set (blockOf pageIndex)
                                                (partialCopy n.1.bytes buffer b) } })
      | none => (RC.RC_WRITE_FAILED, { fileHandle with mgmtInfo := n.2 })

/-- The `while (additionalPagesNeeded > 0)` loop of `ensureCapacity`. -/
def ensureCapacityLoop : Nat → SM_FileHandle → RC × SM_FileHandle
  | 0, fileHandle => (RC.RC_OK, fileHandle)
  | additionalPagesNeeded + 1, fileHandle =>
    let n := fileHandle.mgmtInfo.next
    if n.1 = Outcome.ok then
      ensureCapacityLoop additionalPagesNeeded
        { fileHandle with
            totalNumPages := fileHandle.totalNumPages + 1,
            mgmtInfo := { n.2 with blocks := n.2.blocks ++ [zeroPage],
                                   journal := n.2.journal ++ [Transfer.append] } }
    else (RC.RC_WRITE_FAILED, { fileHandle with mgmtInfo := n.2 })

/-- Embedding of `ensureCapacity`. -/
def ensureCapacity (requiredPages : Int) (fileHandle : SM_FileHandle) : RC × SM_FileHandle :=
  ensureCapacityLoop (requiredPages - fileHandle.totalNumPages).toNat fileHandle

/-! ## buffer_mgr.c -/

/-- The empty frame set up by the initialisation loop of `initBufferPool`. -/
def emptyFrame : BM_Frame :=
  { pageNum := NO_PAGE, data := zeroPage, fixCount := 0, dirty := false,
    loadTime := 0, lastUsed := 0 }

/-- Embedding of `initBufferPool`; `file` is the page file found under the name. -/
def initBufferPool (bm : BM_BufferPool) (pageFileName : String) (numPages : Int)
    (strategy : ReplacementStrategy) (file : Option OSFile) : RC × BM_BufferPool :=
  if numPages ≤ 0 then (RC.RC_FILE_HANDLE_NOT_INIT, bm)
  else
    let bm1 : BM_BufferPool :=
      { bm with pageFile := pageFileName, numPages := numPages, strategy := strategy }
    match openPageFile pageFileName file with
    | (RC.RC_OK, some fh) =>
      (RC.RC_OK,
        { bm1 with
            mgmtData := some { frames := List.replicate numPages.toNat emptyFrame,
                               readIO := 0, writeIO := 0, time := 0, fileHandle := fh } })
    | (rc, _) => (rc, bm1)

/-- The loop of `forceFlushPool` over the frames in index order: the code, the
frames, the file handle and `writeIO` afterwards. -/
def forceFlushLoop : List BM_Frame → SM_FileHandle → Int →
    RC × List BM_Frame × SM_FileHandle × Int
  | [], fh, w => (RC.RC_OK, [], fh, w)
  | f :: fs, fh, w =>
    if f.dirty = true ∧ f.fixCount = 0 then
      let r := writeBlock f.pageNum fh f.data
      if r.1 ≠ RC.RC_OK then (r.1, f :: fs, r.2, w)
      else
        let rest := forceFlushLoop fs r.2 (w + 1)
        (rest.1, { f with dirty := false } :: rest.2.1, rest.2.2.1, rest.2.2.2)
    else
      let rest := forceFlushLoop fs fh w
      (rest.1, f :: rest.2.1, rest.2.2.1, rest.2.2.2)

/-- Embedding of `forceFlushPool`. -/
def forceFlushPool (bm : BM_BufferPool) : RC × BM_BufferPool :=
  match bm.mgmtData with
  | none => (RC.RC_FILE_HANDLE_NOT_INIT, bm)
  | some mgmt =>
    let r := forceFlushLoop mgmt.frames mgmt.fileHandle mgmt.writeIO
    (r.1, { bm with mgmtData := some { mgmt with frames := r.2.1, fileHandle := r.2.2.1,
                                                 writeIO := r.2.2.2 } })

/-- Embedding of `shutdownBufferPool`. -/
def shutdownBufferPool (bm : BM_BufferPool) : RC × BM_BufferPool :=
  match bm.mgmtData with
  | none => (RC.RC_FILE_HANDLE_NOT_INIT, bm)
  | some mgmt =>
    if mgmt.frames.any (fun f => decide (f.fixCount > 0)) then (RC.RC_IM_NO_MORE_ENTRIES, bm)
    else
      match (forceFlushPool bm).2.mgmtData with
      | none => (RC.RC_FILE_HANDLE_NOT_INIT, bm)
      | some flushed =>
        let rc := closePageFile flushed.fileHandle
        if rc ≠ RC.RC_OK then (rc, { bm with mgmtData := none })
        else (RC.RC_OK, { bm with mgmtData := none })

/-- The search loop shared by the operations: the first frame whose `pageNum`
is the given one. -/
def findFrame (frames : List BM_Frame) (pageNum : Int) : Option Nat :=
  frames.findIdx? (fun f => decide (f.pageNum = pageNum))

/-- Embedding of `markDirty`. -/
def markDirty (bm : BM_BufferPool) (page : BM_PageHandle) : RC × BM_BufferPool :=
  match bm.mgmtData with
  | none => (RC.RC_FILE_HANDLE_NOT_INIT, bm)
  | some mgmt =>
    match findFrame mgmt.frames page.pageNum with
    | none => (RC.RC_IM_KEY_NOT_FOUND, bm)
    | some i =>
      match mgmt.frames[i]? with
      | none => (RC.RC_IM_KEY_NOT_FOUND, bm)
      | some f =>
        let f1 : BM_Frame := { f with dirty := true }
        (RC.RC_OK, { bm with mgmtData := some { mgmt with frames := mgmt.frames.set i f1 } })

/-- Embedding of `unpinPage`. -/
def unpinPage (bm : BM_BufferPool) (page : BM_PageHandle) : RC × BM_BufferPool :=
  match bm.mgmtData with
  | none => (RC.RC_FILE_HANDLE_NOT_INIT, bm)
  | some mgmt =>
    match findFrame mgmt.frames page.pageNum with
    | none => (RC.RC_IM_KEY_NOT_FOUND, bm)
    | some i =>
      match mgmt.frames[i]? with
      | none => (RC.RC_IM_KEY_NOT_FOUND, bm)
      | some f =>
        if f.fixCount ≤ 0 then (RC.RC_IM_NO_MORE_ENTRIES, bm)
        else
          let f1 : BM_Frame := { f with fixCount := f.fixCount - 1 }
          (RC.RC_OK, { bm with mgmtData := some { mgmt with frames := mgmt.frames.set i f1 } })

/-- Embedding of `forcePage`. -/
def forcePage (bm : BM_BufferPool) (page : BM_PageHandle) : RC × BM_BufferPool :=
  match bm.mgmtData with
  | none => (RC.RC_FILE_HANDLE_NOT_INIT, bm)
  | some mgmt =>
    match findFrame mgmt.frames page.pageNum with
    | none => (RC.RC_IM_KEY_NOT_FOUND, bm)
    | some i =>
      match mgmt.frames[i]? with
      | none => (RC.RC_IM_KEY_NOT_FOUND, bm)
      | some f =>
        let r := writeBlock f.pageNum mgmt.fileHandle f.data
        if r.1 ≠ RC.RC_OK then (r.1, { bm with mgmtData := some { mgmt with fileHandle := r.2 } })
        else
          let mgmt1 : BM_MgmtData :=
            { mgmt with frames := mgmt.frames.set i { f with dirty := false },
                        writeIO := mgmt.writeIO + 1, fileHandle := r.2 }
          (RC.RC_OK, { bm with mgmtData := some mgmt1 })

/-- The `switch (bm->strategy)` of `pinPage`: the metric of a frame. -/
def metricOf (strategy : ReplacementStrategy) (f : BM_Frame) : Int :=
  match strategy with
  | ReplacementStrategy.RS_FIFO => f.loadTime
  | ReplacementStrategy.RS_LRU => f.lastUsed
  | ReplacementStrategy.RS_LRU_K => f.lastUsed
  | _ => f.loadTime

/-- The victim loop of `pinPage` from frame index `i` on, with the running
`minMetric` (`-1` while unset) and `victim` (`none` for `-1`). -/
def selectLoop (strategy : ReplacementStrategy) :
    List BM_Frame → Nat → Int → Option Nat → Option Nat
  | [], _, _, victim => victim
  | f :: fs, i, minMetric, victim =>
    if f.fixCount = 0 then
      if minMetric = -1 ∨ metricOf strategy f < minMetric then
        selectLoop strategy fs (i + 1) (metricOf strategy f) (some i)
      else selectLoop strategy fs (i + 1) minMetric victim
    else selectLoop strategy fs (i + 1) minMetric victim

/-- The two victim searches of `pinPage`: the first empty frame, else the
victim loop; `none` is `victim == -1`. -/
def chooseVictim (strategy : ReplacementStrategy) (frames : List BM_Frame) : Option Nat :=
  match findFrame frames NO_PAGE with
  | some i => some i
  | none => selectLoop strategy frames 0 (-1) none

/-- The eviction block of `pinPage` for the victim frame `vf` at index `victim`. -/
def evictVictim (mgmt : BM_MgmtData) (victim : Nat) (vf : BM_Frame) : RC × BM_MgmtData :=
  if vf.pageNum ≠ NO_PAGE then
    if vf.fixCount ≠ 0 then (RC.RC_IM_NO_MORE_ENTRIES, mgmt)
    else if vf.dirty = true then
      let r := writeBlock vf.pageNum mgmt.fileHandle vf.data
      if r.1 ≠ RC.RC_OK then (r.1, { mgmt with fileHandle := r.2 })
      else
        (RC.RC_OK,
          { mgmt with frames := mgmt.frames.set victim { vf with dirty := false },
                      writeIO := mgmt.writeIO + 1, fileHandle := r.2 })
    else (RC.RC_OK, mgmt)
  else (RC.RC_OK, mgmt)

/-- The last part of `pinPage`: read the page into the victim frame and set the
frame up. -/
def loadVictim (mgmt : BM_MgmtData) (victim : Nat) (pageNum : Int) (page : BM_PageHandle) :
    RC × BM_MgmtData × BM_PageHandle :=
  match mgmt.frames[victim]? with
  | none => (RC.RC_IM_NO_MORE_ENTRIES, mgmt, page)
  | some vf =>
    let r := readBlock pageNum mgmt.fileHandle vf.data
    if r.1 ≠ RC.RC_OK then
      (r.1, { mgmt with frames := mgmt.frames.set victim { vf with data := r.2.2 },
                        fileHandle := r.2.1 }, page)
    else
      (RC.RC_OK,
        { mgmt with
            frames := mgmt.frames.set victim
              { pageNum := pageNum, data := r.2.2, fixCount := 1, dirty := false,
                loadTime := mgmt.time, lastUsed := mgmt.time },
            readIO := mgmt.readIO + 1, fileHandle := r.2.1 },
        { pageNum := pageNum, data := some victim })

/-- The start of `pinPage` after the argument checks: the time counter is
incremented and the file is grown when the page lies past its end. -/
def tickAndGrow (mgmt0 : BM_MgmtData) (pageNum : Int) : RC × BM_MgmtData :=
  let mgmt1 : BM_MgmtData := { mgmt0 with time := mgmt0.time + 1 }
  if pageNum ≥ mgmt1.fileHandle.totalNumPages then
    let cap := ensureCapacity (pageNum + 1) mgmt1.fileHandle
    (cap.1, { mgmt1 with fileHandle := cap.2 })
  else (RC.RC_OK, mgmt1)

/-- The rest of `pinPage`: the search for the page in the pool, and on a miss the
choice of a victim, its eviction and the load. -/
def pinInPool (strategy : ReplacementStrategy) (mgmt : BM_MgmtData) (page : BM_PageHandle)
    (pageNum : Int) : RC × BM_MgmtData × BM_PageHandle :=
  match findFrame mgmt.frames pageNum with
  | some i =>
    match mgmt.frames[i]? with
    | none => (RC.RC_IM_NO_MORE_ENTRIES, mgmt, page)
    | some f =>
      let f1 : BM_Frame := { f with fixCount := f.fixCount + 1, lastUsed := mgmt.time }
      (RC.RC_OK, { mgmt with frames := mgmt.frames.set i f1 },
        { pageNum := pageNum, data := some i })
  | none =>
    match chooseVictim strategy mgmt.frames with
    | none => (RC.RC_IM_NO_MORE_ENTRIES, mgmt, page)
    | some victim =>
      match mgmt.frames[victim]? with
      | none => (RC.RC_IM_NO_MORE_ENTRIES, mgmt, page)
      | some vf =>
        let e := evictVictim mgmt victim vf
        if e.1 ≠ RC.RC_OK then (e.1, e.2, page)
        else loadVictim e.2 victim pageNum page

/-- The body of `pinPage` after the argument checks, on the management data. -/
def pinPageCore (strategy : ReplacementStrategy) (mgmt0 : BM_MgmtData) (page : BM_PageHandle)
    (pageNum : Int) : RC × BM_MgmtData × BM_PageHandle :=
  let g := tickAndGrow mgmt0 pageNum
  if g.1 ≠ RC.RC_OK then (g.1, g.2, page)
  else pinInPool strategy g.2 page pageNum

/-- Embedding of `pinPage`: the code, the pool and the caller's page handle
afterwards. -/
def pinPage (bm : BM_BufferPool) (page : BM_PageHandle) (pageNum : Int) :
    RC × BM_BufferPool × BM_PageHandle :=
  match bm.mgmtData with
  | none => (RC.RC_FILE_HANDLE_NOT_INIT, bm, page)
  | some mgmt0 =>
    if pageNum < 0 then (RC.RC_READ_NON_EXISTING_PAGE, bm, page)
    else
      let r := pinPageCore bm.strategy mgmt0 page pageNum
      (r.1, { bm with mgmtData := some r.2.1 }, r.2.2)

/-- Embedding of `getFrameContents`. -/
def getFrameContents (bm : BM_BufferPool) : Option (List Int) :=
  bm.mgmtData.map (fun mgmt => mgmt.frames.map (fun f => f.pageNum))

/-- Embedding of `getDirtyFlags`. -/
def getDirtyFlags (bm : BM_BufferPool) : Option (List Bool) :=
  bm.mgmtData.map (fun mgmt => mgmt.frames.map (fun f => f.dirty))

/-- Embedding of `getFixCounts`. -/
def getFixCounts (bm : BM_BufferPool) : Option (List Int) :=
  bm.mgmtData.map (fun mgmt => mgmt.frames.map (fun f => f.fixCount))

/-- Embedding of `getNumReadIO`. -/
def getNumReadIO (bm : BM_BufferPool) : Int :=
  match bm.mgmtData with
  | none => -1
  | some mgmt => mgmt.readIO

/-- Embedding of `getNumWriteIO`. -/
def getNumWriteIO (bm : BM_BufferPool) : Int :=
  match bm.mgmtData with
  | none => -1
  | some mgmt => mgmt.writeIO

/-! ## Clients and reachable pool states -/

/-- A client storing bytes through the `data` pointer of a page handle: the
buffer of the frame the pointer aliases is overwritten. -/
def storeBytes (bm : BM_BufferPool) (frame : Nat) (bytes : PageData) : BM_BufferPool :=
  match bm.mgmtData with
  | none => bm
  | some mgmt =>
    match mgmt.frames[frame]? with
    | none => bm
    | some f =>
      { bm with mgmtData := some { mgmt with frames := mgmt.frames.set frame { f with data := bytes } } }

/-- The bytes a page handle points to. -/
def handleBytes (bm : BM_BufferPool) (page : BM_PageHandle) : Option PageData :=
  match bm.mgmtData, page.data with
  | some mgmt, some i => (mgmt.frames[i]?).map (fun f => f.data)
  | _, _ => none

/-- One step of a client: a call of a public operation of the pool, or a store
through a data pointer. -/
inductive Op where
  | pin (page : BM_PageHandle) (pageNum : Int)
  | unpin (page : BM_PageHandle)
  | dirty (page : BM_PageHandle)
  | force (page : BM_PageHandle)
  | flush
  | shutdown
  | store (frame : Nat) (bytes : PageData)
  deriving DecidableEq, Repr

/-- The pool after one client step. -/
def step (bm : BM_BufferPool) : Op → BM_BufferPool
  | Op.pin page pageNum => (pinPage bm page pageNum).2.1
  | Op.unpin page => (unpinPage bm page).2
  | Op.dirty page => (markDirty bm page).2
  | Op.force page => (forcePage bm page).2
  | Op.flush => (forceFlushPool bm).2
  | Op.shutdown => (shutdownBufferPool bm).2
  | Op.store frame bytes => storeBytes bm frame bytes

/-- The pool after a sequence of client steps. -/
def run (bm : BM_BufferPool) (ops : List Op) : BM_BufferPool :=
  ops.foldl step bm

/-- A pool state reachable from a successful `initBufferPool`. -/
def Reachable (bm : BM_BufferPool) : Prop :=
  ∃ (bm0 : BM_BufferPool) (name : String) (numPages : Int) (strategy : ReplacementStrategy)
    (file : Option OSFile) (ops : List Op),
    (initBufferPool bm0 name numPages strategy file).1 = RC.RC_OK ∧
    bm = run (initBufferPool bm0 name numPages strategy file).2 ops

/-- A pool variable before `initBufferPool`. -/
def blankPool : BM_BufferPool :=
  { pageFile := "", numPages := 0, strategy := ReplacementStrategy.RS_FIFO, mgmtData := none }

/-- A page handle before its first use. -/
def blankHandle : BM_PageHandle := { pageNum := NO_PAGE, data := none }

/-- A handle for a page number, as the operations other than `pinPage` read it. -/
def handleOf (pageNum : Int) : BM_PageHandle := { pageNum := pageNum, data := none }

/-- A pool of `numPages` frames opened on a newly created page file. -/
def freshPool (numPages : Int) (strategy : ReplacementStrategy) : BM_BufferPool :=
  (initBufferPool blankPool "pagefile" numPages strategy (createPageFile true).2).2

/-! ## Scenarios -/

/-- Pin a page and unpin it at once. -/
def pinUnpin (pageNum : Int) : List Op :=
  [Op.pin blankHandle pageNum, Op.unpin (handleOf pageNum)]

/-- Scenario S4 before its last pin: page 0 pinned and kept, pages 1 and 2
pinned and unpinned, in a pool of three frames. -/
def poolS4 (strategy : ReplacementStrategy) : BM_BufferPool :=
  run (freshPool 3 strategy) ([Op.pin blankHandle 0] ++ pinUnpin 1 ++ pinUnpin 2)

/-- A resident pinned frame, and a pool of two frames that holds it. -/
def demoPinnedFrame : BM_Frame :=
  { pageNum := 0, data := [170, 187], fixCount := 1, dirty := true, loadTime := 1, lastUsed := 1 }

/-- A file of two blocks. -/
def demoFile : OSFile := { blocks := [[1, 2], [3, 4]], script := [], journal := [] }

/-- A resident, unpinned, clean frame. -/
def demoCleanFrame : BM_Frame :=
  { pageNum := 1, data := [3, 4], fixCount := 0, dirty := false, loadTime := 2, lastUsed := 2 }

/-- The management data of the demonstration pool. -/
def demoMgmt : BM_MgmtData :=
  { frames := [demoPinnedFrame, demoCleanFrame],
    readIO := 2, writeIO := 0, time := 2,
    fileHandle := { fileName := "pagefile", totalNumPages := 2, curPagePos := 0,
                    mgmtInfo := demoFile } }

/-- The demonstration pool under a strategy. -/
def demoPool (strategy : ReplacementStrategy) : BM_BufferPool :=
  { pageFile := "pagefile", numPages := 2, strategy := strategy, mgmtData := some demoMgmt }

/-! ## Invariants of reachable pool states -/

/-- The per-frame part of the invariant, for a file of `total` pages. -/
structure FrameOK (total : Int) (f : BM_Frame) : Prop where
  fix_nonneg : 0 ≤ f.fixCount
  load_nonneg : 0 ≤ f.loadTime
  used_nonneg : 0 ≤ f.lastUsed
  page_range : f.pageNum = NO_PAGE ∨ (0 ≤ f.pageNum ∧ f.pageNum < total)
  page_seek : f.pageNum ≠ NO_PAGE → 0 ≤ seekOffset f.pageNum

/-- The invariant on the frames, the file handle and the time counter. -/
structure WF (frames : List BM_Frame) (fh : SM_FileHandle) (time : Int) : Prop where
  frames_ok : ∀ (i : Nat) (f : BM_Frame), frames[i]? = some f → FrameOK fh.totalNumPages f
  distinct : ∀ (i j : Nat) (f g : BM_Frame), frames[i]? = some f → frames[j]? = some g →
    f.pageNum ≠ NO_PAGE → f.pageNum = g.pageNum → i = j
  time_nonneg : 0 ≤ time
  file_len : fh.totalNumPages = (fh.mgmtInfo.blocks.length : Int)

/-- The invariant of the management data. -/
def WellFormed (mgmt : BM_MgmtData) : Prop :=
  WF mgmt.frames mgmt.fileHandle mgmt.time

/-- The invariant of a pool: it holds of the management data, when there is one. -/
def PoolOK (bm : BM_BufferPool) : Prop :=
  ∀ mgmt, bm.mgmtData = some mgmt → WellFormed mgmt

/-- Scenario S1 before its last pin: pages 0, 1 and 2 pinned and unpinned in a
pool of three frames. -/
def poolS1 (strategy : ReplacementStrategy) : BM_BufferPool :=
  run (freshPool 3 strategy) (pinUnpin 0 ++ pinUnpin 1 ++ pinUnpin 2)

/-- The management data after a hit on frame `i`, which held `f`: the time
counter is incremented, the frame gets one more pin and the new time as
`lastUsed`; nothing else changes. -/
def hitUpdate (mgmt : BM_MgmtData) (i : Nat) (f : BM_Frame) : BM_MgmtData :=
  { mgmt with
      time := mgmt.time + 1,
      frames := mgmt.frames.set i { f with fixCount := f.fixCount + 1, lastUsed := mgmt.time + 1 } }

/-- A resident, unpinned, dirty frame. -/
def demoDirtyFrame : BM_Frame :=
  { pageNum := 0, data := [170, 187], fixCount := 0, dirty := true, loadTime := 1, lastUsed := 3 }

/-- A pool of two unpinned frames, the first of them dirty. -/
def demoDirtyPool (strategy : ReplacementStrategy) : BM_BufferPool :=
  { pageFile := "pagefile", numPages := 2, strategy := strategy,
    mgmtData := some { demoMgmt with frames := [demoDirtyFrame, demoCleanFrame], time := 3 } }

/-- The management data of a pool of three frames whose first empty frame is
frame 1, behind a pinned frame and ahead of a second empty frame. -/
def demoHalfMgmt : BM_MgmtData :=
  { demoMgmt with frames := [demoPinnedFrame, emptyFrame, emptyFrame] }

/-- The pool with the management data `demoHalfMgmt`. -/
def demoHalfPool (strategy : ReplacementStrategy) : BM_BufferPool :=
  { pageFile := "pagefile", numPages := 3, strategy := strategy, mgmtData := some demoHalfMgmt }

/-! ## The replacement policy as the specification words it -/

/-- Frame `k` is the victim of the policy with the given metric: it is
unpinned, no unpinned frame has a smaller metric, and every unpinned frame of
lower index has a greater one (the lowest index among the minimal ones). -/
def IsPolicyVictim (metric : BM_Frame → Int) (frames : List BM_Frame) (k : Nat) : Prop :=
  ∃ f, frames[k]? = some f ∧ f.fixCount = 0 ∧
    ∀ (j : Nat) (g : BM_Frame), frames[j]? = some g → g.fixCount = 0 →
      metric f ≤ metric g ∧ (j < k → metric f < metric g)

/-- A pool of one frame with page 0 pinned in it. -/
def pinnedOnePool : BM_BufferPool :=
  run (freshPool 1 ReplacementStrategy.RS_FIFO) [Op.pin blankHandle 0]

/-- The management data of `pinnedOnePool`. -/
def pinnedOneMgmt : BM_MgmtData :=
  { frames := [{ pageNum := 0, data := zeroPage, fixCount := 1, dirty := false,
                 loadTime := 1, lastUsed := 1 }],
    readIO := 1, writeIO := 0, time := 1,
    fileHandle := { fileName := "pagefile", totalNumPages := 1, curPagePos := 0,
                    mgmtInfo := { blocks := [zeroPage], script := [],
                                  journal := [Transfer.read 0] } } }

/-- Scenario S2 before its last pin: pages 0, 1 and 2 pinned and unpinned, then
page 0 pinned and unpinned once more, in a pool of three frames. -/
def poolS2 (strategy : ReplacementStrategy) : BM_BufferPool :=
  run (freshPool 3 strategy) (pinUnpin 0 ++ pinUnpin 1 ++ pinUnpin 2 ++ pinUnpin 0)

/-- The management data of scenario S1 before its last pin. -/
def mgmtS1 : BM_MgmtData :=
  { frames := [{ pageNum := 0, data := zeroPage, fixCount := 0, dirty := false,
                 loadTime := 1, lastUsed := 1 },
               { pageNum := 1, data := zeroPage, fixCount := 0, dirty := false,
                 loadTime := 2, lastUsed := 2 },
               { pageNum := 2, data := zeroPage, fixCount := 0, dirty := false,
                 loadTime := 3, lastUsed := 3 }],
    readIO := 3, writeIO := 0, time := 3,
    fileHandle := { fileName := "pagefile", totalNumPages := 3, curPagePos := 0,
                    mgmtInfo := { blocks := [zeroPage, zeroPage, zeroPage], script := [],
                                  journal := [Transfer.read 0, Transfer.append, Transfer.read 1,
                                              Transfer.append, Transfer.read 2] } } }

/-- The management data of scenario S2 before its last pin. -/
def mgmtS2 : BM_MgmtData :=
  { mgmtS1 with
      frames := [{ pageNum := 0, data := zeroPage, fixCount := 0, dirty := false,
                   loadTime := 1, lastUsed := 4 },
                 { pageNum := 1, data := zeroPage, fixCount := 0, dirty := false,
                   loadTime := 2, lastUsed := 2 },
                 { pageNum := 2, data := zeroPage, fixCount := 0, dirty := false,
                   loadTime := 3, lastUsed := 3 }],
      time := 4 }

/-! ## The write-then-read round trip -/

/-- The client sequence `pin p; store the bytes; markDirty; unpin` (the pool as
`pinPage` left it when the pin fails). -/
def modifyPage (bm : BM_BufferPool) (page : BM_PageHandle) (p : Int) (bytes : PageData) :
    BM_BufferPool :=
  let r := pinPage bm page p
  match r.1, r.2.2.data with
  | RC.RC_OK, some i => (unpinPage (markDirty (storeBytes r.2.1 i bytes) r.2.2).2 r.2.2).2
  | _, _ => r.2.1

/-- Frame `frame` of the pool holds page `p`. -/
def frameHolds (bm : BM_BufferPool) (frame : Nat) (p : Int) : Prop :=
  ∃ mgmt f, bm.mgmtData = some mgmt ∧ mgmt.frames[frame]? = some f ∧ f.pageNum = p

/-- A client step that does not modify the bytes of page `p` and keeps the page
file within 524288 pages (2 GiB, where the `int` offset of a page still is its
product): a call of `pinPage` for a page below 524288, a call of `unpinPage`,
`markDirty`, `forcePage` or `forceFlushPool`, or a store into a frame that does
not hold `p`. -/
def Leaves (p : Int) (bm : BM_BufferPool) : Op → Prop
  | Op.pin _ pageNum => pageNum < 524288
  | Op.store frame _ => ¬ frameHolds bm frame p
  | Op.shutdown => False
  | _ => True

/-- A sequence of client steps none of which modifies the bytes of page `p` or
takes the page file past 524288 pages. -/
def Quiet (p : Int) : BM_BufferPool → List Op → Prop
  | _, [] => True
  | bm, op :: ops => Leaves p bm op ∧ Quiet p (step bm op) ops

/-- Page `p` has the value `bytes` in the pool: the system calls succeed, block
`p` exists, every frame that holds `p` has these bytes and is dirty unless the
block has them too, and the block has them when no frame holds `p`. -/
def Keeps (p : Int) (bytes : PageData) (frames : List BM_Frame) (fh : SM_FileHandle) : Prop :=
  0 ≤ p ∧ p.toNat < fh.mgmtInfo.blocks.length ∧ fh.mgmtInfo.script = [] ∧
  (∀ (i : Nat) (f : BM_Frame), frames[i]? = some f → f.pageNum = p →
    f.data = bytes ∧ (f.dirty = true ∨ fh.mgmtInfo.blocks[p.toNat]? = some bytes)) ∧
  ((∀ (i : Nat) (f : BM_Frame), frames[i]? = some f → f.pageNum ≠ p) →
    fh.mgmtInfo.blocks[p.toNat]? = some bytes)

/-- Page `p` has the value `bytes` in a pool that has management data and a
page file of at most 524288 pages, `p` one of the page numbers below 524288. -/
def KeepsPool (p : Int) (bytes : PageData) (bm : BM_BufferPool) : Prop :=
  ∃ mgmt, bm.mgmtData = some mgmt ∧ Keeps p bytes mgmt.frames mgmt.fileHandle ∧
    mgmt.fileHandle.totalNumPages ≤ 524288 ∧ p < 524288

/-- The bytes `0xAA...` of scenario S3. -/
def bytesS3 : PageData := List.replicate PAGE_SIZE 170

/-- Scenario S3 after the write: page 0 pinned, filled with `0xAA`, marked dirty
and unpinned, in a pool of three frames. -/
def poolS3 : BM_BufferPool :=
  modifyPage (freshPool 3 ReplacementStrategy.RS_FIFO) blankHandle 0 bytesS3

/-- The management data of a newly initialised pool of three frames. -/
def freshMgmt : BM_MgmtData :=
  { frames := [emptyFrame, emptyFrame, emptyFrame], readIO := 0, writeIO := 0, time := 0,
    fileHandle := { fileName := "pagefile", totalNumPages := 1, curPagePos := 0,
                    mgmtInfo := { blocks := [zeroPage], script := [], journal := [] } } }

/-! ## Scenarios for `unpinPage`, `forcePage`, `markDirty` and the shutdown -/

/-- Scenario S6 before the second unpin: page 0 pinned and unpinned once, in a
pool of three frames. -/
def poolS6 : BM_BufferPool :=
  run (freshPool 3 ReplacementStrategy.RS_FIFO) (pinUnpin 0)

/-- The blocks of the page file behind the pool. -/
def pageFileBlocks (bm : BM_BufferPool) : Option (List PageData) :=
  bm.mgmtData.map (fun mgmt => mgmt.fileHandle.mgmtInfo.blocks)

/-- The journal of the page file behind the pool. -/
def pageFileJournal (bm : BM_BufferPool) : Option (List Transfer) :=
  bm.mgmtData.map (fun mgmt => mgmt.fileHandle.mgmtInfo.journal)

/-- The force-read sequence before the force: page 0 pinned, filled with
`0xAA` and marked dirty, in a pool of three frames. -/
def poolForce : BM_BufferPool :=
  run (freshPool 3 ReplacementStrategy.RS_FIFO)
    [Op.pin blankHandle 0, Op.store 0 bytesS3, Op.dirty (handleOf 0)]

/-! ## What a flush does, frame by frame -/

/-- The frames `forceFlushPool` writes: dirty and unpinned. -/
def needsFlush (f : BM_Frame) : Bool :=
  f.dirty && decide (f.fixCount = 0)

/-- The frames after a flush: the dirty flag of every dirty unpinned frame is
cleared, nothing else changes. -/
def flushedFrames (frames : List BM_Frame) : List BM_Frame :=
  frames.map (fun f => if needsFlush f = true then { f with dirty := false } else f)

/-- The writes of a flush: one for every dirty unpinned frame, in index order,
at the block at which `writeBlock` transfers the frame's page. -/
def flushWrites (frames : List BM_Frame) : List Transfer :=
  (frames.filter needsFlush).map (fun f => Transfer.write (blockOf f.pageNum))

/-- The blocks of the file after a flush: the bytes of every dirty unpinned
frame are stored at the block at which `writeBlock` transfers the frame's page,
in index order. -/
def flushBlocks (blocks : List PageData) (frames : List BM_Frame) : List PageData :=
  (frames.filter needsFlush).foldl (fun b f => storeBlock b (blockOf f.pageNum) f.data) blocks

/-- Scenario S5 before the first teardown: page 0 pinned and not unpinned, in a
pool of three frames. -/
def poolS5 : BM_BufferPool :=
  run (freshPool 3 ReplacementStrategy.RS_FIFO) [Op.pin blankHandle 0]

/-! ## Pools on a file whose system calls may fail -/

/-- A newly created page file of one zero page, with the outcomes of the coming
system calls on its descriptor. -/
def createdFile (script : List Outcome) : OSFile :=
  { blocks := [zeroPage], script := script, journal := [] }

/-- A pool of `numPages` frames opened on a page file. -/
def poolOn (file : OSFile) (numPages : Int) (strategy : ReplacementStrategy) : BM_BufferPool :=
  (initBufferPool blankPool "pagefile" numPages strategy (some file)).2

/-- A pool of three frames in which page 0 was read, filled with `0xAA`, marked
dirty and unpinned, on a file whose next write fails. -/
def lostWritePool : BM_BufferPool :=
  run (poolOn (createdFile [Outcome.ok, Outcome.fail 0]) 3 ReplacementStrategy.RS_FIFO)
    [Op.pin blankHandle 0, Op.store 0 bytesS3, Op.dirty (handleOf 0), Op.unpin (handleOf 0)]

/-- A pool of one frame in which page 0 was read, filled with `0xAA`, marked
dirty and unpinned, on a file whose next append and write succeed and whose
read after them fails after 16 bytes. -/
def staleReadPool : BM_BufferPool :=
  run (poolOn (createdFile [Outcome.ok, Outcome.ok, Outcome.ok, Outcome.fail 16]) 1
      ReplacementStrategy.RS_FIFO)
    [Op.pin blankHandle 0, Op.store 0 bytesS3, Op.dirty (handleOf 0), Op.unpin (handleOf 0)]

/-- No empty frame is pinned. -/
def EmptyUnpinned (frames : List BM_Frame) : Prop :=
  ∀ (j : Nat) (g : BM_Frame), frames[j]? = some g → g.pageNum = NO_PAGE → g.fixCount = 0

/-- No empty frame of the pool is pinned. -/
def PoolEmptyUnpinned (bm : BM_BufferPool) : Prop :=
  ∀ mgmt, bm.mgmtData = some mgmt → EmptyUnpinned mgmt.frames

/-- A newly initialised pool of three frames after `markDirty` with a handle
that carries `NO_PAGE`. -/
def dirtyEmptyPool : BM_BufferPool :=
  run (freshPool 3 ReplacementStrategy.RS_FIFO) [Op.dirty blankHandle]

/-! ## A flush that fails part-way -/

/-- A second resident, unpinned, dirty frame. -/
def demoDirtyFrame1 : BM_Frame :=
  { pageNum := 1, data := [9, 5], fixCount := 0, dirty := true, loadTime := 2, lastUsed := 2 }

/-- A third resident, unpinned, dirty frame. -/
def demoDirtyFrame2 : BM_Frame :=
  { pageNum := 2, data := [7, 8], fixCount := 0, dirty := true, loadTime := 3, lastUsed := 3 }

/-- The management data of a pool of three dirty unpinned frames on a file of
three blocks whose next write succeeds and whose write after it fails after
one byte. -/
def demoFlushFailMgmt : BM_MgmtData :=
  { frames := [demoDirtyFrame, demoDirtyFrame1, demoDirtyFrame2],
    readIO := 3, writeIO := 0, time := 3,
    fileHandle := { fileName := "pagefile", totalNumPages := 3, curPagePos := 0,
                    mgmtInfo := { blocks := [[1, 2], [3, 4], [5, 6]],
                                  script := [Outcome.ok, Outcome.fail 1],
                                  journal := [] } } }

/-- The pool with the management data `demoFlushFailMgmt`. -/
def demoFlushFailPool : BM_BufferPool :=
  { pageFile := "pagefile", numPages := 3, strategy := ReplacementStrategy.RS_FIFO,
    mgmtData := some demoFlushFailMgmt }

/-- A pool of one frame in which page 0 was read, filled with `0xAA`, marked
dirty and unpinned, on a file of one page whose system calls succeed. -/
def dirtyOnePool : BM_BufferPool :=
  run (freshPool 1 ReplacementStrategy.RS_FIFO)
    [Op.pin blankHandle 0, Op.store 0 bytesS3, Op.dirty (handleOf 0), Op.unpin (handleOf 0)]

/-! ## The time stamps of resident frames -/

/-- The time stamps under a time counter: every resident frame was loaded at a
time `≥ 1`, was used last no earlier than it was loaded and no later than the
counter, and no two resident frames share a load time or a time of last use. -/
structure Stamped (frames : List BM_Frame) (time : Int) : Prop where
  clock_nonneg : 0 ≤ time
  ordered : ∀ (j : Nat) (g : BM_Frame), frames[j]? = some g → g.pageNum ≠ NO_PAGE →
    1 ≤ g.loadTime ∧ g.loadTime ≤ g.lastUsed ∧ g.lastUsed ≤ time
  stamps_differ : ∀ (i j : Nat) (f g : BM_Frame), frames[i]? = some f → frames[j]? = some g →
    i ≠ j → f.pageNum ≠ NO_PAGE → g.pageNum ≠ NO_PAGE →
    f.loadTime ≠ g.loadTime ∧ f.lastUsed ≠ g.lastUsed

/-- The time stamps of a pool are in order, when it has management data. -/
def PoolStamped (bm : BM_BufferPool) : Prop :=
  ∀ mgmt, bm.mgmtData = some mgmt → Stamped mgmt.frames mgmt.time

/-- The time counter of a pool with the load time and the time of last use of
each frame. -/
def getStamps (bm : BM_BufferPool) : Option (Int × List (Int × Int)) :=
  bm.mgmtData.map (fun mgmt => (mgmt.time, mgmt.frames.map (fun f => (f.loadTime, f.lastUsed))))

/-- A page of `0xBB` bytes. -/
def bytesBB : PageData := List.replicate PAGE_SIZE 187

/-- A pool of two frames in which pages 0 and 1 were read, filled with `0xAA`
and `0xBB`, marked dirty and unpinned, on a file whose second write from then
on stops after 16 bytes. -/
def shortWritePool : BM_BufferPool :=
  run (poolOn (createdFile [Outcome.ok, Outcome.ok, Outcome.ok, Outcome.ok, Outcome.fail 16]) 2
      ReplacementStrategy.RS_FIFO)
    [Op.pin blankHandle 0, Op.store 0 bytesS3, Op.dirty (handleOf 0), Op.unpin (handleOf 0),
      Op.pin blankHandle 1, Op.store 1 bytesBB, Op.dirty (handleOf 1), Op.unpin (handleOf 1)]

/-! ## A pool of one frame on a file of 4 GiB -/

/-- The management data of a pool of one frame. -/
def oneMgmt (f : BM_Frame) (fh : SM_FileHandle) (r w t : Int) : BM_MgmtData :=
  { frames := [f], readIO := r, writeIO := w, time := t, fileHandle := fh }

/-- A pool of one frame under the FIFO policy. -/
def onePool (f : BM_Frame) (fh : SM_FileHandle) (r w t : Int) : BM_BufferPool :=
  { pageFile := "pagefile", numPages := 1, strategy := ReplacementStrategy.RS_FIFO,
    mgmtData := some (oneMgmt f fh r w t) }

/-- The blocks 1 to 1048575 of the 4 GiB file: all zero. -/
def hugeTail : List PageData := List.replicate 1048575 zeroPage

/-- A page file of 1048576 pages (4 GiB) whose page 0 holds `0xAA` bytes and whose
other pages are zero; its system calls succeed. -/
def hugeFile : OSFile :=
  { blocks := bytesS3 :: hugeTail, script := [], journal := [] }

/-- The handle `openPageFile` returns for `hugeFile`. -/
def hugeHandle : SM_FileHandle :=
  { fileName := "pagefile", totalNumPages := 1048576, curPagePos := 0, mgmtInfo := hugeFile }

/-- The handle of `hugeFile` after `pinPage` has appended one zero page and
read from block 0. -/
def hugeGrown : SM_FileHandle :=
  { fileName := "pagefile", totalNumPages := 1048577, curPagePos := 0,
    mgmtInfo := { blocks := hugeFile.blocks ++ [zeroPage], script := [],
                  journal := [Transfer.append, Transfer.read 0] } }

/-- The frame that holds page 1048576 with the bytes `0xBB`, dirty and unpinned. -/
def hugeDirtyFrame : BM_Frame :=
  { pageNum := 1048576, data := bytesBB, fixCount := 0, dirty := true, loadTime := 1,
    lastUsed := 1 }

/-- The pool of one frame on `hugeFile` after page 1048576 was pinned, filled
with `0xBB`, marked dirty and unpinned. -/
def hugeDirtyPool : BM_BufferPool :=
  run (poolOn hugeFile 1 ReplacementStrategy.RS_FIFO)
    [Op.pin blankHandle 1048576, Op.store 0 bytesBB, Op.dirty (handleOf 1048576),
      Op.unpin (handleOf 1048576)]

/-- The handle of `hugeFile` after the dirty page 1048576 was written back and
page 0 was read: the bytes `0xBB` went to block 0. -/
def hugeWritten : SM_FileHandle :=
  { fileName := "pagefile", totalNumPages := 1048577, curPagePos := 0,
    mgmtInfo := { blocks := storeBlock hugeGrown.mgmtInfo.blocks 0 bytesBB, script := [],
                  journal := [Transfer.append, Transfer.read 0, Transfer.write 0,
                    Transfer.read 0] } }

/-- The frame that holds page 0 with the bytes `0xAA`, dirty and unpinned. -/
def hugeOtherFrame : BM_Frame :=
  { pageNum := 0, data := bytesS3, fixCount := 0, dirty := true, loadTime := 2, lastUsed := 2 }

/-- Client steps on page 0 only: pin page 0, fill its frame with `0xAA`, mark it
dirty and unpin it. -/
def hugeRewriteOps : List Op :=
  [Op.pin blankHandle 0, Op.store 0 bytesS3, Op.dirty (handleOf 0), Op.unpin (handleOf 0)]

/-- The frame of `dirtyOnePool`: page 0 with `0xAA` bytes, dirty and unpinned. -/
def dirtyOneFrame : BM_Frame :=
  { pageNum := 0, data := bytesS3, fixCount := 0, dirty := true, loadTime := 1, lastUsed := 1 }

/-- The management data of `dirtyOnePool`: its page file has one zero page. -/
def dirtyOneMgmt : BM_MgmtData :=
  oneMgmt dirtyOneFrame
    { fileName := "pagefile", totalNumPages := 1, curPagePos := 0,
      mgmtInfo := { blocks := [zeroPage], script := [], journal := [Transfer.read 0] } }
    1 0 1

/-- The outcomes of the system calls still to come on the page file behind the
pool. -/
def pageFileScript (bm : BM_BufferPool) : Option (List Outcome) :=
  bm.mgmtData.map (fun mgmt => mgmt.fileHandle.mgmtInfo.script)

/-- The number of pages of the page file behind the pool, as its handle records
it. -/
def pageFileLength (bm : BM_BufferPool) : Option Int :=
  bm.mgmtData.map (fun mgmt => mgmt.fileHandle.totalNumPages)

/-- Block `i` of the page file behind the pool. -/
def blockAt (bm : BM_BufferPool) (i : Nat) : Option PageData :=
  bm.mgmtData.bind (fun mgmt => mgmt.fileHandle.mgmtInfo.blocks[i]?)

end BufferMgr

/-! # Theorems -/

namespace BufferMgr

/-! ## Lemmas on the search loops -/

theorem findFrame_some {frames : List BM_Frame} {p : Int} {i : Nat}
    (h : findFrame frames p = some i) :
    ∃ f, frames[i]? = some f ∧ f.pageNum = p ∧
      ∀ (j : Nat) (g : BM_Frame), j < i → frames[j]? = some g → g.pageNum ≠ p := by
  unfold findFrame at h
  rw [List.findIdx?_eq_some_iff_getElem] at h
  obtain ⟨hlt, hp, hmin⟩ := h
  refine ⟨frames[i], List.getElem?_eq_getElem hlt, by simpa using hp, ?_⟩
  intro j g hj hg
  have hj2 : j < frames.length := Nat.lt_trans hj hlt
  have h1 := hmin j hj
  rw [List.getElem?_eq_getElem hj2] at hg
  cases hg
  simpa using h1

theorem findFrame_none {frames : List BM_Frame} {p : Int}
    (h : findFrame frames p = none) :
    ∀ (j : Nat) (g : BM_Frame), frames[j]? = some g → g.pageNum ≠ p := by
  unfold findFrame at h
  rw [List.findIdx?_eq_none_iff] at h
  intro j g hg
  have := h g (List.getElem?_mem hg)
  simpa using this

theorem findFrame_eq_none_of {frames : List BM_Frame} {p : Int}
    (h : ∀ (j : Nat) (g : BM_Frame), frames[j]? = some g → g.pageNum ≠ p) :
    findFrame frames p = none := by
  unfold findFrame
  rw [List.findIdx?_eq_none_iff]
  intro g hg
  obtain ⟨j, hj⟩ := List.mem_iff_getElem?.mp hg
  simpa using h j g hj

theorem findFrame_eq_some_of {frames : List BM_Frame} {p : Int} {i : Nat} {f : BM_Frame}
    (hf : frames[i]? = some f) (hp : f.pageNum = p)
    (hmin : ∀ (j : Nat) (g : BM_Frame), j < i → frames[j]? = some g → g.pageNum ≠ p) :
    findFrame frames p = some i := by
  unfold findFrame
  rw [List.findIdx?_eq_some_iff_getElem]
  obtain ⟨hlt, hfe⟩ := List.getElem?_eq_some.mp hf
  refine ⟨hlt, by simp [hfe, hp], ?_⟩
  intro j hj
  have := hmin j _ hj (List.getElem?_eq_getElem (Nat.lt_trans hj hlt))
  simpa using this

/-- The victim loop returns the running victim or an unpinned frame. -/
theorem selectLoop_unpinned (strategy : ReplacementStrategy) :
    ∀ (fs : List BM_Frame) (i : Nat) (mm : Int) (v : Option Nat) (k : Nat),
      selectLoop strategy fs i mm v = some k →
      v = some k ∨ ∃ f, i ≤ k ∧ fs[k - i]? = some f ∧ f.fixCount = 0 := by
  intro fs
  induction fs with
  | nil => intro i mm v k h; left; simpa [selectLoop] using h
  | cons f fs ih =>
    intro i mm v k h
    unfold selectLoop at h
    split at h
    · rename_i hfix
      split at h
      · rcases ih _ _ _ _ h with h1 | ⟨g, hle, hg, hg0⟩
        · right
          have hk : i = k := by simpa using h1
          subst hk
          exact ⟨f, Nat.le_refl _, by simp, hfix⟩
        · right
          refine ⟨g, by omega, ?_, hg0⟩
          have : k - i = (k - (i + 1)) + 1 := by omega
          rw [this]; simpa using hg
      · rcases ih _ _ _ _ h with h1 | ⟨g, hle, hg, hg0⟩
        · left; exact h1
        · right
          refine ⟨g, by omega, ?_, hg0⟩
          have : k - i = (k - (i + 1)) + 1 := by omega
          rw [this]; simpa using hg
    · rcases ih _ _ _ _ h with h1 | ⟨g, hle, hg, hg0⟩
      · left; exact h1
      · right
        refine ⟨g, by omega, ?_, hg0⟩
        have : k - i = (k - (i + 1)) + 1 := by omega
        rw [this]; simpa using hg

/-- The chosen victim is an empty frame or an unpinned one. -/
theorem chooseVictim_some {strategy : ReplacementStrategy} {frames : List BM_Frame} {v : Nat}
    (h : chooseVictim strategy frames = some v) :
    ∃ vf, frames[v]? = some vf ∧ (vf.pageNum = NO_PAGE ∨ vf.fixCount = 0) := by
  unfold chooseVictim at h
  split at h
  · rename_i i hi
    obtain ⟨f, hf, hp, _⟩ := findFrame_some hi
    cases h
    exact ⟨f, hf, Or.inl hp⟩
  · rcases selectLoop_unpinned _ _ _ _ _ _ h with h1 | ⟨g, _, hg, hg0⟩
    · cases h1
    · exact ⟨g, by simpa using hg, Or.inr hg0⟩

end BufferMgr

namespace BufferMgr

/-! ## Frame effects of the parts of `pinPage` -/

theorem tickAndGrow_frames (mgmt0 : BM_MgmtData) (pageNum : Int) :
    (tickAndGrow mgmt0 pageNum).2.frames = mgmt0.frames := by
  unfold tickAndGrow
  simp only []
  split <;> rfl

theorem tickAndGrow_time (mgmt0 : BM_MgmtData) (pageNum : Int) :
    (tickAndGrow mgmt0 pageNum).2.time = mgmt0.time + 1 := by
  unfold tickAndGrow
  simp only []
  split <;> rfl

theorem tickAndGrow_reads (mgmt0 : BM_MgmtData) (pageNum : Int) :
    BM_MgmtData.readIO (tickAndGrow mgmt0 pageNum).2 = BM_MgmtData.readIO mgmt0 := by
  unfold tickAndGrow
  simp only []
  split <;> rfl

theorem tickAndGrow_writes (mgmt0 : BM_MgmtData) (pageNum : Int) :
    BM_MgmtData.writeIO (tickAndGrow mgmt0 pageNum).2 = BM_MgmtData.writeIO mgmt0 := by
  unfold tickAndGrow
  simp only []
  split <;> rfl

theorem evictVictim_getElem_ne (mgmt : BM_MgmtData) (victim : Nat) (vf : BM_Frame) (j : Nat)
    (hj : j ≠ victim) :
    (evictVictim mgmt victim vf).2.frames[j]? = mgmt.frames[j]? := by
  unfold evictVictim
  simp only []
  split_ifs <;> simp [List.getElem?_set_ne (Ne.symm hj)]

theorem loadVictim_getElem_ne (mgmt : BM_MgmtData) (victim : Nat) (pageNum : Int)
    (page : BM_PageHandle) (j : Nat) (hj : j ≠ victim) :
    (loadVictim mgmt victim pageNum page).2.1.frames[j]? = mgmt.frames[j]? := by
  unfold loadVictim
  split
  · rfl
  · simp only []
    split_ifs <;> simp [List.getElem?_set_ne (Ne.symm hj)]

/-- Frames other than the one hit or chosen as victim are left as they are. -/
theorem pinInPool_pinned_frame (strategy : ReplacementStrategy) (mgmt : BM_MgmtData)
    (page : BM_PageHandle) (q : Int) (j : Nat) (f : BM_Frame)
    (hf : mgmt.frames[j]? = some f) (hres : f.pageNum ≠ NO_PAGE) (hpin : f.fixCount ≠ 0) :
    ∃ f', (pinInPool strategy mgmt page q).2.1.frames[j]? = some f' ∧
      f'.pageNum = f.pageNum ∧ f'.data = f.data ∧ f'.dirty = f.dirty ∧
      f'.loadTime = f.loadTime ∧ (f.pageNum ≠ q → f' = f) := by
  unfold pinInPool
  split
  · rename_i i hi
    obtain ⟨g, hg, hgp, _⟩ := findFrame_some hi
    rw [hg]
    simp only []
    by_cases hji : j = i
    · subst hji
      rw [hf] at hg
      cases hg
      refine ⟨{ f with fixCount := f.fixCount + 1, lastUsed := mgmt.time }, ?_, rfl, rfl, rfl, rfl,
        fun h => absurd hgp h⟩
      have hlt : j < mgmt.frames.length := (List.getElem?_eq_some.mp hf).1
      simp [hlt]
    · refine ⟨f, ?_, rfl, rfl, rfl, rfl, fun _ => rfl⟩
      rw [List.getElem?_set_ne (Ne.symm hji)]
      exact hf
  · split
    · exact ⟨f, hf, rfl, rfl, rfl, rfl, fun _ => rfl⟩
    · rename_i v hv
      obtain ⟨vf, hvf, hvf2⟩ := chooseVictim_some hv
      rw [hvf]
      simp only []
      have hjv : j ≠ v := by
        intro h
        subst h
        rw [hf] at hvf
        cases hvf
        rcases hvf2 with h1 | h1
        · exact hres h1
        · exact hpin h1
      refine ⟨f, ?_, rfl, rfl, rfl, rfl, fun _ => rfl⟩
      split_ifs
      · simp only []
        rw [evictVictim_getElem_ne _ _ _ _ hjv]; exact hf
      · rw [loadVictim_getElem_ne _ _ _ _ _ hjv, evictVictim_getElem_ne _ _ _ _ hjv]; exact hf

end BufferMgr

namespace BufferMgr

/-! ## C1 -/

/-- C1: in every pool state (reachable or not) and for every call `pinPage q`,
a frame that is resident with `fixCount > 0` keeps its page number and its
bytes, whatever the call returns, and it is left wholly unchanged (its
`fixCount` in particular) unless its page number is `q`.  Scenario S4 with three
frames: page 0 is pinned and kept, pages 1 and 2 are pinned and unpinned; then
`pinPage 3` returns `RC_OK`, replaces page 1 and leaves the frame contents
`[0, 3, 2]` with page 0 still pinned, under FIFO and under LRU. -/
theorem pinPage_keeps_pinned_frames :
    (∀ (bm : BM_BufferPool) (mgmt : BM_MgmtData) (page : BM_PageHandle) (q : Int) (i : Nat)
        (f : BM_Frame),
        bm.mgmtData = some mgmt → mgmt.frames[i]? = some f →
        f.pageNum ≠ NO_PAGE → 0 < f.fixCount →
        ∃ mgmt' f', (pinPage bm page q).2.1.mgmtData = some mgmt' ∧
          mgmt'.frames[i]? = some f' ∧ f'.pageNum = f.pageNum ∧ f'.data = f.data ∧
          (f.pageNum ≠ q → f'.fixCount = f.fixCount ∧ f' = f)) ∧
    (∀ strategy, strategy = ReplacementStrategy.RS_FIFO ∨ strategy = ReplacementStrategy.RS_LRU →
        getFrameContents (poolS4 strategy) = some [0, 1, 2] ∧
        getFixCounts (poolS4 strategy) = some [1, 0, 0] ∧
        (pinPage (poolS4 strategy) blankHandle 3).1 = RC.RC_OK ∧
        getFrameContents (pinPage (poolS4 strategy) blankHandle 3).2.1 = some [0, 3, 2] ∧
        getFixCounts (pinPage (poolS4 strategy) blankHandle 3).2.1 = some [1, 1, 0] ∧
        handleBytes (pinPage (poolS4 strategy) blankHandle 3).2.1 ⟨0, some 0⟩ =
          handleBytes (poolS4 strategy) ⟨0, some 0⟩) := by
  constructor
  · intro bm mgmt page q i f hm hf hres hpin
    unfold pinPage
    rw [hm]
    simp only []
    split_ifs with hq
    · exact ⟨mgmt, f, hm, hf, rfl, rfl, fun _ => ⟨rfl, rfl⟩⟩
    · unfold pinPageCore
      simp only []
      have hf1 : (tickAndGrow mgmt q).2.frames[i]? = some f := by
        rw [tickAndGrow_frames]; exact hf
      split_ifs with hg
      · exact ⟨_, f, rfl, hf1, rfl, rfl, fun _ => ⟨rfl, rfl⟩⟩
      · obtain ⟨f', h1, h2, h3, _, _, h6⟩ :=
          pinInPool_pinned_frame bm.strategy (tickAndGrow mgmt q).2 page q i f hf1 hres
            (by omega)
        exact ⟨_, f', rfl, h1, h2, h3, fun h => ⟨by rw [h6 h], h6 h⟩⟩
  · intro strategy hs
    rcases hs with hs | hs <;> subst hs <;> exact ⟨rfl, rfl, rfl, rfl, rfl, rfl⟩

/-- C1 at a concrete pool: page 0 is pinned in frame 0 and page 2 is requested. -/
theorem pinPage_keeps_pinned_frames_witness :
    ∃ mgmt' f', (pinPage (demoPool ReplacementStrategy.RS_FIFO) blankHandle 2).2.1.mgmtData
        = some mgmt' ∧
      mgmt'.frames[0]? = some f' ∧ f'.pageNum = demoPinnedFrame.pageNum ∧
      f'.data = demoPinnedFrame.data ∧
      (demoPinnedFrame.pageNum ≠ 2 → f'.fixCount = demoPinnedFrame.fixCount ∧
        f' = demoPinnedFrame) :=
  pinPage_keeps_pinned_frames.1 (demoPool ReplacementStrategy.RS_FIFO) demoMgmt blankHandle 2 0
    demoPinnedFrame rfl rfl (by decide) (by decide)

end BufferMgr

namespace BufferMgr

/-! ## The block layer keeps the file handle consistent -/

theorem next_blocks (f : OSFile) : f.next.2.blocks = f.blocks := by
  unfold OSFile.next; split <;> rfl

theorem next_journal (f : OSFile) : f.next.2.journal = f.journal := by
  unfold OSFile.next; split <;> rfl

theorem next_nil {f : OSFile} (h : f.script = []) : f.next = (Outcome.ok, f) := by
  unfold OSFile.next; rw [h]

/-- The offset of a page below 524288 is its mathematical value. -/
theorem seekOffset_small {p : Int} (h0 : 0 ≤ p) (h : p < 524288) :
    seekOffset p = p * 4096 := by
  unfold seekOffset wrapInt PAGE_SIZE
  push_cast
  omega

/-- A page below 524288 is transferred at the block of its own number. -/
theorem blockOf_small {p : Int} (h0 : 0 ≤ p) (h : p < 524288) : blockOf p = p.toNat := by
  unfold blockOf
  rw [seekOffset_small h0 h]
  unfold PAGE_SIZE
  push_cast
  omega

/-- The block at which a page is transferred never lies behind the page. -/
theorem blockOf_le {p : Int} (h0 : 0 ≤ p) (hs : 0 ≤ seekOffset p) : (blockOf p : Int) ≤ p := by
  unfold blockOf
  unfold seekOffset wrapInt PAGE_SIZE at hs ⊢
  push_cast at hs ⊢
  omega

/-- In a file of at most 1048576 pages, a page whose offset `lseek` accepts lies
below 524288. -/
theorem small_of_seek {p : Int} (h0 : 0 ≤ p) (hs : 0 ≤ seekOffset p) (h : p < 1048576) :
    p < 524288 := by
  unfold seekOffset wrapInt PAGE_SIZE at hs
  push_cast at hs
  omega

theorem writeBlock_total (p : Int) (fh : SM_FileHandle) (b : PageData) :
    (writeBlock p fh b).2.totalNumPages = fh.totalNumPages := by
  unfold writeBlock
  dsimp only
  split_ifs
  · rfl
  · rfl
  · rfl
  · split <;> rfl

theorem writeBlock_length (p : Int) (fh : SM_FileHandle) (b : PageData)
    (h : fh.totalNumPages = (fh.mgmtInfo.blocks.length : Int)) :
    (writeBlock p fh b).2.mgmtInfo.blocks.length = fh.mgmtInfo.blocks.length := by
  unfold writeBlock
  dsimp only
  split_ifs with h1 h2 h3
  · rfl
  · rfl
  · have hlt : blockOf p < fh.mgmtInfo.blocks.length := by
      push_neg at h1 h2
      have := blockOf_le h1.1 h2
      omega
    simp [storeBlock, next_blocks, hlt]
  · split <;> simp [next_blocks]

theorem readBlock_total (p : Int) (fh : SM_FileHandle) (b : PageData) :
    (readBlock p fh b).2.1.totalNumPages = fh.totalNumPages := by
  unfold readBlock
  dsimp only
  split
  · rfl
  · split
    · rfl
    · split
      · split <;> rfl
      · rfl

theorem readBlock_blocks (p : Int) (fh : SM_FileHandle) (b : PageData) :
    (readBlock p fh b).2.1.mgmtInfo.blocks = fh.mgmtInfo.blocks := by
  unfold readBlock
  dsimp only
  split
  · rfl
  · split
    · rfl
    · split
      · split <;> simp [next_blocks]
      · simp [next_blocks]

theorem ensureCapacityLoop_total_le :
    ∀ (n : Nat) (fh : SM_FileHandle), fh.totalNumPages ≤ (ensureCapacityLoop n fh).2.totalNumPages := by
  intro n
  induction n with
  | zero => intro fh; simp [ensureCapacityLoop]
  | succ n ih =>
    intro fh
    unfold ensureCapacityLoop
    dsimp only
    split_ifs
    · refine le_trans ?_ (ih _)
      simp
    · simp

theorem ensureCapacityLoop_length :
    ∀ (n : Nat) (fh : SM_FileHandle), fh.totalNumPages = (fh.mgmtInfo.blocks.length : Int) →
      (ensureCapacityLoop n fh).2.totalNumPages =
        ((ensureCapacityLoop n fh).2.mgmtInfo.blocks.length : Int) := by
  intro n
  induction n with
  | zero => intro fh h; simpa [ensureCapacityLoop] using h
  | succ n ih =>
    intro fh h
    unfold ensureCapacityLoop
    dsimp only
    split_ifs
    · apply ih
      simp [next_blocks, h]
    · simpa [next_blocks] using h

end BufferMgr

namespace BufferMgr

/-! ## Preservation of the invariant by frame and file updates -/

theorem getElem?_set_cases {α : Type} {l : List α} {i j : Nat} {a b : α}
    (h : (l.set i a)[j]? = some b) : (j = i ∧ b = a) ∨ (j ≠ i ∧ l[j]? = some b) := by
  rw [List.getElem?_set] at h
  split_ifs at h with h1 h2
  · left; exact ⟨h1.symm, by cases h; rfl⟩
  · right; exact ⟨fun e => h1 e.symm, h⟩

theorem FrameOK.mono {t t' : Int} {f : BM_Frame} (h : FrameOK t f) (ht : t ≤ t') :
    FrameOK t' f :=
  ⟨h.fix_nonneg, h.load_nonneg, h.used_nonneg,
    h.page_range.imp id (fun hp => ⟨hp.1, lt_of_lt_of_le hp.2 ht⟩), h.page_seek⟩

theorem WF.set_frame {frames : List BM_Frame} {fh : SM_FileHandle} {time : Int}
    (h : WF frames fh time) {i : Nat} {f f' : BM_Frame} (hf : frames[i]? = some f)
    (hp : f'.pageNum = f.pageNum) (h1 : 0 ≤ f'.fixCount) (h2 : 0 ≤ f'.loadTime)
    (h3 : 0 ≤ f'.lastUsed) : WF (frames.set i f') fh time := by
  refine ⟨?_, ?_, h.time_nonneg, h.file_len⟩
  · intro j g hg
    rcases getElem?_set_cases hg with ⟨_, rfl⟩ | ⟨_, hg'⟩
    · exact ⟨h1, h2, h3, by rw [hp]; exact (h.frames_ok i f hf).page_range,
        by rw [hp]; exact (h.frames_ok i f hf).page_seek⟩
    · exact h.frames_ok j g hg'
  · intro a b x y hx hy hne he
    rcases getElem?_set_cases hx with ⟨ha, rfl⟩ | ⟨ha, hx'⟩ <;>
      rcases getElem?_set_cases hy with ⟨hb, rfl⟩ | ⟨hb, hy'⟩
    · rw [ha, hb]
    · rw [ha]
      exact h.distinct i b f y hf hy' (by rw [← hp]; exact hne) (by rw [← hp]; exact he)
    · rw [hb]
      exact h.distinct a i x f hx' hf hne (by rw [← hp]; exact he)
    · exact h.distinct a b x y hx' hy' hne he

theorem WF.file {frames : List BM_Frame} {fh fh' : SM_FileHandle} {time : Int}
    (h : WF frames fh time) (ht : fh.totalNumPages ≤ fh'.totalNumPages)
    (hl : fh'.totalNumPages = (fh'.mgmtInfo.blocks.length : Int)) : WF frames fh' time :=
  ⟨fun i f hf => (h.frames_ok i f hf).mono ht, h.distinct, h.time_nonneg, hl⟩

theorem WF.tick {frames : List BM_Frame} {fh : SM_FileHandle} {time : Int}
    (h : WF frames fh time) : WF frames fh (time + 1) :=
  ⟨h.frames_ok, h.distinct, by have := h.time_nonneg; omega, h.file_len⟩

theorem WF.load {frames : List BM_Frame} {fh : SM_FileHandle} {time : Int}
    (h : WF frames fh time) {v : Nat} {p : Int} {f' : BM_Frame}
    (hp0 : 0 ≤ p) (hpt : p < fh.totalNumPages) (hseek : 0 ≤ seekOffset p)
    (hmiss : ∀ (j : Nat) (g : BM_Frame), frames[j]? = some g → g.pageNum ≠ p)
    (hp : f'.pageNum = p) (h1 : 0 ≤ f'.fixCount) (h2 : 0 ≤ f'.loadTime)
    (h3 : 0 ≤ f'.lastUsed) : WF (frames.set v f') fh time := by
  refine ⟨?_, ?_, h.time_nonneg, h.file_len⟩
  · intro j g hg
    rcases getElem?_set_cases hg with ⟨_, rfl⟩ | ⟨_, hg'⟩
    · exact ⟨h1, h2, h3, Or.inr (by rw [hp]; exact ⟨hp0, hpt⟩), fun _ => by rw [hp]; exact hseek⟩
    · exact h.frames_ok j g hg'
  · intro a b x y hx hy hne he
    rcases getElem?_set_cases hx with ⟨ha, rfl⟩ | ⟨ha, hx'⟩ <;>
      rcases getElem?_set_cases hy with ⟨hb, rfl⟩ | ⟨hb, hy'⟩
    · rw [ha, hb]
    · exact absurd (he ▸ hp).symm (by simpa [eq_comm] using hmiss b y hy')
    · exact absurd (he.trans hp) (hmiss a x hx')
    · exact h.distinct a b x y hx' hy' hne he

end BufferMgr

namespace BufferMgr

theorem WF.congr_frames {frames frames' : List BM_Frame} {fh : SM_FileHandle} {time : Int}
    (h : WF frames fh time)
    (hrel : ∀ (j : Nat) (g : BM_Frame), frames'[j]? = some g →
      ∃ f, frames[j]? = some f ∧ g.pageNum = f.pageNum ∧ g.fixCount = f.fixCount ∧
        g.loadTime = f.loadTime ∧ g.lastUsed = f.lastUsed) :
    WF frames' fh time := by
  refine ⟨?_, ?_, h.time_nonneg, h.file_len⟩
  · intro j g hg
    obtain ⟨f, hf, e1, e2, e3, e4⟩ := hrel j g hg
    have := h.frames_ok j f hf
    exact ⟨by rw [e2]; exact this.fix_nonneg, by rw [e3]; exact this.load_nonneg,
      by rw [e4]; exact this.used_nonneg, by rw [e1]; exact this.page_range,
      by rw [e1]; exact this.page_seek⟩
  · intro a b x y hx hy hne he
    obtain ⟨f, hf, e1, _⟩ := hrel a x hx
    obtain ⟨g, hg, e1', _⟩ := hrel b y hy
    exact h.distinct a b f g hf hg (by rw [← e1]; exact hne) (by rw [← e1, ← e1']; exact he)

/-! ## Every operation preserves the invariant -/

theorem tickAndGrow_fileHandle_le (mgmt0 : BM_MgmtData) (p : Int) :
    mgmt0.fileHandle.totalNumPages ≤ (tickAndGrow mgmt0 p).2.fileHandle.totalNumPages := by
  unfold tickAndGrow
  dsimp only
  split_ifs
  · exact ensureCapacityLoop_total_le _ _
  · exact le_refl _

theorem tickAndGrow_wf {mgmt0 : BM_MgmtData} (h : WellFormed mgmt0) (p : Int) :
    WellFormed (tickAndGrow mgmt0 p).2 := by
  unfold WellFormed at *
  rw [tickAndGrow_frames, tickAndGrow_time]
  refine (h.tick).file (tickAndGrow_fileHandle_le mgmt0 p) ?_
  unfold tickAndGrow
  dsimp only
  split_ifs
  · exact ensureCapacityLoop_length _ _ h.file_len
  · exact h.file_len

theorem evictVictim_frames_cases (mgmt : BM_MgmtData) (victim : Nat) (vf : BM_Frame) :
    (evictVictim mgmt victim vf).2.frames = mgmt.frames ∨
    (evictVictim mgmt victim vf).2.frames = mgmt.frames.set victim { vf with dirty := false } := by
  unfold evictVictim
  dsimp only
  split_ifs <;> simp

theorem evictVictim_time (mgmt : BM_MgmtData) (victim : Nat) (vf : BM_Frame) :
    (evictVictim mgmt victim vf).2.time = mgmt.time := by
  unfold evictVictim
  dsimp only
  split_ifs <;> rfl

theorem evictVictim_total (mgmt : BM_MgmtData) (victim : Nat) (vf : BM_Frame) :
    (evictVictim mgmt victim vf).2.fileHandle.totalNumPages = mgmt.fileHandle.totalNumPages := by
  unfold evictVictim
  dsimp only
  split_ifs <;> simp [writeBlock_total]

theorem evictVictim_length (mgmt : BM_MgmtData) (victim : Nat) (vf : BM_Frame)
    (h : mgmt.fileHandle.totalNumPages = (mgmt.fileHandle.mgmtInfo.blocks.length : Int)) :
    (evictVictim mgmt victim vf).2.fileHandle.mgmtInfo.blocks.length =
      mgmt.fileHandle.mgmtInfo.blocks.length := by
  unfold evictVictim
  dsimp only
  split_ifs <;> simp [writeBlock_length _ _ _ h]

theorem evictVictim_wf {mgmt : BM_MgmtData} (h : WellFormed mgmt) {victim : Nat} {vf : BM_Frame}
    (hv : mgmt.frames[victim]? = some vf) : WellFormed (evictVictim mgmt victim vf).2 := by
  unfold WellFormed at *
  rw [evictVictim_time]
  have hfile : WF mgmt.frames (evictVictim mgmt victim vf).2.fileHandle mgmt.time :=
    h.file (le_of_eq (evictVictim_total _ _ _).symm)
      (by rw [evictVictim_total, evictVictim_length _ _ _ h.file_len]; exact h.file_len)
  rcases evictVictim_frames_cases mgmt victim vf with e | e
  · rw [e]; exact hfile
  · rw [e]
    have hvf := h.frames_ok victim vf hv
    exact hfile.set_frame hv rfl hvf.fix_nonneg hvf.load_nonneg hvf.used_nonneg

theorem evictVictim_pageNums (mgmt : BM_MgmtData) (victim : Nat) (vf : BM_Frame)
    (hv : mgmt.frames[victim]? = some vf) (j : Nat) (g : BM_Frame)
    (hg : (evictVictim mgmt victim vf).2.frames[j]? = some g) :
    ∃ f, mgmt.frames[j]? = some f ∧ g.pageNum = f.pageNum := by
  rcases evictVictim_frames_cases mgmt victim vf with e | e
  · rw [e] at hg; exact ⟨g, hg, rfl⟩
  · rw [e] at hg
    rcases getElem?_set_cases hg with ⟨rfl, rfl⟩ | ⟨_, hg'⟩
    · exact ⟨vf, hv, rfl⟩
    · exact ⟨g, hg', rfl⟩

theorem readBlock_ok_range {p : Int} {fh : SM_FileHandle} {b : PageData}
    (h : (readBlock p fh b).1 = RC.RC_OK) : 0 ≤ p ∧ p < fh.totalNumPages := by
  unfold readBlock at h
  by_cases h1 : p < 0 ∨ p ≥ fh.totalNumPages
  · rw [if_pos h1] at h; cases h
  · push_neg at h1; exact h1

/-- A read succeeds only at an offset that `lseek` accepts. -/
theorem readBlock_ok_seek {p : Int} {fh : SM_FileHandle} {buf : PageData}
    (h : (readBlock p fh buf).1 = RC.RC_OK) : 0 ≤ seekOffset p := by
  unfold readBlock at h
  by_cases h1 : p < 0 ∨ p ≥ fh.totalNumPages
  · rw [if_pos h1] at h; cases h
  · rw [if_neg h1] at h
    by_cases h3 : seekOffset p < 0
    · rw [if_pos h3] at h; cases h
    · omega

/-- A write succeeds only at an offset that `lseek` accepts. -/
theorem writeBlock_ok_seek {q : Int} {fh : SM_FileHandle} {b : PageData}
    (h : (writeBlock q fh b).1 = RC.RC_OK) : 0 ≤ seekOffset q := by
  unfold writeBlock at h
  by_cases h1 : q < 0 ∨ q ≥ fh.totalNumPages
  · rw [if_pos h1] at h; cases h
  · rw [if_neg h1] at h
    by_cases h3 : seekOffset q < 0
    · rw [if_pos h3] at h; cases h
    · omega

theorem loadVictim_wf {mgmt : BM_MgmtData} (h : WellFormed mgmt) (victim : Nat) (p : Int)
    (page : BM_PageHandle)
    (hmiss : ∀ (j : Nat) (g : BM_Frame), mgmt.frames[j]? = some g → g.pageNum ≠ p) :
    WellFormed (loadVictim mgmt victim p page).2.1 := by
  unfold WellFormed at *
  unfold loadVictim
  split
  · exact h
  · rename_i vf hv
    dsimp only
    have hvf := h.frames_ok victim vf hv
    have hfile : WF mgmt.frames (readBlock p mgmt.fileHandle vf.data).2.1 mgmt.time :=
      h.file (le_of_eq (readBlock_total _ _ _).symm)
        (by rw [readBlock_total, readBlock_blocks]; exact h.file_len)
    split_ifs with hr
    · exact hfile.set_frame hv rfl hvf.fix_nonneg hvf.load_nonneg hvf.used_nonneg
    · have hok : (readBlock p mgmt.fileHandle vf.data).1 = RC.RC_OK := by
        by_contra hc; exact hr hc
      obtain ⟨hp0, hpt⟩ := readBlock_ok_range hok
      exact hfile.load hp0 (by rw [readBlock_total]; exact hpt) (readBlock_ok_seek hok) hmiss rfl
        (Int.one_nonneg) h.time_nonneg h.time_nonneg

theorem pinInPool_wf {mgmt : BM_MgmtData} (h : WellFormed mgmt) (strategy : ReplacementStrategy)
    (page : BM_PageHandle) (p : Int) : WellFormed (pinInPool strategy mgmt page p).2.1 := by
  unfold pinInPool
  split
  · rename_i i hi
    split
    · exact h
    · rename_i f hf
      have hfo := h.frames_ok i f hf
      exact WF.set_frame h hf rfl (by have := hfo.fix_nonneg; show 0 ≤ f.fixCount + 1; omega)
        hfo.load_nonneg h.time_nonneg
  · rename_i hmiss
    split
    · exact h
    · rename_i v hv
      split
      · exact h
      · rename_i vf hvf
        dsimp only
        split_ifs
        · exact evictVictim_wf h hvf
        · apply loadVictim_wf (evictVictim_wf h hvf)
          intro j g hg
          obtain ⟨f, hf, e⟩ := evictVictim_pageNums mgmt v vf hvf j g hg
          rw [e]
          exact findFrame_none hmiss j f hf

theorem pinPage_ok {bm : BM_BufferPool} (h : PoolOK bm) (page : BM_PageHandle) (p : Int) :
    PoolOK (pinPage bm page p).2.1 := by
  unfold pinPage
  split
  · exact h
  · rename_i mgmt0 hm
    have h0 := h mgmt0 hm
    split_ifs
    · exact h
    · intro m hm'
      dsimp only at hm'
      cases hm'
      unfold pinPageCore
      dsimp only
      split_ifs
      · exact tickAndGrow_wf h0 p
      · exact pinInPool_wf (tickAndGrow_wf h0 p) _ _ _

end BufferMgr

namespace BufferMgr

theorem markDirty_ok {bm : BM_BufferPool} (h : PoolOK bm) (page : BM_PageHandle) :
    PoolOK (markDirty bm page).2 := by
  unfold markDirty
  split
  · exact h
  · rename_i mgmt hm
    have h0 := h mgmt hm
    split
    · exact h
    · rename_i i hi
      split
      · exact h
      · rename_i f hf
        intro m hm'
        dsimp only at hm'
        cases hm'
        have hfo := h0.frames_ok i f hf
        exact WF.set_frame h0 hf rfl hfo.fix_nonneg hfo.load_nonneg hfo.used_nonneg

theorem unpinPage_ok {bm : BM_BufferPool} (h : PoolOK bm) (page : BM_PageHandle) :
    PoolOK (unpinPage bm page).2 := by
  unfold unpinPage
  split
  · exact h
  · rename_i mgmt hm
    have h0 := h mgmt hm
    split
    · exact h
    · rename_i i hi
      split
      · exact h
      · rename_i f hf
        split_ifs with hfix
        · exact h
        · intro m hm'
          dsimp only at hm'
          cases hm'
          have hfo := h0.frames_ok i f hf
          exact WF.set_frame h0 hf rfl (by show 0 ≤ f.fixCount - 1; omega) hfo.load_nonneg
            hfo.used_nonneg

theorem forcePage_ok {bm : BM_BufferPool} (h : PoolOK bm) (page : BM_PageHandle) :
    PoolOK (forcePage bm page).2 := by
  unfold forcePage
  split
  · exact h
  · rename_i mgmt hm
    have h0 := h mgmt hm
    split
    · exact h
    · rename_i i hi
      split
      · exact h
      · rename_i f hf
        have hfile : WF mgmt.frames (writeBlock f.pageNum mgmt.fileHandle f.data).2 mgmt.time :=
          WF.file h0 (le_of_eq (writeBlock_total _ _ _).symm)
            (by rw [writeBlock_total, writeBlock_length _ _ _ h0.file_len]; exact h0.file_len)
        dsimp only
        split_ifs
        · intro m hm'
          cases hm'
          exact hfile
        · intro m hm'
          cases hm'
          have hfo := h0.frames_ok i f hf
          exact hfile.set_frame hf rfl hfo.fix_nonneg hfo.load_nonneg hfo.used_nonneg

theorem storeBytes_ok {bm : BM_BufferPool} (h : PoolOK bm) (frame : Nat) (bytes : PageData) :
    PoolOK (storeBytes bm frame bytes) := by
  unfold storeBytes
  split
  · exact h
  · rename_i mgmt hm
    have h0 := h mgmt hm
    split
    · exact h
    · rename_i f hf
      intro m hm'
      cases hm'
      have hfo := h0.frames_ok frame f hf
      exact WF.set_frame h0 hf rfl hfo.fix_nonneg hfo.load_nonneg hfo.used_nonneg

/-- The flush loop changes dirty flags only, and keeps the file handle consistent. -/
theorem forceFlushLoop_spec :
    ∀ (fs : List BM_Frame) (fh : SM_FileHandle) (w : Int),
      fh.totalNumPages = (fh.mgmtInfo.blocks.length : Int) →
      (∀ (j : Nat) (g : BM_Frame), (forceFlushLoop fs fh w).2.1[j]? = some g →
        ∃ f, fs[j]? = some f ∧ g.pageNum = f.pageNum ∧ g.fixCount = f.fixCount ∧
          g.loadTime = f.loadTime ∧ g.lastUsed = f.lastUsed ∧ g.data = f.data) ∧
      (forceFlushLoop fs fh w).2.2.1.totalNumPages = fh.totalNumPages ∧
      (forceFlushLoop fs fh w).2.2.1.mgmtInfo.blocks.length = fh.mgmtInfo.blocks.length := by
  intro fs
  induction fs with
  | nil => intro fh w _; simp [forceFlushLoop]
  | cons f fs ih =>
    intro fh w hlen
    unfold forceFlushLoop
    dsimp only
    split_ifs with hd hr
    · exact ⟨fun j g hg => ⟨g, hg, rfl, rfl, rfl, rfl, rfl⟩, writeBlock_total _ _ _,
        writeBlock_length _ _ _ hlen⟩
    · have hlen' : (writeBlock f.pageNum fh f.data).2.totalNumPages =
          ((writeBlock f.pageNum fh f.data).2.mgmtInfo.blocks.length : Int) := by
        rw [writeBlock_total, writeBlock_length _ _ _ hlen]; exact hlen
      obtain ⟨h1, h2, h3⟩ := ih (writeBlock f.pageNum fh f.data).2 (w + 1) hlen'
      refine ⟨?_, by rw [h2, writeBlock_total], by rw [h3, writeBlock_length _ _ _ hlen]⟩
      intro j g hg
      cases j with
      | zero =>
        simp only [List.getElem?_cons_zero, Option.some.injEq] at hg
        subst hg
        exact ⟨f, by simp, rfl, rfl, rfl, rfl, rfl⟩
      | succ j =>
        simp only [List.getElem?_cons_succ] at hg ⊢
        exact h1 j g hg
    · obtain ⟨h1, h2, h3⟩ := ih fh w hlen
      refine ⟨?_, h2, h3⟩
      intro j g hg
      cases j with
      | zero =>
        simp only [List.getElem?_cons_zero, Option.some.injEq] at hg
        subst hg
        exact ⟨f, by simp, rfl, rfl, rfl, rfl, rfl⟩
      | succ j =>
        simp only [List.getElem?_cons_succ] at hg ⊢
        exact h1 j g hg

theorem forceFlushPool_ok {bm : BM_BufferPool} (h : PoolOK bm) :
    PoolOK (forceFlushPool bm).2 := by
  unfold forceFlushPool
  split
  · exact h
  · rename_i mgmt hm
    have h0 := h mgmt hm
    intro m hm'
    cases hm'
    obtain ⟨h1, h2, h3⟩ := forceFlushLoop_spec mgmt.frames mgmt.fileHandle
      (BM_MgmtData.writeIO mgmt) h0.file_len
    have hfile : WF mgmt.frames
        (forceFlushLoop mgmt.frames mgmt.fileHandle (BM_MgmtData.writeIO mgmt)).2.2.1 mgmt.time :=
      WF.file h0 (le_of_eq h2.symm) (by rw [h2, h3]; exact h0.file_len)
    refine hfile.congr_frames ?_
    intro j g hg
    obtain ⟨f, hf, e1, e2, e3, e4, _⟩ := h1 j g hg
    exact ⟨f, hf, e1, e2, e3, e4⟩

theorem shutdownBufferPool_ok {bm : BM_BufferPool} (h : PoolOK bm) :
    PoolOK (shutdownBufferPool bm).2 := by
  unfold shutdownBufferPool
  split
  · exact h
  · split_ifs
    · exact h
    · split
      · exact h
      · dsimp only
        split_ifs <;> (intro m hm'; cases hm')

theorem initBufferPool_ok (bm : BM_BufferPool) (name : String) (numPages : Int)
    (strategy : ReplacementStrategy) (file : Option OSFile)
    (h : (initBufferPool bm name numPages strategy file).1 = RC.RC_OK) :
    PoolOK (initBufferPool bm name numPages strategy file).2 := by
  unfold initBufferPool at h ⊢
  by_cases hn : numPages ≤ 0
  · simp [hn] at h
  · cases file with
    | none => simp [hn, openPageFile] at h
    | some f =>
      simp only [hn, if_false, openPageFile]
      intro m hm
      cases hm
      refine ⟨?_, ?_, le_refl _, rfl⟩
      · intro i g hg
        have hmem := List.getElem?_mem hg
        rw [List.mem_replicate] at hmem
        rw [hmem.2]
        exact ⟨le_refl _, le_refl _, le_refl _, Or.inl rfl, fun hne => absurd rfl hne⟩
      · intro a b x y hx hy hne _
        have hmem := List.getElem?_mem hx
        rw [List.mem_replicate] at hmem
        rw [hmem.2] at hne
        exact absurd rfl hne

theorem step_ok {bm : BM_BufferPool} (h : PoolOK bm) (op : Op) : PoolOK (step bm op) := by
  cases op with
  | pin page pageNum => exact pinPage_ok h page pageNum
  | unpin page => exact unpinPage_ok h page
  | dirty page => exact markDirty_ok h page
  | force page => exact forcePage_ok h page
  | flush => exact forceFlushPool_ok h
  | shutdown => exact shutdownBufferPool_ok h
  | store frame bytes => exact storeBytes_ok h frame bytes

theorem run_ok (ops : List Op) : ∀ {bm : BM_BufferPool}, PoolOK bm → PoolOK (run bm ops) := by
  induction ops with
  | nil => intro bm h; exact h
  | cons op ops ih => intro bm h; exact ih (step_ok h op)

/-- Every reachable pool satisfies the invariant. -/
theorem reachable_ok {bm : BM_BufferPool} (h : Reachable bm) : PoolOK bm := by
  obtain ⟨bm0, name, n, strategy, file, ops, hinit, rfl⟩ := h
  exact run_ok ops (initBufferPool_ok bm0 name n strategy file hinit)

end BufferMgr

namespace BufferMgr

theorem reachable_freshPool_run (numPages : Int) (strategy : ReplacementStrategy) (ops : List Op)
    (h : 0 < numPages) : Reachable (run (freshPool numPages strategy) ops) := by
  refine ⟨blankPool, "pagefile", numPages, strategy, (createPageFile true).2, ops, ?_, rfl⟩
  unfold initBufferPool
  rw [if_neg (by omega)]
  rfl

/-! ## C10 -/

/-- C10: in every pool state reachable from a successful `initBufferPool` by any
sequence of client steps (the public operations with arbitrary handles, stores
through data pointers, system calls that fail or not), no page number other
than `NO_PAGE` occurs in two frames: if frames `i` and `j` of the frame
contents hold the same resident page, then `i = j`. -/
theorem reachable_resident_pages_distinct (bm : BM_BufferPool) (contents : List Int)
    (i j : Nat) (p : Int) (hr : Reachable bm) (hc : getFrameContents bm = some contents)
    (hi : contents[i]? = some p) (hj : contents[j]? = some p) (hp : p ≠ NO_PAGE) : i = j := by
  unfold getFrameContents at hc
  cases hm : bm.mgmtData with
  | none => rw [hm] at hc; cases hc
  | some mgmt =>
    rw [hm] at hc
    simp only [Option.map_some', Option.some.injEq] at hc
    subst hc
    have hwf := reachable_ok hr mgmt hm
    rw [List.getElem?_map] at hi hj
    cases hfi : mgmt.frames[i]? with
    | none => rw [hfi] at hi; cases hi
    | some f =>
      cases hfj : mgmt.frames[j]? with
      | none => rw [hfj] at hj; cases hj
      | some g =>
        rw [hfi] at hi
        rw [hfj] at hj
        simp only [Option.map_some', Option.some.injEq] at hi hj
        exact hwf.distinct i j f g hfi hfj (by rw [hi]; exact hp) (by rw [hi, hj])

/-- C10 at the pool of scenario S1 after its last pin, whose contents are `[3, 1, 2]`. -/
theorem reachable_resident_pages_distinct_witness :
    getFrameContents (run (freshPool 3 ReplacementStrategy.RS_FIFO)
      (pinUnpin 0 ++ pinUnpin 1 ++ pinUnpin 2 ++ [Op.pin blankHandle 3])) = some [3, 1, 2] ∧
    (1 : Nat) = 1 :=
  ⟨rfl, reachable_resident_pages_distinct
    (run (freshPool 3 ReplacementStrategy.RS_FIFO)
      (pinUnpin 0 ++ pinUnpin 1 ++ pinUnpin 2 ++ [Op.pin blankHandle 3]))
    [3, 1, 2] 1 1 1 (reachable_freshPool_run 3 _ _ (by decide)) rfl rfl rfl (by decide)⟩

end BufferMgr

namespace BufferMgr

/-! ## The hit path and the page a successful `pinPage` leaves resident -/

theorem getElem?_set_self_of {α : Type} {l : List α} {i : Nat} {a b : α}
    (h : l[i]? = some b) : (l.set i a)[i]? = some a := by
  have hlt : i < l.length := (List.getElem?_eq_some.mp h).1
  simp [hlt]

theorem tickAndGrow_in_file (mgmt0 : BM_MgmtData) (p : Int)
    (hlen : p < mgmt0.fileHandle.totalNumPages) :
    tickAndGrow mgmt0 p = (RC.RC_OK, { mgmt0 with time := mgmt0.time + 1 }) := by
  unfold tickAndGrow
  dsimp only
  rw [if_neg (by omega)]

/-- On a hit `pinPage` is this one update of the pool. -/
theorem pinPage_hit_eq (bm : BM_BufferPool) (mgmt : BM_MgmtData) (page : BM_PageHandle)
    (p : Int) (i : Nat) (f : BM_Frame) (hm : bm.mgmtData = some mgmt) (hp : 0 ≤ p)
    (hlen : p < mgmt.fileHandle.totalNumPages) (hi : findFrame mgmt.frames p = some i)
    (hf : mgmt.frames[i]? = some f) :
    pinPage bm page p =
      (RC.RC_OK,
        { bm with mgmtData := some (hitUpdate mgmt i f) },
        { pageNum := p, data := some i }) := by
  unfold pinPage
  rw [hm]
  dsimp only
  rw [if_neg (by omega)]
  unfold pinPageCore
  rw [tickAndGrow_in_file mgmt p hlen]
  dsimp only
  rw [if_neg (by simp)]
  unfold pinInPool
  dsimp only
  rw [hi]
  dsimp only
  rw [hf]
  rfl

theorem ensureCapacityLoop_ok_total :
    ∀ (n : Nat) (fh : SM_FileHandle), (ensureCapacityLoop n fh).1 = RC.RC_OK →
      (ensureCapacityLoop n fh).2.totalNumPages = fh.totalNumPages + n := by
  intro n
  induction n with
  | zero => intro fh _; simp [ensureCapacityLoop]
  | succ n ih =>
    intro fh h
    unfold ensureCapacityLoop at h ⊢
    dsimp only at h ⊢
    by_cases hn : fh.mgmtInfo.next.1 = Outcome.ok
    · rw [if_pos hn] at h ⊢
      rw [ih _ h]
      push_cast
      ring
    · rw [if_neg hn] at h
      cases h

theorem tickAndGrow_ok_in_file (mgmt0 : BM_MgmtData) (p : Int)
    (h : (tickAndGrow mgmt0 p).1 = RC.RC_OK) :
    p < (tickAndGrow mgmt0 p).2.fileHandle.totalNumPages := by
  unfold tickAndGrow at h ⊢
  dsimp only at h ⊢
  by_cases hge : p ≥ mgmt0.fileHandle.totalNumPages
  · rw [if_pos hge] at h ⊢
    dsimp only at h ⊢
    unfold ensureCapacity at h ⊢
    rw [ensureCapacityLoop_ok_total _ _ h]
    omega
  · rw [if_neg hge]
    dsimp only
    omega

theorem evictVictim_ok_frames (mgmt : BM_MgmtData) (victim : Nat) (vf : BM_Frame)
    (hv : mgmt.frames[victim]? = some vf) (j : Nat) :
    ((evictVictim mgmt victim vf).2.frames[j]?).map (fun g => g.pageNum) =
      (mgmt.frames[j]?).map (fun g => g.pageNum) := by
  rcases evictVictim_frames_cases mgmt victim vf with e | e
  · rw [e]
  · rw [e]
    by_cases hj : victim = j
    · subst hj
      have hlt : victim < mgmt.frames.length := (List.getElem?_eq_some.mp hv).1
      simp [hlt, hv]
    · rw [List.getElem?_set_ne hj]

theorem loadVictim_total (mgmt : BM_MgmtData) (victim : Nat) (p : Int) (page : BM_PageHandle) :
    (loadVictim mgmt victim p page).2.1.fileHandle.totalNumPages =
      mgmt.fileHandle.totalNumPages := by
  unfold loadVictim
  split
  · rfl
  · dsimp only
    split_ifs <;> simp [readBlock_total]

theorem pinInPool_total (strategy : ReplacementStrategy) (mgmt : BM_MgmtData)
    (page : BM_PageHandle) (p : Int) :
    (pinInPool strategy mgmt page p).2.1.fileHandle.totalNumPages =
      mgmt.fileHandle.totalNumPages := by
  unfold pinInPool
  split
  · split <;> rfl
  · split
    · rfl
    · split
      · rfl
      · dsimp only
        split_ifs
        · exact evictVictim_total _ _ _
        · rw [loadVictim_total, evictVictim_total]

/-- After a successful load the page is found in the victim frame. -/
theorem loadVictim_ok_found (mgmt : BM_MgmtData) (victim : Nat) (p : Int) (page : BM_PageHandle)
    (hmiss : ∀ (j : Nat) (g : BM_Frame), mgmt.frames[j]? = some g → g.pageNum ≠ p)
    (h : (loadVictim mgmt victim p page).1 = RC.RC_OK) :
    findFrame (loadVictim mgmt victim p page).2.1.frames p = some victim ∧
      (loadVictim mgmt victim p page).2.2 = { pageNum := p, data := some victim } := by
  unfold loadVictim at h ⊢
  cases hv : mgmt.frames[victim]? with
  | none => rw [hv] at h; cases h
  | some vf =>
    rw [hv] at h
    dsimp only at h ⊢
    by_cases hr : (readBlock p mgmt.fileHandle vf.data).1 = RC.RC_OK
    · rw [if_neg (by simp [hr])]
      refine ⟨?_, rfl⟩
      refine findFrame_eq_some_of (getElem?_set_self_of hv) rfl ?_
      intro j g hj hg
      rw [List.getElem?_set_ne (by omega)] at hg
      exact hmiss j g hg
    · rw [if_pos hr] at h
      exact absurd h hr

/-- After a successful `pinInPool` the page is found in the frame of the handle. -/
theorem pinInPool_ok_found (strategy : ReplacementStrategy) (mgmt : BM_MgmtData)
    (page : BM_PageHandle) (p : Int) (h : (pinInPool strategy mgmt page p).1 = RC.RC_OK) :
    ∃ i, findFrame (pinInPool strategy mgmt page p).2.1.frames p = some i ∧
      (pinInPool strategy mgmt page p).2.2 = { pageNum := p, data := some i } := by
  unfold pinInPool at h ⊢
  cases hfind : findFrame mgmt.frames p with
  | some i =>
    rw [hfind] at h
    dsimp only at h ⊢
    obtain ⟨f, hf, hfp, hmin⟩ := findFrame_some hfind
    rw [hf]
    dsimp only
    refine ⟨i, ?_, rfl⟩
    refine findFrame_eq_some_of (getElem?_set_self_of hf) hfp ?_
    intro j g hj hg
    rw [List.getElem?_set_ne (by omega)] at hg
    exact hmin j g hj hg
  | none =>
    rw [hfind] at h
    dsimp only at h ⊢
    cases hc : chooseVictim strategy mgmt.frames with
    | none => rw [hc] at h; cases h
    | some v =>
      rw [hc] at h
      dsimp only at h ⊢
      cases hv : mgmt.frames[v]? with
      | none => rw [hv] at h; cases h
      | some vf =>
        rw [hv] at h
        dsimp only at h ⊢
        by_cases he : (evictVictim mgmt v vf).1 = RC.RC_OK
        · rw [if_neg (by simp [he])] at h ⊢
          refine ⟨v, loadVictim_ok_found _ _ _ _ ?_ h⟩
          intro j g hg
          have e := evictVictim_ok_frames mgmt v vf hv j
          rw [hg] at e
          cases hfj : mgmt.frames[j]? with
          | none => rw [hfj] at e; cases e
          | some f =>
            rw [hfj] at e
            simp only [Option.map_some', Option.some.injEq] at e
            rw [e]
            exact findFrame_none hfind j f hfj
        · rw [if_pos he] at h
          exact absurd h he

/-- After a successful `pinPage` the page is resident, inside the file, and the
handle names the first frame that holds it. -/
theorem pinPage_ok_found (bm : BM_BufferPool) (page : BM_PageHandle) (p : Int)
    (h : (pinPage bm page p).1 = RC.RC_OK) :
    ∃ mgmt' i, (pinPage bm page p).2.1.mgmtData = some mgmt' ∧
      findFrame mgmt'.frames p = some i ∧
      (pinPage bm page p).2.2 = { pageNum := p, data := some i } ∧
      0 ≤ p ∧ p < mgmt'.fileHandle.totalNumPages := by
  unfold pinPage at h ⊢
  cases hm : bm.mgmtData with
  | none => rw [hm] at h; cases h
  | some mgmt =>
    rw [hm] at h
    dsimp only at h ⊢
    by_cases hp : p < 0
    · rw [if_pos hp] at h; cases h
    · rw [if_neg hp] at h ⊢
      dsimp only at h ⊢
      unfold pinPageCore at h ⊢
      dsimp only at h ⊢
      by_cases hg : (tickAndGrow mgmt p).1 = RC.RC_OK
      · rw [if_neg (by simp [hg])] at h ⊢
        obtain ⟨i, h1, h2⟩ := pinInPool_ok_found _ _ _ _ h
        refine ⟨_, i, rfl, h1, h2, by omega, ?_⟩
        rw [pinInPool_total]
        exact tickAndGrow_ok_in_file mgmt p hg
      · rw [if_pos hg] at h
        exact absurd h hg

end BufferMgr

namespace BufferMgr

theorem findFrame_congr {l l' : List BM_Frame}
    (h : l.map (fun f => f.pageNum) = l'.map (fun f => f.pageNum)) (q : Int) :
    findFrame l q = findFrame l' q := by
  have e : ∀ l : List BM_Frame,
      findFrame l q = (l.map (fun f => f.pageNum)).findIdx? (fun x => decide (x = q)) := by
    intro l
    unfold findFrame
    rw [List.findIdx?_map]
    rfl
  rw [e, e, h]

theorem map_pageNum_set {frames : List BM_Frame} {i : Nat} {f f' : BM_Frame}
    (hf : frames[i]? = some f) (hp : f'.pageNum = f.pageNum) :
    (frames.set i f').map (fun f => f.pageNum) = frames.map (fun f => f.pageNum) := by
  apply List.ext_getElem?
  intro j
  rw [List.getElem?_map, List.getElem?_map]
  by_cases hj : i = j
  · subst hj
    rw [getElem?_set_self_of hf, hf]
    simp [hp]
  · rw [List.getElem?_set_ne hj]

theorem unpinPage_shape (bm : BM_BufferPool) (mgmt : BM_MgmtData) (page : BM_PageHandle)
    (hm : bm.mgmtData = some mgmt) :
    ∃ mgmt2, (unpinPage bm page).2.mgmtData = some mgmt2 ∧
      mgmt2.fileHandle = mgmt.fileHandle ∧
      BM_MgmtData.readIO mgmt2 = BM_MgmtData.readIO mgmt ∧
      BM_MgmtData.writeIO mgmt2 = BM_MgmtData.writeIO mgmt ∧
      mgmt2.frames.map (fun f => f.pageNum) = mgmt.frames.map (fun f => f.pageNum) := by
  unfold unpinPage
  rw [hm]
  dsimp only
  split
  · exact ⟨mgmt, hm, rfl, rfl, rfl, rfl⟩
  · split
    · exact ⟨mgmt, hm, rfl, rfl, rfl, rfl⟩
    · rename_i f hf
      split_ifs
      · exact ⟨mgmt, hm, rfl, rfl, rfl, rfl⟩
      · exact ⟨_, rfl, rfl, rfl, rfl, map_pageNum_set hf rfl⟩

theorem evictVictim_reads (mgmt : BM_MgmtData) (victim : Nat) (vf : BM_Frame) :
    BM_MgmtData.readIO (evictVictim mgmt victim vf).2 = BM_MgmtData.readIO mgmt := by
  unfold evictVictim
  dsimp only
  split_ifs <;> rfl

theorem loadVictim_reads (mgmt : BM_MgmtData) (victim : Nat) (p : Int) (page : BM_PageHandle) :
    BM_MgmtData.readIO (loadVictim mgmt victim p page).2.1 = BM_MgmtData.readIO mgmt ∨
    BM_MgmtData.readIO (loadVictim mgmt victim p page).2.1 = BM_MgmtData.readIO mgmt + 1 := by
  unfold loadVictim
  split
  · left; rfl
  · dsimp only
    split_ifs
    · left; rfl
    · right; rfl

theorem pinPage_reads (bm : BM_BufferPool) (page : BM_PageHandle) (p : Int) :
    getNumReadIO (pinPage bm page p).2.1 = getNumReadIO bm ∨
    getNumReadIO (pinPage bm page p).2.1 = getNumReadIO bm + 1 := by
  unfold pinPage
  cases hm : bm.mgmtData with
  | none => left; rfl
  | some mgmt =>
    dsimp only
    split_ifs
    · left; rfl
    · unfold getNumReadIO
      rw [hm]
      dsimp only
      unfold pinPageCore
      dsimp only
      split_ifs
      · left; exact tickAndGrow_reads _ _
      · unfold pinInPool
        split
        · split <;> (left; exact tickAndGrow_reads _ _)
        · split
          · left; exact tickAndGrow_reads _ _
          · split
            · left; exact tickAndGrow_reads _ _
            · dsimp only
              split_ifs
              · left; rw [evictVictim_reads, tickAndGrow_reads]
              · rcases loadVictim_reads (evictVictim (tickAndGrow mgmt p).2 _ _).2 _ p page
                  with e | e
                · left; rw [e, evictVictim_reads, tickAndGrow_reads]
                · right; rw [e, evictVictim_reads, tickAndGrow_reads]

/-! ## C9 -/

/-- C9: in every pool state in which page `p ≥ 0` lies inside the file and is
resident, `i` being the first frame that holds it and `f` that frame,
`pinPage p` returns `RC_OK` with the handle `(p, frame i)`, whose bytes are the
bytes of `f`; the pool afterwards is the pool before with the time counter
incremented and with frame `i` given one more pin and the incremented time as
`lastUsed`: `loadTime`, the dirty flag and the bytes of frame `i`, every other
frame, `readIO`, `writeIO` and the file handle (the page file) are unchanged.
Consequently, after a successful `pinPage p`, an `unpinPage` with the returned
handle and a second `pinPage p`, the second pin returns `RC_OK` with the same
handle (the same frame), reads no block (`readIO` and the file handle stay as
after the first pin), and the three calls together read at most one block. -/
theorem pinPage_hit :
    (∀ (bm : BM_BufferPool) (mgmt : BM_MgmtData) (page : BM_PageHandle) (p : Int) (i : Nat)
        (f : BM_Frame),
        bm.mgmtData = some mgmt → 0 ≤ p → p < mgmt.fileHandle.totalNumPages →
        findFrame mgmt.frames p = some i → mgmt.frames[i]? = some f →
        pinPage bm page p =
            (RC.RC_OK, { bm with mgmtData := some (hitUpdate mgmt i f) },
              { pageNum := p, data := some i }) ∧
          handleBytes (pinPage bm page p).2.1 (pinPage bm page p).2.2 = some f.data ∧
          (hitUpdate mgmt i f).frames[i]? =
            some { f with fixCount := f.fixCount + 1, lastUsed := mgmt.time + 1 } ∧
          (∀ j, j ≠ i → (hitUpdate mgmt i f).frames[j]? = mgmt.frames[j]?) ∧
          BM_MgmtData.readIO (hitUpdate mgmt i f) = BM_MgmtData.readIO mgmt ∧
          BM_MgmtData.writeIO (hitUpdate mgmt i f) = BM_MgmtData.writeIO mgmt ∧
          (hitUpdate mgmt i f).fileHandle = mgmt.fileHandle) ∧
    (∀ (bm : BM_BufferPool) (page : BM_PageHandle) (p : Int),
        (pinPage bm page p).1 = RC.RC_OK →
        (pinPage (unpinPage (pinPage bm page p).2.1 (pinPage bm page p).2.2).2
            (pinPage bm page p).2.2 p).1 = RC.RC_OK ∧
          (pinPage (unpinPage (pinPage bm page p).2.1 (pinPage bm page p).2.2).2
            (pinPage bm page p).2.2 p).2.2 = (pinPage bm page p).2.2 ∧
          getNumReadIO (pinPage (unpinPage (pinPage bm page p).2.1 (pinPage bm page p).2.2).2
            (pinPage bm page p).2.2 p).2.1 = getNumReadIO (pinPage bm page p).2.1 ∧
          (pinPage (unpinPage (pinPage bm page p).2.1 (pinPage bm page p).2.2).2
              (pinPage bm page p).2.2 p).2.1.mgmtData.map (fun m => m.fileHandle) =
            (pinPage bm page p).2.1.mgmtData.map (fun m => m.fileHandle) ∧
          getNumReadIO (pinPage bm page p).2.1 ≤ getNumReadIO bm + 1) := by
  constructor
  · intro bm mgmt page p i f hm hp hlen hi hf
    have e := pinPage_hit_eq bm mgmt page p i f hm hp hlen hi hf
    refine ⟨e, ?_, ?_, ?_, rfl, rfl, rfl⟩
    · rw [e]
      unfold handleBytes hitUpdate
      dsimp only
      rw [getElem?_set_self_of hf]
      rfl
    · unfold hitUpdate
      exact getElem?_set_self_of hf
    · intro j hj
      unfold hitUpdate
      exact List.getElem?_set_ne (Ne.symm hj)
  · intro bm page p h
    obtain ⟨mgmt1, i, hm1, hfind, hh, hp0, hlen⟩ := pinPage_ok_found bm page p h
    obtain ⟨mgmt2, hm2, hfh, hrd, _, hmap⟩ :=
      unpinPage_shape (pinPage bm page p).2.1 mgmt1 (pinPage bm page p).2.2 hm1
    have hfind2 : findFrame mgmt2.frames p = some i := by
      rw [findFrame_congr hmap]; exact hfind
    obtain ⟨f2, hf2, _, _⟩ := findFrame_some hfind2
    have e := pinPage_hit_eq (unpinPage (pinPage bm page p).2.1 (pinPage bm page p).2.2).2
      mgmt2 (pinPage bm page p).2.2 p i f2 hm2 hp0 (by rw [hfh]; exact hlen) hfind2 hf2
    rw [e]
    refine ⟨rfl, hh.symm, ?_, ?_, ?_⟩
    · unfold getNumReadIO
      rw [hm1]
      exact hrd
    · rw [hm1]
      simp [hitUpdate, hfh]
    · rcases pinPage_reads bm page p with e1 | e1 <;> omega

end BufferMgr

namespace BufferMgr

/-- C9 at a concrete pool: page 1 is resident in frame 1 and is pinned again. -/
theorem pinPage_hit_witness :
    pinPage (demoPool ReplacementStrategy.RS_LRU) blankHandle 1 =
      (RC.RC_OK,
        { demoPool ReplacementStrategy.RS_LRU with
            mgmtData := some (hitUpdate demoMgmt 1 demoCleanFrame) },
        { pageNum := 1, data := some 1 }) :=
  (pinPage_hit.1 (demoPool ReplacementStrategy.RS_LRU) demoMgmt blankHandle 1 1 demoCleanFrame
    rfl (by decide) (by decide) rfl rfl).1

end BufferMgr

namespace BufferMgr

/-! ## What a successful block call, eviction and load do -/

theorem storeBlock_getElem (blocks : List PageData) (i : Nat) (b : PageData) :
    (storeBlock blocks i b)[i]? = some b := by
  unfold storeBlock
  split_ifs with h
  · simp [h]
  · push_neg at h
    rw [List.append_assoc, List.getElem?_append_right h,
      List.getElem?_append_right (by simp)]
    simp

theorem storeBlock_getElem_ne (blocks : List PageData) (i j : Nat) (b : PageData)
    (hi : i < blocks.length) (hj : j ≠ i) :
    (storeBlock blocks i b)[j]? = blocks[j]? := by
  unfold storeBlock
  rw [if_pos hi, List.getElem?_set_ne (Ne.symm hj)]

theorem writeBlock_ok {q : Int} {fh : SM_FileHandle} {b : PageData}
    (h : (writeBlock q fh b).1 = RC.RC_OK) :
    0 ≤ q ∧ q < fh.totalNumPages ∧
      (writeBlock q fh b).2 =
        { fh with mgmtInfo :=
            { fh.mgmtInfo.next.2 with
                blocks := storeBlock fh.mgmtInfo.blocks (blockOf q) b,
                journal := fh.mgmtInfo.journal ++ [Transfer.write (blockOf q)] } } := by
  unfold writeBlock at h ⊢
  by_cases h1 : q < 0 ∨ q ≥ fh.totalNumPages
  · rw [if_pos h1] at h; cases h
  · rw [if_neg h1] at h ⊢
    by_cases h3 : seekOffset q < 0
    · rw [if_pos h3] at h; cases h
    · rw [if_neg h3] at h ⊢
      dsimp only at h ⊢
      by_cases h2 : fh.mgmtInfo.next.1 = Outcome.ok
      · rw [if_pos h2]
        push_neg at h1
        refine ⟨h1.1, h1.2, ?_⟩
        rw [next_blocks, next_journal]
      · rw [if_neg h2] at h
        split at h <;> cases h

theorem readBlock_ok {p : Int} {fh : SM_FileHandle} {buf : PageData}
    (h : (readBlock p fh buf).1 = RC.RC_OK) :
    fh.mgmtInfo.blocks[blockOf p]? = some (readBlock p fh buf).2.2 ∧
      (readBlock p fh buf).2.1 =
        { fh with mgmtInfo :=
            { fh.mgmtInfo.next.2 with
                journal := fh.mgmtInfo.journal ++ [Transfer.read (blockOf p)] } } := by
  unfold readBlock at h ⊢
  by_cases h1 : p < 0 ∨ p ≥ fh.totalNumPages
  · rw [if_pos h1] at h; cases h
  · rw [if_neg h1] at h ⊢
    by_cases h3 : seekOffset p < 0
    · rw [if_pos h3] at h; cases h
    · rw [if_neg h3] at h ⊢
      dsimp only at h ⊢
      rw [next_blocks] at h ⊢
      cases hb : fh.mgmtInfo.blocks[blockOf p]? with
      | none => rw [hb] at h; cases h
      | some b =>
        rw [hb] at h
        dsimp only at h ⊢
        by_cases h2 : fh.mgmtInfo.next.1 = Outcome.ok
        · rw [if_pos h2]
          dsimp only
          rw [next_journal]
          exact ⟨rfl, rfl⟩
        · rw [if_neg h2] at h; cases h

/-- A successful eviction block either wrote the dirty resident victim back or
did nothing. -/
theorem evictVictim_ok {mgmt : BM_MgmtData} {victim : Nat} {vf : BM_Frame}
    (h : (evictVictim mgmt victim vf).1 = RC.RC_OK) :
    (vf.pageNum ≠ NO_PAGE ∧ vf.fixCount = 0 ∧ vf.dirty = true ∧
        (writeBlock vf.pageNum mgmt.fileHandle vf.data).1 = RC.RC_OK ∧
        (evictVictim mgmt victim vf).2 =
          { mgmt with frames := mgmt.frames.set victim { vf with dirty := false },
                      writeIO := mgmt.writeIO + 1,
                      fileHandle := (writeBlock vf.pageNum mgmt.fileHandle vf.data).2 }) ∨
    ((vf.pageNum = NO_PAGE ∨ (vf.fixCount = 0 ∧ vf.dirty = false)) ∧
        (evictVictim mgmt victim vf).2 = mgmt) := by
  unfold evictVictim at h ⊢
  by_cases h1 : vf.pageNum ≠ NO_PAGE
  · rw [if_pos h1] at h ⊢
    by_cases h2 : vf.fixCount ≠ 0
    · rw [if_pos h2] at h; cases h
    · rw [if_neg h2] at h ⊢
      push_neg at h2
      by_cases h3 : vf.dirty = true
      · rw [if_pos h3] at h ⊢
        dsimp only at h ⊢
        by_cases h4 : (writeBlock vf.pageNum mgmt.fileHandle vf.data).1 = RC.RC_OK
        · rw [if_neg (by simp [h4])]
          left
          exact ⟨h1, h2, h3, h4, rfl⟩
        · rw [if_pos h4] at h; exact absurd h h4
      · rw [if_neg h3]
        right
        exact ⟨Or.inr ⟨h2, by simpa using h3⟩, rfl⟩
  · rw [if_neg h1]
    right
    push_neg at h1
    exact ⟨Or.inl h1, rfl⟩

/-- A successful load is this one update. -/
theorem loadVictim_ok {mgmt : BM_MgmtData} {victim : Nat} {p : Int} {page : BM_PageHandle}
    (h : (loadVictim mgmt victim p page).1 = RC.RC_OK) :
    ∃ vf, mgmt.frames[victim]? = some vf ∧
      (readBlock p mgmt.fileHandle vf.data).1 = RC.RC_OK ∧
      loadVictim mgmt victim p page =
        (RC.RC_OK,
          { mgmt with
              frames := mgmt.frames.set victim
                { pageNum := p, data := (readBlock p mgmt.fileHandle vf.data).2.2, fixCount := 1,
                  dirty := false, loadTime := mgmt.time, lastUsed := mgmt.time },
              readIO := mgmt.readIO + 1,
              fileHandle := (readBlock p mgmt.fileHandle vf.data).2.1 },
          { pageNum := p, data := some victim }) := by
  unfold loadVictim at h ⊢
  cases hv : mgmt.frames[victim]? with
  | none => rw [hv] at h; cases h
  | some vf =>
    rw [hv] at h
    dsimp only at h ⊢
    by_cases hr : (readBlock p mgmt.fileHandle vf.data).1 = RC.RC_OK
    · rw [if_neg (by simp [hr])]
      exact ⟨vf, rfl, hr, rfl⟩
    · rw [if_pos hr] at h
      exact absurd h hr

/-- A successful `pinPage` of a page that is not resident: a victim was chosen,
its eviction block succeeded, and the load succeeded. -/
theorem pinPage_miss_ok {bm : BM_BufferPool} {mgmt : BM_MgmtData} {page : BM_PageHandle}
    {p : Int} (hm : bm.mgmtData = some mgmt) (hmiss : findFrame mgmt.frames p = none)
    (h : (pinPage bm page p).1 = RC.RC_OK) :
    ∃ v vf, 0 ≤ p ∧ (tickAndGrow mgmt p).1 = RC.RC_OK ∧
      chooseVictim bm.strategy mgmt.frames = some v ∧ mgmt.frames[v]? = some vf ∧
      (evictVictim (tickAndGrow mgmt p).2 v vf).1 = RC.RC_OK ∧
      (loadVictim (evictVictim (tickAndGrow mgmt p).2 v vf).2 v p page).1 = RC.RC_OK ∧
      pinPage bm page p =
        (RC.RC_OK,
          { bm with
              mgmtData := some
                (loadVictim (evictVictim (tickAndGrow mgmt p).2 v vf).2 v p page).2.1 },
          (loadVictim (evictVictim (tickAndGrow mgmt p).2 v vf).2 v p page).2.2) := by
  unfold pinPage at h ⊢
  rw [hm] at h ⊢
  dsimp only at h ⊢
  by_cases hp : p < 0
  · rw [if_pos hp] at h; cases h
  · rw [if_neg hp] at h ⊢
    unfold pinPageCore at h ⊢
    dsimp only at h ⊢
    by_cases hg : (tickAndGrow mgmt p).1 = RC.RC_OK
    · rw [if_neg (by simp [hg])] at h ⊢
      unfold pinInPool at h ⊢
      rw [tickAndGrow_frames, hmiss] at h ⊢
      dsimp only at h ⊢
      cases hc : chooseVictim bm.strategy mgmt.frames with
      | none => rw [hc] at h; cases h
      | some v =>
        rw [hc] at h
        dsimp only at h ⊢
        cases hv : mgmt.frames[v]? with
        | none => rw [hv] at h; cases h
        | some vf =>
          rw [hv] at h
          dsimp only at h ⊢
          by_cases he : (evictVictim (tickAndGrow mgmt p).2 v vf).1 = RC.RC_OK
          · rw [if_neg (by simp [he])] at h ⊢
            refine ⟨v, vf, by omega, hg, rfl, hv, he, h, ?_⟩
            rw [← h]
          · rw [if_pos he] at h
            exact absurd h he
    · rw [if_pos hg] at h
      exact absurd h hg

end BufferMgr

namespace BufferMgr

/-! ## The frame a successful miss sets up -/

/-- After every successful `pinPage p` of a page that was not resident, the
frame chosen by the victim search holds `pageNum = p`, `fixCount = 1`,
`dirty = false`, and `loadTime = lastUsed =` the time counter after its
increment for this call; its bytes are those of the block of the page file at
which `readBlock` transfers page `p`, `lseek` having accepted the offset of
`p`; `readIO` has increased by exactly 1, this read being the last transfer on
the file; and the returned handle is `(p, that frame)`, its bytes the frame's. -/
theorem pinPage_miss_frame (bm : BM_BufferPool) (mgmt : BM_MgmtData) (page : BM_PageHandle)
    (p : Int) (hm : bm.mgmtData = some mgmt) (hmiss : findFrame mgmt.frames p = none)
    (hok : (pinPage bm page p).1 = RC.RC_OK) :
    ∃ mgmt' i f', (pinPage bm page p).2.1.mgmtData = some mgmt' ∧
      chooseVictim bm.strategy mgmt.frames = some i ∧
      (pinPage bm page p).2.2 = { pageNum := p, data := some i } ∧
      mgmt'.frames[i]? = some f' ∧
      f'.pageNum = p ∧ f'.fixCount = 1 ∧ f'.dirty = false ∧
      f'.loadTime = mgmt.time + 1 ∧ f'.lastUsed = mgmt.time + 1 ∧
      mgmt'.time = mgmt.time + 1 ∧
      0 ≤ seekOffset p ∧
      mgmt'.fileHandle.mgmtInfo.blocks[blockOf p]? = some f'.data ∧
      BM_MgmtData.readIO mgmt' = BM_MgmtData.readIO mgmt + 1 ∧
      (∃ earlier, mgmt'.fileHandle.mgmtInfo.journal = earlier ++ [Transfer.read (blockOf p)]) ∧
      handleBytes (pinPage bm page p).2.1 (pinPage bm page p).2.2 = some f'.data := by
  obtain ⟨v, vf, hp, hg, hc, hv, he, hl, e⟩ := pinPage_miss_ok hm hmiss hok
  obtain ⟨vf', hv', hr, el⟩ := loadVictim_ok hl
  obtain ⟨hb, hfh⟩ := readBlock_ok hr
  have hseek := readBlock_ok_seek hr
  rw [e, el]
  refine ⟨_, v, _, rfl, hc, rfl, getElem?_set_self_of hv', rfl, rfl, rfl, ?_, ?_, ?_, hseek, ?_, ?_,
    ⟨(evictVictim (tickAndGrow mgmt p).2 v vf).2.fileHandle.mgmtInfo.journal, ?_⟩, ?_⟩
  · show (evictVictim (tickAndGrow mgmt p).2 v vf).2.time = mgmt.time + 1
    rw [evictVictim_time, tickAndGrow_time]
  · show (evictVictim (tickAndGrow mgmt p).2 v vf).2.time = mgmt.time + 1
    rw [evictVictim_time, tickAndGrow_time]
  · show (evictVictim (tickAndGrow mgmt p).2 v vf).2.time = mgmt.time + 1
    rw [evictVictim_time, tickAndGrow_time]
  · dsimp only
    rw [readBlock_blocks]
    exact hb
  · show BM_MgmtData.readIO (evictVictim (tickAndGrow mgmt p).2 v vf).2 + 1 = _
    rw [evictVictim_reads, tickAndGrow_reads]
  · dsimp only
    rw [hfh]
  · unfold handleBytes
    dsimp only
    rw [getElem?_set_self_of hv']
    rfl

end BufferMgr

namespace BufferMgr

/-- The growth loop only appends zero pages. -/
theorem ensureCapacityLoop_appends :
    ∀ (n : Nat) (fh : SM_FileHandle), ∃ k : Nat, k ≤ n ∧
      (ensureCapacityLoop n fh).2.mgmtInfo.blocks =
        fh.mgmtInfo.blocks ++ List.replicate k zeroPage ∧
      (ensureCapacityLoop n fh).2.mgmtInfo.journal =
        fh.mgmtInfo.journal ++ List.replicate k Transfer.append := by
  intro n
  induction n with
  | zero => intro fh; exact ⟨0, le_refl _, by simp [ensureCapacityLoop], by simp [ensureCapacityLoop]⟩
  | succ n ih =>
    intro fh
    unfold ensureCapacityLoop
    dsimp only
    by_cases hn : fh.mgmtInfo.next.1 = Outcome.ok
    · rw [if_pos hn]
      obtain ⟨k, hk, hb, hj⟩ := ih
        { fh with
            totalNumPages := fh.totalNumPages + 1,
            mgmtInfo := { fh.mgmtInfo.next.2 with
                            blocks := fh.mgmtInfo.next.2.blocks ++ [zeroPage],
                            journal := fh.mgmtInfo.next.2.journal ++ [Transfer.append] } }
      refine ⟨k + 1, by omega, ?_, ?_⟩
      · rw [hb]
        simp [next_blocks, List.replicate_succ]
      · rw [hj]
        simp [next_journal, List.replicate_succ]
    · rw [if_neg hn]
      exact ⟨0, by omega, by simp [next_blocks], by simp [next_journal]⟩

theorem tickAndGrow_appends (mgmt0 : BM_MgmtData) (p : Int) :
    ∃ k : Nat,
      (tickAndGrow mgmt0 p).2.fileHandle.mgmtInfo.blocks =
        mgmt0.fileHandle.mgmtInfo.blocks ++ List.replicate k zeroPage ∧
      (tickAndGrow mgmt0 p).2.fileHandle.mgmtInfo.journal =
        mgmt0.fileHandle.mgmtInfo.journal ++ List.replicate k Transfer.append := by
  unfold tickAndGrow
  dsimp only
  split_ifs
  · obtain ⟨k, _, hb, hj⟩ := ensureCapacityLoop_appends
      (p + 1 - mgmt0.fileHandle.totalNumPages).toNat mgmt0.fileHandle
    exact ⟨k, hb, hj⟩
  · exact ⟨0, by simp, by simp⟩

/-! ## The write-back of the victim of a successful miss -/

/-- When a successful `pinPage p` of a page that is not resident replaces a
resident victim frame that holds page `v` with bytes `vf.data`, the file was
first grown by `k ≥ 0` zero pages (when `p` lay past its end), and then: if the
victim was dirty, the victim's bytes were written at the block at which
`writeBlock` transfers page `v` before page `p` was read (the journal ends with
this write followed by the read for `p`), that block of the page file
afterwards holds the victim's bytes, and `writeIO` has increased by exactly 1;
if the victim was clean, no block was written (the blocks are those of the
grown file, the journal gains the read for `p` only) and `writeIO` is
unchanged. -/
theorem pinPage_miss_victim (bm : BM_BufferPool) (mgmt : BM_MgmtData)
    (page : BM_PageHandle) (p : Int) (i : Nat) (vf : BM_Frame)
    (hm : bm.mgmtData = some mgmt) (hmiss : findFrame mgmt.frames p = none)
    (hok : (pinPage bm page p).1 = RC.RC_OK)
    (hc : chooseVictim bm.strategy mgmt.frames = some i) (hv : mgmt.frames[i]? = some vf)
    (hres : vf.pageNum ≠ NO_PAGE) :
    ∃ (mgmt' : BM_MgmtData) (k : Nat), (pinPage bm page p).2.1.mgmtData = some mgmt' ∧
      (vf.dirty = true →
        0 ≤ seekOffset vf.pageNum ∧
        mgmt'.fileHandle.mgmtInfo.blocks =
          storeBlock (mgmt.fileHandle.mgmtInfo.blocks ++ List.replicate k zeroPage)
            (blockOf vf.pageNum) vf.data ∧
        mgmt'.fileHandle.mgmtInfo.blocks[(blockOf vf.pageNum)]? = some vf.data ∧
        mgmt'.fileHandle.mgmtInfo.journal =
          mgmt.fileHandle.mgmtInfo.journal ++ List.replicate k Transfer.append ++
            [Transfer.write (blockOf vf.pageNum), Transfer.read (blockOf p)] ∧
        BM_MgmtData.writeIO mgmt' = BM_MgmtData.writeIO mgmt + 1) ∧
      (vf.dirty = false →
        mgmt'.fileHandle.mgmtInfo.blocks =
          mgmt.fileHandle.mgmtInfo.blocks ++ List.replicate k zeroPage ∧
        mgmt'.fileHandle.mgmtInfo.journal =
          mgmt.fileHandle.mgmtInfo.journal ++ List.replicate k Transfer.append ++
            [Transfer.read (blockOf p)] ∧
        BM_MgmtData.writeIO mgmt' = BM_MgmtData.writeIO mgmt) := by
  obtain ⟨v, vf0, hp, hg, hc', hv', he, hl, e⟩ := pinPage_miss_ok hm hmiss hok
  rw [hc] at hc'
  cases hc'
  rw [hv] at hv'
  cases hv'
  obtain ⟨vf', hvf', hr, el⟩ := loadVictim_ok hl
  obtain ⟨hb, hfh⟩ := readBlock_ok hr
  obtain ⟨k, hkb, hkj⟩ := tickAndGrow_appends mgmt p
  rw [e, el]
  refine ⟨_, k, rfl, ?_, ?_⟩
  · intro hd
    rcases evictVictim_ok he with ⟨_, _, _, hw, ee⟩ | ⟨hcl, _⟩
    · obtain ⟨_, _, ew⟩ := writeBlock_ok hw
      dsimp only
      rw [hfh]
      dsimp only
      rw [next_blocks, ee]
      dsimp only
      rw [ew]
      dsimp only
      rw [hkb, hkj, tickAndGrow_writes]
      refine ⟨writeBlock_ok_seek hw, rfl, storeBlock_getElem _ _ _, by simp, rfl⟩
    · rcases hcl with h1 | ⟨_, h2⟩
      · exact absurd h1 hres
      · rw [hd] at h2; cases h2
  · intro hd
    rcases evictVictim_ok he with ⟨_, _, h3, _, _⟩ | ⟨_, ee⟩
    · rw [hd] at h3; cases h3
    · dsimp only
      rw [hfh]
      dsimp only
      rw [next_blocks, ee, hkb, hkj, tickAndGrow_writes]
      exact ⟨rfl, rfl, rfl⟩

end BufferMgr

namespace BufferMgr

/-! ## A block layer whose calls succeed -/

theorem next_script_nil {f : OSFile} (h : f.script = []) : f.next.2.script = [] := by
  rw [next_nil h]; exact h

theorem ensureCapacityLoop_reliable :
    ∀ (n : Nat) (fh : SM_FileHandle), fh.mgmtInfo.script = [] →
      (ensureCapacityLoop n fh).1 = RC.RC_OK ∧
      (ensureCapacityLoop n fh).2.mgmtInfo.script = [] := by
  intro n
  induction n with
  | zero => intro fh h; exact ⟨rfl, h⟩
  | succ n ih =>
    intro fh h
    unfold ensureCapacityLoop
    dsimp only
    rw [next_nil h]
    dsimp only
    rw [if_pos rfl]
    exact ih _ h

theorem tickAndGrow_reliable (mgmt0 : BM_MgmtData) (p : Int)
    (h : mgmt0.fileHandle.mgmtInfo.script = []) :
    (tickAndGrow mgmt0 p).1 = RC.RC_OK ∧
      (tickAndGrow mgmt0 p).2.fileHandle.mgmtInfo.script = [] := by
  unfold tickAndGrow
  dsimp only
  split_ifs
  · exact ensureCapacityLoop_reliable _ _ h
  · exact ⟨rfl, h⟩

theorem tickAndGrow_length (mgmt0 : BM_MgmtData) (p : Int)
    (h : mgmt0.fileHandle.totalNumPages = (mgmt0.fileHandle.mgmtInfo.blocks.length : Int)) :
    (tickAndGrow mgmt0 p).2.fileHandle.totalNumPages =
      ((tickAndGrow mgmt0 p).2.fileHandle.mgmtInfo.blocks.length : Int) := by
  unfold tickAndGrow
  dsimp only
  split_ifs
  · exact ensureCapacityLoop_length _ _ h
  · exact h

/-- A write whose offset `lseek` accepts, on a file whose calls succeed. -/
theorem writeBlock_at (q : Int) (fh : SM_FileHandle) (b : PageData)
    (h : fh.mgmtInfo.script = []) (h0 : 0 ≤ q) (h1 : q < fh.totalNumPages)
    (hs : 0 ≤ seekOffset q) :
    writeBlock q fh b =
      (RC.RC_OK,
        { fh with
            mgmtInfo := { fh.mgmtInfo with
                            blocks := storeBlock fh.mgmtInfo.blocks (blockOf q) b,
                            journal := fh.mgmtInfo.journal ++ [Transfer.write (blockOf q)] } }) := by
  unfold writeBlock
  rw [if_neg (by omega), if_neg (by omega)]
  dsimp only
  rw [next_nil h]
  dsimp only
  rw [if_pos rfl]

theorem writeBlock_reliable (q : Int) (fh : SM_FileHandle) (b : PageData)
    (h : fh.mgmtInfo.script = []) (h0 : 0 ≤ q) (h1 : q < fh.totalNumPages)
    (hs : 0 ≤ seekOffset q) :
    (writeBlock q fh b).1 = RC.RC_OK ∧ (writeBlock q fh b).2.mgmtInfo.script = [] := by
  rw [writeBlock_at q fh b h h0 h1 hs]
  exact ⟨rfl, h⟩

theorem writeBlock_script_nil (q : Int) (fh : SM_FileHandle) (b : PageData)
    (h : fh.mgmtInfo.script = []) : (writeBlock q fh b).2.mgmtInfo.script = [] := by
  unfold writeBlock
  dsimp only
  rw [next_nil h]
  split
  · exact h
  · split
    · exact h
    · rw [if_pos rfl]
      exact h

/-- A read whose offset `lseek` accepts, on a file whose calls succeed. -/
theorem readBlock_at (p : Int) (fh : SM_FileHandle) (b d : PageData)
    (h : fh.mgmtInfo.script = []) (h0 : 0 ≤ p) (h1 : p < fh.totalNumPages)
    (hs : 0 ≤ seekOffset p) (hb : fh.mgmtInfo.blocks[blockOf p]? = some d) :
    readBlock p fh b =
      (RC.RC_OK,
        { fh with
            mgmtInfo := { fh.mgmtInfo with
                            journal := fh.mgmtInfo.journal ++ [Transfer.read (blockOf p)] } },
        d) := by
  unfold readBlock
  rw [if_neg (by omega), if_neg (by omega)]
  dsimp only
  rw [next_nil h]
  dsimp only
  rw [hb]
  dsimp only
  rw [if_pos rfl]

theorem readBlock_reliable (p : Int) (fh : SM_FileHandle) (b : PageData)
    (h : fh.mgmtInfo.script = []) (h0 : 0 ≤ p) (h1 : p < fh.totalNumPages)
    (hl : fh.totalNumPages = (fh.mgmtInfo.blocks.length : Int)) (hs : 0 ≤ seekOffset p) :
    (readBlock p fh b).1 = RC.RC_OK ∧ (readBlock p fh b).2.1.mgmtInfo.script = [] := by
  have hlt : blockOf p < fh.mgmtInfo.blocks.length := by
    have := blockOf_le h0 hs
    omega
  rw [readBlock_at p fh b _ h h0 h1 hs (List.getElem?_eq_getElem hlt)]
  exact ⟨rfl, h⟩

theorem readBlock_script_nil (p : Int) (fh : SM_FileHandle) (b : PageData)
    (h : fh.mgmtInfo.script = []) : (readBlock p fh b).2.1.mgmtInfo.script = [] := by
  unfold readBlock
  dsimp only
  rw [next_nil h]
  split
  · exact h
  · split
    · exact h
    · split
      · rw [if_pos rfl]; exact h
      · exact h

theorem readBlock_journal (p : Int) (fh : SM_FileHandle) (b : PageData) :
    (readBlock p fh b).2.1.mgmtInfo.journal =
      fh.mgmtInfo.journal ++
        (if (readBlock p fh b).1 = RC.RC_OK then [Transfer.read (blockOf p)] else []) := by
  unfold readBlock
  dsimp only
  split
  · simp
  · split
    · simp
    · split
      · split <;> simp [next_journal]
      · simp [next_journal]

end BufferMgr

namespace BufferMgr

theorem chooseVictim_empty {strategy : ReplacementStrategy} {frames : List BM_Frame} {i : Nat}
    (h : findFrame frames NO_PAGE = some i) : chooseVictim strategy frames = some i := by
  unfold chooseVictim
  rw [h]

theorem evictVictim_empty (mgmt : BM_MgmtData) (victim : Nat) (vf : BM_Frame)
    (h : vf.pageNum = NO_PAGE) : evictVictim mgmt victim vf = (RC.RC_OK, mgmt) := by
  unfold evictVictim
  rw [if_neg (by simp [h])]

/-- With the page not resident and frame `i` the victim, an empty frame,
`pinPage` is the growth of the file followed by the load into frame `i`. -/
theorem pinPage_empty_eq (bm : BM_BufferPool) (mgmt : BM_MgmtData) (page : BM_PageHandle)
    (p : Int) (i : Nat) (f : BM_Frame) (hm : bm.mgmtData = some mgmt) (hp : 0 ≤ p)
    (hmiss : findFrame mgmt.frames p = none)
    (hc : chooseVictim bm.strategy mgmt.frames = some i)
    (hf : mgmt.frames[i]? = some f) (he : f.pageNum = NO_PAGE) :
    pinPage bm page p =
      if (tickAndGrow mgmt p).1 ≠ RC.RC_OK then
        ((tickAndGrow mgmt p).1, { bm with mgmtData := some (tickAndGrow mgmt p).2 }, page)
      else
        ((loadVictim (tickAndGrow mgmt p).2 i p page).1,
          { bm with mgmtData := some (loadVictim (tickAndGrow mgmt p).2 i p page).2.1 },
          (loadVictim (tickAndGrow mgmt p).2 i p page).2.2) := by
  unfold pinPage
  rw [hm]
  dsimp only
  rw [if_neg (by omega)]
  unfold pinPageCore
  dsimp only
  split_ifs with hg
  · rfl
  · unfold pinInPool
    rw [tickAndGrow_frames, hmiss]
    dsimp only
    rw [hc]
    dsimp only
    rw [hf]
    dsimp only
    rw [evictVictim_empty _ _ _ he]
    dsimp only
    rw [if_neg (by simp)]

/-! ## C6 -/

/-- C6: for every strategy and every pool state in which the requested page
`p ≥ 0` is not resident and frame `i` is the lowest-index empty frame, the
victim search of `pinPage` chooses frame `i`, whatever the load times, last-used
times and pin counts of the frames are; whatever the call returns, every other
frame is unchanged, `writeIO` is unchanged and no block is written (the file is
only grown by `k ≥ 0` zero pages when `p` lay past its end, and the journal
gains no write); when the call returns `RC_OK`, the block at which `readBlock`
transfers page `p` (block `p` itself when `p < 524288`) has been loaded into
frame `i`, which the returned handle names; and the call does return `RC_OK`
when the system calls succeed on a file whose length the handle records and
`lseek` accepts the offset of page `p`, as it does when `p < 524288`. -/
theorem pinPage_uses_first_empty_frame (bm : BM_BufferPool) (mgmt : BM_MgmtData)
    (page : BM_PageHandle) (p : Int) (i : Nat) (f : BM_Frame)
    (hm : bm.mgmtData = some mgmt) (hp : 0 ≤ p)
    (hmiss : ∀ (j : Nat) (g : BM_Frame), mgmt.frames[j]? = some g → g.pageNum ≠ p)
    (hf : mgmt.frames[i]? = some f) (he : f.pageNum = NO_PAGE)
    (hlow : ∀ (j : Nat) (g : BM_Frame), j < i → mgmt.frames[j]? = some g → g.pageNum ≠ NO_PAGE) :
    chooseVictim bm.strategy mgmt.frames = some i ∧
    ∃ (mgmt' : BM_MgmtData) (k : Nat), (pinPage bm page p).2.1.mgmtData = some mgmt' ∧
      (∀ j, j ≠ i → mgmt'.frames[j]? = mgmt.frames[j]?) ∧
      BM_MgmtData.writeIO mgmt' = BM_MgmtData.writeIO mgmt ∧
      mgmt'.fileHandle.mgmtInfo.blocks =
        mgmt.fileHandle.mgmtInfo.blocks ++ List.replicate k zeroPage ∧
      mgmt'.fileHandle.mgmtInfo.journal =
        mgmt.fileHandle.mgmtInfo.journal ++ List.replicate k Transfer.append ++
          (if (pinPage bm page p).1 = RC.RC_OK then [Transfer.read (blockOf p)] else []) ∧
      ((pinPage bm page p).1 = RC.RC_OK →
        (pinPage bm page p).2.2 = { pageNum := p, data := some i } ∧
        ∃ b, mgmt'.fileHandle.mgmtInfo.blocks[blockOf p]? = some b ∧
          mgmt'.frames[i]? = some
            { pageNum := p, data := b, fixCount := 1, dirty := false,
              loadTime := mgmt.time + 1, lastUsed := mgmt.time + 1 }) ∧
      (mgmt.fileHandle.mgmtInfo.script = [] →
        mgmt.fileHandle.totalNumPages = (mgmt.fileHandle.mgmtInfo.blocks.length : Int) →
        0 ≤ seekOffset p → (pinPage bm page p).1 = RC.RC_OK) ∧
      (p < 524288 → blockOf p = p.toNat ∧ 0 ≤ seekOffset p) := by
  have hc : chooseVictim bm.strategy mgmt.frames = some i :=
    chooseVictim_empty (findFrame_eq_some_of hf he hlow)
  refine ⟨hc, ?_⟩
  have e := pinPage_empty_eq bm mgmt page p i f hm hp (findFrame_eq_none_of hmiss) hc hf he
  obtain ⟨k, hkb, hkj⟩ := tickAndGrow_appends mgmt p
  have hsmall : p < 524288 → blockOf p = p.toNat ∧ 0 ≤ seekOffset p := fun h =>
    ⟨blockOf_small hp h, by rw [seekOffset_small hp h]; omega⟩
  rw [e]
  by_cases hg : (tickAndGrow mgmt p).1 = RC.RC_OK
  · rw [if_neg (by simp [hg])]
    have hf' : (tickAndGrow mgmt p).2.frames[i]? = some f := by
      rw [tickAndGrow_frames]; exact hf
    unfold loadVictim
    rw [hf']
    dsimp only
    by_cases hr : (readBlock p (tickAndGrow mgmt p).2.fileHandle f.data).1 = RC.RC_OK
    · rw [if_neg (by simp [hr])]
      refine ⟨_, k, rfl, ?_, tickAndGrow_writes _ _, ?_, ?_, ?_, fun _ _ _ => rfl, hsmall⟩
      · intro j hj
        dsimp only
        rw [List.getElem?_set_ne (Ne.symm hj), tickAndGrow_frames]
      · dsimp only; rw [readBlock_blocks, hkb]
      · dsimp only; rw [readBlock_journal, hkj, if_pos hr, if_pos rfl]
      · intro _
        refine ⟨rfl, (readBlock p (tickAndGrow mgmt p).2.fileHandle f.data).2.2, ?_, ?_⟩
        · dsimp only; rw [readBlock_blocks]; exact (readBlock_ok hr).1
        · dsimp only
          rw [getElem?_set_self_of hf', tickAndGrow_time]
    · rw [if_pos hr]
      refine ⟨_, k, rfl, ?_, tickAndGrow_writes _ _, ?_, ?_, fun h => absurd h hr, ?_, hsmall⟩
      · intro j hj
        dsimp only
        rw [List.getElem?_set_ne (Ne.symm hj), tickAndGrow_frames]
      · dsimp only; rw [readBlock_blocks, hkb]
      · dsimp only; rw [readBlock_journal, hkj, if_neg hr]
      · intro hs hl hseek
        exfalso
        apply hr
        exact (readBlock_reliable p _ _ (tickAndGrow_reliable mgmt p hs).2 hp
          (tickAndGrow_ok_in_file mgmt p hg) (tickAndGrow_length mgmt p hl) hseek).1
  · rw [if_pos hg]
    refine ⟨_, k, rfl, ?_, tickAndGrow_writes _ _, hkb, ?_, fun h => absurd h hg, ?_, hsmall⟩
    · intro j _
      rw [tickAndGrow_frames]
    · dsimp only; rw [hkj, if_neg hg]; simp
    · intro hs _ _
      exact absurd (tickAndGrow_reliable mgmt p hs).1 hg

end BufferMgr

namespace BufferMgr

/-- C6 at a concrete pool: page 5, past the end of the file, goes to frame 1. -/
theorem pinPage_uses_first_empty_frame_witness :
    chooseVictim (demoHalfPool ReplacementStrategy.RS_LRU).strategy demoHalfMgmt.frames = some 1 ∧
    ∃ (mgmt' : BM_MgmtData) (k : Nat),
      (pinPage (demoHalfPool ReplacementStrategy.RS_LRU) blankHandle 5).2.1.mgmtData = some mgmt' ∧
      (∀ j, j ≠ 1 → mgmt'.frames[j]? = demoHalfMgmt.frames[j]?) ∧
      BM_MgmtData.writeIO mgmt' = BM_MgmtData.writeIO demoHalfMgmt ∧
      mgmt'.fileHandle.mgmtInfo.blocks =
        demoHalfMgmt.fileHandle.mgmtInfo.blocks ++ List.replicate k zeroPage ∧
      mgmt'.fileHandle.mgmtInfo.journal =
        demoHalfMgmt.fileHandle.mgmtInfo.journal ++ List.replicate k Transfer.append ++
          (if (pinPage (demoHalfPool ReplacementStrategy.RS_LRU) blankHandle 5).1 = RC.RC_OK
            then [Transfer.read (blockOf 5)] else []) ∧
      ((pinPage (demoHalfPool ReplacementStrategy.RS_LRU) blankHandle 5).1 = RC.RC_OK →
        (pinPage (demoHalfPool ReplacementStrategy.RS_LRU) blankHandle 5).2.2
          = { pageNum := 5, data := some 1 } ∧
        ∃ b, mgmt'.fileHandle.mgmtInfo.blocks[blockOf 5]? = some b ∧
          mgmt'.frames[1]? = some
            { pageNum := 5, data := b, fixCount := 1, dirty := false,
              loadTime := demoHalfMgmt.time + 1, lastUsed := demoHalfMgmt.time + 1 }) ∧
      (demoHalfMgmt.fileHandle.mgmtInfo.script = [] →
        demoHalfMgmt.fileHandle.totalNumPages
          = (demoHalfMgmt.fileHandle.mgmtInfo.blocks.length : Int) →
        0 ≤ seekOffset 5 →
        (pinPage (demoHalfPool ReplacementStrategy.RS_LRU) blankHandle 5).1 = RC.RC_OK) ∧
      ((5 : Int) < 524288 → blockOf 5 = (5 : Int).toNat ∧ 0 ≤ seekOffset 5) :=
  pinPage_uses_first_empty_frame (demoHalfPool ReplacementStrategy.RS_LRU) demoHalfMgmt
    blankHandle 5 1 emptyFrame rfl (by decide)
    (findFrame_none (by rfl))
    rfl rfl
    (fun j g hj hg => by
      have hj0 : j = 0 := by omega
      subst hj0
      have hg' : g = demoPinnedFrame := by
        have : demoHalfMgmt.frames[0]? = some demoPinnedFrame := rfl
        rw [this] at hg
        exact (Option.some.inj hg).symm
      rw [hg']
      decide)

end BufferMgr

namespace BufferMgr

/-! ## The victim loop computes the policy victim -/

theorem getElem?_append_singleton {α : Type} {l : List α} {a b : α} {j : Nat}
    (h : (l ++ [a])[j]? = some b) : (j < l.length ∧ l[j]? = some b) ∨ (j = l.length ∧ b = a) := by
  by_cases hj : j < l.length
  · left
    rw [List.getElem?_append_left hj] at h
    exact ⟨hj, h⟩
  · right
    push_neg at hj
    rw [List.getElem?_append_right hj] at h
    have h0 : j - l.length = 0 := by
      by_contra hne
      have : 1 ≤ j - l.length := by omega
      rw [List.getElem?_eq_none (by simpa using this)] at h
      cases h
    rw [h0] at h
    simp at h
    exact ⟨by omega, h.symm⟩

theorem getElem?_append_of_some {α : Type} {l : List α} {b : α} {j : Nat} (l' : List α)
    (h : l[j]? = some b) : (l ++ l')[j]? = some b := by
  have hj : j < l.length := (List.getElem?_eq_some.mp h).1
  rw [List.getElem?_append_left hj]
  exact h

/-- The state of the victim loop after the frames `pre`: nothing chosen yet and
all of them pinned, or the policy victim of `pre` with its metric. -/
theorem selectLoop_spec (strategy : ReplacementStrategy) :
    ∀ (fs pre : List BM_Frame) (mm : Int) (v : Option Nat),
      (∀ (j : Nat) (g : BM_Frame), (pre ++ fs)[j]? = some g → g.fixCount = 0 →
        metricOf strategy g ≠ -1) →
      ((v = none ∧ mm = -1 ∧ ∀ (j : Nat) (g : BM_Frame), pre[j]? = some g → g.fixCount ≠ 0) ∨
        (∃ k f, v = some k ∧ IsPolicyVictim (metricOf strategy) pre k ∧ pre[k]? = some f ∧
          mm = metricOf strategy f)) →
      ((selectLoop strategy fs pre.length mm v = none ∧
          ∀ (j : Nat) (g : BM_Frame), (pre ++ fs)[j]? = some g → g.fixCount ≠ 0) ∨
        (∃ k, selectLoop strategy fs pre.length mm v = some k ∧
          IsPolicyVictim (metricOf strategy) (pre ++ fs) k)) := by
  intro fs
  induction fs with
  | nil =>
    intro pre mm v _ hacc
    simp only [List.append_nil, selectLoop]
    rcases hacc with ⟨hv, _, hall⟩ | ⟨k, f, hv, hk, _, _⟩
    · exact Or.inl ⟨hv, hall⟩
    · exact Or.inr ⟨k, hv, hk⟩
  | cons f fs ih =>
    intro pre mm v hmetric hacc
    have happ : pre ++ f :: fs = (pre ++ [f]) ++ fs := by simp
    have hlen : (pre ++ [f]).length = pre.length + 1 := by simp
    have hfat : (pre ++ [f])[pre.length]? = some f := by simp
    rw [happ] at hmetric ⊢
    unfold selectLoop
    rw [← hlen]
    by_cases hfix : f.fixCount = 0
    · rw [if_pos hfix]
      have hfm : metricOf strategy f ≠ -1 :=
        hmetric pre.length f (getElem?_append_of_some fs hfat) hfix
      by_cases hlt : mm = -1 ∨ metricOf strategy f < mm
      · rw [if_pos hlt]
        apply ih (pre ++ [f]) _ _ hmetric
        right
        refine ⟨pre.length, f, rfl, ⟨f, hfat, hfix, ?_⟩, hfat, rfl⟩
        intro j g hg hg0
        rcases getElem?_append_singleton hg with ⟨hj, hg'⟩ | ⟨hj, rfl⟩
        · rcases hacc with ⟨_, _, hall⟩ | ⟨k, fk, _, ⟨fk', hfk', hfk0, hmin⟩, hfk, hmm⟩
          · exact absurd hg0 (hall j g hg')
          · rw [hfk] at hfk'
            cases hfk'
            have hkm : metricOf strategy fk ≠ -1 :=
              hmetric k fk (getElem?_append_of_some fs (getElem?_append_of_some [f] hfk)) hfk0
            have h1 := (hmin j g hg' hg0).1
            have h2 : metricOf strategy f < metricOf strategy fk := by
              rcases hlt with h | h
              · rw [hmm] at h; exact absurd h hkm
              · rw [hmm] at h; exact h
            exact ⟨by omega, fun _ => by omega⟩
        · exact ⟨le_refl _, fun h => by omega⟩
      · rw [if_neg hlt]
        push_neg at hlt
        apply ih (pre ++ [f]) _ _ hmetric
        rcases hacc with ⟨_, hmm, _⟩ | ⟨k, fk, hv, ⟨fk', hfk', hfk0, hmin⟩, hfk, hmm⟩
        · exact absurd hmm hlt.1
        · right
          rw [hfk] at hfk'
          cases hfk'
          have hklt : k < pre.length := (List.getElem?_eq_some.mp hfk).1
          refine ⟨k, fk, hv, ⟨fk, getElem?_append_of_some [f] hfk, hfk0, ?_⟩,
            getElem?_append_of_some [f] hfk, hmm⟩
          intro j g hg hg0
          rcases getElem?_append_singleton hg with ⟨hj, hg'⟩ | ⟨hj, rfl⟩
          · exact hmin j g hg' hg0
          · exact ⟨by rw [← hmm]; exact hlt.2, fun h => by omega⟩
    · rw [if_neg hfix]
      apply ih (pre ++ [f]) _ _ hmetric
      rcases hacc with ⟨hv, hmm, hall⟩ | ⟨k, fk, hv, ⟨fk', hfk', hfk0, hmin⟩, hfk, hmm⟩
      · left
        refine ⟨hv, hmm, ?_⟩
        intro j g hg
        rcases getElem?_append_singleton hg with ⟨hj, hg'⟩ | ⟨hj, rfl⟩
        · exact hall j g hg'
        · exact hfix
      · right
        rw [hfk] at hfk'
        cases hfk'
        refine ⟨k, fk, hv, ⟨fk, getElem?_append_of_some [f] hfk, hfk0, ?_⟩,
          getElem?_append_of_some [f] hfk, hmm⟩
        intro j g hg hg0
        rcases getElem?_append_singleton hg with ⟨hj, hg'⟩ | ⟨hj, rfl⟩
        · exact hmin j g hg' hg0
        · exact absurd hg0 hfix

end BufferMgr

namespace BufferMgr

/-- Without an empty frame, and with no unpinned frame whose metric is the `-1`
of an unset `minMetric`, the victim search fails exactly when every frame is
pinned and otherwise returns the policy victim. -/
theorem chooseVictim_policy (strategy : ReplacementStrategy) (frames : List BM_Frame)
    (hfull : findFrame frames NO_PAGE = none)
    (hmetric : ∀ (j : Nat) (g : BM_Frame), frames[j]? = some g → g.fixCount = 0 →
      metricOf strategy g ≠ -1) :
    (chooseVictim strategy frames = none ∧
        ∀ (j : Nat) (g : BM_Frame), frames[j]? = some g → g.fixCount ≠ 0) ∨
      (∃ k, chooseVictim strategy frames = some k ∧
        IsPolicyVictim (metricOf strategy) frames k) := by
  unfold chooseVictim
  rw [hfull]
  dsimp only
  have h := selectLoop_spec strategy frames [] (-1) none (by simpa using hmetric)
    (Or.inl ⟨rfl, rfl, by intro j g hg; simp at hg⟩)
  simpa using h

theorem metricOf_nonneg (strategy : ReplacementStrategy) {total : Int} {g : BM_Frame}
    (h : FrameOK total g) : metricOf strategy g ≠ -1 := by
  have h1 := h.load_nonneg
  have h2 := h.used_nonneg
  unfold metricOf
  cases strategy <;> dsimp only <;> omega

theorem evictVictim_reliable {mgmt : BM_MgmtData} (hwf : WellFormed mgmt)
    (hs : mgmt.fileHandle.mgmtInfo.script = []) {victim : Nat} {vf : BM_Frame}
    (hv : mgmt.frames[victim]? = some vf) (hfree : vf.pageNum = NO_PAGE ∨ vf.fixCount = 0) :
    (evictVictim mgmt victim vf).1 = RC.RC_OK ∧
      (evictVictim mgmt victim vf).2.fileHandle.mgmtInfo.script = [] := by
  unfold evictVictim
  by_cases h1 : vf.pageNum ≠ NO_PAGE
  · rw [if_pos h1]
    have h2 : vf.fixCount = 0 := by
      rcases hfree with h | h
      · exact absurd h h1
      · exact h
    rw [if_neg (by simp [h2])]
    by_cases h3 : vf.dirty = true
    · rw [if_pos h3]
      dsimp only
      have hr := (hwf.frames_ok victim vf hv).page_range
      rcases hr with hr | ⟨hr0, hr1⟩
      · exact absurd hr h1
      · obtain ⟨hw, hws⟩ := writeBlock_reliable vf.pageNum mgmt.fileHandle vf.data hs hr0 hr1
          ((hwf.frames_ok victim vf hv).page_seek h1)
        rw [if_neg (by simp [hw])]
        exact ⟨rfl, hws⟩
    · rw [if_neg h3]
      exact ⟨rfl, hs⟩
  · rw [if_neg h1]
    exact ⟨rfl, hs⟩

theorem evictVictim_getElem_some (mgmt : BM_MgmtData) (victim : Nat) (vf : BM_Frame)
    (hv : mgmt.frames[victim]? = some vf) :
    ∃ vf', (evictVictim mgmt victim vf).2.frames[victim]? = some vf' := by
  rcases evictVictim_frames_cases mgmt victim vf with e | e
  · rw [e]; exact ⟨vf, hv⟩
  · rw [e]; exact ⟨_, getElem?_set_self_of hv⟩

theorem loadVictim_reliable {mgmt : BM_MgmtData} {victim : Nat} {vf : BM_Frame} (p : Int)
    (page : BM_PageHandle) (hv : mgmt.frames[victim]? = some vf)
    (hs : mgmt.fileHandle.mgmtInfo.script = []) (h0 : 0 ≤ p)
    (h1 : p < mgmt.fileHandle.totalNumPages)
    (hl : mgmt.fileHandle.totalNumPages = (mgmt.fileHandle.mgmtInfo.blocks.length : Int))
    (hseek : 0 ≤ seekOffset p) :
    (loadVictim mgmt victim p page).1 = RC.RC_OK := by
  unfold loadVictim
  rw [hv]
  dsimp only
  rw [if_neg (by simp [(readBlock_reliable p mgmt.fileHandle vf.data hs h0 h1 hl hseek).1])]

/-- A read at an offset that `lseek` rejects fails and changes nothing. -/
theorem readBlock_seek_failed (p : Int) (fh : SM_FileHandle) (b : PageData)
    (h0 : 0 ≤ p) (h1 : p < fh.totalNumPages) (hs : seekOffset p < 0) :
    readBlock p fh b = (RC.RC_READ_NON_EXISTING_PAGE, fh, b) := by
  unfold readBlock
  rw [if_neg (by omega), if_pos hs]

/-- A write at an offset that `lseek` rejects fails and changes nothing. -/
theorem writeBlock_seek_failed (q : Int) (fh : SM_FileHandle) (b : PageData)
    (h0 : 0 ≤ q) (h1 : q < fh.totalNumPages) (hs : seekOffset q < 0) :
    writeBlock q fh b = (RC.RC_WRITE_FAILED, fh) := by
  unfold writeBlock
  rw [if_neg (by omega), if_pos hs]

/-- With system calls that succeed, `pinInPool` fails only for want of a victim
or, on a miss, because `lseek` rejects the offset of the page. -/
theorem pinInPool_reliable_rc (strategy : ReplacementStrategy) {mgmt : BM_MgmtData}
    (page : BM_PageHandle) (p : Int) (hwf : WellFormed mgmt)
    (hs : mgmt.fileHandle.mgmtInfo.script = []) (h0 : 0 ≤ p)
    (h1 : p < mgmt.fileHandle.totalNumPages) :
    (pinInPool strategy mgmt page p).1 =
      if findFrame mgmt.frames p = none ∧ chooseVictim strategy mgmt.frames = none then
        RC.RC_IM_NO_MORE_ENTRIES
      else if findFrame mgmt.frames p = none ∧ seekOffset p < 0 then
        RC.RC_READ_NON_EXISTING_PAGE
      else RC.RC_OK := by
  unfold pinInPool
  cases hfind : findFrame mgmt.frames p with
  | some i =>
    obtain ⟨f, hf, _, _⟩ := findFrame_some hfind
    dsimp only
    rw [hf, if_neg (by simp), if_neg (by simp)]
  | none =>
    dsimp only
    cases hc : chooseVictim strategy mgmt.frames with
    | none => rw [if_pos ⟨rfl, rfl⟩]
    | some v =>
      rw [if_neg (by simp)]
      obtain ⟨vf, hv, hfree⟩ := chooseVictim_some hc
      dsimp only
      rw [hv]
      dsimp only
      obtain ⟨he, hes⟩ := evictVictim_reliable hwf hs hv hfree
      rw [if_neg (by simp [he])]
      obtain ⟨vf', hv'⟩ := evictVictim_getElem_some mgmt v vf hv
      have hwf' := evictVictim_wf hwf hv
      by_cases hseek : seekOffset p < 0
      · rw [if_pos ⟨rfl, hseek⟩]
        unfold loadVictim
        rw [hv']
        dsimp only
        rw [readBlock_seek_failed p _ _ h0 (by rw [evictVictim_total]; exact h1) hseek]
        dsimp only
        rw [if_pos (by decide)]
      · rw [if_neg (by simp [hseek])]
        exact loadVictim_reliable p page hv' hes h0 (by rw [evictVictim_total]; exact h1)
          hwf'.file_len (by omega)

/-- With system calls that succeed, `pinPage` of a page `p ≥ 0` on a well-formed
pool fails only for want of a victim or, on a miss, because `lseek` rejects the
offset of the page. -/
theorem pinPage_reliable_rc (bm : BM_BufferPool) {mgmt : BM_MgmtData} (page : BM_PageHandle)
    (p : Int) (hm : bm.mgmtData = some mgmt) (hwf : WellFormed mgmt)
    (hs : mgmt.fileHandle.mgmtInfo.script = []) (h0 : 0 ≤ p) :
    (pinPage bm page p).1 =
      if findFrame mgmt.frames p = none ∧ chooseVictim bm.strategy mgmt.frames = none then
        RC.RC_IM_NO_MORE_ENTRIES
      else if findFrame mgmt.frames p = none ∧ seekOffset p < 0 then
        RC.RC_READ_NON_EXISTING_PAGE
      else RC.RC_OK := by
  unfold pinPage
  rw [hm]
  dsimp only
  rw [if_neg (by omega)]
  unfold pinPageCore
  dsimp only
  obtain ⟨hg, hgs⟩ := tickAndGrow_reliable mgmt p hs
  rw [if_neg (by simp [hg])]
  rw [pinInPool_reliable_rc bm.strategy page p (tickAndGrow_wf hwf p) hgs h0
    (tickAndGrow_ok_in_file mgmt p hg), tickAndGrow_frames]

end BufferMgr

namespace BufferMgr

/-! ## C7 -/

/-- C7: with system calls that succeed, for every reachable pool state and
every page number `p ≥ 0`, `pinPage p` returns `RC_IM_NO_MORE_ENTRIES` if and
only if no frame holds `p` and every frame is resident with `fixCount > 0`; in
every other case it returns `RC_OK`, the `lseek` of the block layer succeeding
too: it accepts the offset of page `p`, as it does for every `p < 524288`. -/
theorem pinPage_fails_iff_all_pinned (bm : BM_BufferPool) (mgmt : BM_MgmtData)
    (page : BM_PageHandle) (p : Int) (hr : Reachable bm) (hm : bm.mgmtData = some mgmt)
    (hs : mgmt.fileHandle.mgmtInfo.script = []) (hp : 0 ≤ p) :
    ((pinPage bm page p).1 = RC.RC_IM_NO_MORE_ENTRIES ↔
        ∀ (j : Nat) (g : BM_Frame), mgmt.frames[j]? = some g →
          g.pageNum ≠ p ∧ g.pageNum ≠ NO_PAGE ∧ 0 < g.fixCount) ∧
      ((pinPage bm page p).1 ≠ RC.RC_IM_NO_MORE_ENTRIES → 0 ≤ seekOffset p →
        (pinPage bm page p).1 = RC.RC_OK) ∧
      (p < 524288 → 0 ≤ seekOffset p) := by
  have hwf := reachable_ok hr mgmt hm
  rw [pinPage_reliable_rc bm page p hm hwf hs hp]
  refine ⟨?_, ?_, fun h => by rw [seekOffset_small hp h]; omega⟩
  · constructor
    · intro h
      by_cases hcond : findFrame mgmt.frames p = none ∧ chooseVictim bm.strategy mgmt.frames = none
      · obtain ⟨hfind, hc⟩ := hcond
        have hfull : findFrame mgmt.frames NO_PAGE = none := by
          cases he : findFrame mgmt.frames NO_PAGE with
          | none => rfl
          | some i => rw [chooseVictim_empty he] at hc; cases hc
        have hpol := chooseVictim_policy bm.strategy mgmt.frames hfull
          (fun j g hg _ => metricOf_nonneg bm.strategy (hwf.frames_ok j g hg))
        rcases hpol with ⟨_, hall⟩ | ⟨k, hk, _⟩
        · intro j g hg
          have h1 := (hwf.frames_ok j g hg).fix_nonneg
          have h2 := hall j g hg
          exact ⟨findFrame_none hfind j g hg, findFrame_none hfull j g hg, by omega⟩
        · rw [hc] at hk; cases hk
      · rw [if_neg hcond] at h
        split_ifs at h
    · intro hall
      have hfind : findFrame mgmt.frames p = none :=
        findFrame_eq_none_of (fun j g hg => (hall j g hg).1)
      have hc : chooseVictim bm.strategy mgmt.frames = none := by
        cases hc : chooseVictim bm.strategy mgmt.frames with
        | none => rfl
        | some v =>
          obtain ⟨vf, hv, hfree⟩ := chooseVictim_some hc
          obtain ⟨_, h2, h3⟩ := hall v vf hv
          rcases hfree with h | h
          · exact absurd h h2
          · omega
      rw [if_pos ⟨hfind, hc⟩]
  · intro h hseek
    by_cases hcond : findFrame mgmt.frames p = none ∧ chooseVictim bm.strategy mgmt.frames = none
    · rw [if_pos hcond] at h; exact absurd rfl h
    · rw [if_neg hcond, if_neg (by intro hx; omega)]

/-- C7 at the pool of one frame with page 0 pinned: the pin of page 1 fails. -/
theorem pinPage_fails_iff_all_pinned_witness :
    ((pinPage pinnedOnePool blankHandle 1).1 = RC.RC_IM_NO_MORE_ENTRIES ↔
        ∀ (j : Nat) (g : BM_Frame), pinnedOneMgmt.frames[j]? = some g →
          g.pageNum ≠ 1 ∧ g.pageNum ≠ NO_PAGE ∧ 0 < g.fixCount) ∧
      ((pinPage pinnedOnePool blankHandle 1).1 ≠ RC.RC_IM_NO_MORE_ENTRIES → 0 ≤ seekOffset 1 →
        (pinPage pinnedOnePool blankHandle 1).1 = RC.RC_OK) ∧
      ((1 : Int) < 524288 → 0 ≤ seekOffset 1) :=
  pinPage_fails_iff_all_pinned pinnedOnePool pinnedOneMgmt blankHandle 1
    (reachable_freshPool_run 1 _ _ (by decide)) rfl rfl (by decide)

end BufferMgr

namespace BufferMgr

/-! ## The replacement of the policy victim -/

/-- On a miss the frames other than the chosen victim are left as they are,
whatever the call returns. -/
theorem pinPage_miss_other_frames (bm : BM_BufferPool) (mgmt : BM_MgmtData)
    (page : BM_PageHandle) (p : Int) (k : Nat) (hm : bm.mgmtData = some mgmt)
    (hmiss : findFrame mgmt.frames p = none)
    (hc : chooseVictim bm.strategy mgmt.frames = some k) :
    ∃ mgmt', (pinPage bm page p).2.1.mgmtData = some mgmt' ∧
      ∀ j, j ≠ k → mgmt'.frames[j]? = mgmt.frames[j]? := by
  unfold pinPage
  rw [hm]
  dsimp only
  split_ifs
  · exact ⟨mgmt, hm, fun _ _ => rfl⟩
  · refine ⟨_, rfl, ?_⟩
    intro j hj
    unfold pinPageCore
    dsimp only
    split_ifs
    · rw [tickAndGrow_frames]
    · unfold pinInPool
      rw [tickAndGrow_frames, hmiss]
      dsimp only
      rw [hc]
      dsimp only
      split
      · rw [tickAndGrow_frames]
      · split_ifs
        · rw [evictVictim_getElem_ne _ _ _ _ hj, tickAndGrow_frames]
        · rw [loadVictim_getElem_ne _ _ _ _ _ hj, evictVictim_getElem_ne _ _ _ _ hj,
            tickAndGrow_frames]

/-- In a reachable pool without an empty frame and with an unpinned frame, a
`pinPage` of a page that is not resident chooses the policy victim of the pool's
strategy, leaves every other frame as it is, puts the page into the victim frame
when it returns `RC_OK`, and does return `RC_OK` when the system calls succeed. -/
theorem pinPage_policy_miss (bm : BM_BufferPool) (mgmt : BM_MgmtData) (page : BM_PageHandle)
    (p : Int) (hr : Reachable bm) (hm : bm.mgmtData = some mgmt) (hp : 0 ≤ p)
    (hmiss : ∀ (j : Nat) (g : BM_Frame), mgmt.frames[j]? = some g → g.pageNum ≠ p)
    (hfull : ∀ (j : Nat) (g : BM_Frame), mgmt.frames[j]? = some g → g.pageNum ≠ NO_PAGE)
    (hfree : ∃ (j : Nat) (g : BM_Frame), mgmt.frames[j]? = some g ∧ g.fixCount = 0) :
    ∃ k, IsPolicyVictim (metricOf bm.strategy) mgmt.frames k ∧
      chooseVictim bm.strategy mgmt.frames = some k ∧
      ∃ mgmt', (pinPage bm page p).2.1.mgmtData = some mgmt' ∧
        (∀ j, j ≠ k → mgmt'.frames[j]? = mgmt.frames[j]?) ∧
        ((pinPage bm page p).1 = RC.RC_OK →
          (∃ f', mgmt'.frames[k]? = some f' ∧ f'.pageNum = p) ∧
          (pinPage bm page p).2.2 = { pageNum := p, data := some k }) ∧
        (mgmt.fileHandle.mgmtInfo.script = [] → 0 ≤ seekOffset p →
          (pinPage bm page p).1 = RC.RC_OK) := by
  have hwf := reachable_ok hr mgmt hm
  have hfind := findFrame_eq_none_of hmiss
  have hpol := chooseVictim_policy bm.strategy mgmt.frames (findFrame_eq_none_of hfull)
    (fun j g hg _ => metricOf_nonneg bm.strategy (hwf.frames_ok j g hg))
  rcases hpol with ⟨_, hall⟩ | ⟨k, hk, hvic⟩
  · obtain ⟨j, g, hg, hg0⟩ := hfree
    exact absurd hg0 (hall j g hg)
  · refine ⟨k, hvic, hk, ?_⟩
    obtain ⟨mgmt', hm', hother⟩ := pinPage_miss_other_frames bm mgmt page p k hm hfind hk
    refine ⟨mgmt', hm', hother, ?_, ?_⟩
    · intro hok
      obtain ⟨v, vf, _, _, hc', _, _, hl, e⟩ := pinPage_miss_ok hm hfind hok
      rw [hk] at hc'
      cases hc'
      obtain ⟨vf', hv', _, el⟩ := loadVictim_ok hl
      rw [e, el] at hm' ⊢
      cases hm'
      exact ⟨⟨_, getElem?_set_self_of hv', rfl⟩, rfl⟩
    · intro hs hseek
      rw [pinPage_reliable_rc bm page p hm hwf hs hp, if_neg (by simp [hk]),
        if_neg (by intro hx; omega)]

end BufferMgr

namespace BufferMgr

/-! ## C4 -/

/-- C4: under strategy FIFO, for every reachable pool state with no empty frame
and at least one frame with `fixCount = 0`, a `pinPage p` (`p ≥ 0`) of a page
that is not resident chooses as victim the lowest-index frame among the
unpinned frames whose `loadTime` is minimal; every other frame is left
unchanged (its page number in particular), whatever the call returns; when the
call returns `RC_OK` the victim frame holds page `p` and the handle names it,
and the call does return `RC_OK` when the system calls succeed and `lseek`
accepts the offset of page `p`.  Scenario S1
with three frames: after pin/unpin of pages 0, 1 and 2, `pinPage 3` returns
`RC_OK` and gives the frame contents `[3, 1, 2]`, `readIO = 4`, `writeIO = 0`. -/
theorem pinPage_fifo_replaces_oldest :
    (∀ (bm : BM_BufferPool) (mgmt : BM_MgmtData) (page : BM_PageHandle) (p : Int),
        Reachable bm → bm.mgmtData = some mgmt → bm.strategy = ReplacementStrategy.RS_FIFO →
        0 ≤ p →
        (∀ (j : Nat) (g : BM_Frame), mgmt.frames[j]? = some g → g.pageNum ≠ p) →
        (∀ (j : Nat) (g : BM_Frame), mgmt.frames[j]? = some g → g.pageNum ≠ NO_PAGE) →
        (∃ (j : Nat) (g : BM_Frame), mgmt.frames[j]? = some g ∧ g.fixCount = 0) →
        ∃ k, IsPolicyVictim (fun f => f.loadTime) mgmt.frames k ∧
          chooseVictim ReplacementStrategy.RS_FIFO mgmt.frames = some k ∧
          ∃ mgmt', (pinPage bm page p).2.1.mgmtData = some mgmt' ∧
            (∀ j, j ≠ k → mgmt'.frames[j]? = mgmt.frames[j]?) ∧
            ((pinPage bm page p).1 = RC.RC_OK →
              (∃ f', mgmt'.frames[k]? = some f' ∧ f'.pageNum = p) ∧
              (pinPage bm page p).2.2 = { pageNum := p, data := some k }) ∧
            (mgmt.fileHandle.mgmtInfo.script = [] → 0 ≤ seekOffset p →
              (pinPage bm page p).1 = RC.RC_OK)) ∧
    (getFrameContents (poolS1 ReplacementStrategy.RS_FIFO) = some [0, 1, 2] ∧
      (pinPage (poolS1 ReplacementStrategy.RS_FIFO) blankHandle 3).1 = RC.RC_OK ∧
      getFrameContents (pinPage (poolS1 ReplacementStrategy.RS_FIFO) blankHandle 3).2.1
        = some [3, 1, 2] ∧
      getNumReadIO (pinPage (poolS1 ReplacementStrategy.RS_FIFO) blankHandle 3).2.1 = 4 ∧
      getNumWriteIO (pinPage (poolS1 ReplacementStrategy.RS_FIFO) blankHandle 3).2.1 = 0) := by
  constructor
  · intro bm mgmt page p hr hm hs hp hmiss hfull hfree
    have h := pinPage_policy_miss bm mgmt page p hr hm hp hmiss hfull hfree
    rw [hs] at h
    exact h
  · exact ⟨rfl, rfl, rfl, rfl, rfl⟩

/-- C4 at the pool of scenario S1: page 3 is requested, frame 0 is the victim. -/
theorem pinPage_fifo_replaces_oldest_witness :
    ∃ k, IsPolicyVictim (fun f => f.loadTime) mgmtS1.frames k ∧
      chooseVictim ReplacementStrategy.RS_FIFO mgmtS1.frames = some k ∧
      ∃ mgmt', (pinPage (poolS1 ReplacementStrategy.RS_FIFO) blankHandle 3).2.1.mgmtData
          = some mgmt' ∧
        (∀ j, j ≠ k → mgmt'.frames[j]? = mgmtS1.frames[j]?) ∧
        ((pinPage (poolS1 ReplacementStrategy.RS_FIFO) blankHandle 3).1 = RC.RC_OK →
          (∃ f', mgmt'.frames[k]? = some f' ∧ f'.pageNum = 3) ∧
          (pinPage (poolS1 ReplacementStrategy.RS_FIFO) blankHandle 3).2.2
            = { pageNum := 3, data := some k }) ∧
        (mgmtS1.fileHandle.mgmtInfo.script = [] → 0 ≤ seekOffset 3 →
          (pinPage (poolS1 ReplacementStrategy.RS_FIFO) blankHandle 3).1 = RC.RC_OK) :=
  pinPage_fifo_replaces_oldest.1 (poolS1 ReplacementStrategy.RS_FIFO) mgmtS1 blankHandle 3
    (reachable_freshPool_run 3 _ _ (by decide)) rfl rfl (by decide)
    (findFrame_none (by rfl)) (findFrame_none (by rfl)) ⟨0, _, rfl, rfl⟩

end BufferMgr

namespace BufferMgr

/-! ## C5 -/

theorem selectLoop_lru_k :
    ∀ (fs : List BM_Frame) (i : Nat) (mm : Int) (v : Option Nat),
      selectLoop ReplacementStrategy.RS_LRU_K fs i mm v =
        selectLoop ReplacementStrategy.RS_LRU fs i mm v := by
  intro fs
  induction fs with
  | nil => intro i mm v; rfl
  | cons f fs ih =>
    intro i mm v
    unfold selectLoop
    have hm : metricOf ReplacementStrategy.RS_LRU_K f = metricOf ReplacementStrategy.RS_LRU f :=
      rfl
    rw [hm, ih, ih]

theorem pinPageCore_lru_k (mgmt : BM_MgmtData) (page : BM_PageHandle) (p : Int) :
    pinPageCore ReplacementStrategy.RS_LRU_K mgmt page p =
      pinPageCore ReplacementStrategy.RS_LRU mgmt page p := by
  have hc : ∀ frames, chooseVictim ReplacementStrategy.RS_LRU_K frames =
      chooseVictim ReplacementStrategy.RS_LRU frames := by
    intro frames
    unfold chooseVictim
    rw [selectLoop_lru_k]
  unfold pinPageCore pinInPool
  simp only [hc]

/-- C5: under strategy LRU, and identically under the tag LRU_K, for every
reachable pool state with no empty frame and at least one frame with
`fixCount = 0`, a `pinPage p` (`p ≥ 0`) of a page that is not resident chooses
as victim the lowest-index frame among the unpinned frames whose `lastUsed` is
minimal, leaves every other frame unchanged, puts page `p` into the victim
frame when it returns `RC_OK`, and returns `RC_OK` when the system calls
succeed and `lseek` accepts the offset of page `p`; for every pool and call, the code, the handle and the whole management
data that `pinPage` yields under LRU_K are those it yields under LRU.  Scenario
S2 with three frames: after pin/unpin of pages 0, 1, 2 and again 0,
`pinPage 3` gives the frame contents `[0, 3, 2]`, under both tags. -/
theorem pinPage_lru_replaces_least_recent :
    (∀ (bm : BM_BufferPool) (mgmt : BM_MgmtData) (page : BM_PageHandle) (p : Int),
        Reachable bm → bm.mgmtData = some mgmt →
        bm.strategy = ReplacementStrategy.RS_LRU ∨ bm.strategy = ReplacementStrategy.RS_LRU_K →
        0 ≤ p →
        (∀ (j : Nat) (g : BM_Frame), mgmt.frames[j]? = some g → g.pageNum ≠ p) →
        (∀ (j : Nat) (g : BM_Frame), mgmt.frames[j]? = some g → g.pageNum ≠ NO_PAGE) →
        (∃ (j : Nat) (g : BM_Frame), mgmt.frames[j]? = some g ∧ g.fixCount = 0) →
        ∃ k, IsPolicyVictim (fun f => f.lastUsed) mgmt.frames k ∧
          chooseVictim bm.strategy mgmt.frames = some k ∧
          ∃ mgmt', (pinPage bm page p).2.1.mgmtData = some mgmt' ∧
            (∀ j, j ≠ k → mgmt'.frames[j]? = mgmt.frames[j]?) ∧
            ((pinPage bm page p).1 = RC.RC_OK →
              (∃ f', mgmt'.frames[k]? = some f' ∧ f'.pageNum = p) ∧
              (pinPage bm page p).2.2 = { pageNum := p, data := some k }) ∧
            (mgmt.fileHandle.mgmtInfo.script = [] → 0 ≤ seekOffset p →
              (pinPage bm page p).1 = RC.RC_OK)) ∧
    (∀ (bm : BM_BufferPool) (page : BM_PageHandle) (p : Int),
        (pinPage { bm with strategy := ReplacementStrategy.RS_LRU_K } page p).1 =
          (pinPage { bm with strategy := ReplacementStrategy.RS_LRU } page p).1 ∧
        (pinPage { bm with strategy := ReplacementStrategy.RS_LRU_K } page p).2.2 =
          (pinPage { bm with strategy := ReplacementStrategy.RS_LRU } page p).2.2 ∧
        (pinPage { bm with strategy := ReplacementStrategy.RS_LRU_K } page p).2.1.mgmtData =
          (pinPage { bm with strategy := ReplacementStrategy.RS_LRU } page p).2.1.mgmtData) ∧
    (∀ strategy,
        strategy = ReplacementStrategy.RS_LRU ∨ strategy = ReplacementStrategy.RS_LRU_K →
        getFrameContents (poolS2 strategy) = some [0, 1, 2] ∧
        (pinPage (poolS2 strategy) blankHandle 3).1 = RC.RC_OK ∧
        getFrameContents (pinPage (poolS2 strategy) blankHandle 3).2.1 = some [0, 3, 2]) := by
  refine ⟨?_, ?_, ?_⟩
  · intro bm mgmt page p hr hm hs hp hmiss hfull hfree
    have h := pinPage_policy_miss bm mgmt page p hr hm hp hmiss hfull hfree
    rcases hs with hs | hs
    · rw [hs] at h ⊢; exact h
    · rw [hs] at h ⊢; exact h
  · intro bm page p
    unfold pinPage
    cases bm.mgmtData with
    | none => exact ⟨rfl, rfl, rfl⟩
    | some mgmt =>
      dsimp only
      split_ifs
      · exact ⟨rfl, rfl, rfl⟩
      · rw [pinPageCore_lru_k]
        exact ⟨rfl, rfl, rfl⟩
  · intro strategy hs
    rcases hs with hs | hs <;> subst hs <;> exact ⟨rfl, rfl, rfl⟩

/-- C5 at the pool of scenario S2 under LRU_K: page 3 is requested, frame 1 is
the victim. -/
theorem pinPage_lru_replaces_least_recent_witness :
    ∃ k, IsPolicyVictim (fun f => f.lastUsed) mgmtS2.frames k ∧
      chooseVictim (poolS2 ReplacementStrategy.RS_LRU_K).strategy mgmtS2.frames = some k ∧
      ∃ mgmt', (pinPage (poolS2 ReplacementStrategy.RS_LRU_K) blankHandle 3).2.1.mgmtData
          = some mgmt' ∧
        (∀ j, j ≠ k → mgmt'.frames[j]? = mgmtS2.frames[j]?) ∧
        ((pinPage (poolS2 ReplacementStrategy.RS_LRU_K) blankHandle 3).1 = RC.RC_OK →
          (∃ f', mgmt'.frames[k]? = some f' ∧ f'.pageNum = 3) ∧
          (pinPage (poolS2 ReplacementStrategy.RS_LRU_K) blankHandle 3).2.2
            = { pageNum := 3, data := some k }) ∧
        (mgmtS2.fileHandle.mgmtInfo.script = [] → 0 ≤ seekOffset 3 →
          (pinPage (poolS2 ReplacementStrategy.RS_LRU_K) blankHandle 3).1 = RC.RC_OK) :=
  pinPage_lru_replaces_least_recent.1 (poolS2 ReplacementStrategy.RS_LRU_K) mgmtS2 blankHandle 3
    (reachable_freshPool_run 3 _ _ (by decide)) rfl (Or.inr rfl) (by decide)
    (findFrame_none (by rfl)) (findFrame_none (by rfl)) ⟨0, _, rfl, rfl⟩

end BufferMgr

namespace BufferMgr

/-! ## The value of a page is kept by every step that leaves its bytes alone -/

theorem storeBlock_length_le (blocks : List PageData) (i : Nat) (b : PageData) :
    blocks.length ≤ (storeBlock blocks i b).length := by
  unfold storeBlock
  split_ifs <;> simp

theorem storeBlock_getElem_of_lt (blocks : List PageData) (i j : Nat) (b : PageData)
    (hj : j < blocks.length) (hne : j ≠ i) : (storeBlock blocks i b)[j]? = blocks[j]? := by
  unfold storeBlock
  split_ifs
  · rw [List.getElem?_set_ne (Ne.symm hne)]
  · rw [List.append_assoc, List.getElem?_append_left hj]

theorem Keeps.update_frame {p : Int} {B : PageData} {frames : List BM_Frame} {fh : SM_FileHandle}
    (h : Keeps p B frames fh) {i : Nat} {f f' : BM_Frame} (hf : frames[i]? = some f)
    (hp : f'.pageNum = f.pageNum)
    (hd : f.pageNum = p → f'.data = f.data ∧ (f.dirty = true → f'.dirty = true)) :
    Keeps p B (frames.set i f') fh := by
  obtain ⟨h0, h1, h2, h3, h4⟩ := h
  refine ⟨h0, h1, h2, ?_, ?_⟩
  · intro j g hg hgp
    rcases getElem?_set_cases hg with ⟨_, rfl⟩ | ⟨_, hg'⟩
    · have hfp : f.pageNum = p := by rw [← hp]; exact hgp
      obtain ⟨e1, e2⟩ := hd hfp
      obtain ⟨e3, e4⟩ := h3 i f hf hfp
      refine ⟨by rw [e1]; exact e3, ?_⟩
      rcases e4 with e4 | e4
      · exact Or.inl (e2 e4)
      · exact Or.inr e4
    · exact h3 j g hg' hgp
  · intro hnone
    apply h4
    intro j g hg
    by_cases hji : j = i
    · subst hji
      rw [hf] at hg
      cases hg
      rw [← hp]
      exact hnone j f' (getElem?_set_self_of hf)
    · exact hnone j g (by rw [List.getElem?_set_ne (Ne.symm hji)]; exact hg)

theorem Keeps.write_back {p : Int} {B : PageData} {frames : List BM_Frame} {fh : SM_FileHandle}
    (h : Keeps p B frames fh) (hbound : fh.totalNumPages ≤ 524288) {i : Nat} {f : BM_Frame}
    (hf : frames[i]? = some f)
    (hw : (writeBlock f.pageNum fh f.data).1 = RC.RC_OK) :
    Keeps p B (frames.set i { f with dirty := false }) (writeBlock f.pageNum fh f.data).2 := by
  obtain ⟨h0, h1, h2, h3, h4⟩ := h
  obtain ⟨hq0, hq1, ew⟩ := writeBlock_ok hw
  have hblocks : (writeBlock f.pageNum fh f.data).2.mgmtInfo.blocks =
      storeBlock fh.mgmtInfo.blocks f.pageNum.toNat f.data := by
    rw [ew, blockOf_small hq0 (by omega)]
  have hsame : f.pageNum ≠ p →
      (writeBlock f.pageNum fh f.data).2.mgmtInfo.blocks[p.toNat]? =
        fh.mgmtInfo.blocks[p.toNat]? := by
    intro hne
    rw [hblocks]
    exact storeBlock_getElem_of_lt _ _ _ _ h1 (by omega)
  have hhit : f.pageNum = p →
      (writeBlock f.pageNum fh f.data).2.mgmtInfo.blocks[p.toNat]? = some B := by
    intro he
    rw [hblocks, ← he, storeBlock_getElem, (h3 i f hf he).1]
  have hkeep : fh.mgmtInfo.blocks[p.toNat]? = some B →
      (writeBlock f.pageNum fh f.data).2.mgmtInfo.blocks[p.toNat]? = some B := by
    intro hb
    by_cases he : f.pageNum = p
    · exact hhit he
    · rw [hsame he]; exact hb
  refine ⟨h0, ?_, writeBlock_script_nil _ _ _ h2, ?_, ?_⟩
  · rw [hblocks]
    exact lt_of_lt_of_le h1 (storeBlock_length_le _ _ _)
  · intro j g hg hgp
    rcases getElem?_set_cases hg with ⟨_, rfl⟩ | ⟨_, hg'⟩
    · exact ⟨(h3 i f hf hgp).1, Or.inr (hhit hgp)⟩
    · obtain ⟨e1, e2⟩ := h3 j g hg' hgp
      exact ⟨e1, e2.imp id hkeep⟩
  · intro hnone
    apply hkeep
    apply h4
    intro j g hg
    by_cases hji : j = i
    · subst hji
      rw [hf] at hg
      cases hg
      exact hnone j { f with dirty := false } (getElem?_set_self_of hf)
    · exact hnone j g (by rw [List.getElem?_set_ne (Ne.symm hji)]; exact hg)

theorem Keeps.file_same {p : Int} {B : PageData} {frames : List BM_Frame}
    {fh fh' : SM_FileHandle} (h : Keeps p B frames fh)
    (hb : fh'.mgmtInfo.blocks = fh.mgmtInfo.blocks) (hs : fh'.mgmtInfo.script = []) :
    Keeps p B frames fh' := by
  obtain ⟨h0, h1, _, h3, h4⟩ := h
  refine ⟨h0, by rw [hb]; exact h1, hs, ?_, ?_⟩
  · intro j g hg hgp
    rw [hb]
    exact h3 j g hg hgp
  · intro hnone
    rw [hb]
    exact h4 hnone

theorem Keeps.grow {p : Int} {B : PageData} {mgmt : BM_MgmtData}
    (h : Keeps p B mgmt.frames mgmt.fileHandle) (q : Int) :
    Keeps p B (tickAndGrow mgmt q).2.frames (tickAndGrow mgmt q).2.fileHandle := by
  obtain ⟨h0, h1, h2, h3, h4⟩ := h
  obtain ⟨k, hkb, _⟩ := tickAndGrow_appends mgmt q
  have hsame : (tickAndGrow mgmt q).2.fileHandle.mgmtInfo.blocks[p.toNat]? =
      mgmt.fileHandle.mgmtInfo.blocks[p.toNat]? := by
    rw [hkb, List.getElem?_append_left h1]
  rw [tickAndGrow_frames]
  refine ⟨h0, ?_, (tickAndGrow_reliable mgmt q h2).2, ?_, ?_⟩
  · rw [hkb]; simp; omega
  · intro j g hg hgp
    rw [hsame]
    exact h3 j g hg hgp
  · intro hnone
    rw [hsame]
    exact h4 hnone

theorem Keeps.replace_frame {p : Int} {B : PageData} {frames : List BM_Frame} {fh : SM_FileHandle}
    (h : Keeps p B frames fh) {v : Nat} {vf f' : BM_Frame} (hv : frames[v]? = some vf)
    (hclean : vf.pageNum = p → vf.dirty = false)
    (hnew : f'.pageNum = p → f'.data = B ∧ fh.mgmtInfo.blocks[p.toNat]? = some B) :
    Keeps p B (frames.set v f') fh := by
  obtain ⟨h0, h1, h2, h3, h4⟩ := h
  refine ⟨h0, h1, h2, ?_, ?_⟩
  · intro j g hg hgp
    rcases getElem?_set_cases hg with ⟨_, rfl⟩ | ⟨_, hg'⟩
    · exact ⟨(hnew hgp).1, Or.inr (hnew hgp).2⟩
    · exact h3 j g hg' hgp
  · intro hnone
    by_cases hvp : vf.pageNum = p
    · rcases (h3 v vf hv hvp).2 with e | e
      · rw [hclean hvp] at e; cases e
      · exact e
    · apply h4
      intro j g hg
      by_cases hjv : j = v
      · subst hjv
        rw [hv] at hg
        cases hg
        exact hvp
      · exact hnone j g (by rw [List.getElem?_set_ne (Ne.symm hjv)]; exact hg)

end BufferMgr

namespace BufferMgr

theorem writeBlock_failed_same {q : Int} {fh : SM_FileHandle} {b : PageData}
    (hs : fh.mgmtInfo.script = []) (h : (writeBlock q fh b).1 ≠ RC.RC_OK) :
    (writeBlock q fh b).2 = fh := by
  unfold writeBlock at h ⊢
  by_cases h1 : q < 0 ∨ q ≥ fh.totalNumPages
  · rw [if_pos h1]
  · rw [if_neg h1] at h ⊢
    by_cases h3 : seekOffset q < 0
    · rw [if_pos h3]
    · rw [if_neg h3] at h
      dsimp only at h
      rw [next_nil hs] at h
      dsimp only at h
      rw [if_pos rfl] at h
      exact absurd rfl h

theorem readBlock_failed_buffer {q : Int} {fh : SM_FileHandle} {buf : PageData}
    (hs : fh.mgmtInfo.script = []) (h : (readBlock q fh buf).1 ≠ RC.RC_OK) :
    (readBlock q fh buf).2.2 = buf := by
  unfold readBlock at h ⊢
  by_cases h1 : q < 0 ∨ q ≥ fh.totalNumPages
  · rw [if_pos h1]
  · rw [if_neg h1] at h ⊢
    by_cases h3 : seekOffset q < 0
    · rw [if_pos h3]
    · rw [if_neg h3] at h ⊢
      dsimp only at h ⊢
      rw [next_nil hs] at h ⊢
      dsimp only at h ⊢
      cases hb : fh.mgmtInfo.blocks[blockOf q]? with
      | none => rfl
      | some b =>
        rw [hb] at h
        dsimp only at h
        rw [if_pos rfl] at h
        exact absurd rfl h

/-- The eviction block keeps the value of page `p`, and after a successful
eviction the victim frame is clean when it holds `p`. -/
theorem Keeps.after_evict {p : Int} {B : PageData} {mgmt : BM_MgmtData}
    (h : Keeps p B mgmt.frames mgmt.fileHandle)
    (hbound : mgmt.fileHandle.totalNumPages ≤ 524288) {v : Nat} {vf : BM_Frame}
    (hv : mgmt.frames[v]? = some vf) :
    Keeps p B (evictVictim mgmt v vf).2.frames (evictVictim mgmt v vf).2.fileHandle ∧
      ((evictVictim mgmt v vf).1 = RC.RC_OK →
        ∃ vf', (evictVictim mgmt v vf).2.frames[v]? = some vf' ∧
          (vf'.pageNum = p → vf'.dirty = false)) := by
  have hs := h.2.2.1
  unfold evictVictim
  by_cases h1 : vf.pageNum ≠ NO_PAGE
  · rw [if_pos h1]
    by_cases h2 : vf.fixCount ≠ 0
    · rw [if_pos h2]
      exact ⟨h, fun e => by cases e⟩
    · rw [if_neg h2]
      by_cases h3 : vf.dirty = true
      · rw [if_pos h3]
        dsimp only
        by_cases h4 : (writeBlock vf.pageNum mgmt.fileHandle vf.data).1 = RC.RC_OK
        · rw [if_neg (by simp [h4])]
          exact ⟨h.write_back hbound hv h4, fun _ => ⟨_, getElem?_set_self_of hv, fun _ => rfl⟩⟩
        · rw [if_pos h4]
          dsimp only
          rw [writeBlock_failed_same hs h4]
          exact ⟨h, fun e => absurd e h4⟩
      · rw [if_neg h3]
        exact ⟨h, fun _ => ⟨vf, hv, fun _ => by simpa using h3⟩⟩
  · rw [if_neg h1]
    push_neg at h1
    refine ⟨h, fun _ => ⟨vf, hv, fun hp => ?_⟩⟩
    have h0 := h.1
    rw [h1] at hp
    unfold NO_PAGE at hp
    omega

/-- The load keeps the value of page `p` when the victim frame is clean if it
holds `p`, and the page loaded is not resident if it is `p` itself. -/
theorem Keeps.after_load {p : Int} {B : PageData} {mgmt : BM_MgmtData}
    (h : Keeps p B mgmt.frames mgmt.fileHandle)
    (hbound : mgmt.fileHandle.totalNumPages ≤ 524288) (v : Nat) (q : Int) (page : BM_PageHandle)
    (hclean : ∀ vf, mgmt.frames[v]? = some vf → vf.pageNum = p → vf.dirty = false)
    (hmiss : q = p → ∀ (j : Nat) (g : BM_Frame), mgmt.frames[j]? = some g → g.pageNum ≠ p) :
    Keeps p B (loadVictim mgmt v q page).2.1.frames
      (loadVictim mgmt v q page).2.1.fileHandle := by
  have hs := h.2.2.1
  unfold loadVictim
  cases hv : mgmt.frames[v]? with
  | none => exact h
  | some vf =>
    dsimp only
    have hfile : Keeps p B mgmt.frames (readBlock q mgmt.fileHandle vf.data).2.1 :=
      h.file_same (readBlock_blocks _ _ _) (readBlock_script_nil _ _ _ hs)
    by_cases hr : (readBlock q mgmt.fileHandle vf.data).1 = RC.RC_OK
    · rw [if_neg (by simp [hr])]
      dsimp only
      apply hfile.replace_frame hv (hclean vf hv)
      intro hqp
      dsimp only at hqp
      have hb := (readBlock_ok hr).1
      obtain ⟨hq0, hq1⟩ := readBlock_ok_range hr
      rw [blockOf_small hq0 (by omega)] at hb
      have hdisk := h.2.2.2.2 (hmiss hqp)
      rw [hqp] at hb
      rw [hb] at hdisk
      rw [readBlock_blocks]
      refine ⟨?_, h.2.2.2.2 (hmiss hqp)⟩
      rw [hqp]
      exact Option.some.inj hdisk
    · rw [if_pos hr]
      dsimp only
      refine @Keeps.update_frame _ _ _ _ hfile _ _
        { vf with data := (readBlock q mgmt.fileHandle vf.data).2.2 } hv rfl ?_
      intro _
      exact ⟨readBlock_failed_buffer hs hr, fun e => e⟩

theorem Keeps.after_pinInPool {p : Int} {B : PageData} {mgmt : BM_MgmtData}
    (h : Keeps p B mgmt.frames mgmt.fileHandle)
    (hbound : mgmt.fileHandle.totalNumPages ≤ 524288) (strategy : ReplacementStrategy)
    (page : BM_PageHandle) (q : Int) :
    Keeps p B (pinInPool strategy mgmt page q).2.1.frames
      (pinInPool strategy mgmt page q).2.1.fileHandle := by
  unfold pinInPool
  cases hfind : findFrame mgmt.frames q with
  | some i =>
    dsimp only
    cases hf : mgmt.frames[i]? with
    | none => exact h
    | some f => exact h.update_frame hf rfl (fun _ => ⟨rfl, fun e => e⟩)
  | none =>
    dsimp only
    cases hc : chooseVictim strategy mgmt.frames with
    | none => exact h
    | some v =>
      dsimp only
      cases hv : mgmt.frames[v]? with
      | none => exact h
      | some vf =>
        dsimp only
        obtain ⟨hk, hcl⟩ := h.after_evict hbound hv
        by_cases he : (evictVictim mgmt v vf).1 = RC.RC_OK
        · rw [if_neg (by simp [he])]
          obtain ⟨vf', hv', hclean⟩ := hcl he
          apply hk.after_load (by rw [evictVictim_total]; exact hbound)
          · intro x hx
            rw [hv'] at hx
            cases hx
            exact hclean
          · intro hqp j g hg
            obtain ⟨f, hf, e⟩ := evictVictim_pageNums mgmt v vf hv j g hg
            rw [e, ← hqp]
            exact findFrame_none hfind j f hf
        · rw [if_pos he]
          exact hk

/-- The growth loop adds at most the pages it was asked for. -/
theorem ensureCapacityLoop_total_le_add :
    ∀ (n : Nat) (fh : SM_FileHandle),
      (ensureCapacityLoop n fh).2.totalNumPages ≤ fh.totalNumPages + n := by
  intro n
  induction n with
  | zero => intro fh; simp [ensureCapacityLoop]
  | succ n ih =>
    intro fh
    unfold ensureCapacityLoop
    dsimp only
    split_ifs
    · refine le_trans (ih _) ?_
      dsimp only
      push_cast
      omega
    · dsimp only
      push_cast
      omega

/-- The start of `pinPage q` keeps a page file within 524288 pages when `q` is
below 524288. -/
theorem tickAndGrow_bounded (mgmt : BM_MgmtData) (q : Int)
    (hbound : mgmt.fileHandle.totalNumPages ≤ 524288) (hq : q < 524288) :
    (tickAndGrow mgmt q).2.fileHandle.totalNumPages ≤ 524288 := by
  unfold tickAndGrow
  dsimp only
  split_ifs with hge
  · dsimp only
    unfold ensureCapacity
    have := ensureCapacityLoop_total_le_add
      (q + 1 - mgmt.fileHandle.totalNumPages).toNat mgmt.fileHandle
    omega
  · exact hbound

theorem KeepsPool.after_pinPage {p : Int} {B : PageData} {bm : BM_BufferPool}
    (h : KeepsPool p B bm) (page : BM_PageHandle) (q : Int) (hq : q < 524288) :
    KeepsPool p B (pinPage bm page q).2.1 := by
  obtain ⟨mgmt, hm, hk, hbound, hp⟩ := h
  unfold pinPage
  rw [hm]
  dsimp only
  split_ifs
  · exact ⟨mgmt, hm, hk, hbound, hp⟩
  · refine ⟨_, rfl, ?_⟩
    have hb := tickAndGrow_bounded mgmt q hbound hq
    unfold pinPageCore
    dsimp only
    split_ifs
    · exact ⟨hk.grow q, hb, hp⟩
    · exact ⟨(hk.grow q).after_pinInPool hb _ _ _, by rw [pinInPool_total]; exact hb, hp⟩

end BufferMgr

namespace BufferMgr

theorem KeepsPool.after_unpinPage {p : Int} {B : PageData} {bm : BM_BufferPool}
    (h : KeepsPool p B bm) (page : BM_PageHandle) : KeepsPool p B (unpinPage bm page).2 := by
  obtain ⟨mgmt, hm, hk, hbound⟩ := h
  unfold unpinPage
  rw [hm]
  dsimp only
  split
  · exact ⟨mgmt, hm, hk, hbound⟩
  · split
    · exact ⟨mgmt, hm, hk, hbound⟩
    · rename_i f hf
      split_ifs
      · exact ⟨mgmt, hm, hk, hbound⟩
      · exact ⟨_, rfl, hk.update_frame hf rfl (fun _ => ⟨rfl, fun e => e⟩), hbound⟩

theorem KeepsPool.after_markDirty {p : Int} {B : PageData} {bm : BM_BufferPool}
    (h : KeepsPool p B bm) (page : BM_PageHandle) : KeepsPool p B (markDirty bm page).2 := by
  obtain ⟨mgmt, hm, hk, hbound⟩ := h
  unfold markDirty
  rw [hm]
  dsimp only
  split
  · exact ⟨mgmt, hm, hk, hbound⟩
  · split
    · exact ⟨mgmt, hm, hk, hbound⟩
    · rename_i f hf
      exact ⟨_, rfl, hk.update_frame hf rfl (fun _ => ⟨rfl, fun _ => rfl⟩), hbound⟩

theorem KeepsPool.after_forcePage {p : Int} {B : PageData} {bm : BM_BufferPool}
    (h : KeepsPool p B bm) (page : BM_PageHandle) : KeepsPool p B (forcePage bm page).2 := by
  obtain ⟨mgmt, hm, hk, hbound, hp⟩ := h
  unfold forcePage
  rw [hm]
  dsimp only
  split
  · exact ⟨mgmt, hm, hk, hbound, hp⟩
  · split
    · exact ⟨mgmt, hm, hk, hbound, hp⟩
    · rename_i f hf
      by_cases hw : (writeBlock f.pageNum mgmt.fileHandle f.data).1 = RC.RC_OK
      · rw [if_neg (by simp [hw])]
        exact ⟨_, rfl, hk.write_back hbound hf hw, by rw [writeBlock_total]; exact hbound, hp⟩
      · rw [if_pos hw]
        refine ⟨_, rfl, ?_⟩
        dsimp only
        rw [writeBlock_failed_same hk.2.2.1 hw]
        exact ⟨hk, hbound, hp⟩

theorem KeepsPool.after_storeBytes {p : Int} {B : PageData} {bm : BM_BufferPool}
    (h : KeepsPool p B bm) (frame : Nat) (bytes : PageData) (hl : ¬ frameHolds bm frame p) :
    KeepsPool p B (storeBytes bm frame bytes) := by
  obtain ⟨mgmt, hm, hk, hbound⟩ := h
  unfold storeBytes
  rw [hm]
  dsimp only
  split
  · exact ⟨mgmt, hm, hk, hbound⟩
  · rename_i f hf
    refine ⟨_, rfl, hk.update_frame hf rfl ?_, hbound⟩
    intro hp
    exact absurd ⟨mgmt, f, hm, hf, hp⟩ hl

/-- The flush loop from the frames `fs` on, behind the frames `pre`. -/
theorem Keeps.after_flushLoop {p : Int} {B : PageData} :
    ∀ (fs pre : List BM_Frame) (fh : SM_FileHandle) (w : Int),
      Keeps p B (pre ++ fs) fh → fh.totalNumPages ≤ 524288 →
      Keeps p B (pre ++ (forceFlushLoop fs fh w).2.1) (forceFlushLoop fs fh w).2.2.1 ∧
        (forceFlushLoop fs fh w).2.2.1.totalNumPages = fh.totalNumPages := by
  intro fs
  induction fs with
  | nil => intro pre fh w h _; exact ⟨by simpa [forceFlushLoop] using h, rfl⟩
  | cons f fs ih =>
    intro pre fh w h hbound
    unfold forceFlushLoop
    by_cases hd : f.dirty = true ∧ f.fixCount = 0
    · rw [if_pos hd]
      dsimp only
      by_cases hw : (writeBlock f.pageNum fh f.data).1 = RC.RC_OK
      · rw [if_neg (by simp [hw])]
        dsimp only
        have hf : (pre ++ f :: fs)[pre.length]? = some f := by
          rw [List.getElem?_append_right (le_refl _)]; simp
        have h' := h.write_back hbound hf hw
        have e : (pre ++ f :: fs).set pre.length { f with dirty := false } =
            (pre ++ [{ f with dirty := false }]) ++ fs := by
          simp [List.set_append]
        rw [e] at h'
        have h2 := ih (pre ++ [{ f with dirty := false }]) _ (w + 1) h'
          (by rw [writeBlock_total]; exact hbound)
        refine ⟨by simpa using h2.1, ?_⟩
        rw [h2.2, writeBlock_total]
      · rw [if_pos hw]
        dsimp only
        rw [writeBlock_failed_same h.2.2.1 hw]
        exact ⟨h, rfl⟩
    · rw [if_neg hd]
      dsimp only
      have e : pre ++ f :: fs = (pre ++ [f]) ++ fs := by simp
      rw [e] at h
      have h2 := ih (pre ++ [f]) fh w h hbound
      exact ⟨by simpa using h2.1, h2.2⟩

theorem KeepsPool.after_forceFlushPool {p : Int} {B : PageData} {bm : BM_BufferPool}
    (h : KeepsPool p B bm) : KeepsPool p B (forceFlushPool bm).2 := by
  obtain ⟨mgmt, hm, hk, hbound, hp⟩ := h
  unfold forceFlushPool
  rw [hm]
  dsimp only
  have := Keeps.after_flushLoop mgmt.frames [] mgmt.fileHandle (BM_MgmtData.writeIO mgmt)
    (by simpa using hk) hbound
  exact ⟨_, rfl, by simpa using this.1, by rw [this.2]; exact hbound, hp⟩

theorem KeepsPool.after_step {p : Int} {B : PageData} {bm : BM_BufferPool}
    (h : KeepsPool p B bm) (op : Op) (hl : Leaves p bm op) : KeepsPool p B (step bm op) := by
  cases op with
  | pin page pageNum => exact h.after_pinPage page pageNum hl
  | unpin page => exact h.after_unpinPage page
  | dirty page => exact h.after_markDirty page
  | force page => exact h.after_forcePage page
  | flush => exact h.after_forceFlushPool
  | shutdown => exact absurd hl (by simp [Leaves])
  | store frame bytes => exact h.after_storeBytes frame bytes hl

theorem KeepsPool.after_run {p : Int} {B : PageData} (ops : List Op) :
    ∀ {bm : BM_BufferPool}, KeepsPool p B bm → Quiet p bm ops → KeepsPool p B (run bm ops) := by
  induction ops with
  | nil => intro bm h _; exact h
  | cons op ops ih => intro bm h hq; exact ih (h.after_step op hq.1) hq.2

/-- The bytes of a successful `pinPage p` are the value of page `p`. -/
theorem KeepsPool.pinPage_bytes {p : Int} {B : PageData} {bm : BM_BufferPool}
    (h : KeepsPool p B bm) (page : BM_PageHandle)
    (hok : (pinPage bm page p).1 = RC.RC_OK) :
    handleBytes (pinPage bm page p).2.1 (pinPage bm page p).2.2 = some B := by
  obtain ⟨mgmt', i, hm', hfind, hh, _, _⟩ := pinPage_ok_found bm page p hok
  obtain ⟨m2, hm2, hk, _, _⟩ := h.after_pinPage page p h.choose_spec.2.2.2
  rw [hm'] at hm2
  cases hm2
  obtain ⟨f, hf, hfp, _⟩ := findFrame_some hfind
  unfold handleBytes
  rw [hm', hh]
  dsimp only
  rw [hf]
  exact congrArg some (hk.2.2.2.1 i f hf hfp).1

end BufferMgr

namespace BufferMgr

theorem evictVictim_script_nil (mgmt : BM_MgmtData) (v : Nat) (vf : BM_Frame)
    (hs : mgmt.fileHandle.mgmtInfo.script = []) :
    (evictVictim mgmt v vf).2.fileHandle.mgmtInfo.script = [] := by
  unfold evictVictim
  dsimp only
  split_ifs
  · exact hs
  · exact writeBlock_script_nil _ _ _ hs
  · exact writeBlock_script_nil _ _ _ hs
  · exact hs
  · exact hs

theorem loadVictim_script_nil (mgmt : BM_MgmtData) (v : Nat) (q : Int) (page : BM_PageHandle)
    (hs : mgmt.fileHandle.mgmtInfo.script = []) :
    (loadVictim mgmt v q page).2.1.fileHandle.mgmtInfo.script = [] := by
  unfold loadVictim
  split
  · exact hs
  · dsimp only
    split_ifs <;> exact readBlock_script_nil _ _ _ hs

theorem pinInPool_script_nil (strategy : ReplacementStrategy) (mgmt : BM_MgmtData)
    (page : BM_PageHandle) (q : Int) (hs : mgmt.fileHandle.mgmtInfo.script = []) :
    (pinInPool strategy mgmt page q).2.1.fileHandle.mgmtInfo.script = [] := by
  unfold pinInPool
  split
  · split <;> exact hs
  · split
    · exact hs
    · split
      · exact hs
      · dsimp only
        split_ifs
        · exact evictVictim_script_nil _ _ _ hs
        · exact loadVictim_script_nil _ _ _ _ (evictVictim_script_nil _ _ _ hs)

theorem pinPageCore_script_nil (strategy : ReplacementStrategy) (mgmt : BM_MgmtData)
    (page : BM_PageHandle) (q : Int) (hs : mgmt.fileHandle.mgmtInfo.script = []) :
    (pinPageCore strategy mgmt page q).2.1.fileHandle.mgmtInfo.script = [] := by
  unfold pinPageCore
  dsimp only
  split_ifs
  · exact (tickAndGrow_reliable mgmt q hs).2
  · exact pinInPool_script_nil _ _ _ _ (tickAndGrow_reliable mgmt q hs).2

/-- A dirty frame with the bytes `B`, the only frame that holds `p`, gives page
`p` the value `B`. -/
theorem Keeps.of_dirty_frame {p : Int} {B : PageData} {frames : List BM_Frame}
    {fh : SM_FileHandle} {i : Nat} {f : BM_Frame} (hf : frames[i]? = some f)
    (hfp : f.pageNum = p) (hfd : f.data = B) (hdirty : f.dirty = true)
    (honly : ∀ (j : Nat) (g : BM_Frame), frames[j]? = some g → g.pageNum = p → j = i)
    (h0 : 0 ≤ p) (h1 : p.toNat < fh.mgmtInfo.blocks.length) (hs : fh.mgmtInfo.script = []) :
    Keeps p B frames fh := by
  refine ⟨h0, h1, hs, ?_, ?_⟩
  · intro j g hg hgp
    have hji := honly j g hg hgp
    subst hji
    rw [hf] at hg
    cases hg
    exact ⟨hfd, Or.inl hdirty⟩
  · intro hnone
    exact absurd hfp (hnone i f hf)

/-- After `pin p; store B; markDirty; unpin` on a reachable pool whose system
calls succeed and whose page file has at most 524288 pages, page `p < 524288`
has the value `B`. -/
theorem modifyPage_keeps (bm : BM_BufferPool) (mgmt : BM_MgmtData) (page : BM_PageHandle)
    (p : Int) (B : PageData) (hr : Reachable bm) (hm : bm.mgmtData = some mgmt)
    (hs : mgmt.fileHandle.mgmtInfo.script = [])
    (hbound : mgmt.fileHandle.totalNumPages ≤ 524288) (hp : p < 524288)
    (hpin : (pinPage bm page p).1 = RC.RC_OK) :
    KeepsPool p B (modifyPage bm page p B) := by
  obtain ⟨mgmt1, i, hm1, hfind, hh, hp0, hplt⟩ := pinPage_ok_found bm page p hpin
  have hwf1 : WellFormed mgmt1 := pinPage_ok (reachable_ok hr) page p mgmt1 hm1
  have e : (pinPage bm page p).2.1.mgmtData =
      some (pinPageCore bm.strategy mgmt page p).2.1 := by
    unfold pinPage
    rw [hm]
    dsimp only
    rw [if_neg (by omega)]
  have hs1 : mgmt1.fileHandle.mgmtInfo.script = [] := by
    rw [e] at hm1
    cases hm1
    exact pinPageCore_script_nil _ _ _ _ hs
  have hb1 : mgmt1.fileHandle.totalNumPages ≤ 524288 := by
    rw [e] at hm1
    cases hm1
    unfold pinPageCore
    dsimp only
    split_ifs
    · exact tickAndGrow_bounded mgmt p hbound hp
    · rw [pinInPool_total]
      exact tickAndGrow_bounded mgmt p hbound hp
  obtain ⟨f, hf, hfp, _⟩ := findFrame_some hfind
  have hdata : (pinPage bm page p).2.2.data = some i := by rw [hh]
  have hpn : (pinPage bm page p).2.2.pageNum = p := by rw [hh]
  unfold modifyPage
  dsimp only
  rw [hpin, hdata]
  dsimp only
  apply KeepsPool.after_unpinPage
  -- the pool after the store
  have hstore : storeBytes (pinPage bm page p).2.1 i B =
      { (pinPage bm page p).2.1 with
          mgmtData := some { mgmt1 with frames := mgmt1.frames.set i { f with data := B } } } := by
    unfold storeBytes
    rw [hm1]
    dsimp only
    rw [hf]
  rw [hstore]
  have hfind2 : findFrame (mgmt1.frames.set i { f with data := B }) p = some i := by
    rw [findFrame_congr (@map_pageNum_set _ _ _ { f with data := B } hf rfl)]; exact hfind
  have hf2 : (mgmt1.frames.set i { f with data := B })[i]? = some { f with data := B } :=
    getElem?_set_self_of hf
  unfold markDirty
  dsimp only
  rw [hpn, hfind2]
  dsimp only
  rw [hf2]
  dsimp only
  refine ⟨_, rfl, ?_, hb1, hp⟩
  dsimp only
  refine Keeps.of_dirty_frame (i := i) (getElem?_set_self_of hf2) hfp rfl rfl ?_ hp0 ?_ hs1
  · intro j g hg hgp
    by_contra hji
    rw [List.getElem?_set_ne (Ne.symm hji), List.getElem?_set_ne (Ne.symm hji)] at hg
    have hpne : g.pageNum ≠ NO_PAGE := by
      rw [hgp]; unfold NO_PAGE; omega
    exact hji (hwf1.distinct j i g f hg hf hpne (by rw [hgp, hfp]))
  · have := hwf1.file_len
    omega

/-! ## The round trip in a page file of at most 524288 pages -/

/-- Write-then-read round trip in a page file that stays within 524288 pages.
For every reachable pool state whose system calls succeed and whose page file
has at most 524288 pages, and every page `p < 524288`: if `pinPage p` succeeds,
the bytes of its frame are set to `B`, `markDirty` is called and the page is
unpinned, then after any further sequence of `pinPage` calls for pages below
524288, of `unpinPage`, `markDirty`, `forcePage` and `forceFlushPool` calls
with arbitrary arguments, and of stores into frames that do not hold `p` (so
also after `p` has been evicted by pins of other pages), a successful
`pinPage p` returns a handle whose bytes are `B`. -/
theorem round_trip_within (bm : BM_BufferPool) (mgmt : BM_MgmtData)
    (page page' : BM_PageHandle) (p : Int) (B : PageData) (ops : List Op)
    (hr : Reachable bm) (hm : bm.mgmtData = some mgmt)
    (hs : mgmt.fileHandle.mgmtInfo.script = [])
    (hbound : mgmt.fileHandle.totalNumPages ≤ 524288) (hp : p < 524288)
    (hpin : (pinPage bm page p).1 = RC.RC_OK)
    (hq : Quiet p (modifyPage bm page p B) ops)
    (hok : (pinPage (run (modifyPage bm page p B) ops) page' p).1 = RC.RC_OK) :
    handleBytes (pinPage (run (modifyPage bm page p B) ops) page' p).2.1
      (pinPage (run (modifyPage bm page p B) ops) page' p).2.2 = some B :=
  ((modifyPage_keeps bm mgmt page p B hr hm hs hbound hp hpin).after_run ops hq).pinPage_bytes
    page' hok

end BufferMgr

namespace BufferMgr

/-! ## C11 -/

/-- C11: for every pool state and handle whose page number is found in the
pool, `i` being the first frame that holds it and `f` that frame: if
`f.fixCount ≤ 0`, `unpinPage` returns `RC_IM_NO_MORE_ENTRIES` and leaves the
whole pool unchanged; otherwise it returns `RC_OK` and the pool afterwards is
the pool before with the `fixCount` of frame `i` decreased by 1 and nothing
else changed (`lastUsed`, `loadTime`, the dirty flag, the bytes, the other
frames, the time counter, the I/O counters and the file handle are as before).
In every reachable pool state all pin counts are `≥ 0`.  Scenario S6: after
pin and unpin of page 0 a second unpin returns `RC_IM_NO_MORE_ENTRIES`, the
pool is unchanged and the pin counts are `[0, 0, 0]`. -/
theorem unpinPage_effect :
    (∀ (bm : BM_BufferPool) (mgmt : BM_MgmtData) (page : BM_PageHandle) (i : Nat) (f : BM_Frame),
        bm.mgmtData = some mgmt → findFrame mgmt.frames page.pageNum = some i →
        mgmt.frames[i]? = some f →
        (f.fixCount ≤ 0 → unpinPage bm page = (RC.RC_IM_NO_MORE_ENTRIES, bm)) ∧
        (0 < f.fixCount →
          unpinPage bm page =
            (RC.RC_OK,
              { bm with
                  mgmtData := some
                    { mgmt with
                        frames := mgmt.frames.set i { f with fixCount := f.fixCount - 1 } } }))) ∧
    (∀ (bm : BM_BufferPool) (counts : List Int), Reachable bm →
        getFixCounts bm = some counts → ∀ c ∈ counts, 0 ≤ c) ∧
    ((unpinPage poolS6 (handleOf 0)).1 = RC.RC_IM_NO_MORE_ENTRIES ∧
      (unpinPage poolS6 (handleOf 0)).2 = poolS6 ∧
      getFixCounts (unpinPage poolS6 (handleOf 0)).2 = some [0, 0, 0]) := by
  refine ⟨?_, ?_, ⟨rfl, rfl, rfl⟩⟩
  · intro bm mgmt page i f hm hi hf
    unfold unpinPage
    rw [hm]
    dsimp only
    rw [hi]
    dsimp only
    rw [hf]
    dsimp only
    constructor
    · intro h
      rw [if_pos h]
    · intro h
      rw [if_neg (by omega)]
  · intro bm counts hr hc c hmem
    unfold getFixCounts at hc
    cases hm : bm.mgmtData with
    | none => rw [hm] at hc; cases hc
    | some mgmt =>
      rw [hm] at hc
      simp only [Option.map_some', Option.some.injEq] at hc
      subst hc
      obtain ⟨g, hg, rfl⟩ := List.mem_map.mp hmem
      obtain ⟨j, hj⟩ := List.mem_iff_getElem?.mp hg
      exact ((reachable_ok hr mgmt hm).frames_ok j g hj).fix_nonneg

/-- C11 at a concrete pool: page 0 is pinned once in frame 0 and is unpinned. -/
theorem unpinPage_effect_witness :
    (demoPinnedFrame.fixCount ≤ 0 →
        unpinPage (demoPool ReplacementStrategy.RS_FIFO) (handleOf 0) =
          (RC.RC_IM_NO_MORE_ENTRIES, demoPool ReplacementStrategy.RS_FIFO)) ∧
      (0 < demoPinnedFrame.fixCount →
        unpinPage (demoPool ReplacementStrategy.RS_FIFO) (handleOf 0) =
          (RC.RC_OK,
            { demoPool ReplacementStrategy.RS_FIFO with
                mgmtData := some
                  { demoMgmt with
                      frames := demoMgmt.frames.set 0
                        { demoPinnedFrame with fixCount := demoPinnedFrame.fixCount - 1 } } })) :=
  unpinPage_effect.1 (demoPool ReplacementStrategy.RS_FIFO) demoMgmt (handleOf 0) 0
    demoPinnedFrame rfl rfl rfl

end BufferMgr

namespace BufferMgr

/-! ## C15 -/

theorem markDirty_found_eq (bm : BM_BufferPool) (mgmt : BM_MgmtData) (page : BM_PageHandle)
    (i : Nat) (f : BM_Frame) (hm : bm.mgmtData = some mgmt)
    (hi : findFrame mgmt.frames page.pageNum = some i) (hf : mgmt.frames[i]? = some f) :
    markDirty bm page =
      (RC.RC_OK,
        { bm with
            mgmtData := some { mgmt with frames := mgmt.frames.set i { f with dirty := true } } }) := by
  unfold markDirty
  rw [hm]
  dsimp only
  rw [hi]
  dsimp only
  rw [hf]

/-- C15: for every pool state and handle whose page number is found in the
pool, `i` being the first frame that holds it and `f` that frame, `markDirty`
returns `RC_OK` and the pool afterwards is the pool before with the dirty flag
of frame `i` set: no block is written, and `writeIO`, `readIO`, the time
counter, the pin counts, the timestamps, the bytes, the other frames and the
file handle are as before.  `markDirty` is idempotent: for every pool and
handle, a second call returns the code and the pool of the first. -/
theorem markDirty_effect :
    (∀ (bm : BM_BufferPool) (mgmt : BM_MgmtData) (page : BM_PageHandle) (i : Nat) (f : BM_Frame),
        bm.mgmtData = some mgmt → findFrame mgmt.frames page.pageNum = some i →
        mgmt.frames[i]? = some f →
        markDirty bm page =
          (RC.RC_OK,
            { bm with
                mgmtData := some
                  { mgmt with frames := mgmt.frames.set i { f with dirty := true } } })) ∧
    (∀ (bm : BM_BufferPool) (page : BM_PageHandle),
        markDirty (markDirty bm page).2 page = markDirty bm page) := by
  refine ⟨markDirty_found_eq, ?_⟩
  intro bm page
  cases hm : bm.mgmtData with
  | none =>
    have e : markDirty bm page = (RC.RC_FILE_HANDLE_NOT_INIT, bm) := by
      unfold markDirty; rw [hm]
    rw [e]
    exact e
  | some mgmt =>
    cases hi : findFrame mgmt.frames page.pageNum with
    | none =>
      have e : markDirty bm page = (RC.RC_IM_KEY_NOT_FOUND, bm) := by
        unfold markDirty; rw [hm]; dsimp only; rw [hi]
      rw [e]
      exact e
    | some i =>
      obtain ⟨f, hf, _, _⟩ := findFrame_some hi
      have e := markDirty_found_eq bm mgmt page i f hm hi hf
      rw [e]
      have hi2 : findFrame (mgmt.frames.set i { f with dirty := true }) page.pageNum = some i := by
        rw [findFrame_congr (@map_pageNum_set _ _ _ { f with dirty := true } hf rfl)]
        exact hi
      rw [markDirty_found_eq _ { mgmt with frames := mgmt.frames.set i { f with dirty := true } }
        page i { f with dirty := true } rfl hi2 (getElem?_set_self_of hf)]
      simp [List.set_set]

/-- C15 at a concrete pool: the clean page 1 of frame 1 is marked dirty. -/
theorem markDirty_effect_witness :
    markDirty (demoPool ReplacementStrategy.RS_FIFO) (handleOf 1) =
      (RC.RC_OK,
        { demoPool ReplacementStrategy.RS_FIFO with
            mgmtData := some
              { demoMgmt with
                  frames := demoMgmt.frames.set 1 { demoCleanFrame with dirty := true } } }) :=
  markDirty_effect.1 (demoPool ReplacementStrategy.RS_FIFO) demoMgmt (handleOf 1) 1
    demoCleanFrame rfl rfl rfl

end BufferMgr

namespace BufferMgr

/-! ## What `forcePage` writes -/

/-- For every pool state and handle whose page number is found in the pool, `i`
being the first frame that holds it and `f` that frame, dirty or not, when the
block write succeeds `forcePage` returns `RC_OK` and the pool afterwards is the
pool before with the frame's bytes written at the block at which `writeBlock`
transfers the page (that block of the page file holds the frame's bytes, the
journal gains this one write), the dirty flag of frame `i` cleared and
`writeIO` increased by exactly 1; the pin count, the timestamps and the bytes
of frame `i`, the other frames, `readIO`, the time counter and the length of
the file are as before. -/
theorem forcePage_written (bm : BM_BufferPool) (mgmt : BM_MgmtData) (page : BM_PageHandle)
    (i : Nat) (f : BM_Frame) (hm : bm.mgmtData = some mgmt)
    (hi : findFrame mgmt.frames page.pageNum = some i) (hf : mgmt.frames[i]? = some f)
    (hw : (writeBlock f.pageNum mgmt.fileHandle f.data).1 = RC.RC_OK) :
    f.pageNum = page.pageNum ∧
    forcePage bm page =
      (RC.RC_OK,
        { bm with
            mgmtData := some
              { mgmt with
                  frames := mgmt.frames.set i { f with dirty := false },
                  writeIO := mgmt.writeIO + 1,
                  fileHandle := (writeBlock f.pageNum mgmt.fileHandle f.data).2 } }) ∧
    (writeBlock f.pageNum mgmt.fileHandle f.data).2.mgmtInfo.blocks =
      storeBlock mgmt.fileHandle.mgmtInfo.blocks (blockOf f.pageNum) f.data ∧
    (writeBlock f.pageNum mgmt.fileHandle f.data).2.mgmtInfo.blocks[blockOf f.pageNum]? =
      some f.data ∧
    (writeBlock f.pageNum mgmt.fileHandle f.data).2.mgmtInfo.journal =
      mgmt.fileHandle.mgmtInfo.journal ++ [Transfer.write (blockOf f.pageNum)] ∧
    (writeBlock f.pageNum mgmt.fileHandle f.data).2.totalNumPages =
      mgmt.fileHandle.totalNumPages := by
  obtain ⟨f', hf', hfp, _⟩ := findFrame_some hi
  rw [hf] at hf'
  cases hf'
  obtain ⟨_, _, ew⟩ := writeBlock_ok hw
  refine ⟨hfp, ?_, ?_, ?_, ?_, writeBlock_total _ _ _⟩
  · unfold forcePage
    rw [hm]
    dsimp only
    rw [hi]
    dsimp only
    rw [hf]
    dsimp only
    rw [if_neg (by simp [hw])]
  · rw [ew]
  · rw [ew]
    exact storeBlock_getElem _ _ _
  · rw [ew]

end BufferMgr

namespace BufferMgr

/-! ## What a successful flush does -/

theorem needsFlush_iff (f : BM_Frame) : needsFlush f = true ↔ f.dirty = true ∧ f.fixCount = 0 := by
  unfold needsFlush
  simp

/-- A flush loop that returns `RC_OK` has written exactly the dirty unpinned
frames, in index order. -/
theorem forceFlushLoop_ok :
    ∀ (fs : List BM_Frame) (fh : SM_FileHandle) (w : Int),
      (forceFlushLoop fs fh w).1 = RC.RC_OK →
      (forceFlushLoop fs fh w).2.1 = flushedFrames fs ∧
      (forceFlushLoop fs fh w).2.2.2 = w + ((fs.filter needsFlush).length : Int) ∧
      (forceFlushLoop fs fh w).2.2.1.mgmtInfo.journal = fh.mgmtInfo.journal ++ flushWrites fs ∧
      (forceFlushLoop fs fh w).2.2.1.mgmtInfo.blocks = flushBlocks fh.mgmtInfo.blocks fs ∧
      (forceFlushLoop fs fh w).2.2.1.totalNumPages = fh.totalNumPages := by
  intro fs
  induction fs with
  | nil =>
    intro fh w _
    simp [forceFlushLoop, flushedFrames, flushWrites, flushBlocks]
  | cons f fs ih =>
    intro fh w h
    unfold forceFlushLoop at h ⊢
    by_cases hd : f.dirty = true ∧ f.fixCount = 0
    · have hn : needsFlush f = true := (needsFlush_iff f).mpr hd
      rw [if_pos hd] at h ⊢
      dsimp only at h ⊢
      by_cases hw : (writeBlock f.pageNum fh f.data).1 = RC.RC_OK
      · rw [if_neg (by simp [hw])] at h ⊢
        dsimp only at h ⊢
        obtain ⟨h1, h2, h3, h4, h5⟩ := ih _ _ h
        obtain ⟨_, _, ew⟩ := writeBlock_ok hw
        refine ⟨?_, ?_, ?_, ?_, ?_⟩
        · rw [h1]; simp [flushedFrames, hn]
        · rw [h2]; simp [List.filter_cons, hn]; ring
        · rw [h3, ew]; simp [flushWrites, List.filter_cons, hn]
        · rw [h4, ew]; simp [flushBlocks, List.filter_cons, hn]
        · rw [h5, writeBlock_total]
      · rw [if_pos hw] at h
        exact absurd h hw
    · have hn : needsFlush f = false := by
        cases hx : needsFlush f with
        | false => rfl
        | true => exact absurd ((needsFlush_iff f).mp hx) hd
      rw [if_neg hd] at h ⊢
      dsimp only at h ⊢
      obtain ⟨h1, h2, h3, h4, h5⟩ := ih _ _ h
      refine ⟨?_, ?_, ?_, ?_, h5⟩
      · rw [h1]; simp [flushedFrames, hn]
      · rw [h2]; simp [List.filter_cons, hn]
      · rw [h3]; simp [flushWrites, List.filter_cons, hn]
      · rw [h4]; simp [flushBlocks, List.filter_cons, hn]

/-- When `forceFlushPool` returns `RC_OK`, the frames afterwards are the
frames before with the dirty flag cleared in exactly the frames that were dirty
and unpinned (`fixCount = 0`), so every frame with `fixCount = 0` is clean and
every other frame is as it was, dirty pinned frames included; no page number,
pin count, timestamp or frame byte changes.  Exactly the dirty unpinned frames
were written, in index order and each at the block at which `writeBlock`
transfers its page: the journal gains one write per such frame and nothing
else, the blocks are those before with the bytes of these frames stored, and
`writeIO` has increased by exactly their number; `readIO`, the time counter and the length of the file
are unchanged. -/
theorem forceFlushPool_flushed (bm : BM_BufferPool) (mgmt : BM_MgmtData)
    (hm : bm.mgmtData = some mgmt) (hok : (forceFlushPool bm).1 = RC.RC_OK) :
    ∃ mgmt', (forceFlushPool bm).2 = { bm with mgmtData := some mgmt' } ∧
      mgmt'.frames = flushedFrames mgmt.frames ∧
      (∀ g ∈ mgmt'.frames, g.fixCount = 0 → g.dirty = false) ∧
      (∀ (j : Nat) (f : BM_Frame), mgmt.frames[j]? = some f →
        (f.dirty = true ∧ f.fixCount = 0 → mgmt'.frames[j]? = some { f with dirty := false }) ∧
        (¬ (f.dirty = true ∧ f.fixCount = 0) → mgmt'.frames[j]? = some f)) ∧
      BM_MgmtData.writeIO mgmt' =
        BM_MgmtData.writeIO mgmt + ((mgmt.frames.filter needsFlush).length : Int) ∧
      mgmt'.fileHandle.mgmtInfo.journal =
        mgmt.fileHandle.mgmtInfo.journal ++ flushWrites mgmt.frames ∧
      mgmt'.fileHandle.mgmtInfo.blocks = flushBlocks mgmt.fileHandle.mgmtInfo.blocks mgmt.frames ∧
      mgmt'.fileHandle.totalNumPages = mgmt.fileHandle.totalNumPages ∧
      BM_MgmtData.readIO mgmt' = BM_MgmtData.readIO mgmt ∧
      mgmt'.time = mgmt.time := by
  unfold forceFlushPool at hok ⊢
  rw [hm] at hok ⊢
  dsimp only at hok ⊢
  obtain ⟨h1, h2, h3, h4, h5⟩ :=
    forceFlushLoop_ok mgmt.frames mgmt.fileHandle (BM_MgmtData.writeIO mgmt) hok
  refine ⟨_, rfl, h1, ?_, ?_, h2, h3, h4, h5, rfl, rfl⟩
  · intro g hg hfix
    dsimp only at hg
    rw [h1] at hg
    unfold flushedFrames at hg
    obtain ⟨f, _, rfl⟩ := List.mem_map.mp hg
    by_cases hn : needsFlush f = true
    · rw [if_pos hn]
    · rw [if_neg hn] at hfix ⊢
      cases hdirty : f.dirty with
      | false => rfl
      | true => exact absurd ((needsFlush_iff f).mpr ⟨hdirty, hfix⟩) hn
  · intro j f hf
    dsimp only
    rw [h1]
    unfold flushedFrames
    rw [List.getElem?_map, hf]
    constructor
    · intro hd
      simp [(needsFlush_iff f).mpr hd]
    · intro hd
      have hn : ¬ needsFlush f = true := fun hx => hd ((needsFlush_iff f).mp hx)
      simp [hn]

end BufferMgr

namespace BufferMgr

/-! ## C16 -/

theorem shutdown_pinned_eq (bm : BM_BufferPool) (mgmt : BM_MgmtData) (j : Nat) (f : BM_Frame)
    (hm : bm.mgmtData = some mgmt) (hf : mgmt.frames[j]? = some f) (hpin : 0 < f.fixCount) :
    shutdownBufferPool bm = (RC.RC_IM_NO_MORE_ENTRIES, bm) := by
  unfold shutdownBufferPool
  rw [hm]
  dsimp only
  have hany : mgmt.frames.any (fun f => decide (f.fixCount > 0)) = true := by
    rw [List.any_eq_true]
    exact ⟨f, List.getElem?_mem hf, by simpa using hpin⟩
  rw [if_pos hany]

theorem shutdown_unpinned_ok (bm : BM_BufferPool) (mgmt : BM_MgmtData)
    (hm : bm.mgmtData = some mgmt)
    (hfree : ∀ (j : Nat) (f : BM_Frame), mgmt.frames[j]? = some f → f.fixCount ≤ 0) :
    shutdownBufferPool bm = (RC.RC_OK, { bm with mgmtData := none }) := by
  unfold shutdownBufferPool
  rw [hm]
  dsimp only
  have hany : ¬ mgmt.frames.any (fun f => decide (f.fixCount > 0)) = true := by
    rw [List.any_eq_true]
    rintro ⟨f, hf, hpos⟩
    obtain ⟨j, hj⟩ := List.mem_iff_getElem?.mp hf
    have := hfree j f hj
    simp at hpos
    omega
  rw [if_neg hany]
  have hflush : ∃ m, (forceFlushPool bm).2.mgmtData = some m := by
    unfold forceFlushPool
    rw [hm]
    exact ⟨_, rfl⟩
  obtain ⟨m, hmf⟩ := hflush
  rw [hmf]
  dsimp only
  unfold closePageFile
  simp

/-- C16: for every pool state in which some frame has `fixCount > 0`,
`shutdownBufferPool` returns `RC_IM_NO_MORE_ENTRIES` and the pool afterwards is
the pool before (management data, frames, counters and file handle, so no block
was written); in a pool in which no frame is pinned it returns `RC_OK` and
clears the management data.  Scenario S5: with page 0 pinned the teardown
fails and leaves the pool unchanged; after the unpin, `readIO = 1` and
`writeIO = 0`, and the teardown returns `RC_OK`. -/
theorem shutdown_refuses_pinned :
    (∀ (bm : BM_BufferPool) (mgmt : BM_MgmtData) (j : Nat) (f : BM_Frame),
        bm.mgmtData = some mgmt → mgmt.frames[j]? = some f → 0 < f.fixCount →
        shutdownBufferPool bm = (RC.RC_IM_NO_MORE_ENTRIES, bm)) ∧
    (∀ (bm : BM_BufferPool) (mgmt : BM_MgmtData),
        bm.mgmtData = some mgmt →
        (∀ (j : Nat) (f : BM_Frame), mgmt.frames[j]? = some f → f.fixCount ≤ 0) →
        shutdownBufferPool bm = (RC.RC_OK, { bm with mgmtData := none })) ∧
    ((shutdownBufferPool poolS5).1 = RC.RC_IM_NO_MORE_ENTRIES ∧
      (shutdownBufferPool poolS5).2 = poolS5 ∧
      (unpinPage (shutdownBufferPool poolS5).2 (handleOf 0)).1 = RC.RC_OK ∧
      getNumReadIO (unpinPage (shutdownBufferPool poolS5).2 (handleOf 0)).2 = 1 ∧
      getNumWriteIO (unpinPage (shutdownBufferPool poolS5).2 (handleOf 0)).2 = 0 ∧
      (shutdownBufferPool (unpinPage (shutdownBufferPool poolS5).2 (handleOf 0)).2).1
        = RC.RC_OK ∧
      (shutdownBufferPool (unpinPage (shutdownBufferPool poolS5).2 (handleOf 0)).2).2.mgmtData
        = none) :=
  ⟨shutdown_pinned_eq, shutdown_unpinned_ok, ⟨rfl, rfl, rfl, rfl, rfl, rfl, rfl⟩⟩

/-- C16 at the pool of one frame with page 0 pinned. -/
theorem shutdown_refuses_pinned_witness :
    shutdownBufferPool pinnedOnePool = (RC.RC_IM_NO_MORE_ENTRIES, pinnedOnePool) :=
  shutdown_refuses_pinned.1 pinnedOnePool pinnedOneMgmt 0
    { pageNum := 0, data := zeroPage, fixCount := 1, dirty := false, loadTime := 1, lastUsed := 1 }
    rfl rfl (by decide)

end BufferMgr

namespace BufferMgr

/-! ## C17 -/

/-- C17 fails on the code: `shutdownBufferPool` calls `forceFlushPool` and drops
its return code.  In every pool with no pinned frame it returns `RC_OK` and
clears the management data, whatever the flush returned.  At `lostWritePool`
(page 0 dirty and unpinned, the next write failing) the flush returns
`RC_WRITE_FAILED` and leaves block 0 of the file as it was, and the shutdown
returns `RC_OK` and discards the pool with the dirty frame. -/
theorem shutdown_drops_flush_error :
    (∀ (bm : BM_BufferPool) (mgmt : BM_MgmtData),
        bm.mgmtData = some mgmt →
        (∀ (j : Nat) (f : BM_Frame), mgmt.frames[j]? = some f → f.fixCount ≤ 0) →
        (shutdownBufferPool bm).1 = RC.RC_OK) ∧
    (getFixCounts lostWritePool = some [0, 0, 0] ∧
      getDirtyFlags lostWritePool = some [true, false, false] ∧
      handleBytes lostWritePool ⟨0, some 0⟩ = some bytesS3 ∧
      (forceFlushPool lostWritePool).1 = RC.RC_WRITE_FAILED ∧
      pageFileBlocks (forceFlushPool lostWritePool).2 = some [zeroPage] ∧
      getDirtyFlags (forceFlushPool lostWritePool).2 = some [true, false, false] ∧
      (shutdownBufferPool lostWritePool).1 = RC.RC_OK ∧
      (shutdownBufferPool lostWritePool).2.mgmtData = none) := by
  refine ⟨?_, ⟨rfl, rfl, rfl, rfl, rfl, rfl, rfl, rfl⟩⟩
  intro bm mgmt hm hfree
  rw [shutdown_unpinned_ok bm mgmt hm hfree]

end BufferMgr

namespace BufferMgr

/-! ## C18 -/

theorem loadVictim_failed_pageNum (mgmt : BM_MgmtData) (v : Nat) (p : Int) (page : BM_PageHandle)
    (h : (loadVictim mgmt v p page).1 ≠ RC.RC_OK) :
    ((loadVictim mgmt v p page).2.1.frames[v]?).map (fun g => (g.pageNum, g.fixCount, g.dirty)) =
      (mgmt.frames[v]?).map (fun g => (g.pageNum, g.fixCount, g.dirty)) := by
  unfold loadVictim at h ⊢
  cases hv : mgmt.frames[v]? with
  | none =>
    dsimp only
    rw [hv]
  | some vf =>
    rw [hv] at h
    dsimp only at h ⊢
    by_cases hr : (readBlock p mgmt.fileHandle vf.data).1 = RC.RC_OK
    · rw [if_neg (by simp [hr])] at h
      exact absurd rfl h
    · rw [if_pos hr]
      dsimp only
      rw [getElem?_set_self_of hv]
      rfl

/-- When `pinPage` of a page that is not resident fails after a victim was
chosen, the victim frame still holds the page number it held. -/
theorem pinPage_failed_victim (bm : BM_BufferPool) (mgmt : BM_MgmtData) (page : BM_PageHandle)
    (p : Int) (v : Nat) (vf : BM_Frame) (hm : bm.mgmtData = some mgmt)
    (hmiss : findFrame mgmt.frames p = none)
    (hc : chooseVictim bm.strategy mgmt.frames = some v) (hv : mgmt.frames[v]? = some vf)
    (hfail : (pinPage bm page p).1 ≠ RC.RC_OK) :
    ∃ mgmt' vf', (pinPage bm page p).2.1.mgmtData = some mgmt' ∧
      mgmt'.frames[v]? = some vf' ∧ vf'.pageNum = vf.pageNum := by
  unfold pinPage at hfail ⊢
  rw [hm] at hfail ⊢
  dsimp only at hfail ⊢
  by_cases hp : p < 0
  · rw [if_pos hp]
    exact ⟨mgmt, vf, hm, hv, rfl⟩
  · rw [if_neg hp] at hfail ⊢
    dsimp only at hfail ⊢
    suffices hs : ∃ vf', (pinPageCore bm.strategy mgmt page p).2.1.frames[v]? = some vf' ∧
        vf'.pageNum = vf.pageNum by
      obtain ⟨vf', h1, h2⟩ := hs
      exact ⟨_, vf', rfl, h1, h2⟩
    unfold pinPageCore at hfail ⊢
    dsimp only at hfail ⊢
    have hv0 : (tickAndGrow mgmt p).2.frames[v]? = some vf := by
      rw [tickAndGrow_frames]; exact hv
    by_cases hg : (tickAndGrow mgmt p).1 = RC.RC_OK
    · rw [if_neg (by simp [hg])] at hfail ⊢
      unfold pinInPool at hfail ⊢
      rw [tickAndGrow_frames, hmiss] at hfail ⊢
      dsimp only at hfail ⊢
      rw [hc] at hfail ⊢
      dsimp only at hfail ⊢
      rw [hv] at hfail ⊢
      dsimp only at hfail ⊢
      have hev := evictVictim_ok_frames (tickAndGrow mgmt p).2 v vf hv0 v
      rw [hv0] at hev
      cases hy : (evictVictim (tickAndGrow mgmt p).2 v vf).2.frames[v]? with
      | none => rw [hy] at hev; cases hev
      | some y =>
        rw [hy] at hev
        simp only [Option.map_some', Option.some.injEq] at hev
        by_cases he : (evictVictim (tickAndGrow mgmt p).2 v vf).1 = RC.RC_OK
        · rw [if_neg (by simp [he])] at hfail ⊢
          have hl := loadVictim_failed_pageNum _ v p page hfail
          rw [hy] at hl
          cases hx : (loadVictim (evictVictim (tickAndGrow mgmt p).2 v vf).2 v p page).2.1.frames[v]? with
          | none => rw [hx] at hl; cases hl
          | some x =>
            rw [hx] at hl
            simp only [Option.map_some', Option.some.injEq, Prod.mk.injEq] at hl
            exact ⟨x, rfl, by rw [hl.1, hev]⟩
        · rw [if_pos he]
          exact ⟨y, hy, hev⟩
    · rw [if_pos hg]
      exact ⟨vf, hv0, rfl⟩

/-- C18 fails on the code: when the read of the requested page fails,
`pinPage` returns the read error at once and does not reset the victim frame.
For every pool, whenever a `pinPage` of a page that is not resident fails
after a victim was chosen, the victim frame keeps the page number it held.  At
`staleReadPool` (one frame, page 0 dirty with `0xAA` bytes and unpinned)
`pinPage 1` writes page 0 back, its read fails after 16 bytes, and it returns
`RC_READ_NON_EXISTING_PAGE`; frame 0 then still claims page 0, unpinned and
clean, with the first 16 bytes overwritten, so that a later `pinPage 0` is a
hit that returns bytes other than those of block 0. -/
theorem pinPage_read_failure_keeps_victim :
    (∀ (bm : BM_BufferPool) (mgmt : BM_MgmtData) (page : BM_PageHandle) (p : Int) (v : Nat)
        (vf : BM_Frame),
        bm.mgmtData = some mgmt → findFrame mgmt.frames p = none →
        chooseVictim bm.strategy mgmt.frames = some v → mgmt.frames[v]? = some vf →
        (pinPage bm page p).1 ≠ RC.RC_OK →
        ∃ mgmt' vf', (pinPage bm page p).2.1.mgmtData = some mgmt' ∧
          mgmt'.frames[v]? = some vf' ∧ vf'.pageNum = vf.pageNum) ∧
    (getFrameContents staleReadPool = some [0] ∧
      (pinPage staleReadPool blankHandle 1).1 = RC.RC_READ_NON_EXISTING_PAGE ∧
      getFrameContents (pinPage staleReadPool blankHandle 1).2.1 = some [0] ∧
      getFixCounts (pinPage staleReadPool blankHandle 1).2.1 = some [0] ∧
      getDirtyFlags (pinPage staleReadPool blankHandle 1).2.1 = some [false] ∧
      pageFileBlocks (pinPage staleReadPool blankHandle 1).2.1 = some [bytesS3, zeroPage] ∧
      (pinPage (pinPage staleReadPool blankHandle 1).2.1 blankHandle 0).1 = RC.RC_OK ∧
      handleBytes (pinPage (pinPage staleReadPool blankHandle 1).2.1 blankHandle 0).2.1
          (pinPage (pinPage staleReadPool blankHandle 1).2.1 blankHandle 0).2.2
        = some (partialCopy 16 zeroPage bytesS3) ∧
      partialCopy 16 zeroPage bytesS3 ≠ bytesS3) := by
  refine ⟨pinPage_failed_victim, ⟨rfl, rfl, rfl, rfl, rfl, rfl, rfl, rfl, ?_⟩⟩
  intro h
  have h0 := congrArg List.head? h
  exact absurd h0 (by decide)

end BufferMgr

namespace BufferMgr

/-! ## C19 -/

theorem tickAndGrow_ok_total (mgmt0 : BM_MgmtData) (p : Int)
    (h : (tickAndGrow mgmt0 p).1 = RC.RC_OK) :
    (tickAndGrow mgmt0 p).2.fileHandle.totalNumPages =
      max mgmt0.fileHandle.totalNumPages (p + 1) := by
  unfold tickAndGrow at h ⊢
  dsimp only at h ⊢
  by_cases hge : p ≥ mgmt0.fileHandle.totalNumPages
  · rw [if_pos hge] at h ⊢
    dsimp only at h ⊢
    unfold ensureCapacity at h ⊢
    rw [ensureCapacityLoop_ok_total _ _ h, max_eq_right (by omega)]
    omega
  · rw [if_neg hge]
    dsimp only
    rw [max_eq_left (by omega)]

theorem chooseVictim_none_of_pinned (strategy : ReplacementStrategy) (frames : List BM_Frame)
    (h : ∀ (j : Nat) (g : BM_Frame), frames[j]? = some g → g.pageNum ≠ NO_PAGE ∧ g.fixCount ≠ 0) :
    chooseVictim strategy frames = none := by
  cases hc : chooseVictim strategy frames with
  | none => rfl
  | some v =>
    obtain ⟨vf, hv, hfree⟩ := chooseVictim_some hc
    obtain ⟨h1, h2⟩ := h v vf hv
    rcases hfree with e | e
    · exact absurd e h1
    · exact absurd e h2

/-- With the page not resident and no victim, `pinPage` is the tick and the
growth of the file, followed by the failure. -/
theorem pinPage_no_victim_eq (bm : BM_BufferPool) (mgmt : BM_MgmtData) (page : BM_PageHandle)
    (p : Int) (hm : bm.mgmtData = some mgmt) (hp : 0 ≤ p)
    (hmiss : findFrame mgmt.frames p = none)
    (hc : chooseVictim bm.strategy mgmt.frames = none) :
    pinPage bm page p =
      ((if (tickAndGrow mgmt p).1 ≠ RC.RC_OK then (tickAndGrow mgmt p).1
          else RC.RC_IM_NO_MORE_ENTRIES),
        { bm with mgmtData := some (tickAndGrow mgmt p).2 }, page) := by
  unfold pinPage
  rw [hm]
  dsimp only
  rw [if_neg (by omega)]
  unfold pinPageCore
  dsimp only
  by_cases hg : (tickAndGrow mgmt p).1 ≠ RC.RC_OK
  · rw [if_pos hg, if_pos hg]
  · rw [if_neg hg, if_neg hg]
    unfold pinInPool
    rw [tickAndGrow_frames, hmiss]
    dsimp only
    rw [hc]

/-- C19, as the code has it: when `pinPage p` fails because `p` is negative,
the pool and the handle after the call are those before.  When `p ≥ 0` is not
resident and every frame is resident and pinned, the call fails (with
`RC_IM_NO_MORE_ENTRIES` once the file has been grown), the handle, every
frame, `readIO`, `writeIO` and the blocks the file had are unchanged, but the
time counter has been incremented by 1 and the file has been grown with `k`
zero pages, to `max L (p + 1)` pages when the appends succeed, `L` being its
length before. -/
theorem pinPage_failure_effect :
    (∀ (bm : BM_BufferPool) (mgmt : BM_MgmtData) (page : BM_PageHandle) (p : Int),
        bm.mgmtData = some mgmt → p < 0 →
        pinPage bm page p = (RC.RC_READ_NON_EXISTING_PAGE, bm, page)) ∧
    (∀ (bm : BM_BufferPool) (mgmt : BM_MgmtData) (page : BM_PageHandle) (p : Int),
        bm.mgmtData = some mgmt → 0 ≤ p →
        (∀ (j : Nat) (g : BM_Frame), mgmt.frames[j]? = some g →
          g.pageNum ≠ p ∧ g.pageNum ≠ NO_PAGE ∧ 0 < g.fixCount) →
        ∃ (mgmt' : BM_MgmtData) (k : Nat),
          (pinPage bm page p).2.1 = { bm with mgmtData := some mgmt' } ∧
          (pinPage bm page p).1 ≠ RC.RC_OK ∧
          (pinPage bm page p).2.2 = page ∧
          mgmt'.frames = mgmt.frames ∧
          BM_MgmtData.readIO mgmt' = BM_MgmtData.readIO mgmt ∧
          BM_MgmtData.writeIO mgmt' = BM_MgmtData.writeIO mgmt ∧
          mgmt'.time = mgmt.time + 1 ∧
          mgmt'.fileHandle.mgmtInfo.blocks =
            mgmt.fileHandle.mgmtInfo.blocks ++ List.replicate k zeroPage ∧
          mgmt'.fileHandle.mgmtInfo.journal =
            mgmt.fileHandle.mgmtInfo.journal ++ List.replicate k Transfer.append ∧
          ((tickAndGrow mgmt p).1 = RC.RC_OK →
            (pinPage bm page p).1 = RC.RC_IM_NO_MORE_ENTRIES ∧
            mgmt'.fileHandle.totalNumPages = max mgmt.fileHandle.totalNumPages (p + 1)) ∧
          (mgmt.fileHandle.mgmtInfo.script = [] → (tickAndGrow mgmt p).1 = RC.RC_OK)) := by
  constructor
  · intro bm mgmt page p hm hp
    unfold pinPage
    rw [hm]
    dsimp only
    rw [if_pos hp]
  · intro bm mgmt page p hm hp hall
    have hmiss : findFrame mgmt.frames p = none :=
      findFrame_eq_none_of (fun j g hg => (hall j g hg).1)
    have hc : chooseVictim bm.strategy mgmt.frames = none :=
      chooseVictim_none_of_pinned _ _
        (fun j g hg => ⟨(hall j g hg).2.1, by have := (hall j g hg).2.2; omega⟩)
    obtain ⟨k, hkb, hkj⟩ := tickAndGrow_appends mgmt p
    rw [pinPage_no_victim_eq bm mgmt page p hm hp hmiss hc]
    refine ⟨(tickAndGrow mgmt p).2, k, rfl, ?_, rfl, tickAndGrow_frames _ _, tickAndGrow_reads _ _,
      tickAndGrow_writes _ _, tickAndGrow_time _ _, hkb, hkj, ?_,
      fun hs => (tickAndGrow_reliable mgmt p hs).1⟩
    · dsimp only
      split_ifs with hg
      · exact hg
      · simp
    · intro hg
      dsimp only
      rw [if_neg (by simp [hg])]
      exact ⟨rfl, tickAndGrow_ok_total mgmt p hg⟩

/-- C19 as stated fails at the pool of one frame with page 0 pinned: the pin of
page 1 fails with `RC_IM_NO_MORE_ENTRIES`, page 1 not being resident and the
only frame being pinned, and the pool after the call is not the pool before:
the time counter went from 1 to 2 and the file from one page to two. -/
theorem pinPage_failure_changes_state :
    getFrameContents pinnedOnePool = some [0] ∧
    getFixCounts pinnedOnePool = some [1] ∧
    (pinPage pinnedOnePool blankHandle 1).1 = RC.RC_IM_NO_MORE_ENTRIES ∧
    pinnedOnePool.mgmtData.map (fun m => m.time) = some 1 ∧
    (pinPage pinnedOnePool blankHandle 1).2.1.mgmtData.map (fun m => m.time) = some 2 ∧
    pageFileBlocks pinnedOnePool = some [zeroPage] ∧
    pageFileBlocks (pinPage pinnedOnePool blankHandle 1).2.1 = some [zeroPage, zeroPage] ∧
    (pinPage pinnedOnePool blankHandle 1).2.1 ≠ pinnedOnePool := by
  refine ⟨rfl, rfl, rfl, rfl, rfl, rfl, rfl, ?_⟩
  intro h
  have ht := congrArg (fun b : BM_BufferPool => b.mgmtData.map (fun m => m.time)) h
  have h1 : (pinPage pinnedOnePool blankHandle 1).2.1.mgmtData.map (fun m => m.time) = some 2 :=
    rfl
  have h2 : pinnedOnePool.mgmtData.map (fun m => m.time) = some 1 := rfl
  dsimp only at ht
  rw [h1, h2] at ht
  exact absurd ht (by decide)

/-- C19 as amended, at the pool of one frame with page 0 pinned and the pin of
page 1. -/
theorem pinPage_failure_effect_witness :
    ∃ (mgmt' : BM_MgmtData) (k : Nat),
      (pinPage pinnedOnePool blankHandle 1).2.1 = { pinnedOnePool with mgmtData := some mgmt' } ∧
      (pinPage pinnedOnePool blankHandle 1).1 ≠ RC.RC_OK ∧
      (pinPage pinnedOnePool blankHandle 1).2.2 = blankHandle ∧
      mgmt'.frames = pinnedOneMgmt.frames ∧
      BM_MgmtData.readIO mgmt' = BM_MgmtData.readIO pinnedOneMgmt ∧
      BM_MgmtData.writeIO mgmt' = BM_MgmtData.writeIO pinnedOneMgmt ∧
      mgmt'.time = pinnedOneMgmt.time + 1 ∧
      mgmt'.fileHandle.mgmtInfo.blocks =
        pinnedOneMgmt.fileHandle.mgmtInfo.blocks ++ List.replicate k zeroPage ∧
      mgmt'.fileHandle.mgmtInfo.journal =
        pinnedOneMgmt.fileHandle.mgmtInfo.journal ++ List.replicate k Transfer.append ∧
      ((tickAndGrow pinnedOneMgmt 1).1 = RC.RC_OK →
        (pinPage pinnedOnePool blankHandle 1).1 = RC.RC_IM_NO_MORE_ENTRIES ∧
        mgmt'.fileHandle.totalNumPages = max pinnedOneMgmt.fileHandle.totalNumPages (1 + 1)) ∧
      (pinnedOneMgmt.fileHandle.mgmtInfo.script = [] →
        (tickAndGrow pinnedOneMgmt 1).1 = RC.RC_OK) :=
  pinPage_failure_effect.2 pinnedOnePool pinnedOneMgmt blankHandle 1 rfl (by decide)
    (fun j g hg => by
      have hj : j = 0 := by
        by_contra hne
        have hlen : pinnedOneMgmt.frames.length ≤ j := by
          show 1 ≤ j
          omega
        rw [List.getElem?_eq_none hlen] at hg
        cases hg
      subst hj
      have hg' : pinnedOneMgmt.frames[0]? = some
          { pageNum := 0, data := zeroPage, fixCount := 1, dirty := false, loadTime := 1,
            lastUsed := 1 } := rfl
      rw [hg'] at hg
      cases hg
      exact ⟨by decide, by decide, by decide⟩)

end BufferMgr

namespace BufferMgr

/-! ## Empty frames are never pinned -/

theorem EmptyUnpinned.set_frame_of {frames : List BM_Frame} (h : EmptyUnpinned frames)
    (i : Nat) {f' : BM_Frame} (hf' : f'.pageNum = NO_PAGE → f'.fixCount = 0) :
    EmptyUnpinned (frames.set i f') := by
  intro j g hg hgp
  rcases getElem?_set_cases hg with ⟨_, rfl⟩ | ⟨_, hg'⟩
  · exact hf' hgp
  · exact h j g hg' hgp

theorem EmptyUnpinned.of_same {frames frames' : List BM_Frame} (h : EmptyUnpinned frames)
    (hrel : ∀ (j : Nat) (g : BM_Frame), frames'[j]? = some g →
      ∃ f, frames[j]? = some f ∧ g.pageNum = f.pageNum ∧ g.fixCount = f.fixCount) :
    EmptyUnpinned frames' := by
  intro j g hg hgp
  obtain ⟨f, hf, e1, e2⟩ := hrel j g hg
  rw [e2]
  exact h j f hf (by rw [← e1]; exact hgp)

theorem evictVictim_empty_unpinned {mgmt : BM_MgmtData} (h : EmptyUnpinned mgmt.frames)
    {v : Nat} {vf : BM_Frame} (hv : mgmt.frames[v]? = some vf) :
    EmptyUnpinned (evictVictim mgmt v vf).2.frames := by
  rcases evictVictim_frames_cases mgmt v vf with e | e
  · rw [e]; exact h
  · rw [e]
    exact h.set_frame_of v (fun hp => h v vf hv hp)

theorem loadVictim_empty_unpinned {mgmt : BM_MgmtData} (h : EmptyUnpinned mgmt.frames)
    (v : Nat) (p : Int) (page : BM_PageHandle) (hp : 0 ≤ p) :
    EmptyUnpinned (loadVictim mgmt v p page).2.1.frames := by
  unfold loadVictim
  cases hv : mgmt.frames[v]? with
  | none => exact h
  | some vf =>
    dsimp only
    split_ifs
    · exact h.set_frame_of v (fun hx => h v vf hv hx)
    · refine h.set_frame_of v (fun hx => ?_)
      dsimp only at hx
      unfold NO_PAGE at hx
      omega

theorem pinInPool_empty_unpinned {mgmt : BM_MgmtData} (h : EmptyUnpinned mgmt.frames)
    (strategy : ReplacementStrategy) (page : BM_PageHandle) (p : Int) (hp : 0 ≤ p) :
    EmptyUnpinned (pinInPool strategy mgmt page p).2.1.frames := by
  unfold pinInPool
  cases hfind : findFrame mgmt.frames p with
  | some i =>
    dsimp only
    cases hf : mgmt.frames[i]? with
    | none => exact h
    | some f =>
      obtain ⟨f', hf', hfp, _⟩ := findFrame_some hfind
      rw [hf] at hf'
      cases hf'
      refine h.set_frame_of i (fun hx => ?_)
      dsimp only at hx
      rw [hfp] at hx
      unfold NO_PAGE at hx
      omega
  | none =>
    dsimp only
    cases hc : chooseVictim strategy mgmt.frames with
    | none => exact h
    | some v =>
      dsimp only
      cases hv : mgmt.frames[v]? with
      | none => exact h
      | some vf =>
        dsimp only
        split_ifs
        · exact evictVictim_empty_unpinned h hv
        · exact loadVictim_empty_unpinned (evictVictim_empty_unpinned h hv) v p page hp

theorem pinPage_empty_unpinned {bm : BM_BufferPool} (h : PoolEmptyUnpinned bm)
    (page : BM_PageHandle) (p : Int) : PoolEmptyUnpinned (pinPage bm page p).2.1 := by
  unfold pinPage
  cases hm : bm.mgmtData with
  | none => exact h
  | some mgmt =>
    have h0 := h mgmt hm
    dsimp only
    by_cases hp : p < 0
    · rw [if_pos hp]; exact h
    · rw [if_neg hp]
      intro m hm'
      cases hm'
      unfold pinPageCore
      dsimp only
      have hg : EmptyUnpinned (tickAndGrow mgmt p).2.frames := by
        rw [tickAndGrow_frames]; exact h0
      split_ifs
      · exact hg
      · exact pinInPool_empty_unpinned hg _ _ _ (by omega)

theorem unpinPage_empty_unpinned {bm : BM_BufferPool} (h : PoolEmptyUnpinned bm)
    (page : BM_PageHandle) : PoolEmptyUnpinned (unpinPage bm page).2 := by
  unfold unpinPage
  cases hm : bm.mgmtData with
  | none => exact h
  | some mgmt =>
    have h0 := h mgmt hm
    dsimp only
    split
    · exact h
    · split
      · exact h
      · rename_i f hf
        split_ifs with hfix
        · exact h
        · intro m hm'
          cases hm'
          refine h0.set_frame_of _ (fun hx => ?_)
          have := h0 _ f hf hx
          omega

theorem markDirty_empty_unpinned {bm : BM_BufferPool} (h : PoolEmptyUnpinned bm)
    (page : BM_PageHandle) : PoolEmptyUnpinned (markDirty bm page).2 := by
  unfold markDirty
  cases hm : bm.mgmtData with
  | none => exact h
  | some mgmt =>
    have h0 := h mgmt hm
    dsimp only
    split
    · exact h
    · split
      · exact h
      · rename_i f hf
        intro m hm'
        cases hm'
        exact h0.set_frame_of _ (fun hx => h0 _ f hf hx)

theorem forcePage_empty_unpinned {bm : BM_BufferPool} (h : PoolEmptyUnpinned bm)
    (page : BM_PageHandle) : PoolEmptyUnpinned (forcePage bm page).2 := by
  unfold forcePage
  cases hm : bm.mgmtData with
  | none => exact h
  | some mgmt =>
    have h0 := h mgmt hm
    dsimp only
    split
    · exact h
    · split
      · exact h
      · rename_i f hf
        split_ifs
        · intro m hm'
          cases hm'
          exact h0
        · intro m hm'
          cases hm'
          exact h0.set_frame_of _ (fun hx => h0 _ f hf hx)

theorem storeBytes_empty_unpinned {bm : BM_BufferPool} (h : PoolEmptyUnpinned bm)
    (frame : Nat) (bytes : PageData) : PoolEmptyUnpinned (storeBytes bm frame bytes) := by
  unfold storeBytes
  cases hm : bm.mgmtData with
  | none => exact h
  | some mgmt =>
    have h0 := h mgmt hm
    dsimp only
    split
    · exact h
    · rename_i f hf
      intro m hm'
      cases hm'
      exact h0.set_frame_of _ (fun hx => h0 _ f hf hx)

/-- The flush loop changes dirty flags only, whatever the file handle is. -/
theorem forceFlushLoop_frames :
    ∀ (fs : List BM_Frame) (fh : SM_FileHandle) (w : Int) (j : Nat) (g : BM_Frame),
      (forceFlushLoop fs fh w).2.1[j]? = some g →
      ∃ f, fs[j]? = some f ∧ g.pageNum = f.pageNum ∧ g.fixCount = f.fixCount := by
  intro fs
  induction fs with
  | nil => intro fh w j g hg; simp [forceFlushLoop] at hg
  | cons f fs ih =>
    intro fh w j g hg
    unfold forceFlushLoop at hg
    dsimp only at hg
    split_ifs at hg with hd hr
    · exact ⟨g, hg, rfl, rfl⟩
    · cases j with
      | zero =>
        simp only [List.getElem?_cons_zero, Option.some.injEq] at hg
        subst hg
        exact ⟨f, by simp, rfl, rfl⟩
      | succ j =>
        simp only [List.getElem?_cons_succ] at hg ⊢
        exact ih _ _ j g hg
    · cases j with
      | zero =>
        simp only [List.getElem?_cons_zero, Option.some.injEq] at hg
        subst hg
        exact ⟨f, by simp, rfl, rfl⟩
      | succ j =>
        simp only [List.getElem?_cons_succ] at hg ⊢
        exact ih _ _ j g hg

theorem forceFlushPool_empty_unpinned {bm : BM_BufferPool} (h : PoolEmptyUnpinned bm) :
    PoolEmptyUnpinned (forceFlushPool bm).2 := by
  unfold forceFlushPool
  cases hm : bm.mgmtData with
  | none => exact h
  | some mgmt =>
    have h0 := h mgmt hm
    intro m hm'
    cases hm'
    exact h0.of_same (forceFlushLoop_frames mgmt.frames mgmt.fileHandle _)

theorem shutdown_empty_unpinned {bm : BM_BufferPool} (h : PoolEmptyUnpinned bm) :
    PoolEmptyUnpinned (shutdownBufferPool bm).2 := by
  unfold shutdownBufferPool
  split
  · exact h
  · split_ifs
    · exact h
    · split
      · exact h
      · dsimp only
        split_ifs <;> (intro m hm'; cases hm')

theorem initBufferPool_empty_unpinned (bm : BM_BufferPool) (name : String) (numPages : Int)
    (strategy : ReplacementStrategy) (file : Option OSFile)
    (h : (initBufferPool bm name numPages strategy file).1 = RC.RC_OK) :
    PoolEmptyUnpinned (initBufferPool bm name numPages strategy file).2 := by
  unfold initBufferPool at h ⊢
  by_cases hn : numPages ≤ 0
  · simp [hn] at h
  · cases file with
    | none => simp [hn, openPageFile] at h
    | some f =>
      simp only [hn, if_false, openPageFile]
      intro m hm
      cases hm
      intro j g hg _
      have hmem := List.getElem?_mem hg
      rw [List.mem_replicate] at hmem
      rw [hmem.2]
      rfl

theorem reachable_empty_unpinned {bm : BM_BufferPool} (h : Reachable bm) :
    PoolEmptyUnpinned bm := by
  obtain ⟨bm0, name, n, strategy, file, ops, hinit, rfl⟩ := h
  have h0 := initBufferPool_empty_unpinned bm0 name n strategy file hinit
  generalize (initBufferPool bm0 name n strategy file).2 = b at h0
  induction ops generalizing b with
  | nil => exact h0
  | cons op ops ih =>
    apply ih
    cases op with
    | pin page pageNum => exact pinPage_empty_unpinned h0 page pageNum
    | unpin page => exact unpinPage_empty_unpinned h0 page
    | dirty page => exact markDirty_empty_unpinned h0 page
    | force page => exact forcePage_empty_unpinned h0 page
    | flush => exact forceFlushPool_empty_unpinned h0
    | shutdown => exact shutdown_empty_unpinned h0
    | store frame bytes => exact storeBytes_empty_unpinned h0 frame bytes

/-! ## C20 -/

/-- C20 fails on the code in its dirty-flag half: `markDirty` looks the frame up
by the page number of the handle without leaving empty frames out, so a handle
that carries `NO_PAGE` marks the first empty frame dirty.  At `dirtyEmptyPool`
(a new pool of three frames after `markDirty` with such a handle, which
returned `RC_OK`) every frame is empty and frame 0 is dirty, and
`forceFlushPool` then fails with `RC_WRITE_FAILED` on the block number
`NO_PAGE`.  The pin-count half holds: in every reachable pool state (arbitrary
handles, stores, failing system calls) every empty frame has `fixCount = 0`. -/
theorem markDirty_dirties_empty_frame :
    (∀ (bm : BM_BufferPool) (mgmt : BM_MgmtData) (j : Nat) (g : BM_Frame),
        Reachable bm → bm.mgmtData = some mgmt → mgmt.frames[j]? = some g →
        g.pageNum = NO_PAGE → g.fixCount = 0) ∧
    (Reachable dirtyEmptyPool ∧
      (markDirty (freshPool 3 ReplacementStrategy.RS_FIFO) blankHandle).1 = RC.RC_OK ∧
      getFrameContents dirtyEmptyPool = some [NO_PAGE, NO_PAGE, NO_PAGE] ∧
      getFixCounts dirtyEmptyPool = some [0, 0, 0] ∧
      getFrameContents (freshPool 3 ReplacementStrategy.RS_FIFO)
        = some [NO_PAGE, NO_PAGE, NO_PAGE] ∧
      getDirtyFlags (freshPool 3 ReplacementStrategy.RS_FIFO) = some [false, false, false] ∧
      getDirtyFlags dirtyEmptyPool = some [true, false, false] ∧
      (forceFlushPool dirtyEmptyPool).1 = RC.RC_WRITE_FAILED) := by
  refine ⟨?_, ⟨reachable_freshPool_run 3 _ _ (by decide), rfl, rfl, rfl, rfl, rfl, rfl, rfl⟩⟩
  intro bm mgmt j g hr hm hg hp
  exact reachable_empty_unpinned hr mgmt hm j g hg hp

end BufferMgr

namespace BufferMgr

/-! ## C12 -/

theorem handle_not_found {frames : List BM_Frame} {page : BM_PageHandle}
    (hres : ∀ (j : Nat) (g : BM_Frame), frames[j]? = some g → g.pageNum ≠ NO_PAGE →
      g.pageNum ≠ page.pageNum)
    (hsent : page.pageNum ≠ NO_PAGE ∨
      ∀ (j : Nat) (g : BM_Frame), frames[j]? = some g → g.pageNum ≠ NO_PAGE) :
    findFrame frames page.pageNum = none := by
  apply findFrame_eq_none_of
  intro j g hg
  by_cases he : g.pageNum = NO_PAGE
  · rcases hsent with hs | hs
    · rw [he]; exact fun h => hs h.symm
    · exact absurd he (hs j g hg)
  · exact hres j g hg he

/-- C12 fails on the code for the sentinel: the lookup loops of `markDirty`,
`unpinPage` and `forcePage` compare the page-number field of every frame with
the handle, empty frames included.  On a newly initialised pool of three frames
(all empty, so no frame is resident) and a handle that carries `NO_PAGE`,
`markDirty` returns `RC_OK` and sets the dirty flag of frame 0, `unpinPage`
returns `RC_IM_NO_MORE_ENTRIES` and `forcePage` returns `RC_WRITE_FAILED`; none
returns `RC_IM_KEY_NOT_FOUND`.  Away from that case the code does what the
claim says: when no resident frame holds the page of the handle, and the handle
does not carry `NO_PAGE` or the pool has no empty frame, each of the three
returns `RC_IM_KEY_NOT_FOUND` and the pool, its page file included, is
unchanged. -/
theorem sentinel_handle_matches_empty_frame :
    (∀ (bm : BM_BufferPool) (mgmt : BM_MgmtData) (page : BM_PageHandle),
        bm.mgmtData = some mgmt →
        (∀ (j : Nat) (g : BM_Frame), mgmt.frames[j]? = some g → g.pageNum ≠ NO_PAGE →
          g.pageNum ≠ page.pageNum) →
        (page.pageNum ≠ NO_PAGE ∨
          ∀ (j : Nat) (g : BM_Frame), mgmt.frames[j]? = some g → g.pageNum ≠ NO_PAGE) →
        markDirty bm page = (RC.RC_IM_KEY_NOT_FOUND, bm) ∧
        unpinPage bm page = (RC.RC_IM_KEY_NOT_FOUND, bm) ∧
        forcePage bm page = (RC.RC_IM_KEY_NOT_FOUND, bm)) ∧
    (Reachable (freshPool 3 ReplacementStrategy.RS_FIFO) ∧
      blankHandle.pageNum = NO_PAGE ∧
      getFrameContents (freshPool 3 ReplacementStrategy.RS_FIFO)
        = some [NO_PAGE, NO_PAGE, NO_PAGE] ∧
      getDirtyFlags (freshPool 3 ReplacementStrategy.RS_FIFO) = some [false, false, false] ∧
      (markDirty (freshPool 3 ReplacementStrategy.RS_FIFO) blankHandle).1 = RC.RC_OK ∧
      getDirtyFlags (markDirty (freshPool 3 ReplacementStrategy.RS_FIFO) blankHandle).2
        = some [true, false, false] ∧
      (markDirty (freshPool 3 ReplacementStrategy.RS_FIFO) blankHandle).2
        ≠ freshPool 3 ReplacementStrategy.RS_FIFO ∧
      (unpinPage (freshPool 3 ReplacementStrategy.RS_FIFO) blankHandle).1
        = RC.RC_IM_NO_MORE_ENTRIES ∧
      (forcePage (freshPool 3 ReplacementStrategy.RS_FIFO) blankHandle).1
        = RC.RC_WRITE_FAILED) := by
  constructor
  · intro bm mgmt page hm hres hsent
    have hf := handle_not_found hres hsent
    refine ⟨?_, ?_, ?_⟩
    · unfold markDirty; rw [hm]; dsimp only; rw [hf]
    · unfold unpinPage; rw [hm]; dsimp only; rw [hf]
    · unfold forcePage; rw [hm]; dsimp only; rw [hf]
  · refine ⟨reachable_freshPool_run 3 _ [] (by decide), rfl, rfl, rfl, rfl, rfl, ?_, rfl, rfl⟩
    intro h
    have h2 := congrArg getDirtyFlags h
    have e1 : getDirtyFlags (markDirty (freshPool 3 ReplacementStrategy.RS_FIFO) blankHandle).2
        = some [true, false, false] := rfl
    have e2 : getDirtyFlags (freshPool 3 ReplacementStrategy.RS_FIFO)
        = some [false, false, false] := rfl
    rw [e1, e2] at h2
    simp at h2

end BufferMgr

namespace BufferMgr

/-! ## C21 -/

theorem writeBlock_rc (q : Int) (fh : SM_FileHandle) (b : PageData) :
    (writeBlock q fh b).1 = RC.RC_OK ∨ (writeBlock q fh b).1 = RC.RC_WRITE_FAILED := by
  unfold writeBlock
  by_cases h1 : q < 0 ∨ q ≥ fh.totalNumPages
  · rw [if_pos h1]; exact Or.inr rfl
  · rw [if_neg h1]
    by_cases h3 : seekOffset q < 0
    · rw [if_pos h3]; exact Or.inr rfl
    · rw [if_neg h3]
      dsimp only
      by_cases h2 : fh.mgmtInfo.next.1 = Outcome.ok
      · rw [if_pos h2]; exact Or.inl rfl
      · rw [if_neg h2]
        split <;> exact Or.inr rfl

theorem Outcome.bytes_lt (o : Outcome) : o.bytes < PAGE_SIZE := by
  cases o with
  | ok => decide
  | fail t => exact Nat.mod_lt _ (by decide)

/-- A write that fails completes no transfer, leaves the number of pages and
the number of blocks as they were, and touches no block other than its own, of
which it has replaced at most a proper prefix by the bytes it was to write. -/
theorem writeBlock_failed (q : Int) (fh : SM_FileHandle) (b : PageData)
    (h : (writeBlock q fh b).1 ≠ RC.RC_OK) :
    (writeBlock q fh b).2.mgmtInfo.journal = fh.mgmtInfo.journal ∧
    (writeBlock q fh b).2.mgmtInfo.blocks.length = fh.mgmtInfo.blocks.length ∧
    (∀ i : Nat, i ≠ blockOf q →
      (writeBlock q fh b).2.mgmtInfo.blocks[i]? = fh.mgmtInfo.blocks[i]?) ∧
    ((writeBlock q fh b).2.mgmtInfo.blocks[blockOf q]? = fh.mgmtInfo.blocks[blockOf q]? ∨
      ∃ (d : PageData) (n : Nat), n < PAGE_SIZE ∧
        (0 ≤ q ∧ q < fh.totalNumPages ∧ 0 ≤ seekOffset q) ∧
        fh.mgmtInfo.blocks[blockOf q]? = some d ∧
        (writeBlock q fh b).2.mgmtInfo.blocks[blockOf q]? = some (partialCopy n b d)) := by
  unfold writeBlock at h ⊢
  by_cases h1 : q < 0 ∨ q ≥ fh.totalNumPages
  · rw [if_pos h1]
    exact ⟨rfl, rfl, fun _ _ => rfl, Or.inl rfl⟩
  · rw [if_neg h1] at h ⊢
    by_cases h3 : seekOffset q < 0
    · rw [if_pos h3]
      exact ⟨rfl, rfl, fun _ _ => rfl, Or.inl rfl⟩
    · rw [if_neg h3] at h ⊢
      dsimp only at h ⊢
      by_cases h2 : fh.mgmtInfo.next.1 = Outcome.ok
      · rw [if_pos h2] at h
        exact absurd rfl h
      · rw [if_neg h2]
        split
        · rename_i d hd
          rw [next_blocks] at hd
          have hlt : blockOf q < fh.mgmtInfo.blocks.length := (List.getElem?_eq_some.mp hd).1
          refine ⟨next_journal _, by simp [next_blocks], ?_, 
            Or.inr ⟨d, fh.mgmtInfo.next.1.bytes, Outcome.bytes_lt _,
              ⟨by omega, by omega, by omega⟩, hd, ?_⟩⟩
          · intro i hi
            dsimp only
            rw [List.getElem?_set_ne (Ne.symm hi), next_blocks]
          · dsimp only
            rw [next_blocks]
            simp [hlt]
        · exact ⟨next_journal _, by rw [next_blocks], fun _ _ => by rw [next_blocks],
            Or.inl (by rw [next_blocks])⟩

theorem forceFlushLoop_cons_skip (f : BM_Frame) (fs : List BM_Frame) (fh : SM_FileHandle)
    (w : Int) (hd : ¬ (f.dirty = true ∧ f.fixCount = 0)) :
    forceFlushLoop (f :: fs) fh w =
      ((forceFlushLoop fs fh w).1, f :: (forceFlushLoop fs fh w).2.1,
        (forceFlushLoop fs fh w).2.2.1, (forceFlushLoop fs fh w).2.2.2) := by
  rw [forceFlushLoop, if_neg hd]

theorem forceFlushLoop_cons_fail (f : BM_Frame) (fs : List BM_Frame) (fh : SM_FileHandle)
    (w : Int) (hd : f.dirty = true ∧ f.fixCount = 0)
    (hw : (writeBlock f.pageNum fh f.data).1 ≠ RC.RC_OK) :
    forceFlushLoop (f :: fs) fh w =
      ((writeBlock f.pageNum fh f.data).1, f :: fs, (writeBlock f.pageNum fh f.data).2, w) := by
  rw [forceFlushLoop, if_pos hd]
  dsimp only
  rw [if_pos hw]

theorem forceFlushLoop_cons_flush (f : BM_Frame) (fs : List BM_Frame) (fh : SM_FileHandle)
    (w : Int) (hd : f.dirty = true ∧ f.fixCount = 0)
    (hw : (writeBlock f.pageNum fh f.data).1 = RC.RC_OK) :
    forceFlushLoop (f :: fs) fh w =
      ((forceFlushLoop fs (writeBlock f.pageNum fh f.data).2 (w + 1)).1,
        { f with dirty := false } ::
          (forceFlushLoop fs (writeBlock f.pageNum fh f.data).2 (w + 1)).2.1,
        (forceFlushLoop fs (writeBlock f.pageNum fh f.data).2 (w + 1)).2.2.1,
        (forceFlushLoop fs (writeBlock f.pageNum fh f.data).2 (w + 1)).2.2.2) := by
  rw [forceFlushLoop, if_pos hd]
  dsimp only
  rw [if_neg (by simp [hw])]

/-- A flush loop that fails stopped at some frame `k`: the loop over the frames
before `k` succeeded, frame `k` is dirty and unpinned and its write failed, and
the result is that of the loop over the first `k` frames followed by the failed
write, with frame `k` and the frames behind it as they were. -/
theorem forceFlushLoop_failed :
    ∀ (fs : List BM_Frame) (fh : SM_FileHandle) (w : Int),
      (forceFlushLoop fs fh w).1 ≠ RC.RC_OK →
      ∃ (k : Nat) (fk : BM_Frame), fs[k]? = some fk ∧ fk.dirty = true ∧ fk.fixCount = 0 ∧
        (forceFlushLoop (fs.take k) fh w).1 = RC.RC_OK ∧
        (writeBlock fk.pageNum (forceFlushLoop (fs.take k) fh w).2.2.1 fk.data).1 ≠ RC.RC_OK ∧
        forceFlushLoop fs fh w =
          ((writeBlock fk.pageNum (forceFlushLoop (fs.take k) fh w).2.2.1 fk.data).1,
            (forceFlushLoop (fs.take k) fh w).2.1 ++ fs.drop k,
            (writeBlock fk.pageNum (forceFlushLoop (fs.take k) fh w).2.2.1 fk.data).2,
            (forceFlushLoop (fs.take k) fh w).2.2.2) := by
  intro fs
  induction fs with
  | nil =>
    intro fh w h
    exact absurd rfl h
  | cons f fs ih =>
    intro fh w h
    by_cases hd : f.dirty = true ∧ f.fixCount = 0
    · by_cases hw : (writeBlock f.pageNum fh f.data).1 = RC.RC_OK
      · rw [forceFlushLoop_cons_flush f fs fh w hd hw] at h
        obtain ⟨k, fk, hk, hdk, hfk, hpre, hwk, heq⟩ := ih _ _ h
        refine ⟨k + 1, fk, by simpa using hk, hdk, hfk, ?_, ?_, ?_⟩
        · rw [List.take_succ_cons, forceFlushLoop_cons_flush f _ fh w hd hw]
          exact hpre
        · rw [List.take_succ_cons, forceFlushLoop_cons_flush f _ fh w hd hw]
          exact hwk
        · rw [forceFlushLoop_cons_flush f fs fh w hd hw, heq, List.take_succ_cons,
            forceFlushLoop_cons_flush f _ fh w hd hw]
          rfl
      · refine ⟨0, f, by simp, hd.1, hd.2, rfl, hw, ?_⟩
        rw [forceFlushLoop_cons_fail f fs fh w hd hw]
        rfl
    · rw [forceFlushLoop_cons_skip f fs fh w hd] at h
      obtain ⟨k, fk, hk, hdk, hfk, hpre, hwk, heq⟩ := ih _ _ h
      refine ⟨k + 1, fk, by simpa using hk, hdk, hfk, ?_, ?_, ?_⟩
      · rw [List.take_succ_cons, forceFlushLoop_cons_skip f _ fh w hd]
        exact hpre
      · rw [List.take_succ_cons, forceFlushLoop_cons_skip f _ fh w hd]
        exact hwk
      · rw [forceFlushLoop_cons_skip f fs fh w hd, heq, List.take_succ_cons,
          forceFlushLoop_cons_skip f _ fh w hd]
        rfl

/-! ## The blocks after a flush -/

theorem flushBlocks_cons (blocks : List PageData) (f : BM_Frame) (fs : List BM_Frame) :
    flushBlocks blocks (f :: fs) =
      if needsFlush f = true then flushBlocks (storeBlock blocks (blockOf f.pageNum) f.data) fs
      else flushBlocks blocks fs := by
  unfold flushBlocks
  by_cases h : needsFlush f = true
  · rw [if_pos h, List.filter_cons_of_pos h, List.foldl_cons]
  · rw [if_neg h, List.filter_cons_of_neg h]

theorem storeBlock_length_of_lt (blocks : List PageData) (i : Nat) (b : PageData)
    (h : i < blocks.length) : (storeBlock blocks i b).length = blocks.length := by
  unfold storeBlock
  rw [if_pos h, List.length_set]

/-- A flush whose writes all land inside the file leaves the number of blocks
as it was. -/
theorem flushBlocks_length :
    ∀ (fs : List BM_Frame) (blocks : List PageData),
      (∀ f ∈ fs, needsFlush f = true → blockOf f.pageNum < blocks.length) →
      (flushBlocks blocks fs).length = blocks.length := by
  intro fs
  induction fs with
  | nil => intro blocks _; rfl
  | cons g fs ih =>
    intro blocks h
    rw [flushBlocks_cons]
    by_cases hg : needsFlush g = true
    · rw [if_pos hg]
      have hl := storeBlock_length_of_lt blocks _ g.data (h g (List.mem_cons_self _ _) hg)
      rw [ih _ (fun f hf hn => by rw [hl]; exact h f (List.mem_cons_of_mem _ hf) hn), hl]
    · rw [if_neg hg]
      exact ih _ (fun f hf hn => h f (List.mem_cons_of_mem _ hf) hn)

/-- A flush whose writes all land inside the file leaves every block at which
it writes no frame as it was. -/
theorem flushBlocks_untouched :
    ∀ (fs : List BM_Frame) (blocks : List PageData) (i : Nat),
      (∀ f ∈ fs, needsFlush f = true → blockOf f.pageNum < blocks.length) →
      (∀ f ∈ fs, needsFlush f = true → blockOf f.pageNum ≠ i) →
      (flushBlocks blocks fs)[i]? = blocks[i]? := by
  intro fs
  induction fs with
  | nil => intro blocks i _ _; rfl
  | cons g fs ih =>
    intro blocks i h hne
    rw [flushBlocks_cons]
    by_cases hg : needsFlush g = true
    · rw [if_pos hg]
      have hlt := h g (List.mem_cons_self _ _) hg
      have hl := storeBlock_length_of_lt blocks _ g.data hlt
      rw [ih _ i (fun f hf hn => by rw [hl]; exact h f (List.mem_cons_of_mem _ hf) hn)
        (fun f hf hn => hne f (List.mem_cons_of_mem _ hf) hn)]
      exact storeBlock_getElem_ne _ _ _ _ hlt (Ne.symm (hne g (List.mem_cons_self _ _) hg))
    · rw [if_neg hg]
      exact ih _ i (fun f hf hn => h f (List.mem_cons_of_mem _ hf) hn)
        (fun f hf hn => hne f (List.mem_cons_of_mem _ hf) hn)

/-- After a flush, a block holds the bytes `d` when every flushed frame written
at this block has the bytes `d` and either the block held them before or some
flushed frame is written at it. -/
theorem flushBlocks_written :
    ∀ (fs : List BM_Frame) (blocks : List PageData) (i : Nat) (d : PageData),
      (∀ g ∈ fs, needsFlush g = true → blockOf g.pageNum = i → g.data = d) →
      (blocks[i]? = some d ∨ ∃ f ∈ fs, needsFlush f = true ∧ blockOf f.pageNum = i) →
      (flushBlocks blocks fs)[i]? = some d := by
  intro fs
  induction fs with
  | nil =>
    intro blocks i d _ h
    rcases h with h | ⟨f, hf, _⟩
    · exact h
    · cases hf
  | cons g fs ih =>
    intro blocks i d hall h
    rw [flushBlocks_cons]
    by_cases hg : needsFlush g = true
    · rw [if_pos hg]
      apply ih _ _ _ (fun x hx => hall x (List.mem_cons_of_mem _ hx))
      by_cases hb : blockOf g.pageNum = i
      · left
        rw [← hb, ← hall g (List.mem_cons_self _ _) hg hb]
        exact storeBlock_getElem _ _ _
      · rcases h with h | ⟨f, hf, hn, hfb⟩
        · left
          rw [storeBlock_getElem_of_lt _ _ _ _ (List.getElem?_eq_some.mp h).1 (Ne.symm hb)]
          exact h
        · right
          rcases List.mem_cons.mp hf with e | e
          · subst e
            exact absurd hfb hb
          · exact ⟨f, e, hn, hfb⟩
    · rw [if_neg hg]
      apply ih _ _ _ (fun x hx => hall x (List.mem_cons_of_mem _ hx))
      rcases h with h | ⟨f, hf, hn, hfb⟩
      · exact Or.inl h
      · right
        rcases List.mem_cons.mp hf with e | e
        · subst e
          exact absurd hn hg
        · exact ⟨f, e, hn, hfb⟩

/-- A flush loop that returns `RC_OK` has written only frames whose page lies
in the file and has an offset that `lseek` accepts. -/
theorem forceFlushLoop_ok_pages :
    ∀ (fs : List BM_Frame) (fh : SM_FileHandle) (w : Int),
      (forceFlushLoop fs fh w).1 = RC.RC_OK →
      ∀ f ∈ fs, needsFlush f = true →
        0 ≤ f.pageNum ∧ f.pageNum < fh.totalNumPages ∧ 0 ≤ seekOffset f.pageNum := by
  intro fs
  induction fs with
  | nil => intro fh w _ f hf; cases hf
  | cons g fs ih =>
    intro fh w h f hf hn
    by_cases hd : g.dirty = true ∧ g.fixCount = 0
    · by_cases hw : (writeBlock g.pageNum fh g.data).1 = RC.RC_OK
      · rw [forceFlushLoop_cons_flush g fs fh w hd hw] at h
        rcases List.mem_cons.mp hf with e | e
        · subst e
          obtain ⟨h0, h1, _⟩ := writeBlock_ok hw
          exact ⟨h0, h1, writeBlock_ok_seek hw⟩
        · have := ih _ _ h f e hn
          rw [writeBlock_total] at this
          exact this
      · rw [forceFlushLoop_cons_fail g fs fh w hd hw] at h
        exact absurd h hw
    · rw [forceFlushLoop_cons_skip g fs fh w hd] at h
      rcases List.mem_cons.mp hf with e | e
      · subst e
        exact absurd ((needsFlush_iff f).mp hn) hd
      · exact ih _ _ h f e hn

/-- In a well-formed pool on a file of at most 1048576 pages, after a flush of
some of the frames has succeeded, the block of the page of every flushed frame
holds the bytes of the frame. -/
theorem flushBlocks_holds {frames : List BM_Frame} {fh : SM_FileHandle} {time : Int}
    (hwf : WF frames fh time) (hbound : fh.totalNumPages ≤ 1048576) (fs : List BM_Frame)
    (hsub : ∀ g ∈ fs, g ∈ frames) (w : Int) (hok : (forceFlushLoop fs fh w).1 = RC.RC_OK)
    (f : BM_Frame) (hf : f ∈ fs) (hd : f.dirty = true) (hx : f.fixCount = 0) :
    (flushBlocks fh.mgmtInfo.blocks fs)[f.pageNum.toNat]? = some f.data := by
  have hpages := forceFlushLoop_ok_pages fs fh w hok
  have hn : needsFlush f = true := (needsFlush_iff f).mpr ⟨hd, hx⟩
  obtain ⟨h0, h1, h2⟩ := hpages f hf hn
  have hsmall : f.pageNum < 524288 := small_of_seek h0 h2 (by omega)
  rw [← blockOf_small h0 hsmall]
  apply flushBlocks_written
  · intro g hg hng hgb
    obtain ⟨g0, g1, g2⟩ := hpages g hg hng
    rw [blockOf_small g0 (small_of_seek g0 g2 (by omega)), blockOf_small h0 hsmall] at hgb
    have hpg : g.pageNum = f.pageNum := by omega
    obtain ⟨i, hi⟩ := List.mem_iff_getElem?.mp (hsub g hg)
    obtain ⟨j, hj⟩ := List.mem_iff_getElem?.mp (hsub f hf)
    have hij := hwf.distinct i j g f hi hj (by unfold NO_PAGE; omega) hpg
    subst hij
    rw [hi] at hj
    cases hj
    rfl
  · exact Or.inr ⟨f, hf, hn, rfl⟩

/-- After a successful flush of some frames of a pool on a file that has as
many blocks as pages, the block at which no flushed frame is written is as it
was, and the file has as many blocks as before. -/
theorem flushBlocks_others {fh : SM_FileHandle}
    (hlen : fh.totalNumPages = (fh.mgmtInfo.blocks.length : Int)) (fs : List BM_Frame) (w : Int)
    (hok : (forceFlushLoop fs fh w).1 = RC.RC_OK) :
    (flushBlocks fh.mgmtInfo.blocks fs).length = fh.mgmtInfo.blocks.length ∧
    ∀ i : Nat, (∀ f ∈ fs, needsFlush f = true → blockOf f.pageNum ≠ i) →
      (flushBlocks fh.mgmtInfo.blocks fs)[i]? = fh.mgmtInfo.blocks[i]? := by
  have hpages := forceFlushLoop_ok_pages fs fh w hok
  have hin : ∀ f ∈ fs, needsFlush f = true → blockOf f.pageNum < fh.mgmtInfo.blocks.length := by
    intro f hf hn
    obtain ⟨h0, h1, h2⟩ := hpages f hf hn
    have := blockOf_le h0 h2
    omega
  exact ⟨flushBlocks_length fs _ hin, fun i hi => flushBlocks_untouched fs _ i hin hi⟩

end BufferMgr

namespace BufferMgr

/-- The frames after a flush that stopped at frame `k`, index by index. -/
theorem flushed_prefix_getElem (frames : List BM_Frame) (k j : Nat) (f : BM_Frame)
    (hk : k < frames.length) (hf : frames[j]? = some f) :
    (j < k → f.dirty = true ∧ f.fixCount = 0 →
      (flushedFrames (frames.take k) ++ frames.drop k)[j]? = some { f with dirty := false }) ∧
    (j < k → ¬ (f.dirty = true ∧ f.fixCount = 0) →
      (flushedFrames (frames.take k) ++ frames.drop k)[j]? = some f) ∧
    (k ≤ j → (flushedFrames (frames.take k) ++ frames.drop k)[j]? = some f) := by
  have hlen : (flushedFrames (frames.take k)).length = k := by
    unfold flushedFrames
    rw [List.length_map, List.length_take]
    omega
  refine ⟨?_, ?_, ?_⟩
  · intro hj hd
    rw [List.getElem?_append_left (by omega)]
    unfold flushedFrames
    rw [List.getElem?_map, List.getElem?_take_of_lt hj, hf]
    simp [(needsFlush_iff f).mpr hd]
  · intro hj hd
    rw [List.getElem?_append_left (by omega)]
    unfold flushedFrames
    rw [List.getElem?_map, List.getElem?_take_of_lt hj, hf]
    have hn : ¬ needsFlush f = true := fun hx => hd ((needsFlush_iff f).mp hx)
    simp [hn]
  · intro hj
    rw [List.getElem?_append_right (by omega), hlen, List.getElem?_drop]
    rw [show k + (j - k) = j by omega]
    exact hf

/-- C21, amended: when `forceFlushPool` fails, it stopped at a frame `k`, the
first dirty unpinned frame whose write fails (the flush of the frames before
`k` succeeds, the write of frame `k` on the file they leave fails), and it
returns the code of that write, `RC_WRITE_FAILED`.  Every dirty unpinned frame
of index below `k` has been written (the journal gains exactly these writes,
in index order, each at the block at which `writeBlock` transfers the page of
the frame) and has `dirty = false`; `writeIO` has increased by exactly their
number; frame `k`, every frame of index above `k` and every other frame of
index below `k` are unchanged in the pool, so frame `k` and the dirty frames
behind it are still dirty.  On the file, every block other than the block of
frame `k` is as the writes before `k` left it, so no frame of index above `k`
was written; the block of frame `k` is either as these writes left it or holds
fewer than `PAGE_SIZE` leading bytes of frame `k` followed by the bytes it held
before: the failed write may have been a short write.  In a reachable pool on a
file of at most 1048576 pages the block of the page number of every dirty
unpinned frame of index below `k` holds the bytes of that frame.  `readIO`,
the time counter and the length of the file are unchanged. -/
theorem forceFlushPool_failure_effect (bm : BM_BufferPool) (mgmt : BM_MgmtData)
    (hm : bm.mgmtData = some mgmt) (hfail : (forceFlushPool bm).1 ≠ RC.RC_OK) :
    ∃ (k : Nat) (fk : BM_Frame) (mgmt' : BM_MgmtData),
      mgmt.frames[k]? = some fk ∧ fk.dirty = true ∧ fk.fixCount = 0 ∧
      (forceFlushLoop (mgmt.frames.take k) mgmt.fileHandle mgmt.writeIO).1 = RC.RC_OK ∧
      (writeBlock fk.pageNum
        (forceFlushLoop (mgmt.frames.take k) mgmt.fileHandle mgmt.writeIO).2.2.1 fk.data).1
        ≠ RC.RC_OK ∧
      (forceFlushPool bm).1 =
        (writeBlock fk.pageNum
          (forceFlushLoop (mgmt.frames.take k) mgmt.fileHandle mgmt.writeIO).2.2.1 fk.data).1 ∧
      (forceFlushPool bm).1 = RC.RC_WRITE_FAILED ∧
      (forceFlushPool bm).2 = { bm with mgmtData := some mgmt' } ∧
      mgmt'.frames = flushedFrames (mgmt.frames.take k) ++ mgmt.frames.drop k ∧
      (∀ (j : Nat) (f : BM_Frame), mgmt.frames[j]? = some f →
        (j < k → f.dirty = true ∧ f.fixCount = 0 →
          mgmt'.frames[j]? = some { f with dirty := false }) ∧
        (j < k → ¬ (f.dirty = true ∧ f.fixCount = 0) → mgmt'.frames[j]? = some f) ∧
        (k ≤ j → mgmt'.frames[j]? = some f)) ∧
      BM_MgmtData.writeIO mgmt' =
        BM_MgmtData.writeIO mgmt + (((mgmt.frames.take k).filter needsFlush).length : Int) ∧
      mgmt'.fileHandle.mgmtInfo.journal =
        mgmt.fileHandle.mgmtInfo.journal ++ flushWrites (mgmt.frames.take k) ∧
      (∀ i : Nat, i ≠ blockOf fk.pageNum →
        mgmt'.fileHandle.mgmtInfo.blocks[i]? =
          (flushBlocks mgmt.fileHandle.mgmtInfo.blocks (mgmt.frames.take k))[i]?) ∧
      (mgmt'.fileHandle.mgmtInfo.blocks[blockOf fk.pageNum]? =
          (flushBlocks mgmt.fileHandle.mgmtInfo.blocks (mgmt.frames.take k))[blockOf fk.pageNum]? ∨
        ∃ (d : PageData) (n : Nat), n < PAGE_SIZE ∧
          (flushBlocks mgmt.fileHandle.mgmtInfo.blocks (mgmt.frames.take k))[blockOf fk.pageNum]?
            = some d ∧
          mgmt'.fileHandle.mgmtInfo.blocks[blockOf fk.pageNum]?
            = some (partialCopy n fk.data d)) ∧
      (Reachable bm → mgmt.fileHandle.totalNumPages ≤ 1048576 →
        ∀ (j : Nat) (f : BM_Frame), j < k → mgmt.frames[j]? = some f →
          f.dirty = true → f.fixCount = 0 →
          mgmt'.fileHandle.mgmtInfo.blocks[f.pageNum.toNat]? = some f.data) ∧
      mgmt'.fileHandle.mgmtInfo.blocks.length =
        (flushBlocks mgmt.fileHandle.mgmtInfo.blocks (mgmt.frames.take k)).length ∧
      mgmt'.fileHandle.totalNumPages = mgmt.fileHandle.totalNumPages ∧
      BM_MgmtData.readIO mgmt' = BM_MgmtData.readIO mgmt ∧
      mgmt'.time = mgmt.time := by
  have hreach : Reachable bm → WF mgmt.frames mgmt.fileHandle mgmt.time :=
    fun hr => reachable_ok hr mgmt hm
  unfold forceFlushPool at hfail ⊢
  rw [hm] at hfail ⊢
  dsimp only at hfail ⊢
  obtain ⟨k, fk, hk, hdk, hfk, hpre, hwk, heq⟩ :=
    forceFlushLoop_failed mgmt.frames mgmt.fileHandle mgmt.writeIO hfail
  obtain ⟨h1, h2, h3, h4, h5⟩ :=
    forceFlushLoop_ok (mgmt.frames.take k) mgmt.fileHandle (BM_MgmtData.writeIO mgmt) hpre
  obtain ⟨w1, w2, w3, w4⟩ := writeBlock_failed _ _ _ hwk
  have hklt : k < mgmt.frames.length := (List.getElem?_eq_some.mp hk).1
  rw [heq]
  refine ⟨k, fk, _, hk, hdk, hfk, hpre, hwk, rfl, ?_, rfl, ?_, ?_, ?_, ?_, ?_, ?_, ?_, ?_, ?_,
    rfl, rfl⟩
  · rcases writeBlock_rc fk.pageNum
      (forceFlushLoop (mgmt.frames.take k) mgmt.fileHandle mgmt.writeIO).2.2.1 fk.data with e | e
    · exact absurd e hwk
    · exact e
  · dsimp only
    rw [h1]
  · intro j f hf
    dsimp only
    rw [h1]
    exact flushed_prefix_getElem mgmt.frames k j f hklt hf
  · exact h2
  · dsimp only
    rw [w1, h3]
  · intro i hi
    dsimp only
    rw [w3 i hi, h4]
  · dsimp only
    rcases w4 with e | ⟨d, n, hn, _, hd0, hd1⟩
    · left
      rw [e, h4]
    · right
      rw [h4] at hd0
      exact ⟨d, n, hn, hd0, hd1⟩
  · intro hr hbound j f hj hf hd hx
    have hwf := hreach hr
    dsimp only
    have hfmem : f ∈ mgmt.frames.take k :=
      List.mem_iff_getElem?.mpr ⟨j, by rw [List.getElem?_take_of_lt hj]; exact hf⟩
    have hhold := flushBlocks_holds hwf hbound (mgmt.frames.take k)
      (fun g hg => List.mem_of_mem_take hg) mgmt.writeIO hpre f hfmem hd hx
    obtain ⟨f0, f1, _⟩ := forceFlushLoop_ok_pages _ _ _ hpre f hfmem
      ((needsFlush_iff f).mpr ⟨hd, hx⟩)
    by_cases hb : f.pageNum.toNat = blockOf fk.pageNum
    · rcases w4 with e | ⟨d, n, hn, ⟨q0, q1, q2⟩, hd0, hd1⟩
      · rw [hb, e, h4, ← hb]
        exact hhold
      · exfalso
        rw [h5] at q1
        rw [blockOf_small q0 (small_of_seek q0 q2 (by omega))] at hb
        have hpg : f.pageNum = fk.pageNum := by omega
        have := hwf.distinct j k f fk hf hk (by unfold NO_PAGE; omega) hpg
        omega
    · rw [w3 _ hb, h4]
      exact hhold
  · dsimp only
    rw [w2, h4]
  · dsimp only
    rw [writeBlock_total, h5]

/-- C21 as worded fails where the failing write is a short write: in a
reachable pool of two frames whose pages 0 and 1 are dirty and unpinned, on a
file whose second write stops after 16 bytes, `forceFlushPool` writes frame 0,
fails at frame `k = 1` with `RC_WRITE_FAILED` and leaves frame 1 dirty, yet
block 1 of the file, all zero before the call, now starts with 16 bytes of
frame 1: the frame at which the flush stopped has been written in part. -/
theorem forceFlushPool_failed_frame_written :
    Reachable shortWritePool ∧
    getDirtyFlags shortWritePool = some [true, true] ∧
    getFixCounts shortWritePool = some [0, 0] ∧
    pageFileBlocks shortWritePool = some [zeroPage, zeroPage] ∧
    (forceFlushPool shortWritePool).1 = RC.RC_WRITE_FAILED ∧
    getDirtyFlags (forceFlushPool shortWritePool).2 = some [false, true] ∧
    getNumWriteIO (forceFlushPool shortWritePool).2 = getNumWriteIO shortWritePool + 1 ∧
    pageFileJournal (forceFlushPool shortWritePool).2 =
      (pageFileJournal shortWritePool).map (fun j => j ++ [Transfer.write 0]) ∧
    pageFileBlocks (forceFlushPool shortWritePool).2 =
      some [bytesS3, partialCopy 16 bytesBB zeroPage] ∧
    partialCopy 16 bytesBB zeroPage ≠ zeroPage :=
  ⟨⟨blankPool, "pagefile", 2, ReplacementStrategy.RS_FIFO,
      some (createdFile [Outcome.ok, Outcome.ok, Outcome.ok, Outcome.ok, Outcome.fail 16]), _,
      rfl, rfl⟩,
    rfl, rfl, rfl, rfl, rfl, rfl, rfl, rfl, by decide⟩

/-- The amended C21 at the pool of three dirty unpinned frames whose second
write fails after one byte: the flush stops at frame 1 with `RC_WRITE_FAILED`,
frame 0 is written and clean, frames 1 and 2 are still dirty, `writeIO` is 1,
the journal holds the write of page 0 only, and of block 1 only the first byte
changed. -/
theorem forceFlushPool_failure_effect_witness :
    (∃ (k : Nat) (fk : BM_Frame) (mgmt' : BM_MgmtData),
      demoFlushFailMgmt.frames[k]? = some fk ∧ fk.dirty = true ∧ fk.fixCount = 0 ∧
      (forceFlushLoop (demoFlushFailMgmt.frames.take k) demoFlushFailMgmt.fileHandle
        demoFlushFailMgmt.writeIO).1 = RC.RC_OK ∧
      (writeBlock fk.pageNum
        (forceFlushLoop (demoFlushFailMgmt.frames.take k) demoFlushFailMgmt.fileHandle
          demoFlushFailMgmt.writeIO).2.2.1 fk.data).1 ≠ RC.RC_OK ∧
      (forceFlushPool demoFlushFailPool).1 =
        (writeBlock fk.pageNum
          (forceFlushLoop (demoFlushFailMgmt.frames.take k) demoFlushFailMgmt.fileHandle
            demoFlushFailMgmt.writeIO).2.2.1 fk.data).1 ∧
      (forceFlushPool demoFlushFailPool).1 = RC.RC_WRITE_FAILED ∧
      (forceFlushPool demoFlushFailPool).2 = { demoFlushFailPool with mgmtData := some mgmt' } ∧
      mgmt'.frames =
        flushedFrames (demoFlushFailMgmt.frames.take k) ++ demoFlushFailMgmt.frames.drop k ∧
      (∀ (j : Nat) (f : BM_Frame), demoFlushFailMgmt.frames[j]? = some f →
        (j < k → f.dirty = true ∧ f.fixCount = 0 →
          mgmt'.frames[j]? = some { f with dirty := false }) ∧
        (j < k → ¬ (f.dirty = true ∧ f.fixCount = 0) → mgmt'.frames[j]? = some f) ∧
        (k ≤ j → mgmt'.frames[j]? = some f)) ∧
      BM_MgmtData.writeIO mgmt' =
        BM_MgmtData.writeIO demoFlushFailMgmt +
          (((demoFlushFailMgmt.frames.take k).filter needsFlush).length : Int) ∧
      mgmt'.fileHandle.mgmtInfo.journal =
        demoFlushFailMgmt.fileHandle.mgmtInfo.journal ++
          flushWrites (demoFlushFailMgmt.frames.take k) ∧
      (∀ i : Nat, i ≠ blockOf fk.pageNum →
        mgmt'.fileHandle.mgmtInfo.blocks[i]? =
          (flushBlocks demoFlushFailMgmt.fileHandle.mgmtInfo.blocks
            (demoFlushFailMgmt.frames.take k))[i]?) ∧
      (mgmt'.fileHandle.mgmtInfo.blocks[blockOf fk.pageNum]? =
          (flushBlocks demoFlushFailMgmt.fileHandle.mgmtInfo.blocks
            (demoFlushFailMgmt.frames.take k))[blockOf fk.pageNum]? ∨
        ∃ (d : PageData) (n : Nat), n < PAGE_SIZE ∧
          (flushBlocks demoFlushFailMgmt.fileHandle.mgmtInfo.blocks
            (demoFlushFailMgmt.frames.take k))[blockOf fk.pageNum]? = some d ∧
          mgmt'.fileHandle.mgmtInfo.blocks[blockOf fk.pageNum]?
            = some (partialCopy n fk.data d)) ∧
      (Reachable demoFlushFailPool → demoFlushFailMgmt.fileHandle.totalNumPages ≤ 1048576 →
        ∀ (j : Nat) (f : BM_Frame), j < k → demoFlushFailMgmt.frames[j]? = some f →
          f.dirty = true → f.fixCount = 0 →
          mgmt'.fileHandle.mgmtInfo.blocks[f.pageNum.toNat]? = some f.data) ∧
      mgmt'.fileHandle.mgmtInfo.blocks.length =
        (flushBlocks demoFlushFailMgmt.fileHandle.mgmtInfo.blocks
          (demoFlushFailMgmt.frames.take k)).length ∧
      mgmt'.fileHandle.totalNumPages = demoFlushFailMgmt.fileHandle.totalNumPages ∧
      BM_MgmtData.readIO mgmt' = BM_MgmtData.readIO demoFlushFailMgmt ∧
      mgmt'.time = demoFlushFailMgmt.time) ∧
    (forceFlushPool demoFlushFailPool).1 = RC.RC_WRITE_FAILED ∧
    getDirtyFlags demoFlushFailPool = some [true, true, true] ∧
    getDirtyFlags (forceFlushPool demoFlushFailPool).2 = some [false, true, true] ∧
    getNumWriteIO (forceFlushPool demoFlushFailPool).2 = 1 ∧
    pageFileJournal (forceFlushPool demoFlushFailPool).2 = some [Transfer.write 0] ∧
    pageFileBlocks (forceFlushPool demoFlushFailPool).2 = some [[170, 187], [9, 4], [5, 6]] :=
  ⟨forceFlushPool_failure_effect demoFlushFailPool demoFlushFailMgmt rfl (by decide),
    rfl, rfl, rfl, rfl, rfl, rfl⟩

end BufferMgr

namespace BufferMgr

/-! ## The file after a pin past its end -/

theorem ensureCapacityLoop_ok_blocks :
    ∀ (n : Nat) (fh : SM_FileHandle), (ensureCapacityLoop n fh).1 = RC.RC_OK →
      (ensureCapacityLoop n fh).2.mgmtInfo.blocks =
        fh.mgmtInfo.blocks ++ List.replicate n zeroPage := by
  intro n
  induction n with
  | zero => intro fh _; simp [ensureCapacityLoop]
  | succ n ih =>
    intro fh h
    unfold ensureCapacityLoop at h ⊢
    dsimp only at h ⊢
    by_cases hn : fh.mgmtInfo.next.1 = Outcome.ok
    · rw [if_pos hn] at h ⊢
      rw [ih _ h]
      dsimp only
      rw [next_blocks, List.append_assoc, List.replicate_succ]
      rfl
    · rw [if_neg hn] at h
      cases h

theorem tickAndGrow_ok_blocks (mgmt0 : BM_MgmtData) (p : Int)
    (h : (tickAndGrow mgmt0 p).1 = RC.RC_OK) :
    (tickAndGrow mgmt0 p).2.fileHandle.mgmtInfo.blocks =
      mgmt0.fileHandle.mgmtInfo.blocks ++
        List.replicate (p + 1 - mgmt0.fileHandle.totalNumPages).toNat zeroPage := by
  unfold tickAndGrow at h ⊢
  dsimp only at h ⊢
  by_cases hge : p ≥ mgmt0.fileHandle.totalNumPages
  · rw [if_pos hge] at h ⊢
    dsimp only at h ⊢
    unfold ensureCapacity at h ⊢
    exact ensureCapacityLoop_ok_blocks _ _ h
  · rw [if_neg hge]
    dsimp only
    have e : (p + 1 - mgmt0.fileHandle.totalNumPages).toNat = 0 := by omega
    rw [e]
    simp

theorem writeBlock_ok_blocks {q : Int} {fh : SM_FileHandle} {b : PageData}
    (h : (writeBlock q fh b).1 = RC.RC_OK) :
    (writeBlock q fh b).2.mgmtInfo.blocks = storeBlock fh.mgmtInfo.blocks (blockOf q) b := by
  obtain ⟨_, _, e⟩ := writeBlock_ok h
  rw [e]

/-- The blocks after a successful eviction block: the bytes of a resident dirty
victim are stored at the block at which `writeBlock` transfers its page, nothing
else changes. -/
theorem evictVictim_ok_blocks {mgmt : BM_MgmtData} {victim : Nat} {vf : BM_Frame}
    (h : (evictVictim mgmt victim vf).1 = RC.RC_OK) :
    (evictVictim mgmt victim vf).2.fileHandle.mgmtInfo.blocks =
      if vf.pageNum ≠ NO_PAGE ∧ vf.dirty = true then
        storeBlock mgmt.fileHandle.mgmtInfo.blocks (blockOf vf.pageNum) vf.data
      else mgmt.fileHandle.mgmtInfo.blocks := by
  rcases evictVictim_ok h with ⟨h1, _, h3, h4, h5⟩ | ⟨h1, h2⟩
  · rw [h5, if_pos ⟨h1, h3⟩]
    exact writeBlock_ok_blocks h4
  · rw [h2]
    have hn : ¬ (vf.pageNum ≠ NO_PAGE ∧ vf.dirty = true) := by
      rintro ⟨a, b⟩
      rcases h1 with e | ⟨_, e⟩
      · exact a e
      · rw [b] at e; cases e
    rw [if_neg hn]

/-- The file after a successful `pinPage` of a page `p` at or past the end of a
file of `L` pages. -/
theorem pinPage_past_end {bm : BM_BufferPool} {mgmt : BM_MgmtData} {page : BM_PageHandle}
    {p : Int} (hwf : WellFormed mgmt) (hm : bm.mgmtData = some mgmt)
    (hp : mgmt.fileHandle.totalNumPages ≤ p) (hok : (pinPage bm page p).1 = RC.RC_OK) :
    ∃ (v : Nat) (vf : BM_Frame) (mgmt' : BM_MgmtData),
      chooseVictim bm.strategy mgmt.frames = some v ∧ mgmt.frames[v]? = some vf ∧
      (pinPage bm page p).2.1 = { bm with mgmtData := some mgmt' } ∧
      (pinPage bm page p).2.2 = { pageNum := p, data := some v } ∧
      mgmt'.fileHandle.totalNumPages = p + 1 ∧
      (mgmt'.fileHandle.mgmtInfo.blocks.length : Int) = p + 1 ∧
      mgmt'.fileHandle.mgmtInfo.blocks =
        (if vf.pageNum ≠ NO_PAGE ∧ vf.dirty = true then
          storeBlock
            (mgmt.fileHandle.mgmtInfo.blocks ++
              List.replicate (p + 1 - mgmt.fileHandle.totalNumPages).toNat zeroPage)
            (blockOf vf.pageNum) vf.data
        else
          mgmt.fileHandle.mgmtInfo.blocks ++
            List.replicate (p + 1 - mgmt.fileHandle.totalNumPages).toNat zeroPage) ∧
      (vf.pageNum ≠ NO_PAGE → 0 ≤ vf.pageNum ∧ vf.pageNum < mgmt.fileHandle.totalNumPages ∧
        0 ≤ seekOffset vf.pageNum) ∧
      0 ≤ p ∧ 0 ≤ seekOffset p ∧
      (∃ f', mgmt'.frames[v]? = some f' ∧
        mgmt'.fileHandle.mgmtInfo.blocks[blockOf p]? = some f'.data) := by
  have hL : mgmt.fileHandle.totalNumPages = (mgmt.fileHandle.mgmtInfo.blocks.length : Int) :=
    hwf.file_len
  have hmiss : findFrame mgmt.frames p = none := by
    apply findFrame_eq_none_of
    intro j g hg
    rcases (hwf.frames_ok j g hg).page_range with e | ⟨_, e⟩
    · rw [e]; unfold NO_PAGE; omega
    · omega
  obtain ⟨v, vf, hp0, hg, hc, hv, he, hl, heq⟩ := pinPage_miss_ok hm hmiss hok
  obtain ⟨vf', hv', hread, hload⟩ := loadVictim_ok hl
  have hgt := tickAndGrow_ok_total mgmt p hg
  rw [max_eq_right (by omega)] at hgt
  have hgl := tickAndGrow_length mgmt p hL
  have hgb := tickAndGrow_ok_blocks mgmt p hg
  have heb := evictVictim_ok_blocks he
  rw [hgb] at heb
  have het := evictVictim_total (tickAndGrow mgmt p).2 v vf
  have hel := evictVictim_length (tickAndGrow mgmt p).2 v vf hgl
  have hvr : vf.pageNum ≠ NO_PAGE → 0 ≤ vf.pageNum ∧ vf.pageNum < mgmt.fileHandle.totalNumPages ∧
      0 ≤ seekOffset vf.pageNum := by
    intro hne
    rcases (hwf.frames_ok v vf hv).page_range with e | e
    · exact absurd e hne
    · exact ⟨e.1, e.2, (hwf.frames_ok v vf hv).page_seek hne⟩
  obtain ⟨hrb, _⟩ := readBlock_ok hread
  rw [heq, hload]
  refine ⟨v, vf, _, hc, hv, rfl, rfl, ?_, ?_, ?_, hvr, hp0, readBlock_ok_seek hread, ?_⟩
  · dsimp only
    rw [readBlock_total, het, hgt]
  · dsimp only
    rw [readBlock_blocks, hel, ← hgl, hgt]
  · dsimp only
    rw [readBlock_blocks, heb]
  · refine ⟨{ pageNum := p,
               data := (readBlock p (evictVictim (tickAndGrow mgmt p).2 v vf).2.fileHandle
                 vf'.data).2.2,
               fixCount := 1, dirty := false,
               loadTime := (evictVictim (tickAndGrow mgmt p).2 v vf).2.time,
               lastUsed := (evictVictim (tickAndGrow mgmt p).2 v vf).2.time }, ?_, ?_⟩
    · dsimp only
      exact getElem?_set_self_of hv'
    · dsimp only
      rw [readBlock_blocks]
      exact hrb

end BufferMgr

namespace BufferMgr

theorem chooseVictim_none_all_pinned {mgmt : BM_MgmtData} (hwf : WellFormed mgmt)
    (strategy : ReplacementStrategy) (hc : chooseVictim strategy mgmt.frames = none) :
    ∀ (j : Nat) (g : BM_Frame), mgmt.frames[j]? = some g → g.fixCount ≠ 0 := by
  have hfull : findFrame mgmt.frames NO_PAGE = none := by
    cases he : findFrame mgmt.frames NO_PAGE with
    | none => rfl
    | some i => rw [chooseVictim_empty he] at hc; cases hc
  rcases chooseVictim_policy strategy mgmt.frames hfull
    (fun j g hg _ => metricOf_nonneg strategy (hwf.frames_ok j g hg)) with ⟨_, hall⟩ | ⟨k, hk, _⟩
  · exact hall
  · rw [hc] at hk; cases hk

/-- A `pinPage` of a page inside the file leaves the length of the file as it
was, whatever it returns. -/
theorem pinPage_in_file {bm : BM_BufferPool} {mgmt : BM_MgmtData} (hpool : PoolOK bm)
    (hm : bm.mgmtData = some mgmt) (page : BM_PageHandle) (p : Int)
    (hp : p < mgmt.fileHandle.totalNumPages) :
    ∃ mgmt', (pinPage bm page p).2.1.mgmtData = some mgmt' ∧
      mgmt'.fileHandle.totalNumPages = mgmt.fileHandle.totalNumPages ∧
      mgmt'.fileHandle.mgmtInfo.blocks.length = mgmt.fileHandle.mgmtInfo.blocks.length := by
  have hafter := pinPage_ok hpool page p
  have hL := (hpool mgmt hm).file_len
  have key : ∃ mgmt', (pinPage bm page p).2.1.mgmtData = some mgmt' ∧
      mgmt'.fileHandle.totalNumPages = mgmt.fileHandle.totalNumPages := by
    unfold pinPage
    rw [hm]
    dsimp only
    by_cases hneg : p < 0
    · rw [if_pos hneg]
      exact ⟨mgmt, hm, rfl⟩
    · rw [if_neg hneg]
      refine ⟨_, rfl, ?_⟩
      unfold pinPageCore
      dsimp only
      rw [tickAndGrow_in_file mgmt p hp]
      dsimp only
      rw [if_neg (by simp), pinInPool_total]
  obtain ⟨mgmt', hm', ht⟩ := key
  refine ⟨mgmt', hm', ht, ?_⟩
  have hL' := (hafter mgmt' hm').file_len
  omega

end BufferMgr

namespace BufferMgr

/-! ## C23 -/

theorem Stamped.later {frames : List BM_Frame} {t t' : Int} (h : Stamped frames t)
    (ht : t ≤ t') : Stamped frames t' where
  clock_nonneg := le_trans h.clock_nonneg ht
  ordered := fun j g hg hr => by
    obtain ⟨a, b, c⟩ := h.ordered j g hg hr
    exact ⟨a, b, le_trans c ht⟩
  stamps_differ := h.stamps_differ

theorem Stamped.same_stamps {frames frames' : List BM_Frame} {t : Int} (h : Stamped frames t)
    (hrel : ∀ (j : Nat) (g : BM_Frame), frames'[j]? = some g →
      ∃ f, frames[j]? = some f ∧ g.pageNum = f.pageNum ∧ g.loadTime = f.loadTime ∧
        g.lastUsed = f.lastUsed) :
    Stamped frames' t where
  clock_nonneg := h.clock_nonneg
  ordered := fun j g hg hr => by
    obtain ⟨f, hf, e1, e2, e3⟩ := hrel j g hg
    rw [e2, e3]
    exact h.ordered j f hf (by rw [← e1]; exact hr)
  stamps_differ := fun i j f g hf hg hij hfr hgr => by
    obtain ⟨f0, hf0, e1, e2, e3⟩ := hrel i f hf
    obtain ⟨g0, hg0, d1, d2, d3⟩ := hrel j g hg
    rw [e2, e3, d2, d3]
    exact h.stamps_differ i j f0 g0 hf0 hg0 hij (by rw [← e1]; exact hfr) (by rw [← d1]; exact hgr)

theorem Stamped.set_same {frames : List BM_Frame} {t : Int} (h : Stamped frames t) {i : Nat}
    {f f' : BM_Frame} (hf : frames[i]? = some f) (e1 : f'.pageNum = f.pageNum)
    (e2 : f'.loadTime = f.loadTime) (e3 : f'.lastUsed = f.lastUsed) :
    Stamped (frames.set i f') t := by
  apply h.same_stamps
  intro j g hg
  rcases getElem?_set_cases hg with ⟨rfl, rfl⟩ | ⟨_, hg'⟩
  · exact ⟨f, hf, e1, e2, e3⟩
  · exact ⟨g, hg', rfl, rfl, rfl⟩

/-- A frame is stamped with a time `T` later than every time of last use: on a
hit it keeps its load time, on a load it gets `T` as its load time too. -/
theorem Stamped.stamp {frames : List BM_Frame} {b T : Int} (h : Stamped frames b) (hb : b < T)
    {i : Nat} {f f' : BM_Frame} (hf : frames[i]? = some f)
    (hload : f'.loadTime = T ∨ (f'.pageNum = f.pageNum ∧ f'.loadTime = f.loadTime))
    (hused : f'.lastUsed = T) :
    Stamped (frames.set i f') T where
  clock_nonneg := by have := h.clock_nonneg; omega
  ordered := fun j g hg hr => by
    have h0 := h.clock_nonneg
    rcases getElem?_set_cases hg with ⟨_, rfl⟩ | ⟨_, hg'⟩
    · rcases hload with e | ⟨e1, e2⟩
      · omega
      · obtain ⟨a, c, d⟩ := h.ordered i f hf (by rw [← e1]; exact hr)
        omega
    · obtain ⟨a, c, d⟩ := h.ordered j g hg' hr
      omega
  stamps_differ := fun i1 i2 f1 f2 h1 h2 hne r1 r2 => by
    have h0 := h.clock_nonneg
    rcases getElem?_set_cases h1 with ⟨rfl, rfl⟩ | ⟨n1, h1'⟩
    · rcases getElem?_set_cases h2 with ⟨e, _⟩ | ⟨n2, h2'⟩
      · exact absurd e.symm hne
      · obtain ⟨a, c, d⟩ := h.ordered i2 f2 h2' r2
        rcases hload with e | ⟨e1, e2⟩
        · constructor <;> omega
        · have := (h.stamps_differ i1 i2 f f2 hf h2' hne (by rw [← e1]; exact r1) r2).1
          constructor
          · rw [e2]; exact this
          · omega
    · rcases getElem?_set_cases h2 with ⟨rfl, rfl⟩ | ⟨n2, h2'⟩
      · obtain ⟨a, c, d⟩ := h.ordered i1 f1 h1' r1
        rcases hload with e | ⟨e1, e2⟩
        · constructor <;> omega
        · have := (h.stamps_differ i1 i2 f1 f h1' hf hne r1 (by rw [← e1]; exact r2)).1
          constructor
          · rw [e2]; exact this
          · omega
      · exact h.stamps_differ i1 i2 f1 f2 h1' h2' hne r1 r2

theorem evictVictim_stamped {mgmt : BM_MgmtData} {b : Int} (h : Stamped mgmt.frames b)
    {v : Nat} {vf : BM_Frame} (hv : mgmt.frames[v]? = some vf) :
    Stamped (evictVictim mgmt v vf).2.frames b := by
  rcases evictVictim_frames_cases mgmt v vf with e | e
  · rw [e]; exact h
  · rw [e]
    exact h.set_same hv rfl rfl rfl

theorem loadVictim_time (mgmt : BM_MgmtData) (v : Nat) (p : Int) (page : BM_PageHandle) :
    (loadVictim mgmt v p page).2.1.time = mgmt.time := by
  unfold loadVictim
  cases hv : mgmt.frames[v]? with
  | none => rfl
  | some vf =>
    dsimp only
    split_ifs <;> rfl

theorem loadVictim_stamped {mgmt : BM_MgmtData} {b : Int} (h : Stamped mgmt.frames b)
    (hb : b < mgmt.time) (v : Nat) (p : Int) (page : BM_PageHandle) :
    Stamped (loadVictim mgmt v p page).2.1.frames mgmt.time := by
  unfold loadVictim
  cases hv : mgmt.frames[v]? with
  | none => exact h.later (le_of_lt hb)
  | some vf =>
    dsimp only
    split_ifs
    · exact (@Stamped.set_same _ _ h v vf
        { vf with data := (readBlock p mgmt.fileHandle vf.data).2.2 } hv rfl rfl rfl).later
        (le_of_lt hb)
    · exact h.stamp hb hv (Or.inl rfl) rfl

theorem pinInPool_time (strategy : ReplacementStrategy) (mgmt : BM_MgmtData)
    (page : BM_PageHandle) (p : Int) : (pinInPool strategy mgmt page p).2.1.time = mgmt.time := by
  unfold pinInPool
  cases hfind : findFrame mgmt.frames p with
  | some i =>
    dsimp only
    cases hf : mgmt.frames[i]? with
    | none => rfl
    | some f => rfl
  | none =>
    dsimp only
    cases hc : chooseVictim strategy mgmt.frames with
    | none => rfl
    | some v =>
      dsimp only
      cases hv : mgmt.frames[v]? with
      | none => rfl
      | some vf =>
        dsimp only
        split_ifs
        · exact evictVictim_time _ _ _
        · rw [loadVictim_time, evictVictim_time]

theorem pinInPool_stamped {mgmt : BM_MgmtData} {b : Int} (h : Stamped mgmt.frames b)
    (hb : b < mgmt.time) (strategy : ReplacementStrategy) (page : BM_PageHandle) (p : Int) :
    Stamped (pinInPool strategy mgmt page p).2.1.frames mgmt.time := by
  unfold pinInPool
  cases hfind : findFrame mgmt.frames p with
  | some i =>
    dsimp only
    cases hf : mgmt.frames[i]? with
    | none => exact h.later (le_of_lt hb)
    | some f => exact h.stamp hb hf (Or.inr ⟨rfl, rfl⟩) rfl
  | none =>
    dsimp only
    cases hc : chooseVictim strategy mgmt.frames with
    | none => exact h.later (le_of_lt hb)
    | some v =>
      dsimp only
      cases hv : mgmt.frames[v]? with
      | none => exact h.later (le_of_lt hb)
      | some vf =>
        dsimp only
        split_ifs
        · exact (evictVictim_stamped h hv).later (le_of_lt hb)
        · have := loadVictim_stamped (evictVictim_stamped h hv)
            (by rw [evictVictim_time]; exact hb) v p page
          rw [evictVictim_time] at this
          exact this

theorem pinPage_stamped {bm : BM_BufferPool} (h : PoolStamped bm)
    (page : BM_PageHandle) (p : Int) : PoolStamped (pinPage bm page p).2.1 := by
  unfold pinPage
  cases hm : bm.mgmtData with
  | none => exact h
  | some mgmt =>
    have h0 := h mgmt hm
    dsimp only
    by_cases hp : p < 0
    · rw [if_pos hp]; exact h
    · rw [if_neg hp]
      intro m hm'
      cases hm'
      unfold pinPageCore
      dsimp only
      have hg : Stamped (tickAndGrow mgmt p).2.frames mgmt.time := by
        rw [tickAndGrow_frames]; exact h0
      have ht : (tickAndGrow mgmt p).2.time = mgmt.time + 1 := tickAndGrow_time _ _
      split_ifs
      · exact hg.later (by rw [ht]; omega)
      · rw [pinInPool_time]
        exact pinInPool_stamped hg (by rw [ht]; omega) _ _ _

theorem unpinPage_stamped {bm : BM_BufferPool} (h : PoolStamped bm)
    (page : BM_PageHandle) : PoolStamped (unpinPage bm page).2 := by
  unfold unpinPage
  cases hm : bm.mgmtData with
  | none => exact h
  | some mgmt =>
    have h0 := h mgmt hm
    dsimp only
    split
    · exact h
    · split
      · exact h
      · rename_i f hf
        split_ifs with hfix
        · exact h
        · intro m hm'
          cases hm'
          exact h0.set_same hf rfl rfl rfl

theorem markDirty_stamped {bm : BM_BufferPool} (h : PoolStamped bm)
    (page : BM_PageHandle) : PoolStamped (markDirty bm page).2 := by
  unfold markDirty
  cases hm : bm.mgmtData with
  | none => exact h
  | some mgmt =>
    have h0 := h mgmt hm
    dsimp only
    split
    · exact h
    · split
      · exact h
      · rename_i f hf
        intro m hm'
        cases hm'
        exact h0.set_same hf rfl rfl rfl

theorem forcePage_stamped {bm : BM_BufferPool} (h : PoolStamped bm)
    (page : BM_PageHandle) : PoolStamped (forcePage bm page).2 := by
  unfold forcePage
  cases hm : bm.mgmtData with
  | none => exact h
  | some mgmt =>
    have h0 := h mgmt hm
    dsimp only
    split
    · exact h
    · split
      · exact h
      · rename_i f hf
        split_ifs
        · intro m hm'
          cases hm'
          exact h0
        · intro m hm'
          cases hm'
          exact h0.set_same hf rfl rfl rfl

theorem storeBytes_stamped {bm : BM_BufferPool} (h : PoolStamped bm)
    (frame : Nat) (bytes : PageData) : PoolStamped (storeBytes bm frame bytes) := by
  unfold storeBytes
  cases hm : bm.mgmtData with
  | none => exact h
  | some mgmt =>
    have h0 := h mgmt hm
    dsimp only
    split
    · exact h
    · rename_i f hf
      intro m hm'
      cases hm'
      exact h0.set_same hf rfl rfl rfl

/-- The flush loop changes no page number and no time stamp, whatever the file
handle is. -/
theorem forceFlushLoop_stamps :
    ∀ (fs : List BM_Frame) (fh : SM_FileHandle) (w : Int) (j : Nat) (g : BM_Frame),
      (forceFlushLoop fs fh w).2.1[j]? = some g →
      ∃ f, fs[j]? = some f ∧ g.pageNum = f.pageNum ∧ g.loadTime = f.loadTime ∧
        g.lastUsed = f.lastUsed := by
  intro fs
  induction fs with
  | nil => intro fh w j g hg; simp [forceFlushLoop] at hg
  | cons f fs ih =>
    intro fh w j g hg
    unfold forceFlushLoop at hg
    dsimp only at hg
    split_ifs at hg with hd hr
    · exact ⟨g, hg, rfl, rfl, rfl⟩
    · cases j with
      | zero =>
        simp only [List.getElem?_cons_zero, Option.some.injEq] at hg
        subst hg
        exact ⟨f, by simp, rfl, rfl, rfl⟩
      | succ j =>
        simp only [List.getElem?_cons_succ] at hg ⊢
        exact ih _ _ j g hg
    · cases j with
      | zero =>
        simp only [List.getElem?_cons_zero, Option.some.injEq] at hg
        subst hg
        exact ⟨f, by simp, rfl, rfl, rfl⟩
      | succ j =>
        simp only [List.getElem?_cons_succ] at hg ⊢
        exact ih _ _ j g hg

theorem forceFlushPool_stamped {bm : BM_BufferPool} (h : PoolStamped bm) :
    PoolStamped (forceFlushPool bm).2 := by
  unfold forceFlushPool
  cases hm : bm.mgmtData with
  | none => exact h
  | some mgmt =>
    have h0 := h mgmt hm
    intro m hm'
    cases hm'
    exact h0.same_stamps (forceFlushLoop_stamps mgmt.frames mgmt.fileHandle _)

theorem shutdown_stamped {bm : BM_BufferPool} (h : PoolStamped bm) :
    PoolStamped (shutdownBufferPool bm).2 := by
  unfold shutdownBufferPool
  split
  · exact h
  · split_ifs
    · exact h
    · split
      · exact h
      · dsimp only
        split_ifs <;> (intro m hm'; cases hm')

theorem initBufferPool_stamped (bm : BM_BufferPool) (name : String) (numPages : Int)
    (strategy : ReplacementStrategy) (file : Option OSFile)
    (h : (initBufferPool bm name numPages strategy file).1 = RC.RC_OK) :
    PoolStamped (initBufferPool bm name numPages strategy file).2 := by
  unfold initBufferPool at h ⊢
  by_cases hn : numPages ≤ 0
  · simp [hn] at h
  · cases file with
    | none => simp [hn, openPageFile] at h
    | some f =>
      simp only [hn, if_false, openPageFile]
      intro m hm
      cases hm
      have hempty : ∀ (j : Nat) (g : BM_Frame),
          (List.replicate numPages.toNat emptyFrame)[j]? = some g → g.pageNum = NO_PAGE := by
        intro j g hg
        have hmem := List.getElem?_mem hg
        rw [List.mem_replicate] at hmem
        rw [hmem.2]
        rfl
      exact
        { clock_nonneg := le_refl _
          ordered := fun j g hg hr => absurd (hempty j g hg) hr
          stamps_differ := fun i j f g hf _ _ hr _ => absurd (hempty i f hf) hr }

theorem reachable_stamped {bm : BM_BufferPool} (h : Reachable bm) : PoolStamped bm := by
  obtain ⟨bm0, name, n, strategy, file, ops, hinit, rfl⟩ := h
  have h0 := initBufferPool_stamped bm0 name n strategy file hinit
  generalize (initBufferPool bm0 name n strategy file).2 = b at h0
  induction ops generalizing b with
  | nil => exact h0
  | cons op ops ih =>
    apply ih
    cases op with
    | pin page pageNum => exact pinPage_stamped h0 page pageNum
    | unpin page => exact unpinPage_stamped h0 page
    | dirty page => exact markDirty_stamped h0 page
    | force page => exact forcePage_stamped h0 page
    | flush => exact forceFlushPool_stamped h0
    | shutdown => exact shutdown_stamped h0
    | store frame bytes => exact storeBytes_stamped h0 frame bytes

end BufferMgr

namespace BufferMgr

theorem metricOf_cases (strategy : ReplacementStrategy) :
    (∀ f : BM_Frame, metricOf strategy f = f.loadTime) ∨
    (∀ f : BM_Frame, metricOf strategy f = f.lastUsed) := by
  cases strategy
  · exact Or.inl (fun _ => rfl)
  · exact Or.inr (fun _ => rfl)
  · exact Or.inl (fun _ => rfl)
  · exact Or.inl (fun _ => rfl)
  · exact Or.inr (fun _ => rfl)

/-- C23: in every pool state reachable from a successful `initBufferPool` (the
time counter being an unbounded integer), every resident frame has
`1 ≤ loadTime ≤ lastUsed ≤ time`, and two distinct resident frames have
different `loadTime` values and different `lastUsed` values.  Hence, under
every strategy, the metric of a resident frame is `≥ 1` and so never the value
`-1` that marks `minMetric` as unset, two distinct resident frames never have
the same metric, and whenever the victim loop runs (no frame is empty) the
frame it selects has a metric strictly below that of every other unpinned
frame: the minimum is attained by that frame alone and the lowest-index
tie-break decides nothing.  Scenario S2 before its last pin: the time counter
is 4 and the stamps are `(1, 4)`, `(2, 2)` and `(3, 3)`. -/
theorem reachable_stamps_ordered :
    (∀ (bm : BM_BufferPool) (mgmt : BM_MgmtData) (j : Nat) (g : BM_Frame),
        Reachable bm → bm.mgmtData = some mgmt → mgmt.frames[j]? = some g →
        g.pageNum ≠ NO_PAGE →
        1 ≤ g.loadTime ∧ g.loadTime ≤ g.lastUsed ∧ g.lastUsed ≤ mgmt.time) ∧
    (∀ (bm : BM_BufferPool) (mgmt : BM_MgmtData) (i j : Nat) (f g : BM_Frame),
        Reachable bm → bm.mgmtData = some mgmt → mgmt.frames[i]? = some f →
        mgmt.frames[j]? = some g → i ≠ j → f.pageNum ≠ NO_PAGE → g.pageNum ≠ NO_PAGE →
        f.loadTime ≠ g.loadTime ∧ f.lastUsed ≠ g.lastUsed) ∧
    (∀ (bm : BM_BufferPool) (mgmt : BM_MgmtData) (strategy : ReplacementStrategy) (j : Nat)
        (g : BM_Frame),
        Reachable bm → bm.mgmtData = some mgmt → mgmt.frames[j]? = some g →
        g.pageNum ≠ NO_PAGE → 1 ≤ metricOf strategy g ∧ metricOf strategy g ≠ -1) ∧
    (∀ (bm : BM_BufferPool) (mgmt : BM_MgmtData) (strategy : ReplacementStrategy) (i j : Nat)
        (f g : BM_Frame),
        Reachable bm → bm.mgmtData = some mgmt → mgmt.frames[i]? = some f →
        mgmt.frames[j]? = some g → i ≠ j → f.pageNum ≠ NO_PAGE → g.pageNum ≠ NO_PAGE →
        metricOf strategy f ≠ metricOf strategy g) ∧
    (∀ (bm : BM_BufferPool) (mgmt : BM_MgmtData) (strategy : ReplacementStrategy) (k : Nat),
        Reachable bm → bm.mgmtData = some mgmt → findFrame mgmt.frames NO_PAGE = none →
        chooseVictim strategy mgmt.frames = some k →
        ∃ f, mgmt.frames[k]? = some f ∧ f.pageNum ≠ NO_PAGE ∧ f.fixCount = 0 ∧
          ∀ (j : Nat) (g : BM_Frame), mgmt.frames[j]? = some g → g.fixCount = 0 → j ≠ k →
            metricOf strategy f < metricOf strategy g) ∧
    (getStamps (poolS2 ReplacementStrategy.RS_LRU) = some (4, [(1, 4), (2, 2), (3, 3)]) ∧
      getFrameContents (poolS2 ReplacementStrategy.RS_LRU) = some [0, 1, 2]) := by
  have hord : ∀ (bm : BM_BufferPool) (mgmt : BM_MgmtData) (j : Nat) (g : BM_Frame),
      Reachable bm → bm.mgmtData = some mgmt → mgmt.frames[j]? = some g →
      g.pageNum ≠ NO_PAGE →
      1 ≤ g.loadTime ∧ g.loadTime ≤ g.lastUsed ∧ g.lastUsed ≤ mgmt.time :=
    fun bm mgmt j g hr hm hg hres => (reachable_stamped hr mgmt hm).ordered j g hg hres
  have hdiff : ∀ (bm : BM_BufferPool) (mgmt : BM_MgmtData) (i j : Nat) (f g : BM_Frame),
      Reachable bm → bm.mgmtData = some mgmt → mgmt.frames[i]? = some f →
      mgmt.frames[j]? = some g → i ≠ j → f.pageNum ≠ NO_PAGE → g.pageNum ≠ NO_PAGE →
      f.loadTime ≠ g.loadTime ∧ f.lastUsed ≠ g.lastUsed :=
    fun bm mgmt i j f g hr hm hf hg hij hfr hgr =>
      (reachable_stamped hr mgmt hm).stamps_differ i j f g hf hg hij hfr hgr
  have hmetric : ∀ (bm : BM_BufferPool) (mgmt : BM_MgmtData) (strategy : ReplacementStrategy)
      (i j : Nat) (f g : BM_Frame),
      Reachable bm → bm.mgmtData = some mgmt → mgmt.frames[i]? = some f →
      mgmt.frames[j]? = some g → i ≠ j → f.pageNum ≠ NO_PAGE → g.pageNum ≠ NO_PAGE →
      metricOf strategy f ≠ metricOf strategy g := by
    intro bm mgmt strategy i j f g hr hm hf hg hij hfr hgr
    obtain ⟨d1, d2⟩ := hdiff bm mgmt i j f g hr hm hf hg hij hfr hgr
    rcases metricOf_cases strategy with e | e
    · rw [e f, e g]; exact d1
    · rw [e f, e g]; exact d2
  refine ⟨hord, hdiff, ?_, hmetric, ?_, ⟨rfl, rfl⟩⟩
  · intro bm mgmt strategy j g hr hm hg hres
    obtain ⟨a, b, _⟩ := hord bm mgmt j g hr hm hg hres
    rcases metricOf_cases strategy with e | e
    · rw [e g]; constructor <;> omega
    · rw [e g]; constructor <;> omega
  · intro bm mgmt strategy k hr hm hfull hc
    have hwf := reachable_ok hr mgmt hm
    rcases chooseVictim_policy strategy mgmt.frames hfull
      (fun j g hg _ => metricOf_nonneg strategy (hwf.frames_ok j g hg)) with ⟨hn, _⟩ | ⟨k', hk', f, hf, hfix, hmin⟩
    · rw [hn] at hc; cases hc
    · rw [hk'] at hc
      cases hc
      refine ⟨f, hf, findFrame_none hfull k f hf, hfix, ?_⟩
      intro j g hg hgfix hjk
      have hle := (hmin j g hg hgfix).1
      have hne := hmetric bm mgmt strategy k j f g hr hm hf hg (Ne.symm hjk)
        (findFrame_none hfull k f hf) (findFrame_none hfull j g hg)
      omega

end BufferMgr

namespace BufferMgr

/-! ## Pages at and past the wrap of the 32-bit file offset -/

theorem hugeTail_length : hugeTail.length = 1048575 := by
  unfold hugeTail
  rw [List.length_replicate]

theorem poolOn_hugeFile :
    poolOn hugeFile 1 ReplacementStrategy.RS_FIFO = onePool emptyFrame hugeHandle 0 0 0 := by
  unfold poolOn initBufferPool openPageFile
  rw [if_neg (by decide)]
  dsimp only
  have h : ((hugeFile.blocks.length : Nat) : Int) = 1048576 := by
    unfold hugeFile
    dsimp only
    rw [List.length_cons, hugeTail_length]
    rfl
  rw [h]
  rfl

theorem storeBytes_onePool (f : BM_Frame) (fh : SM_FileHandle) (r w t : Int) (b : PageData) :
    storeBytes (onePool f fh r w t) 0 b = onePool { f with data := b } fh r w t := rfl

theorem markDirty_onePool (f : BM_Frame) (fh : SM_FileHandle) (r w t : Int)
    (page : BM_PageHandle) (hp : f.pageNum = page.pageNum) :
    markDirty (onePool f fh r w t) page =
      (RC.RC_OK, onePool { f with dirty := true } fh r w t) := by
  unfold markDirty onePool oneMgmt findFrame
  simp [List.findIdx?, hp]

theorem unpinPage_onePool (f : BM_Frame) (fh : SM_FileHandle) (r w t : Int)
    (page : BM_PageHandle) (hp : f.pageNum = page.pageNum) (h : 0 < f.fixCount) :
    unpinPage (onePool f fh r w t) page =
      (RC.RC_OK, onePool { f with fixCount := f.fixCount - 1 } fh r w t) := by
  unfold unpinPage onePool oneMgmt findFrame
  simp [List.findIdx?, hp]
  omega

theorem findFrame_single_ne (f : BM_Frame) (p : Int) (h : f.pageNum ≠ p) :
    findFrame [f] p = none := by
  unfold findFrame
  simp [List.findIdx?, h]

theorem findFrame_single_eq (f : BM_Frame) : findFrame [f] f.pageNum = some 0 := by
  unfold findFrame
  simp [List.findIdx?]

theorem chooseVictim_single (f : BM_Frame) (h : f.fixCount = 0) :
    chooseVictim ReplacementStrategy.RS_FIFO [f] = some 0 := by
  unfold chooseVictim
  by_cases he : f.pageNum = NO_PAGE
  · rw [← he, findFrame_single_eq]
  · rw [findFrame_single_ne f NO_PAGE he]
    simp [selectLoop, h]

/-- The search, eviction and load of `pinPage` in a pool of one unpinned frame
that is empty or clean, for a page of the file that the frame does not hold, on
a file whose calls succeed: nothing is written and the frame is loaded from the
block at which `readBlock` transfers the page. -/
theorem pinInPool_single_clean (f : BM_Frame) (fh : SM_FileHandle) (r w t : Int)
    (page : BM_PageHandle) (p : Int) (d : PageData)
    (hfix : f.fixCount = 0) (hne : f.pageNum ≠ p)
    (hclean : f.pageNum = NO_PAGE ∨ f.dirty = false)
    (hs : fh.mgmtInfo.script = []) (h0 : 0 ≤ p) (h1 : p < fh.totalNumPages)
    (hseek : 0 ≤ seekOffset p) (hd : fh.mgmtInfo.blocks[blockOf p]? = some d) :
    pinInPool ReplacementStrategy.RS_FIFO (oneMgmt f fh r w t) page p =
      (RC.RC_OK,
        oneMgmt { pageNum := p, data := d, fixCount := 1, dirty := false, loadTime := t,
                  lastUsed := t }
          { fh with
              mgmtInfo := { fh.mgmtInfo with
                              journal := fh.mgmtInfo.journal ++ [Transfer.read (blockOf p)] } }
          (r + 1) w t,
        { pageNum := p, data := some 0 }) := by
  have he : evictVictim (oneMgmt f fh r w t) 0 f = (RC.RC_OK, oneMgmt f fh r w t) := by
    unfold evictVictim
    by_cases e0 : f.pageNum = NO_PAGE
    · rw [if_neg (by simp [e0])]
    · have e : f.dirty = false := by
        rcases hclean with e | e
        · exact absurd e e0
        · exact e
      rw [if_pos e0, if_neg (by simp [hfix]), if_neg (by simp [e])]
  unfold pinInPool
  unfold oneMgmt at he ⊢
  dsimp only
  rw [findFrame_single_ne f p hne]
  dsimp only
  rw [chooseVictim_single f hfix]
  dsimp only
  rw [show ([f] : List BM_Frame)[0]? = some f from rfl]
  dsimp only
  rw [he]
  dsimp only
  rw [if_neg (by simp)]
  unfold loadVictim
  dsimp only
  rw [show ([f] : List BM_Frame)[0]? = some f from rfl]
  dsimp only
  rw [readBlock_at p fh f.data d hs h0 h1 hseek hd]
  dsimp only
  rw [if_neg (by simp)]
  rfl

/-- The search, eviction and load of `pinPage` in a pool of one unpinned frame
that holds a dirty page, for a page of the file that the frame does not hold,
on a file whose calls succeed: the bytes of the frame are stored at the block
at which `writeBlock` transfers its page, then the frame is loaded from the
block at which `readBlock` transfers the new page. -/
theorem pinInPool_single_dirty (f : BM_Frame) (fh : SM_FileHandle) (r w t : Int)
    (page : BM_PageHandle) (p : Int) (d : PageData)
    (hfix : f.fixCount = 0) (hne : f.pageNum ≠ p) (hdirty : f.dirty = true)
    (hv0 : 0 ≤ f.pageNum) (hv1 : f.pageNum < fh.totalNumPages)
    (hvseek : 0 ≤ seekOffset f.pageNum)
    (hs : fh.mgmtInfo.script = []) (h0 : 0 ≤ p) (h1 : p < fh.totalNumPages)
    (hseek : 0 ≤ seekOffset p)
    (hd : (storeBlock fh.mgmtInfo.blocks (blockOf f.pageNum) f.data)[blockOf p]? = some d) :
    pinInPool ReplacementStrategy.RS_FIFO (oneMgmt f fh r w t) page p =
      (RC.RC_OK,
        oneMgmt { pageNum := p, data := d, fixCount := 1, dirty := false, loadTime := t,
                  lastUsed := t }
          { fh with
              mgmtInfo := { fh.mgmtInfo with
                              blocks := storeBlock fh.mgmtInfo.blocks (blockOf f.pageNum) f.data,
                              journal := fh.mgmtInfo.journal ++
                                [Transfer.write (blockOf f.pageNum), Transfer.read (blockOf p)] } }
          (r + 1) (w + 1) t,
        { pageNum := p, data := some 0 }) := by
  have hres : f.pageNum ≠ NO_PAGE := by unfold NO_PAGE; omega
  have he : evictVictim (oneMgmt f fh r w t) 0 f =
      (RC.RC_OK,
        oneMgmt { f with dirty := false }
          { fh with
              mgmtInfo := { fh.mgmtInfo with
                              blocks := storeBlock fh.mgmtInfo.blocks (blockOf f.pageNum) f.data,
                              journal := fh.mgmtInfo.journal ++
                                [Transfer.write (blockOf f.pageNum)] } }
          r (w + 1) t) := by
    unfold evictVictim oneMgmt
    rw [if_pos hres, if_neg (by simp [hfix]), if_pos hdirty]
    dsimp only
    rw [writeBlock_at f.pageNum fh f.data hs hv0 hv1 hvseek]
    dsimp only
    rw [if_neg (by simp)]
    rfl
  unfold pinInPool
  unfold oneMgmt at he ⊢
  dsimp only
  rw [findFrame_single_ne f p hne]
  dsimp only
  rw [chooseVictim_single f hfix]
  dsimp only
  rw [show ([f] : List BM_Frame)[0]? = some f from rfl]
  dsimp only
  rw [he]
  dsimp only
  rw [if_neg (by simp)]
  unfold loadVictim
  dsimp only
  rw [show ([{ f with dirty := false }] : List BM_Frame)[0]?
    = some { f with dirty := false } from rfl]
  dsimp only
  have hrd := readBlock_at p
    { fh with
        mgmtInfo := { fh.mgmtInfo with
                        blocks := storeBlock fh.mgmtInfo.blocks (blockOf f.pageNum) f.data,
                        journal := fh.mgmtInfo.journal ++
                          [Transfer.write (blockOf f.pageNum)] } }
    f.data d hs h0 h1 hseek hd
  dsimp only at hrd
  rw [hrd]
  dsimp only
  rw [if_neg (by simp)]
  simp

/-- `pinPage` of a page of the file, in a pool of one unpinned frame that is
empty or clean and does not hold the page, on a file whose calls succeed. -/
theorem pinPage_single_clean (f : BM_Frame) (fh : SM_FileHandle) (r w t : Int)
    (page : BM_PageHandle) (p : Int) (d : PageData)
    (hfix : f.fixCount = 0) (hne : f.pageNum ≠ p)
    (hclean : f.pageNum = NO_PAGE ∨ f.dirty = false)
    (hs : fh.mgmtInfo.script = []) (h0 : 0 ≤ p) (h1 : p < fh.totalNumPages)
    (hseek : 0 ≤ seekOffset p) (hd : fh.mgmtInfo.blocks[blockOf p]? = some d) :
    pinPage (onePool f fh r w t) page p =
      (RC.RC_OK,
        onePool { pageNum := p, data := d, fixCount := 1, dirty := false, loadTime := t + 1,
                  lastUsed := t + 1 }
          { fh with
              mgmtInfo := { fh.mgmtInfo with
                              journal := fh.mgmtInfo.journal ++ [Transfer.read (blockOf p)] } }
          (r + 1) w (t + 1),
        { pageNum := p, data := some 0 }) := by
  have hgrow : tickAndGrow (oneMgmt f fh r w t) p = (RC.RC_OK, oneMgmt f fh r w (t + 1)) := by
    unfold tickAndGrow oneMgmt
    dsimp only
    rw [if_neg (by omega)]
  unfold pinPage onePool
  dsimp only
  rw [if_neg (by omega)]
  unfold pinPageCore
  dsimp only
  rw [hgrow]
  dsimp only
  rw [if_neg (by simp),
    pinInPool_single_clean f fh r w (t + 1) page p d hfix hne hclean hs h0 h1 hseek hd]

/-- `pinPage` of a page of the file, in a pool of one unpinned frame that holds
another page and is dirty, on a file whose calls succeed. -/
theorem pinPage_single_dirty (f : BM_Frame) (fh : SM_FileHandle) (r w t : Int)
    (page : BM_PageHandle) (p : Int) (d : PageData)
    (hfix : f.fixCount = 0) (hne : f.pageNum ≠ p) (hdirty : f.dirty = true)
    (hv0 : 0 ≤ f.pageNum) (hv1 : f.pageNum < fh.totalNumPages)
    (hvseek : 0 ≤ seekOffset f.pageNum)
    (hs : fh.mgmtInfo.script = []) (h0 : 0 ≤ p) (h1 : p < fh.totalNumPages)
    (hseek : 0 ≤ seekOffset p)
    (hd : (storeBlock fh.mgmtInfo.blocks (blockOf f.pageNum) f.data)[blockOf p]? = some d) :
    pinPage (onePool f fh r w t) page p =
      (RC.RC_OK,
        onePool { pageNum := p, data := d, fixCount := 1, dirty := false, loadTime := t + 1,
                  lastUsed := t + 1 }
          { fh with
              mgmtInfo := { fh.mgmtInfo with
                              blocks := storeBlock fh.mgmtInfo.blocks (blockOf f.pageNum) f.data,
                              journal := fh.mgmtInfo.journal ++
                                [Transfer.write (blockOf f.pageNum), Transfer.read (blockOf p)] } }
          (r + 1) (w + 1) (t + 1),
        { pageNum := p, data := some 0 }) := by
  have hgrow : tickAndGrow (oneMgmt f fh r w t) p = (RC.RC_OK, oneMgmt f fh r w (t + 1)) := by
    unfold tickAndGrow oneMgmt
    dsimp only
    rw [if_neg (by omega)]
  unfold pinPage onePool
  dsimp only
  rw [if_neg (by omega)]
  unfold pinPageCore
  dsimp only
  rw [hgrow]
  dsimp only
  rw [if_neg (by simp),
    pinInPool_single_dirty f fh r w (t + 1) page p d hfix hne hdirty hv0 hv1 hvseek hs h0 h1
      hseek hd]

/-- `pinPage` of the page just behind the end of the file, in a pool of one
unpinned frame that is empty or clean, on a file whose calls succeed: one zero
page is appended, then the frame is loaded from the block at which `readBlock`
transfers the page. -/
theorem pinPage_single_grow (f : BM_Frame) (fh : SM_FileHandle) (r w t : Int)
    (page : BM_PageHandle) (p : Int) (d : PageData)
    (hfix : f.fixCount = 0) (hne : f.pageNum ≠ p)
    (hclean : f.pageNum = NO_PAGE ∨ f.dirty = false)
    (hs : fh.mgmtInfo.script = []) (h0 : 0 ≤ p) (hp : fh.totalNumPages = p)
    (hseek : 0 ≤ seekOffset p)
    (hd : (fh.mgmtInfo.blocks ++ [zeroPage])[blockOf p]? = some d) :
    pinPage (onePool f fh r w t) page p =
      (RC.RC_OK,
        onePool { pageNum := p, data := d, fixCount := 1, dirty := false, loadTime := t + 1,
                  lastUsed := t + 1 }
          { fh with
              totalNumPages := p + 1,
              mgmtInfo := { fh.mgmtInfo with
                              blocks := fh.mgmtInfo.blocks ++ [zeroPage],
                              journal := fh.mgmtInfo.journal ++
                                [Transfer.append, Transfer.read (blockOf p)] } }
          (r + 1) w (t + 1),
        { pageNum := p, data := some 0 }) := by
  have hgrow : tickAndGrow (oneMgmt f fh r w t) p =
      (RC.RC_OK, oneMgmt f
        { fh with
            totalNumPages := p + 1,
            mgmtInfo := { fh.mgmtInfo with
                            blocks := fh.mgmtInfo.blocks ++ [zeroPage],
                            journal := fh.mgmtInfo.journal ++ [Transfer.append] } }
        r w (t + 1)) := by
    unfold tickAndGrow oneMgmt
    dsimp only
    rw [if_pos (by omega)]
    unfold ensureCapacity
    have h1 : (p + 1 - fh.totalNumPages).toNat = 1 := by omega
    rw [h1]
    unfold ensureCapacityLoop
    rw [next_nil hs]
    dsimp only
    rw [if_pos rfl]
    unfold ensureCapacityLoop
    rw [hp]
  unfold pinPage onePool
  dsimp only
  rw [if_neg (by omega)]
  unfold pinPageCore
  dsimp only
  rw [hgrow]
  dsimp only
  have hin := pinInPool_single_clean f
    { fh with
        totalNumPages := p + 1,
        mgmtInfo := { fh.mgmtInfo with
                        blocks := fh.mgmtInfo.blocks ++ [zeroPage],
                        journal := fh.mgmtInfo.journal ++ [Transfer.append] } }
    r w (t + 1) page p d hfix hne hclean hs h0 (by dsimp only; omega) hseek hd
  dsimp only at hin
  rw [if_neg (by simp), hin]
  simp

/-- `forcePage` in a pool of one frame, for the page the frame holds, on a file
whose calls succeed. -/
theorem forcePage_single (f : BM_Frame) (fh : SM_FileHandle) (r w t : Int)
    (page : BM_PageHandle) (hp : page.pageNum = f.pageNum)
    (hv0 : 0 ≤ f.pageNum) (hv1 : f.pageNum < fh.totalNumPages)
    (hvseek : 0 ≤ seekOffset f.pageNum) (hs : fh.mgmtInfo.script = []) :
    forcePage (onePool f fh r w t) page =
      (RC.RC_OK,
        onePool { f with dirty := false }
          { fh with
              mgmtInfo := { fh.mgmtInfo with
                              blocks := storeBlock fh.mgmtInfo.blocks (blockOf f.pageNum) f.data,
                              journal := fh.mgmtInfo.journal ++
                                [Transfer.write (blockOf f.pageNum)] } }
          r (w + 1) t) := by
  unfold forcePage onePool oneMgmt
  dsimp only
  rw [hp, findFrame_single_eq f]
  dsimp only
  rw [show ([f] : List BM_Frame)[0]? = some f from rfl]
  dsimp only
  rw [writeBlock_at f.pageNum fh f.data hs hv0 hv1 hvseek]
  dsimp only
  rw [if_neg (by simp)]
  rfl

/-- `forceFlushPool` in a pool of one dirty unpinned frame on a file whose calls
succeed. -/
theorem forceFlushPool_single (f : BM_Frame) (fh : SM_FileHandle) (r w t : Int)
    (hfix : f.fixCount = 0) (hdirty : f.dirty = true)
    (hv0 : 0 ≤ f.pageNum) (hv1 : f.pageNum < fh.totalNumPages)
    (hvseek : 0 ≤ seekOffset f.pageNum) (hs : fh.mgmtInfo.script = []) :
    forceFlushPool (onePool f fh r w t) =
      (RC.RC_OK,
        onePool { f with dirty := false }
          { fh with
              mgmtInfo := { fh.mgmtInfo with
                              blocks := storeBlock fh.mgmtInfo.blocks (blockOf f.pageNum) f.data,
                              journal := fh.mgmtInfo.journal ++
                                [Transfer.write (blockOf f.pageNum)] } }
          r (w + 1) t) := by
  unfold forceFlushPool onePool oneMgmt
  dsimp only
  unfold forceFlushLoop
  rw [if_pos ⟨hdirty, hfix⟩]
  dsimp only
  rw [writeBlock_at f.pageNum fh f.data hs hv0 hv1 hvseek]
  dsimp only
  rw [if_neg (by simp)]
  unfold forceFlushLoop
  rfl

theorem seekOffset_huge : seekOffset 1048576 = 0 := by decide

theorem blockOf_huge : blockOf 1048576 = 0 := by decide

theorem hugeFile_length : hugeFile.blocks.length = 1048576 := by
  unfold hugeFile
  dsimp only
  rw [List.length_cons, hugeTail_length]

theorem hugeHandle_head : hugeHandle.mgmtInfo.blocks[0]? = some bytesS3 := by
  unfold hugeHandle hugeFile
  dsimp only
  rw [List.getElem?_cons_zero]

theorem hugeGrown_head : (hugeFile.blocks ++ [zeroPage])[0]? = some bytesS3 := by
  unfold hugeFile
  dsimp only
  rw [List.cons_append, List.getElem?_cons_zero]

theorem hugeGrown_second : (hugeFile.blocks ++ [zeroPage])[1]? = some zeroPage := by
  unfold hugeFile
  dsimp only
  rw [List.cons_append, List.getElem?_cons_succ,
    List.getElem?_append_left (by rw [hugeTail_length]; decide)]
  unfold hugeTail
  rw [List.getElem?_replicate_of_lt (by decide)]

theorem hugeGrown_last : (hugeFile.blocks ++ [zeroPage])[1048576]? = some zeroPage := by
  rw [List.getElem?_append_right (by rw [hugeFile_length]), hugeFile_length]
  rfl

theorem hugeGrown_length : (hugeFile.blocks ++ [zeroPage]).length = 1048577 := by
  rw [List.length_append, hugeFile_length]
  rfl

/-- The first pin of page 1048576 on the 4 GiB file: the file grows by one zero
page, and the frame is loaded from block 0. -/
theorem pinPage_huge :
    pinPage (poolOn hugeFile 1 ReplacementStrategy.RS_FIFO) blankHandle 1048576 =
      (RC.RC_OK,
        onePool { pageNum := 1048576, data := bytesS3, fixCount := 1, dirty := false,
                  loadTime := 1, lastUsed := 1 } hugeGrown 1 0 1,
        { pageNum := 1048576, data := some 0 }) := by
  rw [poolOn_hugeFile,
    pinPage_single_grow emptyFrame hugeHandle 0 0 0 blankHandle 1048576 bytesS3 rfl (by decide)
      (Or.inl rfl) rfl (by decide) rfl (by rw [seekOffset_huge])
      (by rw [blockOf_huge]; exact hugeGrown_head)]
  rw [blockOf_huge]
  rfl

theorem step_pin (bm : BM_BufferPool) (page : BM_PageHandle) (p : Int) :
    step bm (Op.pin page p) = (pinPage bm page p).2.1 := rfl

theorem step_store (bm : BM_BufferPool) (i : Nat) (b : PageData) :
    step bm (Op.store i b) = storeBytes bm i b := rfl

theorem step_dirty (bm : BM_BufferPool) (page : BM_PageHandle) :
    step bm (Op.dirty page) = (markDirty bm page).2 := rfl

theorem step_unpin (bm : BM_BufferPool) (page : BM_PageHandle) :
    step bm (Op.unpin page) = (unpinPage bm page).2 := rfl

theorem run_cons (bm : BM_BufferPool) (op : Op) (ops : List Op) :
    run bm (op :: ops) = run (step bm op) ops := rfl

theorem run_nil (bm : BM_BufferPool) : run bm [] = bm := rfl

theorem hugeDirtyPool_eq : hugeDirtyPool = onePool hugeDirtyFrame hugeGrown 1 0 1 := by
  unfold hugeDirtyPool
  rw [run_cons, step_pin, pinPage_huge]
  dsimp only
  rw [run_cons, step_store, storeBytes_onePool, run_cons, step_dirty,
    markDirty_onePool _ _ _ _ _ _ rfl]
  dsimp only
  rw [run_cons, step_unpin, unpinPage_onePool _ _ _ _ _ _ rfl (by decide), run_nil]
  rfl

end BufferMgr

namespace BufferMgr

/-! ## C8 -/

theorem blockAt_onePool (f : BM_Frame) (fh : SM_FileHandle) (r w t : Int) (i : Nat) :
    blockAt (onePool f fh r w t) i = fh.mgmtInfo.blocks[i]? := rfl

theorem reachable_poolOn_run (file : OSFile) (numPages : Int) (strategy : ReplacementStrategy)
    (ops : List Op) (h : 0 < numPages) : Reachable (run (poolOn file numPages strategy) ops) := by
  refine ⟨blankPool, "pagefile", numPages, strategy, some file, ops, ?_, rfl⟩
  unfold initBufferPool openPageFile
  rw [if_neg (by omega)]

theorem bytesS3_ne_zeroPage : bytesS3 ≠ zeroPage := by decide

theorem bytesBB_ne_zeroPage : bytesBB ≠ zeroPage := by decide

theorem bytesS3_ne_bytesBB : bytesS3 ≠ bytesBB := by decide

/-- C8 fails on the code from page 1048576 on, where the `int` offset
`pageIndex * PAGE_SIZE` of `readBlock` wraps.  After every successful
`pinPage p` miss the chosen frame has `pageNum = p`, `fixCount = 1`,
`dirty = false` and `loadTime = lastUsed =` the time counter after its
increment for this call; `readIO` has increased by exactly 1, the last transfer
is the read, and the handle returned is `p` with the bytes of that frame.  The
bytes of the frame are those of the block at which `readBlock` transfers page
`p`, and for `p < 1048576` this is block `p` of the page file.  At page 1048576
it is not: in the new pool of one frame on `hugeFile`, a page file of 4 GiB
whose page 0 holds `0xAA` bytes, `pinPage 1048576` misses, returns `RC_OK` and
a handle for page 1048576 whose bytes are the `0xAA` bytes of block 0, while
block 1048576 of the page file holds zero bytes. -/
theorem pinPage_miss_loads :
    (∀ (bm : BM_BufferPool) (mgmt : BM_MgmtData) (page : BM_PageHandle) (p : Int),
      bm.mgmtData = some mgmt → findFrame mgmt.frames p = none →
      (pinPage bm page p).1 = RC.RC_OK →
      ∃ mgmt' i f', (pinPage bm page p).2.1.mgmtData = some mgmt' ∧
        chooseVictim bm.strategy mgmt.frames = some i ∧
        (pinPage bm page p).2.2 = { pageNum := p, data := some i } ∧
        mgmt'.frames[i]? = some f' ∧
        f'.pageNum = p ∧ f'.fixCount = 1 ∧ f'.dirty = false ∧
        f'.loadTime = mgmt.time + 1 ∧ f'.lastUsed = mgmt.time + 1 ∧
        mgmt'.time = mgmt.time + 1 ∧
        mgmt'.fileHandle.mgmtInfo.blocks[blockOf p]? = some f'.data ∧
        (p < 1048576 → mgmt'.fileHandle.mgmtInfo.blocks[p.toNat]? = some f'.data) ∧
        BM_MgmtData.readIO mgmt' = BM_MgmtData.readIO mgmt + 1 ∧
        (∃ earlier,
          mgmt'.fileHandle.mgmtInfo.journal = earlier ++ [Transfer.read (blockOf p)]) ∧
        (p < 1048576 → ∃ earlier,
          mgmt'.fileHandle.mgmtInfo.journal = earlier ++ [Transfer.read p.toNat]) ∧
        handleBytes (pinPage bm page p).2.1 (pinPage bm page p).2.2 = some f'.data) ∧
    (Reachable (poolOn hugeFile 1 ReplacementStrategy.RS_FIFO) ∧
      getFrameContents (poolOn hugeFile 1 ReplacementStrategy.RS_FIFO) = some [NO_PAGE] ∧
      blockAt (poolOn hugeFile 1 ReplacementStrategy.RS_FIFO) 0 = some bytesS3 ∧
      (pinPage (poolOn hugeFile 1 ReplacementStrategy.RS_FIFO) blankHandle 1048576).1
        = RC.RC_OK ∧
      (pinPage (poolOn hugeFile 1 ReplacementStrategy.RS_FIFO) blankHandle 1048576).2.2
        = { pageNum := 1048576, data := some 0 } ∧
      getFrameContents
        (pinPage (poolOn hugeFile 1 ReplacementStrategy.RS_FIFO) blankHandle 1048576).2.1
        = some [1048576] ∧
      handleBytes
        (pinPage (poolOn hugeFile 1 ReplacementStrategy.RS_FIFO) blankHandle 1048576).2.1
        (pinPage (poolOn hugeFile 1 ReplacementStrategy.RS_FIFO) blankHandle 1048576).2.2
        = some bytesS3 ∧
      blockAt (pinPage (poolOn hugeFile 1 ReplacementStrategy.RS_FIFO) blankHandle 1048576).2.1
        1048576 = some zeroPage ∧
      blockAt (pinPage (poolOn hugeFile 1 ReplacementStrategy.RS_FIFO) blankHandle 1048576).2.1
        0 = some bytesS3 ∧
      bytesS3 ≠ zeroPage) := by
  constructor
  · intro bm mgmt page p hm hmiss hok
    obtain ⟨_, _, hp0, _⟩ := pinPage_miss_ok hm hmiss hok
    obtain ⟨mgmt', i, f', h1, h2, h3, h4, h5, h6, h7, h8, h9, h10, hseek, hblock, hread, hj, hb⟩ :=
      pinPage_miss_frame bm mgmt page p hm hmiss hok
    refine ⟨mgmt', i, f', h1, h2, h3, h4, h5, h6, h7, h8, h9, h10, hblock, ?_, hread, hj, ?_, hb⟩
    · intro hlt
      rw [← blockOf_small hp0 (small_of_seek hp0 hseek hlt)]
      exact hblock
    · intro hlt
      rw [← blockOf_small hp0 (small_of_seek hp0 hseek hlt)]
      exact hj
  · refine ⟨reachable_poolOn_run hugeFile 1 _ [] (by decide), ?_, ?_, ?_⟩
    · rw [poolOn_hugeFile]
      rfl
    · rw [poolOn_hugeFile, blockAt_onePool]
      exact hugeHandle_head
    · rw [pinPage_huge]
      refine ⟨rfl, rfl, rfl, rfl, ?_, ?_, bytesS3_ne_zeroPage⟩
      · rw [blockAt_onePool]
        exact hugeGrown_last
      · rw [blockAt_onePool]
        exact hugeGrown_head

/-- The general part of C8 at a concrete pool: page 2 is not resident and
replaces page 1 in frame 1. -/
theorem pinPage_miss_loads_witness :
    ∃ mgmt' i f', (pinPage (demoPool ReplacementStrategy.RS_FIFO) blankHandle 2).2.1.mgmtData
        = some mgmt' ∧
      chooseVictim (demoPool ReplacementStrategy.RS_FIFO).strategy demoMgmt.frames = some i ∧
      (pinPage (demoPool ReplacementStrategy.RS_FIFO) blankHandle 2).2.2
        = { pageNum := 2, data := some i } ∧
      mgmt'.frames[i]? = some f' ∧
      f'.pageNum = 2 ∧ f'.fixCount = 1 ∧ f'.dirty = false ∧
      f'.loadTime = demoMgmt.time + 1 ∧ f'.lastUsed = demoMgmt.time + 1 ∧
      mgmt'.time = demoMgmt.time + 1 ∧
      mgmt'.fileHandle.mgmtInfo.blocks[blockOf 2]? = some f'.data ∧
      ((2 : Int) < 1048576 → mgmt'.fileHandle.mgmtInfo.blocks[(2 : Int).toNat]? = some f'.data) ∧
      BM_MgmtData.readIO mgmt' = BM_MgmtData.readIO demoMgmt + 1 ∧
      (∃ earlier,
        mgmt'.fileHandle.mgmtInfo.journal = earlier ++ [Transfer.read (blockOf 2)]) ∧
      ((2 : Int) < 1048576 → ∃ earlier,
        mgmt'.fileHandle.mgmtInfo.journal = earlier ++ [Transfer.read (2 : Int).toNat]) ∧
      handleBytes (pinPage (demoPool ReplacementStrategy.RS_FIFO) blankHandle 2).2.1
        (pinPage (demoPool ReplacementStrategy.RS_FIFO) blankHandle 2).2.2 = some f'.data :=
  pinPage_miss_loads.1 (demoPool ReplacementStrategy.RS_FIFO) demoMgmt blankHandle 2 rfl rfl rfl

end BufferMgr

namespace BufferMgr

/-! ## C22 -/

/-- C22 fails on the code from page 1048576 on, where the `int` offset
`pageIndex * PAGE_SIZE` of `readBlock` wraps.  In every reachable pool state
and for every page number `p` at or past the end of the page file (`L` pages):
when the system calls succeed, some frame is unpinned and `p < 524288`,
`pinPage p` succeeds; and whenever it succeeds the file afterwards has exactly
`p + 1` pages and the blocks `L..p` are zero pages, and for `p < 1048576` the
blocks below `L` are those before except that the bytes of the evicted victim,
when it was resident and dirty, are stored at the block of its page, and the
handle returned points to `PAGE_SIZE` zero bytes.  For `p < L` the length of
the file is unchanged, whatever `pinPage` returns.  A successful
`ensureCapacity` leaves `max L required` pages, the new ones zero pages behind
the old ones; it succeeds when the system calls do, and it never shrinks the
file.  On a new pool of three frames `pinPage 5` leaves six zero pages and
returns a zero page; on a pool of one frame that holds page 0 dirty with `0xAA`
bytes, `pinPage 2` leaves the `0xAA` bytes in block 0 and zero pages in blocks
1 and 2, and returns a zero page.  At page 1048576 the claim fails: in the new
pool of one frame on `hugeFile`, a page file of `L = 1048576` pages whose page
0 holds `0xAA` bytes and whose system calls succeed, `pinPage 1048576`
returns `RC_OK` and leaves `1048577` pages, the new block 1048576 all zero, but
the handle returned points to the `0xAA` bytes of block 0, not to zero bytes. -/
theorem pinPage_extends_file :
    (∀ (bm : BM_BufferPool) (mgmt : BM_MgmtData) (page : BM_PageHandle) (p : Int),
        Reachable bm → bm.mgmtData = some mgmt → mgmt.fileHandle.mgmtInfo.script = [] →
        mgmt.fileHandle.totalNumPages ≤ p → p < 524288 →
        (∃ (j : Nat) (g : BM_Frame), mgmt.frames[j]? = some g ∧ g.fixCount = 0) →
        (pinPage bm page p).1 = RC.RC_OK) ∧
    (∀ (bm : BM_BufferPool) (mgmt : BM_MgmtData) (page : BM_PageHandle) (p : Int),
        Reachable bm → bm.mgmtData = some mgmt → mgmt.fileHandle.totalNumPages ≤ p →
        (pinPage bm page p).1 = RC.RC_OK →
        ∃ (v : Nat) (vf : BM_Frame) (mgmt' : BM_MgmtData),
          chooseVictim bm.strategy mgmt.frames = some v ∧ mgmt.frames[v]? = some vf ∧
          (pinPage bm page p).2.1 = { bm with mgmtData := some mgmt' } ∧
          mgmt.fileHandle.totalNumPages = (mgmt.fileHandle.mgmtInfo.blocks.length : Int) ∧
          mgmt'.fileHandle.totalNumPages = p + 1 ∧
          (mgmt'.fileHandle.mgmtInfo.blocks.length : Int) = p + 1 ∧
          (∀ i : Nat, mgmt.fileHandle.mgmtInfo.blocks.length ≤ i → (i : Int) ≤ p →
            mgmt'.fileHandle.mgmtInfo.blocks[i]? = some zeroPage) ∧
          (p < 1048576 → ∀ i : Nat, i < mgmt.fileHandle.mgmtInfo.blocks.length →
            ¬ (vf.pageNum ≠ NO_PAGE ∧ vf.dirty = true ∧ i = vf.pageNum.toNat) →
            mgmt'.fileHandle.mgmtInfo.blocks[i]? = mgmt.fileHandle.mgmtInfo.blocks[i]?) ∧
          (p < 1048576 → vf.pageNum ≠ NO_PAGE → vf.dirty = true →
            vf.pageNum.toNat < mgmt.fileHandle.mgmtInfo.blocks.length ∧
            mgmt'.fileHandle.mgmtInfo.blocks[vf.pageNum.toNat]? = some vf.data) ∧
          (pinPage bm page p).2.2 = { pageNum := p, data := some v } ∧
          (p < 1048576 →
            handleBytes (pinPage bm page p).2.1 (pinPage bm page p).2.2 = some zeroPage) ∧
          zeroPage.length = PAGE_SIZE ∧ (∀ b ∈ zeroPage, b = 0)) ∧
    (∀ (bm : BM_BufferPool) (mgmt : BM_MgmtData) (page : BM_PageHandle) (p : Int),
        Reachable bm → bm.mgmtData = some mgmt → p < mgmt.fileHandle.totalNumPages →
        ∃ mgmt', (pinPage bm page p).2.1.mgmtData = some mgmt' ∧
          mgmt'.fileHandle.totalNumPages = mgmt.fileHandle.totalNumPages ∧
          mgmt'.fileHandle.mgmtInfo.blocks.length = mgmt.fileHandle.mgmtInfo.blocks.length) ∧
    (∀ (fh : SM_FileHandle) (required : Int),
        (ensureCapacity required fh).1 = RC.RC_OK →
        (ensureCapacity required fh).2.totalNumPages = max fh.totalNumPages required ∧
        (ensureCapacity required fh).2.mgmtInfo.blocks =
          fh.mgmtInfo.blocks ++ List.replicate (required - fh.totalNumPages).toNat zeroPage) ∧
    (∀ (fh : SM_FileHandle) (required : Int),
        fh.mgmtInfo.script = [] → (ensureCapacity required fh).1 = RC.RC_OK) ∧
    (∀ (fh : SM_FileHandle) (required : Int),
        fh.totalNumPages ≤ (ensureCapacity required fh).2.totalNumPages) ∧
    ((pinPage (freshPool 3 ReplacementStrategy.RS_FIFO) blankHandle 5).1 = RC.RC_OK ∧
      pageFileBlocks (freshPool 3 ReplacementStrategy.RS_FIFO) = some [zeroPage] ∧
      pageFileBlocks (pinPage (freshPool 3 ReplacementStrategy.RS_FIFO) blankHandle 5).2.1
        = some (List.replicate 6 zeroPage) ∧
      handleBytes (pinPage (freshPool 3 ReplacementStrategy.RS_FIFO) blankHandle 5).2.1
          (pinPage (freshPool 3 ReplacementStrategy.RS_FIFO) blankHandle 5).2.2
        = some zeroPage) ∧
    ((pinPage dirtyOnePool blankHandle 2).1 = RC.RC_OK ∧
      pageFileBlocks dirtyOnePool = some [zeroPage] ∧
      pageFileBlocks (pinPage dirtyOnePool blankHandle 2).2.1
        = some [bytesS3, zeroPage, zeroPage] ∧
      handleBytes (pinPage dirtyOnePool blankHandle 2).2.1 (pinPage dirtyOnePool blankHandle 2).2.2
        = some zeroPage) ∧
    (Reachable (poolOn hugeFile 1 ReplacementStrategy.RS_FIFO) ∧
      pageFileScript (poolOn hugeFile 1 ReplacementStrategy.RS_FIFO) = some [] ∧
      getFixCounts (poolOn hugeFile 1 ReplacementStrategy.RS_FIFO) = some [0] ∧
      pageFileLength (poolOn hugeFile 1 ReplacementStrategy.RS_FIFO) = some 1048576 ∧
      (pinPage (poolOn hugeFile 1 ReplacementStrategy.RS_FIFO) blankHandle 1048576).1
        = RC.RC_OK ∧
      pageFileLength
        (pinPage (poolOn hugeFile 1 ReplacementStrategy.RS_FIFO) blankHandle 1048576).2.1
        = some 1048577 ∧
      blockAt (pinPage (poolOn hugeFile 1 ReplacementStrategy.RS_FIFO) blankHandle 1048576).2.1
        1048576 = some zeroPage ∧
      handleBytes
        (pinPage (poolOn hugeFile 1 ReplacementStrategy.RS_FIFO) blankHandle 1048576).2.1
        (pinPage (poolOn hugeFile 1 ReplacementStrategy.RS_FIFO) blankHandle 1048576).2.2
        = some bytesS3 ∧
      bytesS3 ≠ zeroPage) := by
  refine ⟨?_, ?_, ?_, ?_, ?_, ?_, ⟨rfl, rfl, rfl, rfl⟩, ⟨rfl, rfl, rfl, rfl⟩, ?_⟩
  · intro bm mgmt page p hr hm hs hp hlt ⟨j, g, hg, hfix⟩
    have hwf := reachable_ok hr mgmt hm
    have hL := hwf.file_len
    have hp0 : 0 ≤ p := by omega
    have hseek : ¬ seekOffset p < 0 := by
      rw [seekOffset_small hp0 hlt]
      omega
    rw [pinPage_reliable_rc bm page p hm hwf hs hp0]
    by_cases hcond : findFrame mgmt.frames p = none ∧ chooseVictim bm.strategy mgmt.frames = none
    · exact absurd hfix (chooseVictim_none_all_pinned hwf bm.strategy hcond.2 j g hg)
    · rw [if_neg hcond, if_neg (fun h => hseek h.2)]
  · intro bm mgmt page p hr hm hp hok
    have hwf := reachable_ok hr mgmt hm
    have hL := hwf.file_len
    obtain ⟨v, vf, mgmt', hc, hv, hpool, hhandle, ht, hlen, hb, hvr, hp0, hseek, f', hf', hfp⟩ :=
      pinPage_past_end hwf hm hp hok
    have hvb : p < 1048576 → vf.pageNum ≠ NO_PAGE → blockOf vf.pageNum = vf.pageNum.toNat := by
      intro hlt hne
      obtain ⟨q0, q1, q2⟩ := hvr hne
      exact blockOf_small q0 (small_of_seek q0 q2 (by omega))
    have hk : (p + 1 - mgmt.fileHandle.totalNumPages).toNat
        = p.toNat + 1 - mgmt.fileHandle.mgmtInfo.blocks.length := by omega
    rw [hk] at hb
    have hzero : ∀ i : Nat, mgmt.fileHandle.mgmtInfo.blocks.length ≤ i → (i : Int) ≤ p →
        mgmt'.fileHandle.mgmtInfo.blocks[i]? = some zeroPage := by
      intro i hi hip
      have hg : (mgmt.fileHandle.mgmtInfo.blocks ++
          List.replicate (p.toNat + 1 - mgmt.fileHandle.mgmtInfo.blocks.length) zeroPage)[i]?
            = some zeroPage := by
        rw [List.getElem?_append_right hi, List.getElem?_replicate_of_lt (by omega)]
      rw [hb]
      by_cases hcnd : vf.pageNum ≠ NO_PAGE ∧ vf.dirty = true
      · rw [if_pos hcnd]
        obtain ⟨q0, q1, q2⟩ := hvr hcnd.1
        have hq := blockOf_le q0 q2
        rw [storeBlock_getElem_of_lt _ _ _ _ (by simp; omega) (by omega)]
        exact hg
      · rw [if_neg hcnd]
        exact hg
    refine ⟨v, vf, mgmt', hc, hv, hpool, hL, ht, hlen, hzero, ?_, ?_, hhandle, ?_, ?_, ?_⟩
    · intro hlt i hi hnot
      rw [hb]
      by_cases hcnd : vf.pageNum ≠ NO_PAGE ∧ vf.dirty = true
      · rw [if_pos hcnd, hvb hlt hcnd.1]
        have hne : i ≠ vf.pageNum.toNat := fun e => hnot ⟨hcnd.1, hcnd.2, e⟩
        rw [storeBlock_getElem_of_lt _ _ _ _ (by simp; omega) hne,
          List.getElem?_append_left hi]
      · rw [if_neg hcnd, List.getElem?_append_left hi]
    · intro hlt hne hd
      obtain ⟨q0, q1, q2⟩ := hvr hne
      refine ⟨by omega, ?_⟩
      rw [hb, if_pos ⟨hne, hd⟩, hvb hlt hne]
      exact storeBlock_getElem _ _ _
    · intro hlt
      rw [hpool, hhandle]
      have hz := hzero p.toNat (by omega) (by omega)
      rw [← blockOf_small hp0 (small_of_seek hp0 hseek hlt), hfp] at hz
      simp only [handleBytes, hf', Option.map_some']
      exact hz
    · simp [zeroPage]
    · intro b hb
      unfold zeroPage at hb
      exact (List.mem_replicate.mp hb).2
  · intro bm mgmt page p hr hm hp
    exact pinPage_in_file (reachable_ok hr) hm page p hp
  · intro fh required h
    unfold ensureCapacity at h ⊢
    refine ⟨?_, ensureCapacityLoop_ok_blocks _ _ h⟩
    rw [ensureCapacityLoop_ok_total _ _ h]
    rcases le_total fh.totalNumPages required with hle | hle
    · rw [max_eq_right hle]; omega
    · rw [max_eq_left hle]; omega
  · intro fh required hs
    unfold ensureCapacity
    exact (ensureCapacityLoop_reliable _ fh hs).1
  · intro fh required
    unfold ensureCapacity
    exact ensureCapacityLoop_total_le _ fh
  · refine ⟨reachable_poolOn_run hugeFile 1 _ [] (by decide), ?_, ?_, ?_, ?_⟩
    · rw [poolOn_hugeFile]
      rfl
    · rw [poolOn_hugeFile]
      rfl
    · rw [poolOn_hugeFile]
      rfl
    · rw [pinPage_huge]
      refine ⟨rfl, rfl, ?_, rfl, bytesS3_ne_zeroPage⟩
      rw [blockAt_onePool]
      exact hugeGrown_last

/-- The general part of C22 at a new pool of three frames and the pin of page
2, past the end of the file of one page. -/
theorem pinPage_extends_file_witness :
    ∃ (v : Nat) (vf : BM_Frame) (mgmt' : BM_MgmtData),
      chooseVictim ReplacementStrategy.RS_FIFO freshMgmt.frames = some v ∧
      freshMgmt.frames[v]? = some vf ∧
      (pinPage (freshPool 3 ReplacementStrategy.RS_FIFO) blankHandle 2).2.1 =
        { freshPool 3 ReplacementStrategy.RS_FIFO with mgmtData := some mgmt' } ∧
      freshMgmt.fileHandle.totalNumPages = (freshMgmt.fileHandle.mgmtInfo.blocks.length : Int) ∧
      mgmt'.fileHandle.totalNumPages = 2 + 1 ∧
      (mgmt'.fileHandle.mgmtInfo.blocks.length : Int) = 2 + 1 ∧
      (∀ i : Nat, freshMgmt.fileHandle.mgmtInfo.blocks.length ≤ i → (i : Int) ≤ 2 →
        mgmt'.fileHandle.mgmtInfo.blocks[i]? = some zeroPage) ∧
      ((2 : Int) < 1048576 → ∀ i : Nat, i < freshMgmt.fileHandle.mgmtInfo.blocks.length →
        ¬ (vf.pageNum ≠ NO_PAGE ∧ vf.dirty = true ∧ i = vf.pageNum.toNat) →
        mgmt'.fileHandle.mgmtInfo.blocks[i]? = freshMgmt.fileHandle.mgmtInfo.blocks[i]?) ∧
      ((2 : Int) < 1048576 → vf.pageNum ≠ NO_PAGE → vf.dirty = true →
        vf.pageNum.toNat < freshMgmt.fileHandle.mgmtInfo.blocks.length ∧
        mgmt'.fileHandle.mgmtInfo.blocks[vf.pageNum.toNat]? = some vf.data) ∧
      (pinPage (freshPool 3 ReplacementStrategy.RS_FIFO) blankHandle 2).2.2 =
        { pageNum := 2, data := some v } ∧
      ((2 : Int) < 1048576 →
        handleBytes (pinPage (freshPool 3 ReplacementStrategy.RS_FIFO) blankHandle 2).2.1
          (pinPage (freshPool 3 ReplacementStrategy.RS_FIFO) blankHandle 2).2.2 = some zeroPage) ∧
      zeroPage.length = PAGE_SIZE ∧ (∀ b ∈ zeroPage, b = 0) :=
  pinPage_extends_file.2.1 (freshPool 3 ReplacementStrategy.RS_FIFO) freshMgmt blankHandle 2
    (reachable_freshPool_run 3 ReplacementStrategy.RS_FIFO [] (by decide)) rfl (by decide) rfl

end BufferMgr

namespace BufferMgr

/-! ## C14 -/

theorem hugeStored_head (b : PageData) :
    (storeBlock hugeGrown.mgmtInfo.blocks 0 b)[0]? = some b :=
  storeBlock_getElem _ _ _

theorem hugeStored_second (b : PageData) :
    (storeBlock hugeGrown.mgmtInfo.blocks 0 b)[1]? = some zeroPage := by
  rw [storeBlock_getElem_of_lt _ _ _ _ (by rw [show hugeGrown.mgmtInfo.blocks
    = hugeFile.blocks ++ [zeroPage] from rfl, hugeGrown_length]; decide) (by decide)]
  exact hugeGrown_second

theorem hugeStored_last (b : PageData) :
    (storeBlock hugeGrown.mgmtInfo.blocks 0 b)[1048576]? = some zeroPage := by
  rw [storeBlock_getElem_of_lt _ _ _ _ (by rw [show hugeGrown.mgmtInfo.blocks
    = hugeFile.blocks ++ [zeroPage] from rfl, hugeGrown_length]; decide) (by decide)]
  exact hugeGrown_last

theorem reachable_hugeDirtyPool : Reachable hugeDirtyPool :=
  reachable_poolOn_run hugeFile 1 _ _ (by decide)

/-- C14 fails on the code from page 1048576 on, where the `int` offset
`pageIndex * PAGE_SIZE` of `writeBlock` wraps.  For every pool state and handle
whose page number is found in the pool, `i` being the first frame that holds it
and `f` that frame, dirty or not, when the block write succeeds `forcePage`
returns `RC_OK` and the pool afterwards is the pool before with the frame's
bytes written at the block at which `writeBlock` transfers the page (that block
holds the frame's bytes, the journal gains this one write), the dirty flag of
frame `i` cleared and `writeIO` increased by exactly 1; the pin count, the
timestamps and the bytes of frame `i`, the other frames, `readIO`, the time
counter and the length of the file are as before.  For a page number
`p < 1048576` the block written is block `p`.  The write does succeed when the
system calls succeed and the page lies inside the file and below 524288.
Force-read: after pin of page 0, a store of `0xAA` bytes and `markDirty`,
`forcePage` returns `RC_OK`, block 0 holds the `0xAA` bytes, `writeIO = 1` and
no frame is dirty.  At page 1048576 the claim fails: in the reachable pool
`hugeDirtyPool`, whose frame holds page 1048576 with `0xBB` bytes, on a page
file of 1048577 pages whose block 0 holds `0xAA` bytes, `forcePage` returns
`RC_OK`, yet block 1048576 still holds zero bytes and block 0 now holds the
`0xBB` bytes. -/
theorem forcePage_effect :
    (∀ (bm : BM_BufferPool) (mgmt : BM_MgmtData) (page : BM_PageHandle) (i : Nat) (f : BM_Frame),
        bm.mgmtData = some mgmt → findFrame mgmt.frames page.pageNum = some i →
        mgmt.frames[i]? = some f →
        (writeBlock f.pageNum mgmt.fileHandle f.data).1 = RC.RC_OK →
        f.pageNum = page.pageNum ∧
        forcePage bm page =
          (RC.RC_OK,
            { bm with
                mgmtData := some
                  { mgmt with
                      frames := mgmt.frames.set i { f with dirty := false },
                      writeIO := mgmt.writeIO + 1,
                      fileHandle := (writeBlock f.pageNum mgmt.fileHandle f.data).2 } }) ∧
        (writeBlock f.pageNum mgmt.fileHandle f.data).2.mgmtInfo.blocks =
          storeBlock mgmt.fileHandle.mgmtInfo.blocks (blockOf f.pageNum) f.data ∧
        (writeBlock f.pageNum mgmt.fileHandle f.data).2.mgmtInfo.blocks[blockOf f.pageNum]? =
          some f.data ∧
        (writeBlock f.pageNum mgmt.fileHandle f.data).2.mgmtInfo.journal =
          mgmt.fileHandle.mgmtInfo.journal ++ [Transfer.write (blockOf f.pageNum)] ∧
        (writeBlock f.pageNum mgmt.fileHandle f.data).2.totalNumPages =
          mgmt.fileHandle.totalNumPages ∧
        (f.pageNum < 1048576 →
          (writeBlock f.pageNum mgmt.fileHandle f.data).2.mgmtInfo.blocks =
            storeBlock mgmt.fileHandle.mgmtInfo.blocks f.pageNum.toNat f.data ∧
          (writeBlock f.pageNum mgmt.fileHandle f.data).2.mgmtInfo.blocks[f.pageNum.toNat]? =
            some f.data ∧
          (writeBlock f.pageNum mgmt.fileHandle f.data).2.mgmtInfo.journal =
            mgmt.fileHandle.mgmtInfo.journal ++ [Transfer.write f.pageNum.toNat])) ∧
    (∀ (fh : SM_FileHandle) (p : Int) (bytes : PageData),
        fh.mgmtInfo.script = [] → 0 ≤ p → p < fh.totalNumPages → p < 524288 →
        (writeBlock p fh bytes).1 = RC.RC_OK) ∧
    ((forcePage poolForce (handleOf 0)).1 = RC.RC_OK ∧
      ((pageFileBlocks (forcePage poolForce (handleOf 0)).2).map (fun b => b[0]?))
        = some (some bytesS3) ∧
      getNumWriteIO (forcePage poolForce (handleOf 0)).2 = 1 ∧
      getDirtyFlags poolForce = some [true, false, false] ∧
      getDirtyFlags (forcePage poolForce (handleOf 0)).2 = some [false, false, false]) ∧
    (Reachable hugeDirtyPool ∧
      pageFileScript hugeDirtyPool = some [] ∧
      pageFileLength hugeDirtyPool = some 1048577 ∧
      getFrameContents hugeDirtyPool = some [1048576] ∧
      handleBytes hugeDirtyPool { pageNum := 1048576, data := some 0 } = some bytesBB ∧
      blockAt hugeDirtyPool 0 = some bytesS3 ∧
      blockAt hugeDirtyPool 1048576 = some zeroPage ∧
      (forcePage hugeDirtyPool (handleOf 1048576)).1 = RC.RC_OK ∧
      blockAt (forcePage hugeDirtyPool (handleOf 1048576)).2 1048576 = some zeroPage ∧
      blockAt (forcePage hugeDirtyPool (handleOf 1048576)).2 0 = some bytesBB ∧
      bytesBB ≠ zeroPage) := by
  refine ⟨?_, ?_, ⟨rfl, rfl, rfl, rfl, rfl⟩, ?_⟩
  · intro bm mgmt page i f hm hi hf hw
    obtain ⟨h1, h2, h3, h4, h5, h6⟩ := forcePage_written bm mgmt page i f hm hi hf hw
    refine ⟨h1, h2, h3, h4, h5, h6, ?_⟩
    intro hlt
    obtain ⟨q0, _, _⟩ := writeBlock_ok hw
    rw [← blockOf_small q0 (small_of_seek q0 (writeBlock_ok_seek hw) hlt)]
    exact ⟨h3, h4, h5⟩
  · intro fh p bytes hs h0 h1 hlt
    exact (writeBlock_reliable p fh bytes hs h0 h1
      (by rw [seekOffset_small h0 hlt]; omega)).1
  · have hforce := forcePage_single hugeDirtyFrame hugeGrown 1 0 1 (handleOf 1048576) rfl
      (by decide) (by decide) (by rw [show hugeDirtyFrame.pageNum = 1048576 from rfl,
        seekOffset_huge]) rfl
    rw [show blockOf hugeDirtyFrame.pageNum = 0 from blockOf_huge] at hforce
    rw [hugeDirtyPool_eq, hforce]
    refine ⟨hugeDirtyPool_eq ▸ reachable_hugeDirtyPool, rfl, rfl, rfl, rfl, ?_, ?_, rfl, ?_, ?_,
      bytesBB_ne_zeroPage⟩
    · rw [blockAt_onePool]
      exact hugeGrown_head
    · rw [blockAt_onePool]
      exact hugeGrown_last
    · rw [blockAt_onePool]
      dsimp only
      exact hugeStored_last hugeDirtyFrame.data
    · rw [blockAt_onePool]
      dsimp only
      exact hugeStored_head hugeDirtyFrame.data

/-- The general part of C14 at a concrete pool: the clean page 1 of frame 1 is
forced. -/
theorem forcePage_effect_witness :
    (forcePage (demoPool ReplacementStrategy.RS_FIFO) (handleOf 1)).1 = RC.RC_OK ∧
      getNumWriteIO (forcePage (demoPool ReplacementStrategy.RS_FIFO) (handleOf 1)).2 =
        getNumWriteIO (demoPool ReplacementStrategy.RS_FIFO) + 1 :=
  ⟨by rw [(forcePage_effect.1 (demoPool ReplacementStrategy.RS_FIFO) demoMgmt (handleOf 1) 1
      demoCleanFrame rfl rfl rfl rfl).2.1],
    by rw [(forcePage_effect.1 (demoPool ReplacementStrategy.RS_FIFO) demoMgmt (handleOf 1) 1
      demoCleanFrame rfl rfl rfl rfl).2.1]; rfl⟩

end BufferMgr

namespace BufferMgr

/-! ## C13 -/

/-- C13 fails on the code from page 1048576 on, where the `int` offset
`pageIndex * PAGE_SIZE` of `writeBlock` wraps.  When `forceFlushPool` returns
`RC_OK`, the frames afterwards are the frames before with the dirty flag
cleared in exactly the frames that were dirty and unpinned (`fixCount = 0`), so
every frame with `fixCount = 0` is clean and every other frame is as it was,
dirty pinned frames included; no page number, pin count, timestamp or frame
byte changes.  Exactly the dirty unpinned frames were written, in index order
and each at the block at which `writeBlock` transfers its page: the journal
gains one write per such frame and nothing else, the blocks are those before
with the bytes of these frames stored, and `writeIO` has increased by exactly
their number; `readIO`, the time counter and the length of the file are
unchanged.  On a page file of at most 1048576 pages each of these writes is at
the block of the frame's own page number, and in a reachable pool on such a
file the block of the page number of every dirty unpinned frame holds the
bytes of the frame afterwards, and every other block is as it was.  At page
1048576 the claim fails: in the reachable pool `hugeDirtyPool`, whose frame
holds page 1048576 dirty and unpinned with `0xBB` bytes, on a page file of
1048577 pages whose block 0 holds `0xAA` bytes, `forceFlushPool` returns
`RC_OK` and clears the dirty flag, yet the one write went to block 0, which
now holds the `0xBB` bytes, and block 1048576 still holds zero bytes. -/
theorem forceFlushPool_effect :
    (∀ (bm : BM_BufferPool) (mgmt : BM_MgmtData),
      bm.mgmtData = some mgmt → (forceFlushPool bm).1 = RC.RC_OK →
      ∃ mgmt', (forceFlushPool bm).2 = { bm with mgmtData := some mgmt' } ∧
        mgmt'.frames = flushedFrames mgmt.frames ∧
        (∀ g ∈ mgmt'.frames, g.fixCount = 0 → g.dirty = false) ∧
        (∀ (j : Nat) (f : BM_Frame), mgmt.frames[j]? = some f →
          (f.dirty = true ∧ f.fixCount = 0 →
            mgmt'.frames[j]? = some { f with dirty := false }) ∧
          (¬ (f.dirty = true ∧ f.fixCount = 0) → mgmt'.frames[j]? = some f)) ∧
        BM_MgmtData.writeIO mgmt' =
          BM_MgmtData.writeIO mgmt + ((mgmt.frames.filter needsFlush).length : Int) ∧
        mgmt'.fileHandle.mgmtInfo.journal =
          mgmt.fileHandle.mgmtInfo.journal ++ flushWrites mgmt.frames ∧
        mgmt'.fileHandle.mgmtInfo.blocks =
          flushBlocks mgmt.fileHandle.mgmtInfo.blocks mgmt.frames ∧
        mgmt'.fileHandle.totalNumPages = mgmt.fileHandle.totalNumPages ∧
        BM_MgmtData.readIO mgmt' = BM_MgmtData.readIO mgmt ∧
        mgmt'.time = mgmt.time ∧
        (mgmt.fileHandle.totalNumPages ≤ 1048576 →
          mgmt'.fileHandle.mgmtInfo.journal =
            mgmt.fileHandle.mgmtInfo.journal ++
              (mgmt.frames.filter needsFlush).map (fun f => Transfer.write f.pageNum.toNat)) ∧
        (Reachable bm → mgmt.fileHandle.totalNumPages ≤ 1048576 →
          (∀ f ∈ mgmt.frames, f.dirty = true → f.fixCount = 0 →
            mgmt'.fileHandle.mgmtInfo.blocks[f.pageNum.toNat]? = some f.data) ∧
          (∀ i : Nat,
            (∀ f ∈ mgmt.frames, f.dirty = true → f.fixCount = 0 → f.pageNum.toNat ≠ i) →
            mgmt'.fileHandle.mgmtInfo.blocks[i]? = mgmt.fileHandle.mgmtInfo.blocks[i]?) ∧
          mgmt'.fileHandle.mgmtInfo.blocks.length = mgmt.fileHandle.mgmtInfo.blocks.length)) ∧
    (Reachable hugeDirtyPool ∧
      pageFileScript hugeDirtyPool = some [] ∧
      pageFileLength hugeDirtyPool = some 1048577 ∧
      getFrameContents hugeDirtyPool = some [1048576] ∧
      getDirtyFlags hugeDirtyPool = some [true] ∧
      getFixCounts hugeDirtyPool = some [0] ∧
      handleBytes hugeDirtyPool { pageNum := 1048576, data := some 0 } = some bytesBB ∧
      blockAt hugeDirtyPool 0 = some bytesS3 ∧
      blockAt hugeDirtyPool 1048576 = some zeroPage ∧
      (forceFlushPool hugeDirtyPool).1 = RC.RC_OK ∧
      getDirtyFlags (forceFlushPool hugeDirtyPool).2 = some [false] ∧
      getNumWriteIO (forceFlushPool hugeDirtyPool).2 = getNumWriteIO hugeDirtyPool + 1 ∧
      pageFileJournal (forceFlushPool hugeDirtyPool).2 =
        (pageFileJournal hugeDirtyPool).map (fun j => j ++ [Transfer.write 0]) ∧
      blockAt (forceFlushPool hugeDirtyPool).2 1048576 = some zeroPage ∧
      blockAt (forceFlushPool hugeDirtyPool).2 0 = some bytesBB ∧
      bytesBB ≠ zeroPage) := by
  constructor
  · intro bm mgmt hm hok
    obtain ⟨mgmt', h1, h2, h3, h4, h5, h6, h7, h8, h9, h10⟩ :=
      forceFlushPool_flushed bm mgmt hm hok
    have hloop : (forceFlushLoop mgmt.frames mgmt.fileHandle mgmt.writeIO).1 = RC.RC_OK := by
      unfold forceFlushPool at hok
      rw [hm] at hok
      exact hok
    have hpages := forceFlushLoop_ok_pages _ _ _ hloop
    have hsmall : mgmt.fileHandle.totalNumPages ≤ 1048576 →
        ∀ f ∈ mgmt.frames, needsFlush f = true → blockOf f.pageNum = f.pageNum.toNat := by
      intro hb f hf hn
      obtain ⟨q0, q1, q2⟩ := hpages f hf hn
      exact blockOf_small q0 (small_of_seek q0 q2 (by omega))
    refine ⟨mgmt', h1, h2, h3, h4, h5, h6, h7, h8, h9, h10, ?_, ?_⟩
    · intro hb
      rw [h6]
      unfold flushWrites
      congr 1
      apply List.map_congr_left
      intro f hf
      obtain ⟨hf1, hf2⟩ := List.mem_filter.mp hf
      rw [hsmall hb f hf1 hf2]
    · intro hr hb
      have hwf : WF mgmt.frames mgmt.fileHandle mgmt.time := reachable_ok hr mgmt hm
      obtain ⟨hlen, hothers⟩ := flushBlocks_others hwf.file_len mgmt.frames mgmt.writeIO hloop
      refine ⟨?_, ?_, ?_⟩
      · intro f hf hd hx
        rw [h7]
        exact flushBlocks_holds hwf hb mgmt.frames (fun g hg => hg) mgmt.writeIO hloop f hf hd hx
      · intro i hi
        rw [h7]
        apply hothers
        intro f hf hn
        rw [hsmall hb f hf hn]
        exact hi f hf ((needsFlush_iff f).mp hn).1 ((needsFlush_iff f).mp hn).2
      · rw [h7]
        exact hlen
  · have hflush := forceFlushPool_single hugeDirtyFrame hugeGrown 1 0 1 rfl rfl
      (by decide) (by decide) (by rw [show hugeDirtyFrame.pageNum = 1048576 from rfl,
        seekOffset_huge]) rfl
    rw [show blockOf hugeDirtyFrame.pageNum = 0 from blockOf_huge] at hflush
    rw [hugeDirtyPool_eq, hflush]
    refine ⟨hugeDirtyPool_eq ▸ reachable_hugeDirtyPool, rfl, rfl, rfl, rfl, rfl, rfl, ?_, ?_, rfl,
      rfl, rfl, rfl, ?_, ?_, bytesBB_ne_zeroPage⟩
    · rw [blockAt_onePool]
      exact hugeGrown_head
    · rw [blockAt_onePool]
      exact hugeGrown_last
    · rw [blockAt_onePool]
      dsimp only
      exact hugeStored_last hugeDirtyFrame.data
    · rw [blockAt_onePool]
      dsimp only
      exact hugeStored_head hugeDirtyFrame.data

/-- The general part of C13 at the reachable pool of one frame that holds page 0
dirty and unpinned with `0xAA` bytes, on a page file of one zero page: the
flush succeeds, clears the dirty flag, writes once, and block 0 holds the
`0xAA` bytes afterwards. -/
theorem forceFlushPool_effect_witness :
    Reachable dirtyOnePool ∧ dirtyOnePool.mgmtData = some dirtyOneMgmt ∧
    (forceFlushPool dirtyOnePool).1 = RC.RC_OK ∧
    pageFileBlocks dirtyOnePool = some [zeroPage] ∧
    ∃ mgmt', (forceFlushPool dirtyOnePool).2 = { dirtyOnePool with mgmtData := some mgmt' } ∧
      mgmt'.frames = flushedFrames dirtyOneMgmt.frames ∧
      BM_MgmtData.writeIO mgmt' =
        BM_MgmtData.writeIO dirtyOneMgmt +
          ((dirtyOneMgmt.frames.filter needsFlush).length : Int) ∧
      mgmt'.fileHandle.mgmtInfo.journal =
        dirtyOneMgmt.fileHandle.mgmtInfo.journal ++
          (dirtyOneMgmt.frames.filter needsFlush).map
            (fun f => Transfer.write f.pageNum.toNat) ∧
      mgmt'.fileHandle.mgmtInfo.blocks[dirtyOneFrame.pageNum.toNat]? = some dirtyOneFrame.data :=
  ⟨reachable_freshPool_run 1 _ _ (by decide), rfl, rfl, rfl,
    (forceFlushPool_effect.1 dirtyOnePool dirtyOneMgmt rfl rfl).imp
      (fun _ h =>
        ⟨h.1, h.2.1, h.2.2.2.2.1, h.2.2.2.2.2.2.2.2.2.2.1 (by decide),
          (h.2.2.2.2.2.2.2.2.2.2.2 (reachable_freshPool_run 1 _ _ (by decide)) (by decide)).1
            dirtyOneFrame (List.mem_singleton.mpr rfl) rfl rfl⟩)⟩

end BufferMgr

namespace BufferMgr

/-! ## C3 -/

/-- C3 fails on the code from page 1048576 on, where the `int` offset
`pageIndex * PAGE_SIZE` of `writeBlock` wraps.  When a successful `pinPage p`
of a page that is not resident replaces a resident victim frame that holds page
`v` with bytes `vf.data`, the file was first grown by `k ≥ 0` zero pages (when
`p` lay past its end), and then: if the victim was dirty, the victim's bytes
were written at the block at which `writeBlock` transfers page `v` before page
`p` was read (the journal ends with this write followed by the read for `p`),
that block of the page file afterwards holds the victim's bytes, and `writeIO`
has increased by exactly 1; if the victim was clean, no block was written (the
blocks are those of the grown file, the journal gains the read for `p` only)
and `writeIO` is unchanged.  For `v < 1048576` the block written is block `v`,
and for `p < 1048576` the block read is block `p`.  At page 1048576 the claim
fails: in the reachable pool `hugeDirtyPool`, whose one frame holds page
`v = 1048576` dirty and unpinned with `0xBB` bytes, on a page file of 1048577
pages whose block 0 holds `0xAA` bytes, `pinPage 1` returns `RC_OK` and
replaces the victim after one write, yet block 1048576 of the page file still
holds zero bytes, not the victim's bytes: the write went to block 0. -/
theorem pinPage_miss_writes_back :
    (∀ (bm : BM_BufferPool) (mgmt : BM_MgmtData) (page : BM_PageHandle) (p : Int) (i : Nat)
        (vf : BM_Frame),
      bm.mgmtData = some mgmt → findFrame mgmt.frames p = none →
      (pinPage bm page p).1 = RC.RC_OK →
      chooseVictim bm.strategy mgmt.frames = some i → mgmt.frames[i]? = some vf →
      vf.pageNum ≠ NO_PAGE →
      ∃ (mgmt' : BM_MgmtData) (k : Nat), (pinPage bm page p).2.1.mgmtData = some mgmt' ∧
        (vf.dirty = true →
          mgmt'.fileHandle.mgmtInfo.blocks =
            storeBlock (mgmt.fileHandle.mgmtInfo.blocks ++ List.replicate k zeroPage)
              (blockOf vf.pageNum) vf.data ∧
          mgmt'.fileHandle.mgmtInfo.blocks[(blockOf vf.pageNum)]? = some vf.data ∧
          mgmt'.fileHandle.mgmtInfo.journal =
            mgmt.fileHandle.mgmtInfo.journal ++ List.replicate k Transfer.append ++
              [Transfer.write (blockOf vf.pageNum), Transfer.read (blockOf p)] ∧
          BM_MgmtData.writeIO mgmt' = BM_MgmtData.writeIO mgmt + 1 ∧
          (vf.pageNum < 1048576 →
            mgmt'.fileHandle.mgmtInfo.blocks =
              storeBlock (mgmt.fileHandle.mgmtInfo.blocks ++ List.replicate k zeroPage)
                vf.pageNum.toNat vf.data ∧
            mgmt'.fileHandle.mgmtInfo.blocks[vf.pageNum.toNat]? = some vf.data) ∧
          (vf.pageNum < 1048576 → p < 1048576 →
            mgmt'.fileHandle.mgmtInfo.journal =
              mgmt.fileHandle.mgmtInfo.journal ++ List.replicate k Transfer.append ++
                [Transfer.write vf.pageNum.toNat, Transfer.read p.toNat])) ∧
        (vf.dirty = false →
          mgmt'.fileHandle.mgmtInfo.blocks =
            mgmt.fileHandle.mgmtInfo.blocks ++ List.replicate k zeroPage ∧
          mgmt'.fileHandle.mgmtInfo.journal =
            mgmt.fileHandle.mgmtInfo.journal ++ List.replicate k Transfer.append ++
              [Transfer.read (blockOf p)] ∧
          BM_MgmtData.writeIO mgmt' = BM_MgmtData.writeIO mgmt ∧
          (p < 1048576 →
            mgmt'.fileHandle.mgmtInfo.journal =
              mgmt.fileHandle.mgmtInfo.journal ++ List.replicate k Transfer.append ++
                [Transfer.read p.toNat]))) ∧
    (Reachable hugeDirtyPool ∧
      pageFileScript hugeDirtyPool = some [] ∧
      pageFileLength hugeDirtyPool = some 1048577 ∧
      getFrameContents hugeDirtyPool = some [1048576] ∧
      getDirtyFlags hugeDirtyPool = some [true] ∧
      getFixCounts hugeDirtyPool = some [0] ∧
      handleBytes hugeDirtyPool { pageNum := 1048576, data := some 0 } = some bytesBB ∧
      blockAt hugeDirtyPool 0 = some bytesS3 ∧
      blockAt hugeDirtyPool 1048576 = some zeroPage ∧
      (pinPage hugeDirtyPool blankHandle 1).1 = RC.RC_OK ∧
      getFrameContents (pinPage hugeDirtyPool blankHandle 1).2.1 = some [1] ∧
      getNumWriteIO (pinPage hugeDirtyPool blankHandle 1).2.1 = getNumWriteIO hugeDirtyPool + 1 ∧
      pageFileJournal (pinPage hugeDirtyPool blankHandle 1).2.1 =
        (pageFileJournal hugeDirtyPool).map
          (fun j => j ++ [Transfer.write 0, Transfer.read 1]) ∧
      blockAt (pinPage hugeDirtyPool blankHandle 1).2.1 1048576 = some zeroPage ∧
      blockAt (pinPage hugeDirtyPool blankHandle 1).2.1 0 = some bytesBB ∧
      bytesBB ≠ zeroPage) := by
  constructor
  · intro bm mgmt page p i vf hm hmiss hok hc hv hres
    obtain ⟨v, vf', hp0, _, hc', hv', he, _, _⟩ := pinPage_miss_ok hm hmiss hok
    rw [hc] at hc'
    cases hc'
    rw [hv] at hv'
    cases hv'
    obtain ⟨_, _, _, _, _, _, _, _, _, _, _, _, _, hseek, _⟩ :=
      pinPage_miss_frame bm mgmt page p hm hmiss hok
    have hpb : p < 1048576 → blockOf p = p.toNat :=
      fun hlt => blockOf_small hp0 (small_of_seek hp0 hseek hlt)
    obtain ⟨mgmt', k, h1, hdirty, hclean⟩ :=
      pinPage_miss_victim bm mgmt page p i vf hm hmiss hok hc hv hres
    refine ⟨mgmt', k, h1, ?_, ?_⟩
    · intro hd
      obtain ⟨hvseek, d1, d2, d3, d4⟩ := hdirty hd
      have hv0 : 0 ≤ vf.pageNum := by
        rcases evictVictim_ok he with ⟨_, _, _, hw, _⟩ | ⟨hx, _⟩
        · exact (writeBlock_ok hw).1
        · rcases hx with e | ⟨_, e⟩
          · exact absurd e hres
          · rw [hd] at e
            cases e
      have hvb : vf.pageNum < 1048576 → blockOf vf.pageNum = vf.pageNum.toNat :=
        fun hlt => blockOf_small hv0 (small_of_seek hv0 hvseek hlt)
      refine ⟨d1, d2, d3, d4, ?_, ?_⟩
      · intro hlt
        rw [← hvb hlt]
        exact ⟨d1, d2⟩
      · intro hlt hlt'
        rw [← hvb hlt, ← hpb hlt']
        exact d3
    · intro hd
      obtain ⟨c1, c2, c3⟩ := hclean hd
      refine ⟨c1, c2, c3, ?_⟩
      intro hlt
      rw [← hpb hlt]
      exact c2
  · have hpin := pinPage_single_dirty hugeDirtyFrame hugeGrown 1 0 1 blankHandle 1 zeroPage rfl
      (by decide) rfl (by decide) (by decide)
      (by rw [show hugeDirtyFrame.pageNum = 1048576 from rfl, seekOffset_huge]) rfl
      (by decide) (by decide) (by decide)
      (by rw [show blockOf hugeDirtyFrame.pageNum = 0 from blockOf_huge,
            show blockOf 1 = 1 from by decide]
          exact hugeStored_second hugeDirtyFrame.data)
    rw [show blockOf hugeDirtyFrame.pageNum = 0 from blockOf_huge,
      show blockOf 1 = 1 from by decide] at hpin
    rw [hugeDirtyPool_eq, hpin]
    refine ⟨hugeDirtyPool_eq ▸ reachable_hugeDirtyPool, rfl, rfl, rfl, rfl, rfl, rfl, ?_, ?_, rfl,
      rfl, rfl, rfl, ?_, ?_, bytesBB_ne_zeroPage⟩
    · rw [blockAt_onePool]
      exact hugeGrown_head
    · rw [blockAt_onePool]
      exact hugeGrown_last
    · rw [blockAt_onePool]
      dsimp only
      exact hugeStored_last hugeDirtyFrame.data
    · rw [blockAt_onePool]
      dsimp only
      exact hugeStored_head hugeDirtyFrame.data

/-- The general part of C3 at a concrete pool: page 2 replaces the dirty page 0
of frame 0 under FIFO, after the write of its bytes to block 0. -/
theorem pinPage_miss_writes_back_witness :
    ∃ (mgmt' : BM_MgmtData) (k : Nat),
      (pinPage (demoDirtyPool ReplacementStrategy.RS_FIFO) blankHandle 2).2.1.mgmtData
        = some mgmt' ∧
      mgmt'.fileHandle.mgmtInfo.blocks[demoDirtyFrame.pageNum.toNat]?
        = some demoDirtyFrame.data ∧
      mgmt'.fileHandle.mgmtInfo.journal =
        demoFile.journal ++ List.replicate k Transfer.append ++
          [Transfer.write demoDirtyFrame.pageNum.toNat, Transfer.read (2 : Int).toNat] ∧
      BM_MgmtData.writeIO mgmt' = BM_MgmtData.writeIO demoMgmt + 1 :=
  (pinPage_miss_writes_back.1 (demoDirtyPool ReplacementStrategy.RS_FIFO)
    { demoMgmt with frames := [demoDirtyFrame, demoCleanFrame], time := 3 }
    blankHandle 2 0 demoDirtyFrame rfl rfl rfl rfl rfl (by decide)).imp
    (fun _ h => h.imp (fun _ h =>
      ⟨h.1, ((h.2.1 rfl).2.2.2.2.1 (by decide)).2, (h.2.1 rfl).2.2.2.2.2 (by decide) (by decide),
        (h.2.1 rfl).2.2.2.1⟩))

end BufferMgr

namespace BufferMgr

/-! ## C2 -/

theorem frameHolds_onePool {f : BM_Frame} {fh : SM_FileHandle} {r w t : Int} {i : Nat}
    {p : Int} (h : frameHolds (onePool f fh r w t) i p) : f.pageNum = p := by
  obtain ⟨mgmt, g, hm, hg, hp⟩ := h
  have hm' : oneMgmt f fh r w t = mgmt := Option.some.inj hm
  rw [← hm'] at hg
  unfold oneMgmt at hg
  dsimp only at hg
  cases i with
  | zero =>
    rw [List.getElem?_cons_zero] at hg
    rw [Option.some.inj hg]
    exact hp
  | succ j =>
    rw [List.getElem?_cons_succ] at hg
    cases hg

theorem modifyPage_of_pin (bm bm' : BM_BufferPool) (page : BM_PageHandle) (p : Int)
    (bytes : PageData) (i : Nat)
    (h : pinPage bm page p = (RC.RC_OK, bm', { pageNum := p, data := some i })) :
    modifyPage bm page p bytes =
      (unpinPage (markDirty (storeBytes bm' i bytes) { pageNum := p, data := some i }).2
        { pageNum := p, data := some i }).2 := by
  unfold modifyPage
  rw [h]

theorem modifyPage_huge :
    modifyPage (poolOn hugeFile 1 ReplacementStrategy.RS_FIFO) blankHandle 1048576 bytesBB
      = onePool hugeDirtyFrame hugeGrown 1 0 1 := by
  rw [modifyPage_of_pin _ _ _ _ _ _ pinPage_huge, storeBytes_onePool,
    markDirty_onePool _ _ _ _ _ _ rfl]
  dsimp only
  rw [unpinPage_onePool _ _ _ _ _ _ rfl (by decide)]
  rfl

/-- The pin of page 0 in `hugeDirtyPool`: the bytes `0xBB` of page 1048576 are
written to block 0, and page 0 is read back with these bytes. -/
theorem pinPage_hugeDirty :
    pinPage (onePool hugeDirtyFrame hugeGrown 1 0 1) blankHandle 0 =
      (RC.RC_OK,
        onePool { pageNum := 0, data := bytesBB, fixCount := 1, dirty := false, loadTime := 2,
                  lastUsed := 2 } hugeWritten 2 1 2,
        { pageNum := 0, data := some 0 }) := by
  have hpin := pinPage_single_dirty hugeDirtyFrame hugeGrown 1 0 1 blankHandle 0 bytesBB rfl
    (by decide) rfl (by decide) (by decide)
    (by rw [show hugeDirtyFrame.pageNum = 1048576 from rfl, seekOffset_huge]) rfl
    (by decide) (by decide) (by decide)
    (by rw [show blockOf hugeDirtyFrame.pageNum = 0 from blockOf_huge,
          show blockOf 0 = 0 from by decide]
        exact hugeStored_head hugeDirtyFrame.data)
  rw [show blockOf hugeDirtyFrame.pageNum = 0 from blockOf_huge,
    show blockOf 0 = 0 from by decide] at hpin
  rw [hpin]
  rfl

theorem run_hugeRewrite :
    run (onePool hugeDirtyFrame hugeGrown 1 0 1) hugeRewriteOps
      = onePool hugeOtherFrame hugeWritten 2 1 2 := by
  unfold hugeRewriteOps
  rw [run_cons, step_pin, pinPage_hugeDirty]
  dsimp only
  rw [run_cons, step_store, storeBytes_onePool, run_cons, step_dirty,
    markDirty_onePool _ _ _ _ _ _ rfl]
  dsimp only
  rw [run_cons, step_unpin, unpinPage_onePool _ _ _ _ _ _ rfl (by decide), run_nil]
  rfl

/-- The second pin of page 1048576: the bytes `0xAA` of page 0 are written to
block 0, and page 1048576 is read from block 0 with these bytes. -/
theorem pinPage_hugeOther :
    pinPage (onePool hugeOtherFrame hugeWritten 2 1 2) blankHandle 1048576 =
      (RC.RC_OK,
        onePool { pageNum := 1048576, data := bytesS3, fixCount := 1, dirty := false,
                  loadTime := 3, lastUsed := 3 }
          { hugeWritten with
              mgmtInfo := { hugeWritten.mgmtInfo with
                              blocks := storeBlock hugeWritten.mgmtInfo.blocks 0 bytesS3,
                              journal := hugeWritten.mgmtInfo.journal ++
                                [Transfer.write 0, Transfer.read 0] } }
          3 2 3,
        { pageNum := 1048576, data := some 0 }) := by
  have hpin := pinPage_single_dirty hugeOtherFrame hugeWritten 2 1 2 blankHandle 1048576 bytesS3
    rfl (by decide) rfl (by decide) (by decide) (by decide) rfl
    (by decide) (by decide) (by rw [seekOffset_huge])
    (by rw [show blockOf hugeOtherFrame.pageNum = 0 from by decide, blockOf_huge]
        exact storeBlock_getElem _ _ _)
  rw [show blockOf hugeOtherFrame.pageNum = 0 from by decide, blockOf_huge] at hpin
  rw [hpin]
  rfl

/-- C2 fails on the code from page 1048576 on, where the `int` offset
`pageIndex * PAGE_SIZE` of `readBlock` and `writeBlock` wraps.  With system
calls that succeed, in every reachable pool state on a page file of at most
524288 pages and for every page `p < 524288`: if `p` is pinned, its frame bytes
are set to `B`, `markDirty` is called and `p` is unpinned, then after any
further sequence of `pinPage`, `unpinPage`, `markDirty`, `forcePage` and
`forceFlushPool` calls and stores into frames that do not hold `p`, with pins
of pages below 524288 only, a successful `pinPage p` returns a handle whose
bytes are `B`.  At page 1048576 the claim fails: in the new pool of one frame
on `hugeFile`, a page file of 4 GiB whose system calls succeed, page 1048576 is
pinned, filled with `0xBB` bytes, marked dirty and unpinned; then page 0 is
pinned, filled with `0xAA` bytes, marked dirty and unpinned, which does not
modify the bytes of page 1048576; the next `pinPage 1048576` returns `RC_OK`
and a handle whose bytes are the `0xAA` bytes of page 0, not the `0xBB` bytes
written to page 1048576. -/
theorem write_then_read_round_trip :
    (∀ (bm : BM_BufferPool) (mgmt : BM_MgmtData) (page page' : BM_PageHandle) (p : Int)
        (B : PageData) (ops : List Op),
      Reachable bm → bm.mgmtData = some mgmt → mgmt.fileHandle.mgmtInfo.script = [] →
      mgmt.fileHandle.totalNumPages ≤ 524288 → p < 524288 →
      (pinPage bm page p).1 = RC.RC_OK →
      Quiet p (modifyPage bm page p B) ops →
      (pinPage (run (modifyPage bm page p B) ops) page' p).1 = RC.RC_OK →
      handleBytes (pinPage (run (modifyPage bm page p B) ops) page' p).2.1
        (pinPage (run (modifyPage bm page p B) ops) page' p).2.2 = some B) ∧
    (Reachable (poolOn hugeFile 1 ReplacementStrategy.RS_FIFO) ∧
      pageFileScript (poolOn hugeFile 1 ReplacementStrategy.RS_FIFO) = some [] ∧
      (pinPage (poolOn hugeFile 1 ReplacementStrategy.RS_FIFO) blankHandle 1048576).1
        = RC.RC_OK ∧
      getFrameContents
        (modifyPage (poolOn hugeFile 1 ReplacementStrategy.RS_FIFO) blankHandle 1048576 bytesBB)
        = some [1048576] ∧
      handleBytes
        (modifyPage (poolOn hugeFile 1 ReplacementStrategy.RS_FIFO) blankHandle 1048576 bytesBB)
        { pageNum := 1048576, data := some 0 } = some bytesBB ∧
      Quiet 1048576
        (modifyPage (poolOn hugeFile 1 ReplacementStrategy.RS_FIFO) blankHandle 1048576 bytesBB)
        hugeRewriteOps ∧
      (pinPage
        (run (modifyPage (poolOn hugeFile 1 ReplacementStrategy.RS_FIFO) blankHandle 1048576
          bytesBB) hugeRewriteOps) blankHandle 1048576).1 = RC.RC_OK ∧
      handleBytes
        (pinPage
          (run (modifyPage (poolOn hugeFile 1 ReplacementStrategy.RS_FIFO) blankHandle 1048576
            bytesBB) hugeRewriteOps) blankHandle 1048576).2.1
        (pinPage
          (run (modifyPage (poolOn hugeFile 1 ReplacementStrategy.RS_FIFO) blankHandle 1048576
            bytesBB) hugeRewriteOps) blankHandle 1048576).2.2 = some bytesS3 ∧
      bytesS3 ≠ bytesBB) := by
  constructor
  · intro bm mgmt page page' p B ops hr hm hs hbound hp hpin hq hok
    exact round_trip_within bm mgmt page page' p B ops hr hm hs hbound hp hpin hq hok
  · refine ⟨reachable_poolOn_run hugeFile 1 _ [] (by decide), ?_, ?_, ?_⟩
    · rw [poolOn_hugeFile]
      rfl
    · rw [pinPage_huge]
    · rw [modifyPage_huge]
      refine ⟨rfl, rfl, ?_, ?_⟩
      · unfold hugeRewriteOps
        refine ⟨?_, ?_, trivial, trivial, trivial⟩
        · show (0 : Int) < 524288
          decide
        · show ¬ frameHolds (step (onePool hugeDirtyFrame hugeGrown 1 0 1)
            (Op.pin blankHandle 0)) 0 1048576
          rw [step_pin, pinPage_hugeDirty]
          intro h
          exact absurd (frameHolds_onePool h) (by decide)
      · rw [run_hugeRewrite, pinPage_hugeOther]
        exact ⟨rfl, rfl, bytesS3_ne_bytesBB⟩

/-- The general part of C2 in scenario S3: page 0 is filled with `0xAA`, marked
dirty and unpinned, then pushed out of a pool of three frames by pages 1, 2 and
3; pinned again, it has the bytes `0xAA`. -/
theorem write_then_read_round_trip_witness :
    (pinPage (freshPool 3 ReplacementStrategy.RS_FIFO) blankHandle 0).1 = RC.RC_OK ∧
    getFrameContents (run poolS3 (pinUnpin 1 ++ pinUnpin 2 ++ pinUnpin 3)) = some [3, 1, 2] ∧
    (pinPage (run poolS3 (pinUnpin 1 ++ pinUnpin 2 ++ pinUnpin 3)) blankHandle 0).1 = RC.RC_OK ∧
    handleBytes (pinPage (run poolS3 (pinUnpin 1 ++ pinUnpin 2 ++ pinUnpin 3)) blankHandle 0).2.1
      (pinPage (run poolS3 (pinUnpin 1 ++ pinUnpin 2 ++ pinUnpin 3)) blankHandle 0).2.2
      = some bytesS3 :=
  ⟨rfl, rfl, rfl,
    write_then_read_round_trip.1 (freshPool 3 ReplacementStrategy.RS_FIFO) freshMgmt blankHandle
      blankHandle 0 bytesS3 (pinUnpin 1 ++ pinUnpin 2 ++ pinUnpin 3)
      (reachable_freshPool_run 3 _ [] (by decide)) rfl rfl (by decide) (by decide) rfl
      ⟨by show (1 : Int) < 524288; decide, trivial, by show (2 : Int) < 524288; decide, trivial,
        by show (3 : Int) < 524288; decide, trivial, trivial⟩ rfl⟩

end BufferMgr
